import Mathlib

set_option autoImplicit false

namespace AlertManager

/-! ## Constants of alert_manager.c -/

/-- ZBX_AM_LOCATION_NOWHERE: the object is in no queue. -/
abbrev ZBX_AM_LOCATION_NOWHERE : Nat := 0

/-- ZBX_AM_LOCATION_QUEUE: the object is an element of its parent queue. -/
abbrev ZBX_AM_LOCATION_QUEUE : Nat := 1

/-- Modelled from the spec: the return code SUCCEED of common.h (not part of the sources). -/
abbrev SUCCEED : Int := 0

/-- Modelled from the spec: the return code FAIL of common.h (not part of the sources). -/
abbrev FAIL : Int := -1

/-! ## Binary heap (zbxalgo)

The heap stores its elements in an array; element `i` has its parent at `(i - 1) / 2` and its
children at `2 * i + 1` and `2 * i + 2`.  A comparison function may fail (it dereferences the
compared objects), which is why every heap operation returns an `Option`; `none` stands for the
process terminating abnormally. -/

/-- Modelled from the spec: ZBX_RETURN_IF_NOT_EQUAL of common.h followed by `return 0`, the
three-way comparison every queue comparator of alert_manager.c ends in. -/
def zbx_return_if_not_equal (a b : Int) : Int :=
  if a ≠ b then (if a < b then -1 else 1) else 0

/-- Modelled from the spec: the sift-up loop of the binary min-heap of zbxalgo (zbx_binary_heap_t,
not part of the sources).  While the element at `index` is smaller than its parent the two are
swapped.  Returns the heap and the final index. `fuel` bounds the number of iterations; `index`
iterations always suffice. -/
def binary_heap_bubble_up {α : Type} (cmp : α → α → Option Int) :
    Nat → List α → Nat → Option (List α × Nat)
  | 0, h, index => some (h, index)
  | fuel + 1, h, index =>
    if index = 0 then some (h, index)
    else
      match h[(index - 1) / 2]?, h[index]? with
      | some p, some c =>
        match cmp p c with
        | none => none
        | some r =>
          if r ≤ 0 then some (h, index)
          else binary_heap_bubble_up cmp fuel ((h.set ((index - 1) / 2) c).set index p)
            ((index - 1) / 2)
      | _, _ => none

/-- Modelled from the spec: the sift-down loop of the binary min-heap of zbxalgo.  While the
element at `index` is greater than its smaller child (the left one on a tie between the children)
the two are swapped.  Returns the heap and the final index. -/
def binary_heap_bubble_down {α : Type} (cmp : α → α → Option Int) :
    Nat → List α → Nat → Option (List α × Nat)
  | 0, h, index => some (h, index)
  | fuel + 1, h, index =>
    if h.length ≤ 2 * index + 1 then some (h, index)
    else if h.length ≤ 2 * index + 2 then
      match h[index]?, h[2 * index + 1]? with
      | some x, some l =>
        match cmp x l with
        | none => none
        | some r =>
          if 0 < r then some ((h.set index l).set (2 * index + 1) x, 2 * index + 1)
          else some (h, index)
      | _, _ => none
    else
      match h[index]?, h[2 * index + 1]?, h[2 * index + 2]? with
      | some x, some l, some rt =>
        match cmp l rt with
        | none => none
        | some r1 =>
          if r1 ≤ 0 then
            match cmp x l with
            | none => none
            | some r2 =>
              if 0 < r2 then
                binary_heap_bubble_down cmp fuel ((h.set index l).set (2 * index + 1) x)
                  (2 * index + 1)
              else some (h, index)
          else
            match cmp x rt with
            | none => none
            | some r2 =>
              if 0 < r2 then
                binary_heap_bubble_down cmp fuel ((h.set index rt).set (2 * index + 2) x)
                  (2 * index + 2)
              else some (h, index)
      | _, _, _ => none

/-- Modelled from the spec: zbx_binary_heap_empty of zbxalgo; `true` stands for SUCCEED (the heap
is empty) and `false` for FAIL. -/
def zbx_binary_heap_empty {α : Type} (h : List α) : Bool := h.isEmpty

/-- Modelled from the spec: zbx_binary_heap_find_min of zbxalgo: the root of the heap; asking for
the minimum of an empty heap terminates the process. -/
def zbx_binary_heap_find_min {α : Type} (h : List α) : Option α := h.head?

/-- Modelled from the spec: zbx_binary_heap_insert of zbxalgo: the element is appended and sifted
up.  With the direct option (`direct = true`) inserting a key that is already in the heap
terminates the process. -/
def zbx_binary_heap_insert {α : Type} [DecidableEq α] (cmp : α → α → Option Int) (direct : Bool)
    (h : List α) (elem : α) : Option (List α) :=
  if direct = true ∧ elem ∈ h then none
  else (binary_heap_bubble_up cmp h.length (h ++ [elem]) h.length).map Prod.fst

/-- Modelled from the spec: zbx_binary_heap_remove_min of zbxalgo: the last element replaces the
root and is sifted down; removing from an empty heap terminates the process. -/
def zbx_binary_heap_remove_min {α : Type} (cmp : α → α → Option Int) (h : List α) :
    Option (List α) :=
  match h with
  | [] => none
  | [_] => some []
  | _ :: x :: rest =>
    (binary_heap_bubble_down cmp (x :: rest).length
      ((x :: rest).getLast (List.cons_ne_nil x rest) :: (x :: rest).dropLast) 0).map Prod.fst

/-- Modelled from the spec: zbx_binary_heap_update_direct of zbxalgo: the element with the key of
`elem` is located, sifted up and, when it did not move, sifted down; a key that is not in the heap
terminates the process. -/
def zbx_binary_heap_update_direct {α : Type} [DecidableEq α] (cmp : α → α → Option Int)
    (h : List α) (elem : α) : Option (List α) :=
  if elem ∈ h then
    match binary_heap_bubble_up cmp (h.indexOf elem) h (h.indexOf elem) with
    | none => none
    | some (h1, index) =>
      if index = h.indexOf elem then
        (binary_heap_bubble_down cmp h1.length h1 index).map Prod.fst
      else some h1
  else none

/-! ## Hash sets (zbxalgo)

A hash set is modelled by the list of its entries; a pointer to an entry is modelled by the key of
the entry, so that writing through a pointer replaces the entry with that key. -/

/-- Modelled from the spec: zbx_hashset_search of zbxalgo (not part of the sources): the entry
with the given key, NULL when there is none. -/
def zbx_hashset_search {β κ : Type} [DecidableEq κ] (key : β → κ) (hs : List β) (k : κ) :
    Option β :=
  hs.find? (fun x => decide (key x = k))

/-- Modelled from the spec: zbx_hashset_insert of zbxalgo: adds the entry unless an entry with
the same key is present already. -/
def zbx_hashset_insert {β κ : Type} [DecidableEq κ] (key : β → κ) (hs : List β) (v : β) :
    List β :=
  match zbx_hashset_search key hs (key v) with
  | some _ => hs
  | none => v :: hs

/-- Modelled from the spec: zbx_hashset_remove_direct of zbxalgo: removes the entry a pointer
refers to. -/
def zbx_hashset_remove_direct {β κ : Type} [DecidableEq κ] (key : β → κ) (hs : List β) (k : κ) :
    List β :=
  hs.filter (fun x => !decide (key x = k))

/-- A write through a pointer into a hash set: the entry with the key of `v` becomes `v`. -/
def hashset_store {β κ : Type} [DecidableEq κ] (key : β → κ) (hs : List β) (v : β) : List β :=
  hs.map (fun x => if key x = key v then v else x)

/-! ## Data model -/

/-- The alert data (zbx_am_alert_t). -/
structure zbx_am_alert_t where
  alertid : Nat
  mediatypeid : Nat
  alertpoolid : Nat
  nextsend : Int
  sendto : String
  subject : String
  message : String
  status : Int
  retries : Int
  deriving DecidableEq, Repr

/-- The alert pool data (zbx_am_alertpool_t); `queue` is the array of the binary heap of
alerts. -/
structure zbx_am_alertpool_t where
  id : Nat
  mediatypeid : Nat
  queue : List zbx_am_alert_t
  location : Nat
  deriving DecidableEq, Repr

/-- The media type data (zbx_am_mediatype_t); `queue` is the array of the binary heap of alert
pools, each element being the key (the pool id) of a pool of this media type. -/
structure zbx_am_mediatype_t where
  mediatypeid : Nat
  location : Nat
  alerts_num : Int
  queue : List Nat
  type : Int
  description : String
  smtp_server : String
  smtp_helo : String
  smtp_email : String
  exec_path : String
  gsm_modem : String
  username : String
  passwd : String
  exec_params : String
  smtp_port : Nat
  smtp_security : Nat
  smtp_verify_peer : Nat
  smtp_verify_host : Nat
  smtp_authentication : Nat
  maxsessions : Int
  maxattempts : Int
  attempt_interval : Int
  deriving DecidableEq, Repr

/-- The alert status update data (zbx_am_alertstatus_t). -/
structure zbx_am_alertstatus_t where
  alertid : Nat
  retries : Int
  status : Int
  error : String
  flags : Nat
  deriving DecidableEq, Repr

/-- The alerter data (zbx_am_alerter_t): the connected client (NULL before registration) and the
alert the alerter is working on. -/
structure zbx_am_alerter_t where
  client : Option Nat
  alert : Option zbx_am_alert_t
  deriving DecidableEq, Repr

/-- The alert manager data (zbx_am_t).  Alerters are referred to by their index in `alerters`;
`queue` is the array of the binary heap of media types, each element being a media type id. -/
structure zbx_am_t where
  alerters : List zbx_am_alerter_t
  free_alerters : List Nat
  alerters_client : List Nat
  next_alerter_index : Nat
  mediatypes : List zbx_am_mediatype_t
  alertpools : List zbx_am_alertpool_t
  alertupdates : List zbx_am_alertstatus_t
  queue : List Nat
  deriving DecidableEq, Repr

/-- The arguments of am_update_mediatype after the media type id, in the order of the C
parameter list. -/
structure am_mediatype_args where
  type : Int
  description : String
  smtp_server : String
  smtp_helo : String
  smtp_email : String
  exec_path : String
  gsm_modem : String
  username : String
  passwd : String
  smtp_port : Nat
  smtp_security : Nat
  smtp_verify_peer : Nat
  smtp_verify_host : Nat
  smtp_authentication : Nat
  exec_params : String
  maxsessions : Int
  maxattempts : Int
  attempt_interval : Int
  deriving DecidableEq, Repr

/-- The key of the media type hash set. -/
def mediatype_key (mediatype : zbx_am_mediatype_t) : Nat := mediatype.mediatypeid

/-- The key of the alert pool hash set (am_alertpool_compare_func compares id, then
mediatypeid). -/
def alertpool_key (pool : zbx_am_alertpool_t) : Nat × Nat := (pool.id, pool.mediatypeid)

/-- A write through a media type pointer. -/
def mediatype_store (manager : zbx_am_t) (mediatype : zbx_am_mediatype_t) : zbx_am_t :=
  { manager with mediatypes := hashset_store mediatype_key manager.mediatypes mediatype }

/-- A write through an alert pool pointer. -/
def alertpool_store (manager : zbx_am_t) (alertpool : zbx_am_alertpool_t) : zbx_am_t :=
  { manager with alertpools := hashset_store alertpool_key manager.alertpools alertpool }

/-- The alert pool a queue element of the media type `mediatypeid` points to. -/
def alertpool_deref (manager : zbx_am_t) (mediatypeid alertpoolid : Nat) :
    Option zbx_am_alertpool_t :=
  zbx_hashset_search alertpool_key manager.alertpools (alertpoolid, mediatypeid)

/-! ## Queue support -/

/-- Compares two alerts by nextsend (am_alert_compare). -/
def am_alert_compare (alert1 alert2 : zbx_am_alert_t) : Int :=
  zbx_return_if_not_equal alert1.nextsend alert2.nextsend

/-- The comparator of an alert queue (am_alert_queue_compare). -/
def am_alert_queue_compare (e1 e2 : zbx_am_alert_t) : Option Int :=
  some (am_alert_compare e1 e2)

/-- Compares two alert pools by their first alerts (am_alertpool_compare); fails when one of the
pools has an empty alert queue. -/
def am_alertpool_compare (pool1 pool2 : zbx_am_alertpool_t) : Option Int :=
  (zbx_binary_heap_find_min pool1.queue).bind fun e1 =>
  (zbx_binary_heap_find_min pool2.queue).bind fun e2 =>
  some (am_alert_compare e1 e2)

/-- The comparator of the alert pool queue of the media type `mediatypeid`
(am_alertpool_queue_compare); the elements are dereferenced first. -/
def am_alertpool_queue_compare (manager : zbx_am_t) (mediatypeid : Nat) (e1 e2 : Nat) :
    Option Int :=
  (alertpool_deref manager mediatypeid e1).bind fun pool1 =>
  (alertpool_deref manager mediatypeid e2).bind fun pool2 =>
  am_alertpool_compare pool1 pool2

/-- Compares two media types by the first alerts of their first alert pools
(am_mediatype_compare). -/
def am_mediatype_compare (manager : zbx_am_t) (media1 media2 : zbx_am_mediatype_t) :
    Option Int :=
  (zbx_binary_heap_find_min media1.queue).bind fun e1 =>
  (zbx_binary_heap_find_min media2.queue).bind fun e2 =>
  (alertpool_deref manager media1.mediatypeid e1).bind fun pool1 =>
  (alertpool_deref manager media2.mediatypeid e2).bind fun pool2 =>
  am_alertpool_compare pool1 pool2

/-- Gets the media type object, NULL if not found (am_get_mediatype). -/
def am_get_mediatype (manager : zbx_am_t) (mediatypeid : Nat) : Option zbx_am_mediatype_t :=
  zbx_hashset_search mediatype_key manager.mediatypes mediatypeid

/-- The comparator of the manager queue (am_mediatype_queue_compare); the elements are
dereferenced first. -/
def am_mediatype_queue_compare (manager : zbx_am_t) (e1 e2 : Nat) : Option Int :=
  (am_get_mediatype manager e1).bind fun media1 =>
  (am_get_mediatype manager e2).bind fun media2 =>
  am_mediatype_compare manager media1 media2

/-! ## Media types -/

/-- The media type am_update_mediatype creates for a new id: `{mediatypeid,
ZBX_AM_LOCATION_NOWHERE}` with the remaining members zeroed and an empty alert pool queue. -/
def mediatype_local (mediatypeid : Nat) : zbx_am_mediatype_t :=
  { mediatypeid := mediatypeid, location := ZBX_AM_LOCATION_NOWHERE, alerts_num := 0, queue := [],
    type := 0, description := "", smtp_server := "", smtp_helo := "", smtp_email := "",
    exec_path := "", gsm_modem := "", username := "", passwd := "", exec_params := "",
    smtp_port := 0, smtp_security := 0, smtp_verify_peer := 0, smtp_verify_host := 0,
    smtp_authentication := 0, maxsessions := 0, maxattempts := 0, attempt_interval := 0 }

/-- Updates the media type object, creating one if necessary (am_update_mediatype). -/
def am_update_mediatype (manager : zbx_am_t) (mediatypeid : Nat) (a : am_mediatype_args) :
    zbx_am_t :=
  let found : zbx_am_mediatype_t × zbx_am_t :=
    match am_get_mediatype manager mediatypeid with
    | some mediatype => (mediatype, manager)
    | none =>
      (mediatype_local mediatypeid,
        { manager with
          mediatypes :=
            zbx_hashset_insert mediatype_key manager.mediatypes (mediatype_local mediatypeid) })
  mediatype_store found.2
    { found.1 with
      type := a.type, description := a.description, smtp_server := a.smtp_server,
      smtp_helo := a.smtp_helo, smtp_email := a.smtp_email, exec_path := a.exec_path,
      exec_params := a.exec_params, gsm_modem := a.gsm_modem, username := a.username,
      passwd := a.passwd, smtp_port := a.smtp_port, smtp_security := a.smtp_security,
      smtp_verify_peer := a.smtp_verify_peer, smtp_verify_host := a.smtp_verify_host,
      smtp_authentication := a.smtp_authentication, maxsessions := a.maxsessions,
      maxattempts := a.maxattempts, attempt_interval := a.attempt_interval }

/-- Pushes the media type into the manager queue (am_push_meditype).  The media type pointer is
its id; a dangling pointer makes the call fail. -/
def am_push_meditype (manager : zbx_am_t) (mediatypeid : Nat) : Option zbx_am_t :=
  (am_get_mediatype manager mediatypeid).bind fun mediatype =>
  if zbx_binary_heap_empty mediatype.queue = true then some manager
  else if mediatype.location = ZBX_AM_LOCATION_NOWHERE then
    if mediatype.maxsessions = 0 ∨ mediatype.alerts_num < mediatype.maxsessions then
      (zbx_binary_heap_insert (am_mediatype_queue_compare manager) true manager.queue
        mediatype.mediatypeid).bind fun q =>
      some (mediatype_store { manager with queue := q }
        { mediatype with location := ZBX_AM_LOCATION_QUEUE })
    else some manager
  else
    (zbx_binary_heap_update_direct (am_mediatype_queue_compare manager) manager.queue
      mediatype.mediatypeid).bind fun q =>
    some { manager with queue := q }

/-- Gets the next media type from the manager queue (am_pop_mediatype): NULL when the queue is
empty, otherwise the id of the popped media type. -/
def am_pop_mediatype (manager : zbx_am_t) : Option (Option Nat × zbx_am_t) :=
  if zbx_binary_heap_empty manager.queue = true then some (none, manager)
  else
    (zbx_binary_heap_find_min manager.queue).bind fun elem =>
    (am_get_mediatype manager elem).bind fun mediatype =>
    let manager1 := mediatype_store manager { mediatype with location := ZBX_AM_LOCATION_NOWHERE }
    (zbx_binary_heap_remove_min (am_mediatype_queue_compare manager1) manager1.queue).bind fun q =>
    some (some elem, { manager1 with queue := q })

/-- Removes the media type from the media type hash set (am_remove_mediatype). -/
def am_remove_mediatype (manager : zbx_am_t) (mediatypeid : Nat) : zbx_am_t :=
  { manager with
    mediatypes := zbx_hashset_remove_direct mediatype_key manager.mediatypes mediatypeid }

/-! ## Alert pools -/

/-- Gets the alert pool object, creating one if the object with the specified identifiers was
not found (am_get_alertpool).  Returns the pool and the manager with the pool in its hash set. -/
def am_get_alertpool (manager : zbx_am_t) (mediatypeid alertpoolid : Nat) :
    zbx_am_alertpool_t × zbx_am_t :=
  match zbx_hashset_search alertpool_key manager.alertpools (alertpoolid, mediatypeid) with
  | some alertpool => (alertpool, manager)
  | none =>
    ({ id := alertpoolid, mediatypeid := mediatypeid, queue := [],
       location := ZBX_AM_LOCATION_NOWHERE },
     { manager with
       alertpools := zbx_hashset_insert alertpool_key manager.alertpools
         { id := alertpoolid, mediatypeid := mediatypeid, queue := [],
           location := ZBX_AM_LOCATION_NOWHERE } })

/-- Pushes the alert pool into the alert pool queue of the media type (am_push_alertpool).  The
two pointers are the media type id and the pool id (the pool is a pool of that media type, as at
every call site). -/
def am_push_alertpool (manager : zbx_am_t) (mediatypeid alertpoolid : Nat) : Option zbx_am_t :=
  (am_get_mediatype manager mediatypeid).bind fun mediatype =>
  (alertpool_deref manager mediatypeid alertpoolid).bind fun alertpool =>
  if alertpool.location = ZBX_AM_LOCATION_NOWHERE then
    (zbx_binary_heap_insert (am_alertpool_queue_compare manager mediatypeid) true mediatype.queue
      alertpool.id).bind fun q =>
    some (alertpool_store (mediatype_store manager { mediatype with queue := q })
      { alertpool with location := ZBX_AM_LOCATION_QUEUE })
  else
    (zbx_binary_heap_update_direct (am_alertpool_queue_compare manager mediatypeid)
      mediatype.queue alertpool.id).bind fun q =>
    some (mediatype_store manager { mediatype with queue := q })

/-- Gets the next alert pool from the queue of the media type (am_pop_alertpool): NULL when the
queue is empty, otherwise the id of the popped pool. -/
def am_pop_alertpool (manager : zbx_am_t) (mediatypeid : Nat) : Option (Option Nat × zbx_am_t) :=
  (am_get_mediatype manager mediatypeid).bind fun mediatype =>
  if zbx_binary_heap_empty mediatype.queue = true then some (none, manager)
  else
    (zbx_binary_heap_find_min mediatype.queue).bind fun elem =>
    (alertpool_deref manager mediatypeid elem).bind fun alertpool =>
    let manager1 := alertpool_store manager { alertpool with location := ZBX_AM_LOCATION_NOWHERE }
    (zbx_binary_heap_remove_min (am_alertpool_queue_compare manager1 mediatypeid)
      mediatype.queue).bind fun q =>
    some (some elem, mediatype_store manager1 { mediatype with queue := q })

/-- Removes the alert pool from the alert pool hash set (am_remove_alertpool). -/
def am_remove_alertpool (manager : zbx_am_t) (mediatypeid alertpoolid : Nat) : zbx_am_t :=
  { manager with
    alertpools :=
      zbx_hashset_remove_direct alertpool_key manager.alertpools (alertpoolid, mediatypeid) }

/-! ## Alerts -/

/-- Pushes the alert into the alert queue of the alert pool (am_push_alert). -/
def am_push_alert (manager : zbx_am_t) (mediatypeid alertpoolid : Nat) (alert : zbx_am_alert_t) :
    Option zbx_am_t :=
  (alertpool_deref manager mediatypeid alertpoolid).bind fun alertpool =>
  (zbx_binary_heap_insert am_alert_queue_compare false alertpool.queue alert).bind fun q =>
  some (alertpool_store manager { alertpool with queue := q })

/-- Gets the next alert from the queue (am_pop_alert).  The result is `none` when the process
terminates abnormally (an empty child queue or a dangling pointer), otherwise the returned alert
(NULL when the manager queue is empty) and the new manager state. -/
def am_pop_alert (manager : zbx_am_t) : Option (Option zbx_am_alert_t × zbx_am_t) :=
  (am_pop_mediatype manager).bind fun r1 =>
  match r1.1 with
  | none => some (none, r1.2)
  | some mediatypeid =>
    (am_pop_alertpool r1.2 mediatypeid).bind fun r2 =>
    r2.1.bind fun alertpoolid =>
    (alertpool_deref r2.2 mediatypeid alertpoolid).bind fun alertpool =>
    (zbx_binary_heap_find_min alertpool.queue).bind fun alert =>
    (zbx_binary_heap_remove_min am_alert_queue_compare alertpool.queue).bind fun q =>
    let manager3 := alertpool_store r2.2 { alertpool with queue := q }
    (am_get_mediatype manager3 mediatypeid).bind fun mediatype =>
    let manager4 :=
      mediatype_store manager3 { mediatype with alerts_num := mediatype.alerts_num + 1 }
    if mediatype.maxsessions = 0 ∨ mediatype.alerts_num + 1 < mediatype.maxsessions then
      (am_push_meditype manager4 mediatypeid).bind fun manager5 => some (some alert, manager5)
    else some (some alert, manager4)

/-- Removes the alert and requeues the associated alert pool and media type
(am_remove_alert). -/
def am_remove_alert (manager : zbx_am_t) (alert : zbx_am_alert_t) : Option zbx_am_t :=
  match am_get_mediatype manager alert.mediatypeid with
  | none => some manager
  | some mediatype =>
    let manager1 :=
      mediatype_store manager { mediatype with alerts_num := mediatype.alerts_num - 1 }
    let r := am_get_alertpool manager1 alert.mediatypeid alert.alertpoolid
    (if zbx_binary_heap_empty r.1.queue = true then
        some (am_remove_alertpool r.2 alert.mediatypeid alert.alertpoolid)
      else am_push_alertpool r.2 alert.mediatypeid alert.alertpoolid).bind fun manager3 =>
    (am_get_mediatype manager3 alert.mediatypeid).bind fun mediatype3 =>
    if zbx_binary_heap_empty mediatype3.queue = true ∧ mediatype3.alerts_num = 0 then
      some (am_remove_mediatype manager3 alert.mediatypeid)
    else am_push_meditype manager3 alert.mediatypeid

/-- The conversion of a value to the C type int (a signed integer of 32 bits), as in the
assignment of a time_t value to the int field nextsend of an alert: a value from -2 ^ 31 to
2 ^ 31 - 1 is kept, any other value wraps modulo 2 ^ 32. -/
def int_wrap (value : Int) : Int := (value + 2 ^ 31) % 2 ^ 32 - 2 ^ 31

/-- Retries the alert if there are attempts left or removes it (am_retry_alert); `now` is the
value of time(NULL), a time_t, and the sum with attempt_interval is assigned to the int field
nextsend.  Returns SUCCEED when the alert was queued again and FAIL when it was removed. -/
def am_retry_alert (manager : zbx_am_t) (alert : zbx_am_alert_t) (now : Int) :
    Option (Int × zbx_am_t) :=
  match am_get_mediatype manager alert.mediatypeid with
  | none => (am_remove_alert manager alert).map fun manager1 => (FAIL, manager1)
  | some mediatype =>
    if mediatype.maxattempts ≤ alert.retries + 1 then
      (am_remove_alert manager { alert with retries := alert.retries + 1 }).map
        fun manager1 => (FAIL, manager1)
    else
      let alert2 : zbx_am_alert_t :=
        { alert with retries := alert.retries + 1, nextsend := int_wrap (now + mediatype.attempt_interval) }
      let manager1 :=
        mediatype_store manager { mediatype with alerts_num := mediatype.alerts_num - 1 }
      let r := am_get_alertpool manager1 alert.mediatypeid alert.alertpoolid
      (am_push_alert r.2 alert.mediatypeid alert.alertpoolid alert2).bind fun manager3 =>
      (am_push_alertpool manager3 alert.mediatypeid alert.alertpoolid).bind fun manager4 =>
      (am_push_meditype manager4 alert.mediatypeid).bind fun manager5 =>
      some (SUCCEED, manager5)

/-- The body of the loop of am_db_queue_alerts for one alert: the alert is dropped when its
media type is not in the hash set, otherwise it is pushed into its alert pool, the pool into the
media type and the media type into the manager queue. -/
def am_db_queue_alert (manager : zbx_am_t) (alert : zbx_am_alert_t) : Option zbx_am_t :=
  match am_get_mediatype manager alert.mediatypeid with
  | none => some manager
  | some _ =>
    let r := am_get_alertpool manager alert.mediatypeid alert.alertpoolid
    (am_push_alert r.2 alert.mediatypeid alert.alertpoolid alert).bind fun manager2 =>
    (am_push_alertpool manager2 alert.mediatypeid alert.alertpoolid).bind fun manager3 =>
    am_push_meditype manager3 alert.mediatypeid

/-! ## Alerters and the manager -/

/-- Initializes the alert manager (am_init) with CONFIG_ALERTER_FORKS alerters, none of them
connected, and empty hash sets and queues. -/
def am_init (CONFIG_ALERTER_FORKS : Nat) : zbx_am_t :=
  { alerters := List.replicate CONFIG_ALERTER_FORKS { client := none, alert := none },
    free_alerters := [], alerters_client := [], next_alerter_index := 0,
    mediatypes := [], alertpools := [], alertupdates := [], queue := [] }

/-- Registers an alerter (am_register_alerter).  `ppid_ok` tells whether the parent process id
of the message equals getppid(); registering more alerters than were created terminates the
process. -/
def am_register_alerter (manager : zbx_am_t) (client : Nat) (ppid_ok : Bool) : Option zbx_am_t :=
  if ppid_ok = false then some manager
  else if manager.next_alerter_index = manager.alerters.length then none
  else
    (manager.alerters[manager.next_alerter_index]?).bind fun alerter =>
    some { manager with
      alerters := manager.alerters.set manager.next_alerter_index { alerter with client := some client },
      next_alerter_index := manager.next_alerter_index + 1,
      alerters_client :=
        if (manager.alerters_client.find? fun i =>
            decide ((manager.alerters[i]?).bind (fun x => x.client) = some client)).isSome
        then manager.alerters_client
        else manager.next_alerter_index :: manager.alerters_client,
      free_alerters := manager.free_alerters ++ [manager.next_alerter_index] }

/-- Returns the alerter (its index) by connected client (am_get_alerter_by_client); an unknown
client terminates the process. -/
def am_get_alerter_by_client (manager : zbx_am_t) (client : Nat) : Option Nat :=
  manager.alerters_client.find? fun i =>
    decide ((manager.alerters[i]?).bind (fun x => x.client) = some client)

/-- Modelled from the spec: the alert status ALERT_STATUS_NOT_SENT (not part of the sources). -/
abbrev ALERT_STATUS_NOT_SENT : Int := 0

/-- Modelled from the spec: the alert status ALERT_STATUS_SENT (not part of the sources). -/
abbrev ALERT_STATUS_SENT : Int := 1

/-- Modelled from the spec: the alert status ALERT_STATUS_FAILED (not part of the sources). -/
abbrev ALERT_STATUS_FAILED : Int := 2

/-- Modelled from the spec: the alert status ALERT_STATUS_NEW (not part of the sources). -/
abbrev ALERT_STATUS_NEW : Int := 3

/-- Modelled from the spec: the media type MEDIA_TYPE_EMAIL (not part of the sources). -/
abbrev MEDIA_TYPE_EMAIL : Int := 0

/-- Modelled from the spec: the media type MEDIA_TYPE_EXEC (not part of the sources). -/
abbrev MEDIA_TYPE_EXEC : Int := 1

/-- Modelled from the spec: the media type MEDIA_TYPE_SMS (not part of the sources). -/
abbrev MEDIA_TYPE_SMS : Int := 2

/-- Modelled from the spec: the media type MEDIA_TYPE_JABBER (not part of the sources). -/
abbrev MEDIA_TYPE_JABBER : Int := 3

/-- Modelled from the spec: the media type MEDIA_TYPE_EZ_TEXTING (not part of the sources). -/
abbrev MEDIA_TYPE_EZ_TEXTING : Int := 100

/-- A row of the media_type table as am_db_update_mediatypes reads it; `smtp_port` is the text
of the column as a number, accepted by is_ushort when it is below 65536. -/
structure DB_MEDIATYPE where
  mediatypeid : Nat
  smtp_port : Nat
  args : am_mediatype_args
  deriving DecidableEq, Repr

/-- Updates the media types of the new alerts (am_db_update_mediatypes): `media_type` is the
content of the media_type table; the rows whose id is the media type of one of the alerts are
selected, rows with a malformed smtp_port are skipped. -/
def am_db_update_mediatypes (manager : zbx_am_t) (alerts : List zbx_am_alert_t)
    (media_type : List DB_MEDIATYPE) : zbx_am_t :=
  (media_type.filter fun row => decide (row.mediatypeid ∈ alerts.map fun a => a.mediatypeid)).foldl
    (fun m row =>
      if row.smtp_port < 65536 then
        am_update_mediatype m row.mediatypeid { row.args with smtp_port := row.smtp_port }
      else m)
    manager

/-- The loop of am_db_queue_alerts over the alerts read from the database. -/
def am_db_queue_alerts_loop : zbx_am_t → List zbx_am_alert_t → Option zbx_am_t
  | manager, [] => some manager
  | manager, alert :: alerts =>
    (am_db_queue_alert manager alert).bind fun manager1 => am_db_queue_alerts_loop manager1 alerts

/-- Queues new alerts from the database (am_db_queue_alerts): `alerts` is the result of
am_db_get_alerts and `media_type` the content of the media_type table. -/
def am_db_queue_alerts (manager : zbx_am_t) (alerts : List zbx_am_alert_t)
    (media_type : List DB_MEDIATYPE) : Option zbx_am_t :=
  if 0 < alerts.length then
    am_db_queue_alerts_loop (am_db_update_mediatypes manager alerts media_type) alerts
  else some manager

/-- Updates the alert status in the local cache (am_db_update_alert). -/
def am_db_update_alert (manager : zbx_am_t) (alertid : Nat) (status retries : Int)
    (error : String) : zbx_am_t :=
  let updates :=
    match zbx_hashset_search (fun u : zbx_am_alertstatus_t => u.alertid) manager.alertupdates
        alertid with
    | some _ => manager.alertupdates
    | none =>
      zbx_hashset_insert (fun u : zbx_am_alertstatus_t => u.alertid) manager.alertupdates
        { alertid := alertid, retries := 0, status := 0, error := "", flags := 0 }
  { manager with
    alertupdates := updates.map fun u =>
      if u.alertid = alertid then { u with retries := retries, status := status, error := error }
      else u }

/-! ## Dispatch -/

/-- The services of the environment the dispatch code calls: the configured script directory,
access(path, X_OK) with the text of the resulting error, and the macro substitution applied to a
script parameter. -/
structure am_env where
  CONFIG_ALERT_SCRIPTS_PATH : String
  access_X_OK : String → Bool
  zbx_strerror : String → String
  substitute_simple_macros : zbx_am_alert_t → String → String

/-- The parameters of exec_params found by the strchr loop of
am_prepare_mediatype_exec_command: every run of characters that is terminated by a newline;
`acc` holds the characters of the current parameter in reverse. -/
def am_exec_params_loop : List Char → List Char → List String
  | [], _ => []
  | c :: cs, acc =>
    if c = Char.ofNat 10 then String.mk acc.reverse :: am_exec_params_loop cs []
    else am_exec_params_loop cs (c :: acc)

/-- Modelled from the spec: zbx_dyn_escape_shell_single_quote (not part of the sources): every
single quote becomes the four characters quote, backslash, quote, quote. -/
def zbx_dyn_escape_shell_single_quote (s : String) : String :=
  String.mk (s.data.flatMap fun c =>
    if c = Char.ofNat 39 then [Char.ofNat 39, Char.ofNat 92, Char.ofNat 39, Char.ofNat 39]
    else [c])

/-- Gets the script command with expanded macros (am_prepare_mediatype_exec_command): the
command on success, the error message otherwise. -/
def am_prepare_mediatype_exec_command (env : am_env) (mediatype : zbx_am_mediatype_t)
    (alert : zbx_am_alert_t) : Except String String :=
  let cmd := env.CONFIG_ALERT_SCRIPTS_PATH ++ "/" ++ mediatype.exec_path
  if env.access_X_OK cmd = true then
    Except.ok ((am_exec_params_loop mediatype.exec_params.data []).foldl
      (fun c param =>
        c ++ " " ++ String.mk [Char.ofNat 39]
          ++ zbx_dyn_escape_shell_single_quote (env.substitute_simple_macros alert param)
          ++ String.mk [Char.ofNat 39])
      cmd)
  else
    Except.error ("Cannot exectue command \"" ++ cmd ++ "\": " ++ env.zbx_strerror cmd)

/-- The message am_process_alert sends to an alerter: the command and the serialized fields. -/
inductive zbx_ipc_alerter_message where
  | ZBX_IPC_ALERTER_EMAIL (alertid : Nat) (sendto subject message smtp_server : String)
      (smtp_port : Nat) (smtp_helo smtp_email : String)
      (smtp_security smtp_verify_peer smtp_verify_host smtp_authentication : Nat)
      (username passwd : String)
  | ZBX_IPC_ALERTER_JABBER (alertid : Nat) (sendto subject message username passwd : String)
  | ZBX_IPC_ALERTER_SMS (alertid : Nat) (sendto message gsm_modem : String)
  | ZBX_IPC_ALERTER_EZTEXTING (alertid : Nat) (sendto message username passwd exec_path : String)
  | ZBX_IPC_ALERTER_EXEC (alertid : Nat) (cmd : String)
  deriving DecidableEq, Repr

/-- The result of am_process_alert: the return code, the manager and the message sent. -/
structure am_process_alert_result where
  ret : Int
  manager : zbx_am_t
  sent : Option zbx_ipc_alerter_message

/-- Stores the alert on the alerter (`alerter->alert = alert`). -/
def alerter_set_alert (manager : zbx_am_t) (alerter : Nat) (alert : Option zbx_am_alert_t) :
    zbx_am_t :=
  { manager with
    alerters := manager.alerters.modify (fun x => { x with alert := alert }) alerter }

/-- Sends the alert to the alerter (am_process_alert). -/
def am_process_alert (env : am_env) (manager : zbx_am_t) (alerter : Nat)
    (alert : zbx_am_alert_t) : Option am_process_alert_result :=
  match am_get_mediatype manager alert.mediatypeid with
  | none => some { ret := FAIL, manager := manager, sent := none }
  | some mediatype =>
    let send (msg : zbx_ipc_alerter_message) : Option am_process_alert_result :=
      some { ret := SUCCEED, manager := alerter_set_alert manager alerter (some alert),
             sent := some msg }
    if mediatype.type = MEDIA_TYPE_EMAIL then
      send (.ZBX_IPC_ALERTER_EMAIL alert.alertid alert.sendto alert.subject alert.message
        mediatype.smtp_server mediatype.smtp_port mediatype.smtp_helo mediatype.smtp_email
        mediatype.smtp_security mediatype.smtp_verify_peer mediatype.smtp_verify_host
        mediatype.smtp_authentication mediatype.username mediatype.passwd)
    else if mediatype.type = MEDIA_TYPE_JABBER then
      send (.ZBX_IPC_ALERTER_JABBER alert.alertid alert.sendto alert.subject alert.message
        mediatype.username mediatype.passwd)
    else if mediatype.type = MEDIA_TYPE_SMS then
      send (.ZBX_IPC_ALERTER_SMS alert.alertid alert.sendto alert.message mediatype.gsm_modem)
    else if mediatype.type = MEDIA_TYPE_EZ_TEXTING then
      send (.ZBX_IPC_ALERTER_EZTEXTING alert.alertid alert.sendto alert.message
        mediatype.username mediatype.passwd mediatype.exec_path)
    else if mediatype.type = MEDIA_TYPE_EXEC then
      match am_prepare_mediatype_exec_command env mediatype alert with
      | Except.error error =>
        (am_remove_alert
          (am_db_update_alert manager alert.alertid ALERT_STATUS_FAILED 0 error) alert).map
          fun manager1 => { ret := FAIL, manager := manager1, sent := none }
      | Except.ok cmd => send (.ZBX_IPC_ALERTER_EXEC alert.alertid cmd)
    else
      (am_remove_alert
        (am_db_update_alert manager alert.alertid ALERT_STATUS_FAILED 0
          "unsupported media type") alert).map
        fun manager1 => { ret := FAIL, manager := manager1, sent := none }

/-- Processes an alerter result (am_process_result); `errcode` and `errmsg` are the
deserialized result and `now` is the value of time(NULL).  An unknown client terminates the
process, and so does a result from an alerter that holds no alert (a NULL dereference). -/
def am_process_result (manager : zbx_am_t) (client : Nat) (errcode : Int) (errmsg : String)
    (now : Int) : Option (Int × zbx_am_t) :=
  (am_get_alerter_by_client manager client).bind fun alerter =>
  (manager.alerters[alerter]?).bind fun a =>
  a.alert.bind fun alert =>
  let finish (ret status : Int) (error : String) (manager1 : zbx_am_t) : Int × zbx_am_t :=
    let manager2 := am_db_update_alert manager1 alert.alertid status alert.retries error
    let manager3 := alerter_set_alert manager2 alerter none
    (ret, { manager3 with free_alerters := manager3.free_alerters ++ [alerter] })
  if errcode = SUCCEED then
    (am_remove_alert manager alert).map fun manager1 =>
      finish SUCCEED ALERT_STATUS_SENT "" manager1
  else
    (am_retry_alert manager alert now).map fun r =>
      finish FAIL (if r.1 = SUCCEED then ALERT_STATUS_NOT_SENT else ALERT_STATUS_FAILED) errmsg r.2

/-- Checks the alert queue if there is an alert that should be sent now (am_check_queue);
`true` stands for SUCCEED. -/
def am_check_queue (manager : zbx_am_t) (now : Int) : Option Bool :=
  if zbx_binary_heap_empty manager.queue = true then some false
  else
    (zbx_binary_heap_find_min manager.queue).bind fun elem =>
    (am_get_mediatype manager elem).bind fun mediatype =>
    if zbx_binary_heap_empty mediatype.queue = true then some false
    else
      (zbx_binary_heap_find_min mediatype.queue).bind fun elem2 =>
      (alertpool_deref manager mediatype.mediatypeid elem2).bind fun alertpool =>
      if zbx_binary_heap_empty alertpool.queue = true then some false
      else
        (zbx_binary_heap_find_min alertpool.queue).bind fun alert =>
        if now < alert.nextsend then some false else some true

/-- One iteration of the dispatch loop of alert_manager_thread: while am_check_queue succeeds
and a free alerter can be taken, the popped alert is handed to am_process_alert, and the alerter
is returned to the free queue when that fails.  The result tells whether the loop goes on. -/
def am_dispatch_iteration (env : am_env) (manager : zbx_am_t) (now : Int) :
    Option (Bool × zbx_am_t) :=
  (am_check_queue manager now).bind fun ready =>
  if ready = false then some (false, manager)
  else
    match manager.free_alerters with
    | [] => some (false, manager)
    | alerter :: rest =>
      let manager1 := { manager with free_alerters := rest }
      (am_pop_alert manager1).bind fun r =>
      r.1.bind fun alert =>
      (am_process_alert env r.2 alerter alert).bind fun res =>
      if res.ret = FAIL then
        some (true, { res.manager with free_alerters := res.manager.free_alerters ++ [alerter] })
      else some (true, res.manager)

/-! ## Runs of the scheduler and of the manager -/

/-- The operations on the scheduler: creating or reconfiguring a media type, queueing an alert
(the loop body of am_db_queue_alerts), am_pop_alert, am_remove_alert and am_retry_alert. -/
inductive am_op where
  | update_mediatype (mediatypeid : Nat) (a : am_mediatype_args)
  | queue_alert (alert : zbx_am_alert_t)
  | pop_alert
  | remove_alert (alert : zbx_am_alert_t)
  | retry_alert (alert : zbx_am_alert_t) (now : Int)
  deriving DecidableEq, Repr

/-- The scheduler together with the alerts in flight: the alerts am_pop_alert has returned and
that have not been passed to am_remove_alert or am_retry_alert yet. -/
structure am_sched where
  manager : zbx_am_t
  in_flight : List zbx_am_alert_t
  deriving DecidableEq, Repr

/-- Applies one operation; `none` when the operation terminates the process. -/
def am_step (s : am_sched) : am_op → Option am_sched
  | .update_mediatype mediatypeid a =>
    some { s with manager := am_update_mediatype s.manager mediatypeid a }
  | .queue_alert alert =>
    (am_db_queue_alert s.manager alert).map fun m => { s with manager := m }
  | .pop_alert =>
    (am_pop_alert s.manager).map fun r =>
      match r.1 with
      | none => { s with manager := r.2 }
      | some alert => { manager := r.2, in_flight := alert :: s.in_flight }
  | .remove_alert alert =>
    (am_remove_alert s.manager alert).map fun m =>
      { manager := m, in_flight := s.in_flight.erase alert }
  | .retry_alert alert now =>
    (am_retry_alert s.manager alert now).map fun r =>
      { manager := r.2, in_flight := s.in_flight.erase alert }

/-- Applies a sequence of operations, each of them permitted by `guard` in the state it is
applied to. -/
def am_run (guard : am_sched → am_op → Bool) : am_sched → List am_op → Option am_sched
  | s, [] => some s
  | s, op :: ops =>
    if guard s op = true then (am_step s op).bind fun s1 => am_run guard s1 ops else none

/-- The empty scheduler: the manager after am_init, no alert in flight. -/
def am_sched_init (CONFIG_ALERTER_FORKS : Nat) : am_sched :=
  { manager := am_init CONFIG_ALERTER_FORKS, in_flight := [] }

/-- Every operation is permitted. -/
def guard_any : am_sched → am_op → Bool := fun _ _ => true

/-- The guard that permits am_remove_alert and am_retry_alert for alerts in flight only. -/
def guard_in_flight (s : am_sched) : am_op → Bool
  | .remove_alert alert => decide (alert ∈ s.in_flight)
  | .retry_alert alert _ => decide (alert ∈ s.in_flight)
  | _ => true

/-- The guard under which the media type `mediatypeid` is only ever configured with
`maxsessions`. -/
def guard_maxsessions (mediatypeid : Nat) (maxsessions : Int) (_s : am_sched) : am_op → Bool
  | .update_mediatype id a => decide (id = mediatypeid → a.maxsessions = maxsessions)
  | _ => true

/-- The guard under which am_update_mediatype creates media types or reconfigures them without
changing maxsessions. -/
def guard_keep_maxsessions (s : am_sched) : am_op → Bool
  | .update_mediatype id a =>
    match am_get_mediatype s.manager id with
    | some mediatype => decide (a.maxsessions = mediatype.maxsessions)
    | none => true
  | _ => true

/-- The guard under which an alert is queued only when no alert of its pool is in flight. -/
def guard_pool_idle (s : am_sched) : am_op → Bool
  | .queue_alert alert =>
    s.in_flight.all fun x =>
      !decide (x.mediatypeid = alert.mediatypeid ∧ x.alertpoolid = alert.alertpoolid)
  | _ => true

/-- The events the main loop of alert_manager_thread reacts to: the registration of an alerter,
the periodic am_db_queue_alerts, one iteration of the dispatch loop and the result of an
alerter. -/
inductive am_event where
  | register (client : Nat) (ppid_ok : Bool)
  | db_queue_alerts (alerts : List zbx_am_alert_t) (media_type : List DB_MEDIATYPE)
  | dispatch (env : am_env) (now : Int)
  | result (client : Nat) (errcode : Int) (errmsg : String) (now : Int)

/-- Applies one event to the manager; `none` when the process terminates. -/
def am_event_step (manager : zbx_am_t) : am_event → Option zbx_am_t
  | .register client ppid_ok => am_register_alerter manager client ppid_ok
  | .db_queue_alerts alerts media_type => am_db_queue_alerts manager alerts media_type
  | .dispatch env now => (am_dispatch_iteration env manager now).map fun r => r.2
  | .result client errcode errmsg now =>
    (am_process_result manager client errcode errmsg now).map fun r => r.2

/-- Applies a sequence of events to the manager. -/
def am_main_run : zbx_am_t → List am_event → Option zbx_am_t
  | manager, [] => some manager
  | manager, e :: es => (am_event_step manager e).bind fun manager1 => am_main_run manager1 es

/-- The alerts held by the alerters. -/
def am_held_alerts (manager : zbx_am_t) : List zbx_am_alert_t :=
  manager.alerters.filterMap fun x => x.alert

/-! ## Well-formedness of the three-level queue -/

/-- The structural invariant of the manager: the location flags agree with queue membership,
queue elements point to existing objects with non-empty child queues, no queue holds an element
twice and no hash set holds a key twice. -/
structure am_wf (m : zbx_am_t) : Prop where
  queue_mt : ∀ id ∈ m.queue, ∃ M, am_get_mediatype m id = some M ∧
    M.location = ZBX_AM_LOCATION_QUEUE ∧ M.queue ≠ []
  mt_queue : ∀ id M, am_get_mediatype m id = some M → M.location = ZBX_AM_LOCATION_QUEUE →
    id ∈ m.queue
  mt_loc : ∀ id M, am_get_mediatype m id = some M →
    M.location = ZBX_AM_LOCATION_NOWHERE ∨ M.location = ZBX_AM_LOCATION_QUEUE
  queue_nodup : m.queue.Nodup
  mtq_pool : ∀ id M, am_get_mediatype m id = some M → ∀ pid ∈ M.queue,
    ∃ P, alertpool_deref m id pid = some P ∧ P.location = ZBX_AM_LOCATION_QUEUE ∧ P.queue ≠ []
  pool_mtq : ∀ mid pid P, alertpool_deref m mid pid = some P →
    P.location = ZBX_AM_LOCATION_QUEUE → ∃ M, am_get_mediatype m mid = some M ∧ pid ∈ M.queue
  pool_loc : ∀ mid pid P, alertpool_deref m mid pid = some P →
    P.location = ZBX_AM_LOCATION_NOWHERE ∨ P.location = ZBX_AM_LOCATION_QUEUE
  mtq_nodup : ∀ id M, am_get_mediatype m id = some M → M.queue.Nodup
  mt_keys : (m.mediatypes.map mediatype_key).Nodup
  pool_keys : (m.alertpools.map alertpool_key).Nodup

/-! ## Relations between the states before and after an operation -/

/-- The capacity test of am_push_meditype and am_pop_alert: the media type may take one more
alert. -/
def mt_cap (M : zbx_am_mediatype_t) : Prop :=
  M.maxsessions = 0 ∨ M.alerts_num < M.maxsessions

/-- The media types of `m'` are those of `m` up to their location and alert pool queue, and a
media type that became queued passed the capacity test. -/
def am_mt_frame (m m' : zbx_am_t) : Prop :=
  ∀ id,
    (am_get_mediatype m id = none → am_get_mediatype m' id = none) ∧
    (∀ M, am_get_mediatype m id = some M → ∃ M', am_get_mediatype m' id = some M' ∧
      M' = { M with location := M'.location, queue := M'.queue } ∧
      (M'.location = ZBX_AM_LOCATION_QUEUE → M.location = ZBX_AM_LOCATION_QUEUE ∨ mt_cap M))

/-- The alert pools of `m'` other than the pool `pid` of the media type `mid` are those of
`m`. -/
def am_pool_frame (m m' : zbx_am_t) (mid pid : Nat) : Prop :=
  ∀ mid' pid', ¬ (mid' = mid ∧ pid' = pid) →
    alertpool_deref m' mid' pid' = alertpool_deref m mid' pid'

/-! ## The alerts in flight -/

/-- The number of alerts in flight for a media type. -/
def am_in_flight_num (in_flight : List zbx_am_alert_t) (mediatypeid : Nat) : Nat :=
  in_flight.countP fun x => decide (x.mediatypeid = mediatypeid)

/-- The invariant that ties the scheduler to the alerts in flight: the manager is well-formed,
alerts_num counts the alerts in flight of the media type, the media type of every alert in
flight exists, the alerts queued in a pool carry the identifiers of the pool, and a pool that
holds alerts without being queued has an alert in flight. -/
structure am_inv (s : am_sched) : Prop where
  wf : am_wf s.manager
  num : ∀ id M, am_get_mediatype s.manager id = some M →
    M.alerts_num = (am_in_flight_num s.in_flight id : Int)
  flight_mt : ∀ a ∈ s.in_flight, am_get_mediatype s.manager a.mediatypeid ≠ none
  pool_ids : ∀ mid pid P, alertpool_deref s.manager mid pid = some P →
    ∀ a ∈ P.queue, a.mediatypeid = mid ∧ a.alertpoolid = pid
  pool_busy : ∀ mid pid P, alertpool_deref s.manager mid pid = some P →
    P.location = ZBX_AM_LOCATION_NOWHERE → P.queue ≠ [] →
    ∃ a ∈ s.in_flight, a.mediatypeid = mid ∧ a.alertpoolid = pid

/-- The capacity invariant for one media type: while it is an element of the manager queue it
passes the capacity test. -/
def am_cap_at (m : zbx_am_t) (id : Nat) : Prop :=
  ∀ M, am_get_mediatype m id = some M → M.location = ZBX_AM_LOCATION_QUEUE → mt_cap M

/-- The guard of the runs in which am_remove_alert and am_retry_alert are applied to alerts in
flight only and the media type `mediatypeid` is only ever configured with `maxsessions`. -/
def guard_fixed_maxsessions (mediatypeid : Nat) (maxsessions : Int) (s : am_sched)
    (op : am_op) : Bool :=
  guard_in_flight s op && guard_maxsessions mediatypeid maxsessions s op

/-! ## Sample data for the concrete runs -/

/-- An e-mail media type configuration with the given limits. -/
def sample_args (maxsessions maxattempts attempt_interval : Int) : am_mediatype_args :=
  { type := MEDIA_TYPE_EMAIL, description := "", smtp_server := "", smtp_helo := "",
    smtp_email := "", exec_path := "", gsm_modem := "", username := "", passwd := "",
    smtp_port := 25, smtp_security := 0, smtp_verify_peer := 0, smtp_verify_host := 0,
    smtp_authentication := 0, exec_params := "", maxsessions := maxsessions,
    maxattempts := maxattempts, attempt_interval := attempt_interval }

/-- An alert with the given identifiers and time, not yet retried. -/
def sample_alert (alertid mediatypeid alertpoolid : Nat) (nextsend : Int) : zbx_am_alert_t :=
  { alertid := alertid, mediatypeid := mediatypeid, alertpoolid := alertpoolid,
    nextsend := nextsend, sendto := "", subject := "", message := "",
    status := ALERT_STATUS_NOT_SENT, retries := 0 }

/-- The run that breaks the serialization within a pool: an alert of pool 7 is popped, a second
alert of pool 7 is queued while the first is in flight. -/
def serialization_ops : List am_op :=
  [.update_mediatype 1 (sample_args 0 3 60), .queue_alert (sample_alert 1 1 7 10), .pop_alert,
   .queue_alert (sample_alert 2 1 7 20)]

/-- The run in which a queued media type is reconfigured with a smaller maxsessions. -/
def reconfigure_ops : List am_op :=
  [.update_mediatype 1 (sample_args 0 3 60), .queue_alert (sample_alert 1 1 7 10),
   .queue_alert (sample_alert 2 1 8 20), .pop_alert, .update_mediatype 1 (sample_args 1 3 60)]

/-- A run with three pools under a media type limited to two sessions: two alerts are popped,
the third pop finds the manager queue empty, then one alert completes. -/
def capped_ops : List am_op :=
  [.update_mediatype 1 (sample_args 2 3 60), .queue_alert (sample_alert 1 1 7 10),
   .queue_alert (sample_alert 2 1 8 20), .queue_alert (sample_alert 3 1 9 30), .pop_alert,
   .pop_alert, .pop_alert, .remove_alert (sample_alert 1 1 7 10)]

/-- A run over two media types and four pools whose alerts are queued out of order; the last
alert becomes the earliest one of a pool that is already queued. -/
def ordering_ops : List am_op :=
  [.update_mediatype 1 (sample_args 0 3 60), .update_mediatype 2 (sample_args 1 3 60),
   .queue_alert (sample_alert 1 1 7 30), .queue_alert (sample_alert 2 1 8 20),
   .queue_alert (sample_alert 3 2 7 10), .queue_alert (sample_alert 4 2 9 25),
   .queue_alert (sample_alert 5 1 7 5)]

/-- The state a run ends in (the initial state when the run terminates the process). -/
def am_run_state (guard : am_sched → am_op → Bool) (ops : List am_op) : am_sched :=
  (am_run guard (am_sched_init 0) ops).getD (am_sched_init 0)

/-- The invariant of the manager with its alerters: the scheduler invariant holds for the alerts
held by the alerters, the alerters in the free queue hold no alert and occur once, and the
alerters that are not registered yet hold no alert. -/
structure am_main_inv (m : zbx_am_t) : Prop where
  inv : am_inv { manager := m, in_flight := am_held_alerts m }
  free_idle : ∀ i ∈ m.free_alerters, ∃ x, m.alerters[i]? = some x ∧ x.alert = none
  free_nodup : m.free_alerters.Nodup
  unreg_idle : ∀ i x, m.next_alerter_index ≤ i → m.alerters[i]? = some x → x.alert = none
  free_lt : ∀ i ∈ m.free_alerters, i < m.next_alerter_index

/-- The alerter part of the manager `m'` is that of `m`. -/
def am_same_alerters (m m' : zbx_am_t) : Prop :=
  m'.alerters = m.alerters ∧ m'.free_alerters = m.free_alerters ∧
    m'.next_alerter_index = m.next_alerter_index ∧ m'.alerters_client = m.alerters_client

/-- An environment in which every script is executable and no macro is expanded. -/
def sample_env : am_env :=
  { CONFIG_ALERT_SCRIPTS_PATH := "/usr/lib/zabbix/alertscripts",
    access_X_OK := fun _ => true,
    zbx_strerror := fun _ => "",
    substitute_simple_macros := fun _ param => param }

/-- A row of the media_type table for an e-mail media type. -/
def sample_row (mediatypeid : Nat) (maxsessions : Int) : DB_MEDIATYPE :=
  { mediatypeid := mediatypeid, smtp_port := 25, args := sample_args maxsessions 3 60 }

/-- Events of the main loop: an alerter registers, two alerts of two pools are read from the
database, and one of them is dispatched. -/
def sample_events : List am_event :=
  [.register 100 true,
   .db_queue_alerts [sample_alert 1 1 7 10, sample_alert 2 1 8 10] [sample_row 1 0],
   .dispatch sample_env 10]

/-- The state the main loop is in after the events (the initial state when they terminate the
process). -/
def am_main_state (CONFIG_ALERTER_FORKS : Nat) (es : List am_event) : zbx_am_t :=
  (am_main_run (am_init CONFIG_ALERTER_FORKS) es).getD (am_init CONFIG_ALERTER_FORKS)

/-! ## Heap order -/

/-- The heap property of an array with respect to a key: no element is smaller than its
parent. -/
def heap_ordered {α : Type} (kt : α → Int) (h : List α) : Prop :=
  ∀ i x y, 0 < i → h[(i - 1) / 2]? = some x → h[i]? = some y → kt x ≤ kt y

/-- The comparator `cmp` compares the elements of `h` by the key `kt`. -/
def heap_cmp_by {α : Type} (cmp : α → α → Option Int) (kt : α → Int) (h : List α) : Prop :=
  ∀ x ∈ h, ∀ y ∈ h, cmp x y = some (zbx_return_if_not_equal (kt x) (kt y))

/-- The heap property holds for every pair of parent and child except for the child at
`index`, and the parent of `index` is not greater than the children of `index`: the situation
the sift-up loop repairs. -/
def heap_up_inv {α : Type} (kt : α → Int) (h : List α) (index : Nat) : Prop :=
  (∀ j x y, 0 < j → j ≠ index → h[(j - 1) / 2]? = some x → h[j]? = some y → kt x ≤ kt y) ∧
  (∀ j x y, 0 < index → 0 < j → (j - 1) / 2 = index → h[(index - 1) / 2]? = some x →
    h[j]? = some y → kt x ≤ kt y)

/-- The heap property holds for every pair of parent and child except for the children of
`index`, and the parent of `index` is not greater than the children of `index`: the situation
the sift-down loop repairs. -/
def heap_down_inv {α : Type} (kt : α → Int) (h : List α) (index : Nat) : Prop :=
  (∀ j x y, 0 < j → (j - 1) / 2 ≠ index → h[(j - 1) / 2]? = some x → h[j]? = some y →
    kt x ≤ kt y) ∧
  (∀ j x y, 0 < index → 0 < j → (j - 1) / 2 = index → h[(index - 1) / 2]? = some x →
    h[j]? = some y → kt x ≤ kt y)

/-- The heap property holds for every pair of parent and child that does not involve `index`,
and the parent of `index` is not greater than the children of `index`: the situation after the
key of the element at `index` changed. -/
def heap_hole_inv {α : Type} (kt : α → Int) (h : List α) (index : Nat) : Prop :=
  (∀ j x y, 0 < j → j ≠ index → (j - 1) / 2 ≠ index → h[(j - 1) / 2]? = some x →
    h[j]? = some y → kt x ≤ kt y) ∧
  (∀ j x y, 0 < index → 0 < j → (j - 1) / 2 = index → h[(index - 1) / 2]? = some x →
    h[j]? = some y → kt x ≤ kt y)

/-! ## The keys of the queues -/

/-- The alert at the root of the queue of the alert pool `alertpoolid` of the media type
`mediatypeid`: the alert am_alertpool_compare dereferences. -/
def am_pool_head (m : zbx_am_t) (mediatypeid alertpoolid : Nat) : Option zbx_am_alert_t :=
  (alertpool_deref m mediatypeid alertpoolid).bind fun alertpool =>
  zbx_binary_heap_find_min alertpool.queue

/-- The key of an alert pool in the queue of its media type: the nextsend of its first alert
(zero when there is none, a case am_alertpool_compare does not survive). -/
def am_pool_key (m : zbx_am_t) (mediatypeid alertpoolid : Nat) : Int :=
  ((am_pool_head m mediatypeid alertpoolid).map fun alert => alert.nextsend).getD 0

/-- The alert at the root of the root alert pool of a media type: the alert
am_mediatype_compare dereferences. -/
def am_mediatype_head (m : zbx_am_t) (mediatypeid : Nat) : Option zbx_am_alert_t :=
  (am_get_mediatype m mediatypeid).bind fun mediatype =>
  (zbx_binary_heap_find_min mediatype.queue).bind fun alertpoolid =>
  am_pool_head m mediatypeid alertpoolid

/-- The key of a media type in the manager queue: the nextsend of the first alert of its first
alert pool. -/
def am_mediatype_key (m : zbx_am_t) (mediatypeid : Nat) : Int :=
  ((am_mediatype_head m mediatypeid).map fun alert => alert.nextsend).getD 0

/-- The three levels of queues are heaps with respect to their keys. -/
structure am_ord (m : zbx_am_t) : Prop where
  alerts : ∀ mid pid P, alertpool_deref m mid pid = some P →
    heap_ordered (fun a : zbx_am_alert_t => a.nextsend) P.queue
  pools : ∀ id M, am_get_mediatype m id = some M → heap_ordered (am_pool_key m id) M.queue
  mts : heap_ordered (am_mediatype_key m) m.queue

/-- The state between am_push_alertpool and am_push_meditype: the manager queue is a heap up to
the position of the media type `mediatypeid`, whose key may have changed. -/
structure am_ord_mt (m : zbx_am_t) (mediatypeid : Nat) : Prop where
  alerts : ∀ mid pid P, alertpool_deref m mid pid = some P →
    heap_ordered (fun a : zbx_am_alert_t => a.nextsend) P.queue
  pools : ∀ id M, am_get_mediatype m id = some M → heap_ordered (am_pool_key m id) M.queue
  mts : heap_hole_inv (am_mediatype_key m) m.queue (m.queue.indexOf mediatypeid)

/-- The state between am_push_alert and am_push_alertpool: in addition the queue of the media
type is a heap up to the position of the alert pool `alertpoolid`, whose key may have
changed. -/
structure am_ord_at (m : zbx_am_t) (mediatypeid alertpoolid : Nat) : Prop where
  alerts : ∀ mid pid P, alertpool_deref m mid pid = some P →
    heap_ordered (fun a : zbx_am_alert_t => a.nextsend) P.queue
  pools : ∀ id M, am_get_mediatype m id = some M → id ≠ mediatypeid →
    heap_ordered (am_pool_key m id) M.queue
  pool_at : ∀ M, am_get_mediatype m mediatypeid = some M →
    heap_hole_inv (am_pool_key m mediatypeid) M.queue (M.queue.indexOf alertpoolid)
  mts : heap_hole_inv (am_mediatype_key m) m.queue (m.queue.indexOf mediatypeid)

/-! ## Further invariants and sample runs -/

/-- Every alert pool in the hash set with an empty alert queue belongs to an alert in
flight. -/
def am_pool_live (s : am_sched) : Prop :=
  ∀ mid pid P, alertpool_deref s.manager mid pid = some P → P.queue = [] →
    ∃ a ∈ s.in_flight, a.mediatypeid = mid ∧ a.alertpoolid = pid

/-- A run that ends with the only alert of a media type with maxattempts 1 in flight. -/
def exhausted_ops : List am_op :=
  [.update_mediatype 1 (sample_args 0 1 60), .queue_alert (sample_alert 1 1 7 10), .pop_alert]

/-- A run that queues one alert under a media type with maxattempts 3 and attempt interval 60. -/
def single_ops : List am_op :=
  [.update_mediatype 1 (sample_args 0 3 60), .queue_alert (sample_alert 1 1 7 10)]

/-- The manager whose only queued alert is `A`: the manager queue holds the media type of `A`
only, the pool queue of that media type holds the alert pool of `A` only, whose alert queue
holds `A` only, and no alert of the media type is in flight. -/
structure am_single (m : zbx_am_t) (A : zbx_am_alert_t) (M : zbx_am_mediatype_t) : Prop where
  wf : am_wf m
  ord : am_ord m
  queue : m.queue = [A.mediatypeid]
  mt : am_get_mediatype m A.mediatypeid = some M
  mt_queue : M.queue = [A.alertpoolid]
  idle : M.alerts_num = 0
  pool : ∃ P, alertpool_deref m A.mediatypeid A.alertpoolid = some P ∧ P.queue = [A]

/-- The delivery loop in which every delivery fails: am_pop_alert hands out an alert and
am_retry_alert is called for it at the time `now`, until am_pop_alert returns no alert.  The
result is the number of alerts handed out and the final manager; `none` when the process
terminates or the fuel runs out. -/
def am_fail_loop : Nat → zbx_am_t → Int → Option (Nat × zbx_am_t)
  | 0, _, _ => none
  | fuel + 1, m, now =>
    (am_pop_alert m).bind fun r =>
    match r.1 with
    | none => some (0, r.2)
    | some alert =>
      (am_retry_alert r.2 alert now).bind fun r2 =>
      (am_fail_loop fuel r2.2 now).map fun c => (c.1 + 1, c.2)

/-- Events of the main loop: an alerter registers, one alert of a media type with maxattempts 3
is read from the database and dispatched. -/
def retry_events : List am_event :=
  [.register 100 true, .db_queue_alerts [sample_alert 1 1 7 10] [sample_row 1 0],
   .dispatch sample_env 10]

/-- Events of the main loop: the alert of `retry_events` fails three times. -/
def failing_events : List am_event :=
  retry_events ++
    [.result 100 FAIL "failed" 100, .dispatch sample_env 160,
     .result 100 FAIL "failed" 200, .dispatch sample_env 260,
     .result 100 FAIL "failed" 300, .dispatch sample_env 360]

/-! ## Alert pool identifiers and the alerts read from the database -/

/-- Modelled from the spec: the type zbx_hash_t of zbxalgo (not part of the sources); the spec
describes the alert pool id as a 64-bit hash, so the type is taken as an unsigned integer of 64
bits; the function is the conversion of a value to that type. -/
def zbx_hash_t (value : Nat) : Nat := value % 2 ^ 64

/-- Modelled from the spec: the hash functions of zbxalgo (not part of the sources) behind the
two macros am_calc_alertpoolid calls: ZBX_DEFAULT_UINT64_HASH_FUNC takes a 64-bit value,
ZBX_DEFAULT_UINT64_HASH_ALGO takes an int, the number of its bytes and a seed. -/
structure zbx_hash_env where
  ZBX_DEFAULT_UINT64_HASH_FUNC : Nat → Nat
  ZBX_DEFAULT_UINT64_HASH_ALGO : Int → Nat → Nat → Nat

/-- Calculates the alert pool id from the event source, object and object id
(am_calc_alertpoolid); `hash` has the type zbx_hash_t and sizeof(int) is 4; the conversion of
the result to the return type zbx_uint64_t keeps the value. -/
def am_calc_alertpoolid (h : zbx_hash_env) (source object : Int) (objectid : Nat) : Nat :=
  let hash := zbx_hash_t (h.ZBX_DEFAULT_UINT64_HASH_FUNC objectid)
  let hash := zbx_hash_t (h.ZBX_DEFAULT_UINT64_HASH_ALGO source 4 hash)
  let hash := zbx_hash_t (h.ZBX_DEFAULT_UINT64_HASH_ALGO object 4 hash)
  hash

/-- Creates an alert object (am_create_alert). -/
def am_create_alert (h : zbx_hash_env) (alertid mediatypeid : Nat) (source object : Int)
    (objectid : Nat) (sendto subject message : String) (status retries nextsend : Int) :
    zbx_am_alert_t :=
  { alertid := alertid, mediatypeid := mediatypeid,
    alertpoolid := am_calc_alertpoolid h source object objectid,
    sendto := sendto, subject := subject, message := message, status := status,
    retries := retries, nextsend := nextsend }

/-- A row of the select of am_db_get_alerts: the columns of the alert and of its event. -/
structure am_db_alert_row where
  alertid : Nat
  mediatypeid : Nat
  sendto : String
  subject : String
  message : String
  status : Int
  retries : Int
  source : Int
  object : Int
  objectid : Nat
  deriving DecidableEq, Repr

/-- Reads the new alerts from the database (am_db_get_alerts): `rows` is the result of the
select in the order of the rows; the update of the status column of the new alerts in the
database is not part of the manager state. -/
def am_db_get_alerts (h : zbx_hash_env) (rows : List am_db_alert_row) (now : Int) :
    List zbx_am_alert_t :=
  rows.map fun row =>
    am_create_alert h row.alertid row.mediatypeid row.source row.object row.objectid row.sendto
      row.subject row.message row.status row.retries now

/-- A hash environment for the concrete runs: the hash of a value is the value, and mixing an
int into a seed adds the int, taken as an unsigned value of its size, to 31 times the seed.  It
stands in for the hash functions of zbxalgo, which are not part of the sources. -/
def sample_hash : zbx_hash_env :=
  { ZBX_DEFAULT_UINT64_HASH_FUNC := fun value => value,
    ZBX_DEFAULT_UINT64_HASH_ALGO := fun data len seed =>
      seed * 31 + (data % 2 ^ (8 * len)).toNat }

/-! ## Flushing the status updates -/

/-- The services of the database layer am_db_flush_alert_updates calls (not part of the
sources): the escaping of a string cut to a length, and the length of the error column. -/
structure am_db_env where
  DBdyn_escape_string_len : String → Nat → String
  ALERT_ERROR_LEN : Nat

/-- An update statement of am_db_flush_alert_updates: the values printed into
"update alerts set status=..,retries=..,error='..' where alertid=..". -/
structure am_db_alert_update where
  status : Int
  retries : Int
  error_esc : String
  alertid : Nat
  deriving DecidableEq, Repr

/-- Flushes the cached alert status updates to the database (am_db_flush_alert_updates): the
result is `none` when no transaction is begun, otherwise the statements of the transaction in
the order they are written, and the manager.  Modelled from the spec: zbx_vector_ptr_sort with
ZBX_DEFAULT_UINT64_PTR_COMPARE_FUNC (zbxalgo, not part of the sources) sorts the updates by
their first field, the alertid. -/
def am_db_flush_alert_updates (db : am_db_env) (manager : zbx_am_t) :
    Option (List am_db_alert_update) × zbx_am_t :=
  if manager.alertupdates.length = 0 then (none, manager)
  else
    let updates := manager.alertupdates.insertionSort fun u v => u.alertid ≤ v.alertid
    (some (updates.map fun update =>
        { status := update.status, retries := update.retries,
          error_esc := db.DBdyn_escape_string_len update.error db.ALERT_ERROR_LEN,
          alertid := update.alertid }),
      { manager with alertupdates := [] })

/-- A database layer that escapes nothing and cuts nothing. -/
def sample_db : am_db_env :=
  { DBdyn_escape_string_len := fun s _ => s, ALERT_ERROR_LEN := 2048 }

/-! ## Sequences of am_pop_alert calls -/

/-- Calls am_pop_alert `n` times in a row; the results are listed in the order of the
calls. -/
def am_pop_alerts : Nat → zbx_am_t → Option (List (Option zbx_am_alert_t) × zbx_am_t)
  | 0, manager => some ([], manager)
  | n + 1, manager =>
    (am_pop_alert manager).bind fun r =>
    (am_pop_alerts n r.2).map fun c => (r.1 :: c.1, c.2)

/-! ## Sample data for the dispatch and the database claims -/

/-- A row of the media_type table whose type is none of the supported ones. -/
def unsupported_row (mediatypeid : Nat) : DB_MEDIATYPE :=
  { mediatypeid := mediatypeid, smtp_port := 25,
    args := { sample_args 0 3 60 with type := 7 } }

/-- Events of the main loop: an alerter registers and an alert of a media type with an
unsupported type is read from the database. -/
def unsupported_events : List am_event :=
  [.register 100 true, .db_queue_alerts [sample_alert 1 1 7 10] [unsupported_row 1]]

/-- A row of the alert select for an event of the source 0 and the object 0. -/
def sample_alert_row (alertid mediatypeid objectid : Nat) : am_db_alert_row :=
  { alertid := alertid, mediatypeid := mediatypeid, sendto := "", subject := "", message := "",
    status := ALERT_STATUS_NEW, retries := 0, source := 0, object := 0, objectid := objectid }

/-- Events of the main loop before the first database read: an alerter registers. -/
def register_events : List am_event := [.register 100 true]

/-- Two rows of the alert select: an alert of the media type 1 and one of the media type 2. -/
def sample_alert_rows : List am_db_alert_row :=
  [sample_alert_row 1 1 5, sample_alert_row 2 2 5]

/-- A manager whose update buffer holds the updates of the alerts 3 and 5, the one of the
alert 3 buffered first. -/
def sample_updates : zbx_am_t :=
  am_db_update_alert (am_db_update_alert (am_init 0) 3 ALERT_STATUS_FAILED 2 "failed") 5
    ALERT_STATUS_SENT 0 ""

/-- A script media type with the given parameters. -/
def sample_script (exec_params : String) : zbx_am_mediatype_t :=
  { mediatype_local 1 with
    type := MEDIA_TYPE_EXEC, exec_path := "script.sh", exec_params := exec_params }

/-! ## The scenario of one media type whose pools are popped in a row -/

/-- The pools of the alerts in flight are not queued, and no two alerts in flight belong to one
pool. -/
structure am_serial (s : am_sched) : Prop where
  idle : ∀ c ∈ s.in_flight, ∀ P,
    alertpool_deref s.manager c.mediatypeid c.alertpoolid = some P →
    P.location = ZBX_AM_LOCATION_NOWHERE
  distinct : (s.in_flight.map fun c => (c.mediatypeid, c.alertpoolid)).Nodup

/-- The state of a manager with the single media type `M0` (as configured, with `L` queued
pools and nothing in flight at the start) after `j` alerts were popped and none completed: the
media type has alerts_num = j and L - j queued pools, and it is the one element of the manager
queue exactly when pools are left and the capacity test passes. -/
structure am_capped (M0 : zbx_am_mediatype_t) (L j : Nat) (s : am_sched) : Prop where
  inv : am_inv s
  ord : am_ord s.manager
  serial : am_serial s
  single : ∀ id M, am_get_mediatype s.manager id = some M → id = M0.mediatypeid
  mt : ∃ M, am_get_mediatype s.manager M0.mediatypeid = some M ∧
    M = { M0 with alerts_num := (j : Int), location := M.location, queue := M.queue } ∧
    M.queue.length + j = L
  flight : s.in_flight.length = j
  queued : (M0.maxsessions = 0 ∨ (j : Int) < M0.maxsessions) → j < L →
    s.manager.queue = [M0.mediatypeid]
  blocked : (¬ (M0.maxsessions = 0 ∨ (j : Int) < M0.maxsessions) ∨ j = L) →
    s.manager.queue = []

/-- A run that queues three alerts of three pools under a media type without a session
limit. -/
def unlimited_ops : List am_op :=
  [.update_mediatype 1 (sample_args 0 3 60), .queue_alert (sample_alert 1 1 7 10),
   .queue_alert (sample_alert 2 1 8 20), .queue_alert (sample_alert 3 1 9 30)]

/-- A run that queues ten alerts over five pools under a media type limited to two
sessions. -/
def backpressure_ops : List am_op :=
  .update_mediatype 1 (sample_args 2 3 60) ::
    (List.range 10).map fun i => .queue_alert (sample_alert (i + 1) 1 (i % 5 + 1) (10 + i))

/-! ## Sequences of status updates -/

/-- The arguments of one call of am_db_update_alert. -/
structure am_db_update_alert_args where
  alertid : Nat
  status : Int
  retries : Int
  error : String
  deriving DecidableEq, Repr

/-- Calls am_db_update_alert for every element of `calls` in order. -/
def am_db_update_alert_calls : zbx_am_t → List am_db_update_alert_args → zbx_am_t
  | manager, [] => manager
  | manager, c :: calls =>
    am_db_update_alert_calls (am_db_update_alert manager c.alertid c.status c.retries c.error)
      calls

/-- The run after which am_retry_alert finds the pool of an alert in flight removed: the
alerts 1 and 2 of the pool 7 are both popped (the second one was queued while the first was in
flight), and the alert 2 completes. -/
def recreate_ops : List am_op :=
  [.update_mediatype 1 (sample_args 0 3 60), .queue_alert (sample_alert 1 1 7 10), .pop_alert,
   .queue_alert (sample_alert 2 1 7 20), .pop_alert, .remove_alert (sample_alert 2 1 7 20)]

/-- Three calls of am_db_update_alert, the first and the last for the alert 1. -/
def sample_calls : List am_db_update_alert_args :=
  [{ alertid := 1, status := ALERT_STATUS_NOT_SENT, retries := 0, error := "first" },
   { alertid := 2, status := ALERT_STATUS_SENT, retries := 0, error := "" },
   { alertid := 1, status := ALERT_STATUS_FAILED, retries := 1, error := "second" }]

/-! ## The dispatch loop -/

/-- The number of alerts stored in the alert queues of the alert pools. -/
def am_queued_num (manager : zbx_am_t) : Nat :=
  (manager.alertpools.map fun alertpool => alertpool.queue.length).sum

/-- The dispatch loop of alert_manager_thread for a fixed `now`: the iterations are repeated
until one of them ends the loop; the result is the number of iterations that handed an alert
to am_process_alert and the manager.  `fuel` bounds the number of iterations (`none` when it is
used up or the process terminates). -/
def am_dispatch_loop (env : am_env) (now : Int) : Nat → zbx_am_t → Option (Nat × zbx_am_t)
  | 0, _ => none
  | fuel + 1, manager =>
    (am_dispatch_iteration env manager now).bind fun r =>
    if r.1 = false then some (0, r.2)
    else (am_dispatch_loop env now fuel r.2).map fun c => (c.1 + 1, c.2)

/-- Events of the main loop before the first dispatch: an alerter registers and two alerts of
two pools are read from the database. -/
def queued_events : List am_event :=
  [.register 100 true,
   .db_queue_alerts [sample_alert 1 1 7 10, sample_alert 2 1 8 10] [sample_row 1 0]]

/-! ## One pool processed alert by alert -/

/-- Processes the queue with every popped alert completed before the next am_pop_alert:
am_pop_alert, then am_remove_alert of the returned alert, until am_pop_alert returns NULL.  The
result is the list of the alerts in the order they were returned and the manager; `fuel`
bounds the number of am_pop_alert calls. -/
def am_drain_pool : Nat → zbx_am_t → Option (List zbx_am_alert_t × zbx_am_t)
  | 0, _ => none
  | fuel + 1, manager =>
    (am_pop_alert manager).bind fun r =>
    match r.1 with
    | none => some ([], r.2)
    | some alert =>
      (am_remove_alert r.2 alert).bind fun manager1 =>
      (am_drain_pool fuel manager1).map fun c => (alert :: c.1, c.2)

/-- The state of a manager whose alerts are the alerts `l` of the one pool `alertpoolid` of the
one media type `mediatypeid`, with nothing in flight and the media type queued. -/
structure am_one_pool (mediatypeid alertpoolid : Nat) (l : List zbx_am_alert_t)
    (s : am_sched) : Prop where
  inv : am_inv s
  ord : am_ord s.manager
  idle : s.in_flight = []
  single_mt : ∀ id M, am_get_mediatype s.manager id = some M → id = mediatypeid
  single_pool : ∀ mid pid P, alertpool_deref s.manager mid pid = some P →
    mid = mediatypeid ∧ pid = alertpoolid
  mt : ∃ M, am_get_mediatype s.manager mediatypeid = some M ∧
    (M.maxsessions = 0 ∨ 1 ≤ M.maxsessions)
  pool : ∃ P, alertpool_deref s.manager mediatypeid alertpoolid = some P ∧ P.queue = l
  queued : s.manager.queue = [mediatypeid]
  ne : l ≠ []

/-- A run that queues three alerts with one nextsend into one pool, the alerts 1, 2 and 3 in
this order. -/
def ties_ops : List am_op :=
  [.update_mediatype 1 (sample_args 0 3 60), .queue_alert (sample_alert 1 1 7 10),
   .queue_alert (sample_alert 2 1 7 10), .queue_alert (sample_alert 3 1 7 10)]

/-- A run that queues four alerts into one pool out of the order of their nextsend. -/
def one_pool_ops : List am_op :=
  [.update_mediatype 1 (sample_args 0 3 60), .queue_alert (sample_alert 1 1 7 30),
   .queue_alert (sample_alert 2 1 7 10), .queue_alert (sample_alert 3 1 7 40),
   .queue_alert (sample_alert 4 1 7 20)]

/-- The retries of the alerts of the media type `mediatypeid` while the media type is configured
with `maxattempts`: every alert queued in one of its pools or in flight has made fewer than
`maxattempts` attempts. -/
structure am_attempts (mediatypeid : Nat) (maxattempts : Int) (s : am_sched) : Prop where
  mt : ∀ M, am_get_mediatype s.manager mediatypeid = some M → M.maxattempts = maxattempts
  pools : ∀ pid P, alertpool_deref s.manager mediatypeid pid = some P →
    ∀ a ∈ P.queue, a.retries < maxattempts
  flight : ∀ a ∈ s.in_flight, a.mediatypeid = mediatypeid → a.retries < maxattempts

/-- The events in which the alerts of the media type `mediatypeid` are read from the database
with retries 0 and the media type is configured with `maxattempts`. -/
def am_event_attempts (mediatypeid : Nat) (maxattempts : Int) : am_event → Bool
  | .db_queue_alerts alerts media_type =>
    (alerts.all fun a => decide (a.mediatypeid = mediatypeid → a.retries = 0)) &&
    (media_type.all fun row =>
      decide (row.mediatypeid = mediatypeid → row.args.maxattempts = maxattempts))
  | _ => true

/-- Events of the main loop: the alert of `retry_events` has failed twice and is dispatched for
the third time. -/
def last_attempt_events : List am_event :=
  retry_events ++
    [.result 100 FAIL "failed" 100, .dispatch sample_env 160,
     .result 100 FAIL "failed" 200, .dispatch sample_env 260]

/-! ## Hash set lemmas -/

theorem zbx_hashset_search_some {β κ : Type} [DecidableEq κ] {key : β → κ} {hs : List β} {k : κ}
    {v : β} (h : zbx_hashset_search key hs k = some v) : key v = k ∧ v ∈ hs := by
  unfold zbx_hashset_search at h
  have h1 := List.find?_some h
  have h2 := List.mem_of_find?_eq_some h
  exact ⟨by simpa using h1, h2⟩

theorem zbx_hashset_search_none {β κ : Type} [DecidableEq κ] {key : β → κ} {hs : List β} {k : κ}
    (h : zbx_hashset_search key hs k = none) : ∀ v ∈ hs, key v ≠ k := by
  unfold zbx_hashset_search at h
  intro v hv
  have := List.find?_eq_none.1 h v hv
  simpa using this

theorem zbx_hashset_search_store {β κ : Type} [DecidableEq κ] (key : β → κ) (hs : List β) (v : β)
    (k : κ) :
    zbx_hashset_search key (hashset_store key hs v) k =
      if k = key v then (zbx_hashset_search key hs k).map (fun _ => v)
      else zbx_hashset_search key hs k := by
  induction hs with
  | nil => simp [zbx_hashset_search, hashset_store]
  | cons x xs ih =>
    simp only [zbx_hashset_search, hashset_store, List.map_cons, List.find?_cons] at ih ⊢
    by_cases hx : key x = key v
    · by_cases hk : k = key v
      · subst hk; simp [hx]
      · have hk2 : ¬ key v = k := fun h => hk h.symm
        simp only [hx, if_true, hk, if_false, hk2, decide_False]
        simpa [hk] using ih
    · by_cases hk : k = key v
      · subst hk
        simp only [hx, if_false, decide_False, if_true]
        simpa using ih
      · simp only [hx, if_false, hk]
        by_cases hxk : key x = k
        · simp [hxk]
        · simp only [hxk, decide_False]
          simpa [hk] using ih

theorem zbx_hashset_search_insert {β κ : Type} [DecidableEq κ] (key : β → κ) (hs : List β)
    (v : β) (k : κ) (h : zbx_hashset_search key hs (key v) = none) :
    zbx_hashset_search key (zbx_hashset_insert key hs v) k =
      if k = key v then some v else zbx_hashset_search key hs k := by
  unfold zbx_hashset_insert
  rw [h]
  by_cases hk : k = key v
  · subst hk; simp [zbx_hashset_search]
  · have hk2 : ¬ key v = k := fun h => hk h.symm
    simp [zbx_hashset_search, hk, hk2]

theorem zbx_hashset_search_remove {β κ : Type} [DecidableEq κ] (key : β → κ) (hs : List β)
    (k0 k : κ) :
    zbx_hashset_search key (zbx_hashset_remove_direct key hs k0) k =
      if k = k0 then none else zbx_hashset_search key hs k := by
  induction hs with
  | nil => simp [zbx_hashset_search, zbx_hashset_remove_direct]
  | cons x xs ih =>
    have ih2 : List.find? (fun x => decide (key x = k))
        (List.filter (fun x => !decide (key x = k0)) xs) =
        if k = k0 then none else List.find? (fun x => decide (key x = k)) xs := ih
    show List.find? (fun x => decide (key x = k))
        (List.filter (fun x => !decide (key x = k0)) (x :: xs)) =
        if k = k0 then none else List.find? (fun x => decide (key x = k)) (x :: xs)
    by_cases hx : key x = k0
    · rw [List.filter_cons_of_neg (by simp [hx]), ih2]
      by_cases hk : k = k0
      · simp [hk]
      · have : ¬ key x = k := fun h => hk (h ▸ hx)
        simp [hk, List.find?_cons, this]
    · rw [List.filter_cons_of_pos (by simp [hx]), List.find?_cons, List.find?_cons, ih2]
      by_cases hk : k = k0
      · subst hk
        simp [hx]
      · by_cases hxk : key x = k
        · simp [hk, hxk]
        · simp [hk, hxk]

/-! ## Binary heap lemmas: the operations permute the elements -/

theorem heap_swap_perm {α : Type} [DecidableEq α] (h : List α) (i j : Nat) (a b : α)
    (hi : h[i]? = some a) (hj : h[j]? = some b) (hij : i ≠ j) :
    ((h.set i b).set j a).Perm h := by
  have hil : i < h.length := by
    rcases Nat.lt_or_ge i h.length with hl | hl
    · exact hl
    · rw [List.getElem?_eq_none hl] at hi; cases hi
  have hjl : j < h.length := by
    rcases Nat.lt_or_ge j h.length with hl | hl
    · exact hl
    · rw [List.getElem?_eq_none hl] at hj; cases hj
  have hia : h[i] = a := by
    rw [List.getElem?_eq_getElem hil] at hi; exact Option.some.inj hi
  have hjb : h[j] = b := by
    rw [List.getElem?_eq_getElem hjl] at hj; exact Option.some.inj hj
  rw [List.perm_iff_count]
  intro x
  have hjl2 : j < (h.set i b).length := by simpa using hjl
  rw [List.count_set a x (h.set i b) j hjl2, List.count_set b x h i hil]
  have e1 : (h.set i b)[j] = b := by
    rw [List.getElem_set_ne hij]; exact hjb
  rw [e1, hia]
  have ha : a ∈ h := hia ▸ List.getElem_mem hil
  have hca : 0 < List.count a h := List.count_pos_iff.2 ha
  by_cases hax : a = x
  · subst hax
    by_cases hbx : b = a
    · simp [hbx]; omega
    · simp [hbx]; omega
  · by_cases hbx : b = x
    · subst hbx
      have hb : b ∈ h := hjb ▸ List.getElem_mem hjl
      have hcb : 0 < List.count b h := List.count_pos_iff.2 hb
      simp [hax]
    · simp [hax, hbx]

theorem parent_lt {i : Nat} (h : i ≠ 0) : (i - 1) / 2 < i := by omega

theorem binary_heap_bubble_up_perm {α : Type} [DecidableEq α] (cmp : α → α → Option Int)
    (fuel : Nat) (h : List α) (i : Nat) (r : List α × Nat)
    (hr : binary_heap_bubble_up cmp fuel h i = some r) : r.1.Perm h := by
  induction fuel generalizing h i with
  | zero => simp [binary_heap_bubble_up] at hr; subst hr; exact List.Perm.refl _
  | succ n ih =>
    unfold binary_heap_bubble_up at hr
    split at hr
    · simp at hr; subst hr; exact List.Perm.refl _
    · rename_i hi0
      split at hr
      · rename_i p c hp hc
        split at hr
        · cases hr
        · split at hr
          · simp at hr; subst hr; exact List.Perm.refl _
          · exact (ih _ _ hr).trans
              (heap_swap_perm h _ _ p c hp hc (Nat.ne_of_lt (parent_lt hi0)))
      · cases hr

theorem binary_heap_bubble_down_perm {α : Type} [DecidableEq α] (cmp : α → α → Option Int)
    (fuel : Nat) (h : List α) (i : Nat) (r : List α × Nat)
    (hr : binary_heap_bubble_down cmp fuel h i = some r) : r.1.Perm h := by
  induction fuel generalizing h i with
  | zero => simp [binary_heap_bubble_down] at hr; subst hr; exact List.Perm.refl _
  | succ n ih =>
    unfold binary_heap_bubble_down at hr
    split at hr
    · simp at hr; subst hr; exact List.Perm.refl _
    · split at hr
      · split at hr
        · rename_i x l hx hl
          split at hr
          · cases hr
          · split at hr
            · simp at hr; subst hr
              exact heap_swap_perm h _ _ x l hx hl (by omega)
            · simp at hr; subst hr; exact List.Perm.refl _
        · cases hr
      · split at hr
        · rename_i x l rt hx hl hrt
          split at hr
          · cases hr
          · split at hr
            · split at hr
              · cases hr
              · split at hr
                · exact (ih _ _ hr).trans (heap_swap_perm h _ _ x l hx hl (by omega))
                · simp at hr; subst hr; exact List.Perm.refl _
            · split at hr
              · cases hr
              · split at hr
                · exact (ih _ _ hr).trans (heap_swap_perm h _ _ x rt hx hrt (by omega))
                · simp at hr; subst hr; exact List.Perm.refl _
        · cases hr

theorem zbx_binary_heap_insert_perm {α : Type} [DecidableEq α] (cmp : α → α → Option Int)
    (direct : Bool) (h : List α) (elem : α) (h' : List α)
    (hr : zbx_binary_heap_insert cmp direct h elem = some h') :
    h'.Perm (elem :: h) ∧ (direct = true → elem ∉ h) := by
  unfold zbx_binary_heap_insert at hr
  split at hr
  · cases hr
  · rename_i hd
    rw [Option.map_eq_some'] at hr
    obtain ⟨r, hr1, hr2⟩ := hr
    subst hr2
    refine ⟨(binary_heap_bubble_up_perm _ _ _ _ _ hr1).trans ?_, ?_⟩
    · exact (List.perm_append_comm).trans (by simp)
    · intro hdt hmem; exact hd ⟨hdt, hmem⟩

theorem zbx_binary_heap_remove_min_perm {α : Type} [DecidableEq α] (cmp : α → α → Option Int)
    (x : α) (t : List α) (h' : List α)
    (hr : zbx_binary_heap_remove_min cmp (x :: t) = some h') : h'.Perm t := by
  cases t with
  | nil => simp [zbx_binary_heap_remove_min] at hr; subst hr; exact List.Perm.refl _
  | cons y rest =>
    simp only [zbx_binary_heap_remove_min] at hr
    rw [Option.map_eq_some'] at hr
    obtain ⟨r, hr1, hr2⟩ := hr
    subst hr2
    refine (binary_heap_bubble_down_perm _ _ _ _ _ hr1).trans ?_
    have : (y :: rest) = (y :: rest).dropLast ++ [(y :: rest).getLast (List.cons_ne_nil y rest)] :=
      (List.dropLast_append_getLast (List.cons_ne_nil y rest)).symm
    conv => rhs; rw [this]
    exact (@List.perm_append_comm _ [(y :: rest).getLast (List.cons_ne_nil y rest)]
      (y :: rest).dropLast)

theorem zbx_binary_heap_remove_min_nil {α : Type} (cmp : α → α → Option Int) :
    zbx_binary_heap_remove_min cmp ([] : List α) = none := rfl

theorem zbx_binary_heap_update_direct_perm {α : Type} [DecidableEq α]
    (cmp : α → α → Option Int) (h : List α) (elem : α) (h' : List α)
    (hr : zbx_binary_heap_update_direct cmp h elem = some h') : h'.Perm h ∧ elem ∈ h := by
  unfold zbx_binary_heap_update_direct at hr
  split at hr
  · rename_i hmem
    refine ⟨?_, hmem⟩
    split at hr
    · cases hr
    · rename_i h1 index hbu
      have p1 := binary_heap_bubble_up_perm _ _ _ _ _ hbu
      split at hr
      · rw [Option.map_eq_some'] at hr
        obtain ⟨r, hr1, hr2⟩ := hr
        subst hr2
        exact (binary_heap_bubble_down_perm _ _ _ _ _ hr1).trans p1
      · simp at hr; subst hr; exact p1
  · cases hr

/-! ## Pointer writes -/

theorem am_get_mediatype_key {m : zbx_am_t} {id : Nat} {M : zbx_am_mediatype_t}
    (h : am_get_mediatype m id = some M) : M.mediatypeid = id :=
  (zbx_hashset_search_some h).1

theorem alertpool_deref_key {m : zbx_am_t} {mid pid : Nat} {P : zbx_am_alertpool_t}
    (h : alertpool_deref m mid pid = some P) : P.id = pid ∧ P.mediatypeid = mid := by
  have := (zbx_hashset_search_some h).1
  simp only [alertpool_key, Prod.mk.injEq] at this
  exact this

theorem am_get_mediatype_store {m : zbx_am_t} {M M0 : zbx_am_mediatype_t}
    (h : am_get_mediatype m M.mediatypeid = some M0) (id : Nat) :
    am_get_mediatype (mediatype_store m M) id =
      if id = M.mediatypeid then some M else am_get_mediatype m id := by
  unfold am_get_mediatype mediatype_store at *
  simp only
  rw [zbx_hashset_search_store]
  simp only [mediatype_key] at *
  split
  · rename_i hid; subst hid; rw [h]; rfl
  · rfl

theorem alertpool_deref_store {m : zbx_am_t} {P P0 : zbx_am_alertpool_t}
    (h : alertpool_deref m P.mediatypeid P.id = some P0) (mid pid : Nat) :
    alertpool_deref (alertpool_store m P) mid pid =
      if mid = P.mediatypeid ∧ pid = P.id then some P else alertpool_deref m mid pid := by
  unfold alertpool_deref alertpool_store at *
  simp only
  rw [zbx_hashset_search_store]
  simp only [alertpool_key, Prod.mk.injEq] at *
  by_cases hk : pid = P.id ∧ mid = P.mediatypeid
  · obtain ⟨h1, h2⟩ := hk
    subst h1 h2
    simp [h]
  · have : ¬ (mid = P.mediatypeid ∧ pid = P.id) := fun hh => hk ⟨hh.2, hh.1⟩
    simp [hk, this]

@[simp] theorem alertpool_deref_mediatype_store (m : zbx_am_t) (M : zbx_am_mediatype_t)
    (mid pid : Nat) :
    alertpool_deref (mediatype_store m M) mid pid = alertpool_deref m mid pid := rfl

@[simp] theorem am_get_mediatype_alertpool_store (m : zbx_am_t) (P : zbx_am_alertpool_t)
    (id : Nat) : am_get_mediatype (alertpool_store m P) id = am_get_mediatype m id := rfl

@[simp] theorem queue_mediatype_store (m : zbx_am_t) (M : zbx_am_mediatype_t) :
    (mediatype_store m M).queue = m.queue := rfl

@[simp] theorem queue_alertpool_store (m : zbx_am_t) (P : zbx_am_alertpool_t) :
    (alertpool_store m P).queue = m.queue := rfl

@[simp] theorem am_get_mediatype_set_queue (m : zbx_am_t) (q : List Nat) (id : Nat) :
    am_get_mediatype { m with queue := q } id = am_get_mediatype m id := rfl

@[simp] theorem alertpool_deref_set_queue (m : zbx_am_t) (q : List Nat) (mid pid : Nat) :
    alertpool_deref { m with queue := q } mid pid = alertpool_deref m mid pid := rfl

theorem heap_empty_iff {α : Type} (h : List α) : zbx_binary_heap_empty h = true ↔ h = [] := by
  cases h <;> simp [zbx_binary_heap_empty]

/-! ## Effects of the queue primitives -/

theorem am_get_alertpool_some {m : zbx_am_t} {mid pid : Nat} {P : zbx_am_alertpool_t}
    (h : alertpool_deref m mid pid = some P) : am_get_alertpool m mid pid = (P, m) := by
  unfold alertpool_deref at h
  unfold am_get_alertpool
  rw [h]

theorem am_get_alertpool_none {m : zbx_am_t} {mid pid : Nat}
    (h : alertpool_deref m mid pid = none) :
    am_get_alertpool m mid pid =
      ({ id := pid, mediatypeid := mid, queue := [], location := ZBX_AM_LOCATION_NOWHERE },
       { m with alertpools :=
          { id := pid, mediatypeid := mid, queue := [], location := ZBX_AM_LOCATION_NOWHERE } ::
            m.alertpools }) := by
  unfold alertpool_deref at h
  unfold am_get_alertpool
  rw [h]
  simp only [zbx_hashset_insert, alertpool_key, h]

theorem am_get_alertpool_deref (m : zbx_am_t) (mid pid : Nat) :
    alertpool_deref (am_get_alertpool m mid pid).2 mid pid = some (am_get_alertpool m mid pid).1 ∧
    (∀ mid' pid', ¬ (mid' = mid ∧ pid' = pid) →
      alertpool_deref (am_get_alertpool m mid pid).2 mid' pid' = alertpool_deref m mid' pid') ∧
    (∀ id, am_get_mediatype (am_get_alertpool m mid pid).2 id = am_get_mediatype m id) ∧
    (am_get_alertpool m mid pid).2.queue = m.queue ∧
    ((alertpool_deref m mid pid = some (am_get_alertpool m mid pid).1) ∨
      (alertpool_deref m mid pid = none ∧
        (am_get_alertpool m mid pid).1 =
          { id := pid, mediatypeid := mid, queue := [], location := ZBX_AM_LOCATION_NOWHERE })) := by
  cases hs : alertpool_deref m mid pid with
  | some P =>
    rw [am_get_alertpool_some hs]
    exact ⟨hs, fun _ _ _ => rfl, fun _ => rfl, rfl, Or.inl rfl⟩
  | none =>
    rw [am_get_alertpool_none hs]
    refine ⟨?_, ?_, fun _ => rfl, rfl, Or.inr ⟨rfl, rfl⟩⟩
    · simp [alertpool_deref, zbx_hashset_search, alertpool_key]
    · intro mid' pid' hne
      have hne2 : ¬ (pid = pid' ∧ mid = mid') := fun hh => hne ⟨hh.2.symm, hh.1.symm⟩
      simp only [alertpool_deref, zbx_hashset_search, alertpool_key, List.find?_cons,
        Prod.mk.injEq, hne2, decide_False]

theorem am_remove_alertpool_deref (m : zbx_am_t) (mid pid mid' pid' : Nat) :
    alertpool_deref (am_remove_alertpool m mid pid) mid' pid' =
      if mid' = mid ∧ pid' = pid then none else alertpool_deref m mid' pid' := by
  unfold alertpool_deref am_remove_alertpool
  simp only
  rw [zbx_hashset_search_remove]
  by_cases hk : mid' = mid ∧ pid' = pid
  · simp [hk]
  · have : ¬ ((pid', mid') = (pid, mid)) := by
      simp only [Prod.mk.injEq]; exact fun hh => hk ⟨hh.2, hh.1⟩
    simp [hk, this]

theorem am_remove_mediatype_get (m : zbx_am_t) (id id' : Nat) :
    am_get_mediatype (am_remove_mediatype m id) id' =
      if id' = id then none else am_get_mediatype m id' := by
  unfold am_get_mediatype am_remove_mediatype
  simp only
  rw [zbx_hashset_search_remove]

/-! ## Inversion of the queue primitives -/

theorem am_push_meditype_inv {m m' : zbx_am_t} {id : Nat}
    (h : am_push_meditype m id = some m') :
    ∃ M, am_get_mediatype m id = some M ∧ M.mediatypeid = id ∧
      ((M.queue = [] ∧ m' = m) ∨
       (M.queue ≠ [] ∧ M.location = ZBX_AM_LOCATION_NOWHERE ∧
          (M.maxsessions = 0 ∨ M.alerts_num < M.maxsessions) ∧
          ∃ q, zbx_binary_heap_insert (am_mediatype_queue_compare m) true m.queue id = some q ∧
            m' = mediatype_store { m with queue := q }
              { M with location := ZBX_AM_LOCATION_QUEUE }) ∨
       (M.queue ≠ [] ∧ M.location = ZBX_AM_LOCATION_NOWHERE ∧
          ¬ (M.maxsessions = 0 ∨ M.alerts_num < M.maxsessions) ∧ m' = m) ∨
       (M.queue ≠ [] ∧ M.location ≠ ZBX_AM_LOCATION_NOWHERE ∧
          ∃ q, zbx_binary_heap_update_direct (am_mediatype_queue_compare m) m.queue id = some q ∧
            m' = { m with queue := q })) := by
  unfold am_push_meditype at h
  rw [Option.bind_eq_some] at h
  obtain ⟨M, hM, h⟩ := h
  have hk := am_get_mediatype_key hM
  refine ⟨M, hM, hk, ?_⟩
  split at h
  · rename_i he
    left
    exact ⟨(heap_empty_iff _).1 he, (Option.some.inj h).symm⟩
  · rename_i he
    have hne : M.queue ≠ [] := fun hh => he ((heap_empty_iff _).2 hh)
    right
    split at h
    · rename_i hloc
      split at h
      · rename_i hcap
        left
        rw [Option.bind_eq_some] at h
        obtain ⟨q, hq, h⟩ := h
        exact ⟨hne, hloc, hcap, q, hk ▸ hq, (Option.some.inj h).symm⟩
      · rename_i hcap
        right; left
        exact ⟨hne, hloc, hcap, (Option.some.inj h).symm⟩
    · rename_i hloc
      right; right
      rw [Option.bind_eq_some] at h
      obtain ⟨q, hq, h⟩ := h
      exact ⟨hne, hloc, q, hk ▸ hq, (Option.some.inj h).symm⟩

theorem am_pop_mediatype_nil {m : zbx_am_t} (h : m.queue = []) :
    am_pop_mediatype m = some (none, m) := by
  unfold am_pop_mediatype
  simp [zbx_binary_heap_empty, h]

theorem am_pop_mediatype_inv {m : zbx_am_t} {r : Option Nat × zbx_am_t}
    (h : am_pop_mediatype m = some r) :
    (m.queue = [] ∧ r = (none, m)) ∨
    ∃ id t M q, m.queue = id :: t ∧ am_get_mediatype m id = some M ∧
      zbx_binary_heap_remove_min
        (am_mediatype_queue_compare
          (mediatype_store m { M with location := ZBX_AM_LOCATION_NOWHERE })) m.queue = some q ∧
      r = (some id,
        { mediatype_store m { M with location := ZBX_AM_LOCATION_NOWHERE } with queue := q }) := by
  unfold am_pop_mediatype at h
  split at h
  · rename_i he
    left
    exact ⟨(heap_empty_iff _).1 he, (Option.some.inj h).symm⟩
  · right
    rw [Option.bind_eq_some] at h
    obtain ⟨id, hid, h⟩ := h
    rw [Option.bind_eq_some] at h
    obtain ⟨M, hM, h⟩ := h
    simp only [Option.bind_eq_some] at h
    obtain ⟨q, hq, h⟩ := h
    cases hq0 : m.queue with
    | nil => rw [hq0] at hid; simp [zbx_binary_heap_find_min] at hid
    | cons a t =>
      rw [hq0] at hid
      simp only [zbx_binary_heap_find_min, List.head?_cons, Option.some.injEq] at hid
      subst hid
      refine ⟨a, t, M, q, rfl, hM, ?_, (Option.some.inj h).symm⟩
      rw [← hq0]; exact hq

theorem am_push_alertpool_inv {m m' : zbx_am_t} {mid pid : Nat}
    (h : am_push_alertpool m mid pid = some m') :
    ∃ M P, am_get_mediatype m mid = some M ∧ alertpool_deref m mid pid = some P ∧
      ((P.location = ZBX_AM_LOCATION_NOWHERE ∧
          ∃ q, zbx_binary_heap_insert (am_alertpool_queue_compare m mid) true M.queue pid = some q ∧
            m' = alertpool_store (mediatype_store m { M with queue := q })
              { P with location := ZBX_AM_LOCATION_QUEUE }) ∨
       (P.location ≠ ZBX_AM_LOCATION_NOWHERE ∧
          ∃ q, zbx_binary_heap_update_direct (am_alertpool_queue_compare m mid) M.queue pid
              = some q ∧
            m' = mediatype_store m { M with queue := q })) := by
  unfold am_push_alertpool at h
  rw [Option.bind_eq_some] at h
  obtain ⟨M, hM, h⟩ := h
  rw [Option.bind_eq_some] at h
  obtain ⟨P, hP, h⟩ := h
  have hk := (alertpool_deref_key hP).1
  refine ⟨M, P, hM, hP, ?_⟩
  split at h
  · rename_i hloc
    left
    rw [Option.bind_eq_some] at h
    obtain ⟨q, hq, h⟩ := h
    exact ⟨hloc, q, hk ▸ hq, (Option.some.inj h).symm⟩
  · rename_i hloc
    right
    rw [Option.bind_eq_some] at h
    obtain ⟨q, hq, h⟩ := h
    exact ⟨hloc, q, hk ▸ hq, (Option.some.inj h).symm⟩

theorem am_pop_alertpool_inv {m : zbx_am_t} {mid : Nat} {r : Option Nat × zbx_am_t}
    (h : am_pop_alertpool m mid = some r) :
    ∃ M, am_get_mediatype m mid = some M ∧
      ((M.queue = [] ∧ r = (none, m)) ∨
       ∃ pid t P q, M.queue = pid :: t ∧ alertpool_deref m mid pid = some P ∧
        zbx_binary_heap_remove_min
          (am_alertpool_queue_compare
            (alertpool_store m { P with location := ZBX_AM_LOCATION_NOWHERE }) mid)
          M.queue = some q ∧
        r = (some pid,
          mediatype_store (alertpool_store m { P with location := ZBX_AM_LOCATION_NOWHERE })
            { M with queue := q })) := by
  unfold am_pop_alertpool at h
  rw [Option.bind_eq_some] at h
  obtain ⟨M, hM, h⟩ := h
  refine ⟨M, hM, ?_⟩
  split at h
  · rename_i he
    left
    exact ⟨(heap_empty_iff _).1 he, (Option.some.inj h).symm⟩
  · right
    rw [Option.bind_eq_some] at h
    obtain ⟨pid, hpid, h⟩ := h
    rw [Option.bind_eq_some] at h
    obtain ⟨P, hP, h⟩ := h
    simp only [Option.bind_eq_some] at h
    obtain ⟨q, hq, h⟩ := h
    cases hq0 : M.queue with
    | nil => rw [hq0] at hpid; simp [zbx_binary_heap_find_min] at hpid
    | cons a t =>
      rw [hq0] at hpid
      simp only [zbx_binary_heap_find_min, List.head?_cons, Option.some.injEq] at hpid
      subst hpid
      refine ⟨a, t, P, q, rfl, hP, ?_, (Option.some.inj h).symm⟩
      rw [← hq0]; exact hq

theorem am_push_alert_inv {m m' : zbx_am_t} {mid pid : Nat} {a : zbx_am_alert_t}
    (h : am_push_alert m mid pid a = some m') :
    ∃ P q, alertpool_deref m mid pid = some P ∧
      zbx_binary_heap_insert am_alert_queue_compare false P.queue a = some q ∧
      m' = alertpool_store m { P with queue := q } := by
  unfold am_push_alert at h
  rw [Option.bind_eq_some] at h
  obtain ⟨P, hP, h⟩ := h
  rw [Option.bind_eq_some] at h
  obtain ⟨q, hq, h⟩ := h
  exact ⟨P, q, hP, hq, (Option.some.inj h).symm⟩

/-! ## Key lists of the hash sets -/

theorem hashset_store_keys {β κ : Type} [DecidableEq κ] (key : β → κ) (hs : List β) (v : β) :
    (hashset_store key hs v).map key = hs.map key := by
  unfold hashset_store
  rw [List.map_map]
  apply List.map_congr_left
  intro x _
  simp only [Function.comp]
  split
  · rename_i h; exact h.symm
  · rfl

theorem hashset_remove_keys_nodup {β κ : Type} [DecidableEq κ] (key : β → κ) (hs : List β)
    (k : κ) (h : (hs.map key).Nodup) :
    ((zbx_hashset_remove_direct key hs k).map key).Nodup := by
  unfold zbx_hashset_remove_direct
  exact List.Nodup.sublist (List.Sublist.map key (List.filter_sublist hs)) h

theorem hashset_cons_keys_nodup {β κ : Type} [DecidableEq κ] (key : β → κ) (hs : List β)
    (v : β) (h : (hs.map key).Nodup) (hn : zbx_hashset_search key hs (key v) = none) :
    ((v :: hs).map key).Nodup := by
  rw [List.map_cons, List.nodup_cons]
  refine ⟨?_, h⟩
  intro hmem
  rw [List.mem_map] at hmem
  obtain ⟨x, hx, hxk⟩ := hmem
  exact zbx_hashset_search_none hn x hx hxk

theorem hashset_mem_search {β κ : Type} [DecidableEq κ] (key : β → κ) (hs : List β)
    (v : β) (h : (hs.map key).Nodup) (hv : v ∈ hs) :
    zbx_hashset_search key hs (key v) = some v := by
  induction hs with
  | nil => cases hv
  | cons x xs ih =>
    rw [List.map_cons, List.nodup_cons] at h
    unfold zbx_hashset_search
    rw [List.find?_cons]
    rcases List.mem_cons.1 hv with hvx | hvx
    · subst hvx; simp
    · have hne : key x ≠ key v := by
        intro he
        apply h.1
        rw [he]
        exact List.mem_map_of_mem key hvx
      simp only [hne, decide_False]
      exact ih h.2 hvx

/-! ## Well-formedness: initial state and pointer writes -/

theorem am_wf_init (n : Nat) : am_wf (am_init n) := by
  constructor <;> simp [am_init, am_get_mediatype, alertpool_deref, zbx_hashset_search]

theorem am_wf_store_mediatype {m : zbx_am_t} {M M' : zbx_am_mediatype_t} (hw : am_wf m)
    (hM : am_get_mediatype m M'.mediatypeid = some M) (hloc : M'.location = M.location)
    (hq : M'.queue.Perm M.queue) : am_wf (mediatype_store m M') := by
  constructor
  · intro id hid
    obtain ⟨M1, h1, h2, h3⟩ := hw.queue_mt id hid
    rw [am_get_mediatype_store hM]
    split
    · rename_i he; subst he
      rw [hM] at h1; cases h1
      refine ⟨M', rfl, hloc ▸ h2, fun hn => h3 ?_⟩
      rw [hn] at hq
      exact List.perm_nil.1 hq.symm
    · exact ⟨M1, h1, h2, h3⟩
  · intro id M1 h1 h2
    rw [am_get_mediatype_store hM] at h1
    split at h1
    · rename_i he; subst he; cases h1
      exact hw.mt_queue _ M hM (hloc ▸ h2)
    · exact hw.mt_queue id M1 h1 h2
  · intro id M1 h1
    rw [am_get_mediatype_store hM] at h1
    split at h1
    · cases h1; rw [hloc]; exact hw.mt_loc _ M hM
    · exact hw.mt_loc id M1 h1
  · exact hw.queue_nodup
  · intro id M1 h1 pid hpid
    rw [am_get_mediatype_store hM] at h1
    simp only [alertpool_deref_mediatype_store]
    split at h1
    · rename_i he; subst he; cases h1
      exact hw.mtq_pool _ M hM pid (hq.mem_iff.1 hpid)
    · exact hw.mtq_pool id M1 h1 pid hpid
  · intro mid pid P hP hl
    simp only [alertpool_deref_mediatype_store] at hP
    obtain ⟨M1, h1, h2⟩ := hw.pool_mtq mid pid P hP hl
    rw [am_get_mediatype_store hM]
    split
    · rename_i he; subst he
      rw [hM] at h1; cases h1
      exact ⟨M', rfl, hq.mem_iff.2 h2⟩
    · exact ⟨M1, h1, h2⟩
  · intro mid pid P hP
    exact hw.pool_loc mid pid P hP
  · intro id M1 h1
    rw [am_get_mediatype_store hM] at h1
    split at h1
    · cases h1; exact (hq.nodup_iff).2 (hw.mtq_nodup _ M hM)
    · exact hw.mtq_nodup id M1 h1
  · show ((hashset_store mediatype_key m.mediatypes M').map mediatype_key).Nodup
    rw [hashset_store_keys]; exact hw.mt_keys
  · exact hw.pool_keys

theorem am_wf_store_alertpool {m : zbx_am_t} {P P' : zbx_am_alertpool_t} (hw : am_wf m)
    (hP : alertpool_deref m P'.mediatypeid P'.id = some P) (hloc : P'.location = P.location)
    (hq : P.location = ZBX_AM_LOCATION_QUEUE → P'.queue ≠ []) :
    am_wf (alertpool_store m P') := by
  constructor
  · exact hw.queue_mt
  · exact hw.mt_queue
  · exact hw.mt_loc
  · exact hw.queue_nodup
  · intro id M1 h1 pid hpid
    simp only [am_get_mediatype_alertpool_store] at h1
    obtain ⟨P1, h2, h3, h4⟩ := hw.mtq_pool id M1 h1 pid hpid
    rw [alertpool_deref_store hP]
    split
    · rename_i he
      obtain ⟨he1, he2⟩ := he
      subst he1 he2
      rw [hP] at h2; cases h2
      exact ⟨P', rfl, hloc ▸ h3, hq h3⟩
    · exact ⟨P1, h2, h3, h4⟩
  · intro mid pid P1 h1 hl
    rw [alertpool_deref_store hP] at h1
    simp only [am_get_mediatype_alertpool_store]
    split at h1
    · rename_i he
      obtain ⟨he1, he2⟩ := he
      subst he1 he2
      cases h1
      exact hw.pool_mtq _ _ P hP (hloc ▸ hl)
    · exact hw.pool_mtq mid pid P1 h1 hl
  · intro mid pid P1 h1
    rw [alertpool_deref_store hP] at h1
    split at h1
    · cases h1; rw [hloc]; exact hw.pool_loc _ _ P hP
    · exact hw.pool_loc mid pid P1 h1
  · exact hw.mtq_nodup
  · exact hw.mt_keys
  · show ((hashset_store alertpool_key m.alertpools P').map alertpool_key).Nodup
    rw [hashset_store_keys]; exact hw.pool_keys

/-! ## Well-formedness: changes of the manager queue and of a pool queue -/

theorem am_wf_set_queue {m : zbx_am_t} {q : List Nat} (hw : am_wf m) (hq : q.Perm m.queue) :
    am_wf { m with queue := q } := by
  constructor
  · intro id hid; exact hw.queue_mt id (hq.mem_iff.1 hid)
  · intro id M h1 h2; exact hq.mem_iff.2 (hw.mt_queue id M h1 h2)
  · exact hw.mt_loc
  · exact hq.nodup_iff.2 hw.queue_nodup
  · exact hw.mtq_pool
  · exact hw.pool_mtq
  · exact hw.pool_loc
  · exact hw.mtq_nodup
  · exact hw.mt_keys
  · exact hw.pool_keys

theorem am_wf_requeue_mediatype {m : zbx_am_t} {M M' : zbx_am_mediatype_t} {q : List Nat}
    (hw : am_wf m) (hM : am_get_mediatype m M'.mediatypeid = some M)
    (hq : M'.queue = M.queue)
    (hloc : M'.location = ZBX_AM_LOCATION_NOWHERE ∨ M'.location = ZBX_AM_LOCATION_QUEUE)
    (hmem : ∀ x, x ∈ q ↔ (x ≠ M'.mediatypeid ∧ x ∈ m.queue) ∨
      (x = M'.mediatypeid ∧ M'.location = ZBX_AM_LOCATION_QUEUE))
    (hnd : q.Nodup) (hne : M'.location = ZBX_AM_LOCATION_QUEUE → M'.queue ≠ []) :
    am_wf (mediatype_store { m with queue := q } M') := by
  have hM0 : am_get_mediatype { m with queue := q } M'.mediatypeid = some M := hM
  constructor
  · intro id hid
    rw [am_get_mediatype_store hM0]
    simp only [queue_mediatype_store] at hid
    rcases (hmem id).1 hid with ⟨h1, h2⟩ | ⟨h1, h2⟩
    · rw [if_neg h1]; exact hw.queue_mt id h2
    · rw [if_pos h1]; exact ⟨M', rfl, h2, hne h2⟩
  · intro id M1 h1 h2
    rw [am_get_mediatype_store hM0] at h1
    simp only [queue_mediatype_store]
    split at h1
    · rename_i he; cases h1
      exact (hmem id).2 (Or.inr ⟨he, h2⟩)
    · rename_i he
      exact (hmem id).2 (Or.inl ⟨he, hw.mt_queue id M1 h1 h2⟩)
  · intro id M1 h1
    rw [am_get_mediatype_store hM0] at h1
    split at h1
    · cases h1; exact hloc
    · exact hw.mt_loc id M1 h1
  · exact hnd
  · intro id M1 h1 pid hpid
    rw [am_get_mediatype_store hM0] at h1
    split at h1
    · rename_i he; subst he; cases h1
      exact hw.mtq_pool _ M hM pid (hq ▸ hpid)
    · exact hw.mtq_pool id M1 h1 pid hpid
  · intro mid pid P hP hl
    obtain ⟨M1, h1, h2⟩ := hw.pool_mtq mid pid P hP hl
    rw [am_get_mediatype_store hM0]
    split
    · rename_i he; subst he
      rw [hM] at h1; cases h1
      exact ⟨M', rfl, hq ▸ h2⟩
    · exact ⟨M1, h1, h2⟩
  · exact hw.pool_loc
  · intro id M1 h1
    rw [am_get_mediatype_store hM0] at h1
    split at h1
    · cases h1; rw [hq]; exact hw.mtq_nodup _ M hM
    · exact hw.mtq_nodup id M1 h1
  · show ((hashset_store mediatype_key m.mediatypes M').map mediatype_key).Nodup
    rw [hashset_store_keys]; exact hw.mt_keys
  · exact hw.pool_keys

theorem am_wf_requeue_alertpool {m : zbx_am_t} {M M' : zbx_am_mediatype_t}
    {P P' : zbx_am_alertpool_t} (hw : am_wf m)
    (hM : am_get_mediatype m M'.mediatypeid = some M)
    (hP : alertpool_deref m P'.mediatypeid P'.id = some P)
    (hmid : P'.mediatypeid = M'.mediatypeid)
    (hMloc : M'.location = M.location)
    (hPloc : P'.location = ZBX_AM_LOCATION_NOWHERE ∨ P'.location = ZBX_AM_LOCATION_QUEUE)
    (hmem : ∀ x, x ∈ M'.queue ↔ (x ≠ P'.id ∧ x ∈ M.queue) ∨
      (x = P'.id ∧ P'.location = ZBX_AM_LOCATION_QUEUE))
    (hnd : M'.queue.Nodup)
    (hPne : P'.location = ZBX_AM_LOCATION_QUEUE → P'.queue ≠ [])
    (hMne : M.location = ZBX_AM_LOCATION_QUEUE → M'.queue ≠ []) :
    am_wf (alertpool_store (mediatype_store m M') P') := by
  have hP0 : alertpool_deref (mediatype_store m M') P'.mediatypeid P'.id = some P := hP
  constructor
  · intro id hid
    simp only [am_get_mediatype_alertpool_store]
    obtain ⟨M1, h1, h2, h3⟩ := hw.queue_mt id hid
    rw [am_get_mediatype_store hM]
    split
    · rename_i he; subst he
      rw [hM] at h1; cases h1
      exact ⟨M', rfl, hMloc ▸ h2, hMne h2⟩
    · exact ⟨M1, h1, h2, h3⟩
  · intro id M1 h1 h2
    simp only [am_get_mediatype_alertpool_store] at h1
    rw [am_get_mediatype_store hM] at h1
    split at h1
    · rename_i he; subst he; cases h1
      exact hw.mt_queue _ M hM (hMloc ▸ h2)
    · exact hw.mt_queue id M1 h1 h2
  · intro id M1 h1
    simp only [am_get_mediatype_alertpool_store] at h1
    rw [am_get_mediatype_store hM] at h1
    split at h1
    · cases h1; rw [hMloc]; exact hw.mt_loc _ M hM
    · exact hw.mt_loc id M1 h1
  · exact hw.queue_nodup
  · intro id M1 h1 pid hpid
    simp only [am_get_mediatype_alertpool_store] at h1
    rw [am_get_mediatype_store hM] at h1
    rw [alertpool_deref_store hP0]
    simp only [alertpool_deref_mediatype_store]
    split at h1
    · rename_i he; subst he; cases h1
      rcases (hmem pid).1 hpid with ⟨h2, h3⟩ | ⟨h2, h3⟩
      · rw [if_neg (fun hh => h2 hh.2)]
        exact hw.mtq_pool _ M hM pid h3
      · rw [if_pos ⟨hmid.symm, h2⟩]
        exact ⟨P', rfl, h3, hPne h3⟩
    · rename_i he
      rw [if_neg (fun hh => he (hh.1.trans hmid))]
      exact hw.mtq_pool id M1 h1 pid hpid
  · intro mid pid P1 h1 hl
    rw [alertpool_deref_store hP0] at h1
    simp only [alertpool_deref_mediatype_store] at h1
    simp only [am_get_mediatype_alertpool_store]
    rw [am_get_mediatype_store hM]
    split at h1
    · rename_i he
      obtain ⟨he1, he2⟩ := he
      cases h1
      rw [if_pos (he1.trans hmid)]
      exact ⟨M', rfl, (hmem pid).2 (Or.inr ⟨he2, hl⟩)⟩
    · rename_i he
      obtain ⟨M1, h2, h3⟩ := hw.pool_mtq mid pid P1 h1 hl
      split
      · rename_i he2
        rw [he2, hM] at h2; cases h2
        refine ⟨M', rfl, (hmem pid).2 (Or.inl ⟨fun hh => he ⟨he2.trans hmid.symm, hh⟩, h3⟩)⟩
      · exact ⟨M1, h2, h3⟩
  · intro mid pid P1 h1
    rw [alertpool_deref_store hP0] at h1
    simp only [alertpool_deref_mediatype_store] at h1
    split at h1
    · cases h1; exact hPloc
    · exact hw.pool_loc mid pid P1 h1
  · intro id M1 h1
    simp only [am_get_mediatype_alertpool_store] at h1
    rw [am_get_mediatype_store hM] at h1
    split at h1
    · cases h1; exact hnd
    · exact hw.mtq_nodup id M1 h1
  · show ((hashset_store mediatype_key m.mediatypes M').map mediatype_key).Nodup
    rw [hashset_store_keys]; exact hw.mt_keys
  · show ((hashset_store alertpool_key m.alertpools P').map alertpool_key).Nodup
    rw [hashset_store_keys]; exact hw.pool_keys

theorem store_comm (m : zbx_am_t) (M : zbx_am_mediatype_t) (P : zbx_am_alertpool_t) :
    mediatype_store (alertpool_store m P) M = alertpool_store (mediatype_store m M) P := rfl

/-! ## Well-formedness: creating and destroying objects -/

theorem am_wf_get_alertpool {m : zbx_am_t} (hw : am_wf m) (mid pid : Nat) :
    am_wf (am_get_alertpool m mid pid).2 := by
  cases hs : alertpool_deref m mid pid with
  | some P => rw [am_get_alertpool_some hs]; exact hw
  | none =>
    have hd := am_get_alertpool_deref m mid pid
    rw [am_get_alertpool_none hs] at hd ⊢
    obtain ⟨hd1, hd2, -, -, -⟩ := hd
    simp only at hd1 hd2
    constructor
    · exact hw.queue_mt
    · exact hw.mt_queue
    · exact hw.mt_loc
    · exact hw.queue_nodup
    · intro id M1 h1 pid1 hpid1
      obtain ⟨P1, h2, h3, h4⟩ := hw.mtq_pool id M1 h1 pid1 hpid1
      refine ⟨P1, ?_, h3, h4⟩
      rw [hd2 id pid1 ?_]; exact h2
      rintro ⟨e1, e2⟩; subst e1 e2; rw [hs] at h2; cases h2
    · intro mid1 pid1 P1 h1 hl
      by_cases he : mid1 = mid ∧ pid1 = pid
      · obtain ⟨e1, e2⟩ := he; subst e1 e2
        rw [hd1] at h1; cases h1; cases hl
      · rw [hd2 mid1 pid1 he] at h1
        exact hw.pool_mtq mid1 pid1 P1 h1 hl
    · intro mid1 pid1 P1 h1
      by_cases he : mid1 = mid ∧ pid1 = pid
      · obtain ⟨e1, e2⟩ := he; subst e1 e2
        rw [hd1] at h1; cases h1; exact Or.inl rfl
      · rw [hd2 mid1 pid1 he] at h1
        exact hw.pool_loc mid1 pid1 P1 h1
    · exact hw.mtq_nodup
    · exact hw.mt_keys
    · exact hashset_cons_keys_nodup alertpool_key m.alertpools _ hw.pool_keys hs

theorem am_wf_remove_alertpool {m : zbx_am_t} (hw : am_wf m) (mid pid : Nat)
    (hloc : ∀ P, alertpool_deref m mid pid = some P → P.location ≠ ZBX_AM_LOCATION_QUEUE) :
    am_wf (am_remove_alertpool m mid pid) := by
  constructor
  · exact hw.queue_mt
  · exact hw.mt_queue
  · exact hw.mt_loc
  · exact hw.queue_nodup
  · intro id M1 h1 pid1 hpid1
    obtain ⟨P1, h2, h3, h4⟩ := hw.mtq_pool id M1 h1 pid1 hpid1
    refine ⟨P1, ?_, h3, h4⟩
    rw [am_remove_alertpool_deref, if_neg]; exact h2
    rintro ⟨e1, e2⟩; subst e1 e2; exact hloc P1 h2 h3
  · intro mid1 pid1 P1 h1 hl
    rw [am_remove_alertpool_deref] at h1
    split at h1
    · cases h1
    · exact hw.pool_mtq mid1 pid1 P1 h1 hl
  · intro mid1 pid1 P1 h1
    rw [am_remove_alertpool_deref] at h1
    split at h1
    · cases h1
    · exact hw.pool_loc mid1 pid1 P1 h1
  · exact hw.mtq_nodup
  · exact hw.mt_keys
  · exact hashset_remove_keys_nodup alertpool_key m.alertpools _ hw.pool_keys

theorem am_wf_remove_mediatype {m : zbx_am_t} (hw : am_wf m) (id : Nat)
    (hq : ∀ M, am_get_mediatype m id = some M → M.queue = []) :
    am_wf (am_remove_mediatype m id) := by
  constructor
  · intro id1 hid1
    obtain ⟨M1, h1, h2, h3⟩ := hw.queue_mt id1 hid1
    refine ⟨M1, ?_, h2, h3⟩
    rw [am_remove_mediatype_get, if_neg]; exact h1
    intro e; subst e; exact h3 (hq M1 h1)
  · intro id1 M1 h1 h2
    rw [am_remove_mediatype_get] at h1
    split at h1
    · cases h1
    · exact hw.mt_queue id1 M1 h1 h2
  · intro id1 M1 h1
    rw [am_remove_mediatype_get] at h1
    split at h1
    · cases h1
    · exact hw.mt_loc id1 M1 h1
  · exact hw.queue_nodup
  · intro id1 M1 h1 pid1 hpid1
    rw [am_remove_mediatype_get] at h1
    split at h1
    · cases h1
    · exact hw.mtq_pool id1 M1 h1 pid1 hpid1
  · intro mid1 pid1 P1 h1 hl
    obtain ⟨M1, h2, h3⟩ := hw.pool_mtq mid1 pid1 P1 h1 hl
    refine ⟨M1, ?_, h3⟩
    rw [am_remove_mediatype_get, if_neg]; exact h2
    intro e; subst e; rw [hq M1 h2] at h3; cases h3
  · exact hw.pool_loc
  · intro id1 M1 h1
    rw [am_remove_mediatype_get] at h1
    split at h1
    · cases h1
    · exact hw.mtq_nodup id1 M1 h1
  · exact hashset_remove_keys_nodup mediatype_key m.mediatypes _ hw.mt_keys
  · exact hw.pool_keys

/-- The media type am_update_mediatype writes for the id: the found (or new) object with the
configuration replaced. -/
theorem am_update_mediatype_get (m : zbx_am_t) (id : Nat) (a : am_mediatype_args) (id' : Nat) :
    am_get_mediatype (am_update_mediatype m id a) id' =
      if id' = id then
        some { ((am_get_mediatype m id).getD (mediatype_local id)) with
          type := a.type, description := a.description, smtp_server := a.smtp_server,
          smtp_helo := a.smtp_helo, smtp_email := a.smtp_email, exec_path := a.exec_path,
          exec_params := a.exec_params, gsm_modem := a.gsm_modem, username := a.username,
          passwd := a.passwd, smtp_port := a.smtp_port, smtp_security := a.smtp_security,
          smtp_verify_peer := a.smtp_verify_peer, smtp_verify_host := a.smtp_verify_host,
          smtp_authentication := a.smtp_authentication, maxsessions := a.maxsessions,
          maxattempts := a.maxattempts, attempt_interval := a.attempt_interval }
      else am_get_mediatype m id' := by
  unfold am_update_mediatype
  cases hs : am_get_mediatype m id with
  | some M =>
    have hk := am_get_mediatype_key hs
    simp only [Option.getD_some]
    have hs2 : am_get_mediatype m
        ({ M with
          type := a.type, description := a.description, smtp_server := a.smtp_server,
          smtp_helo := a.smtp_helo, smtp_email := a.smtp_email, exec_path := a.exec_path,
          exec_params := a.exec_params, gsm_modem := a.gsm_modem, username := a.username,
          passwd := a.passwd, smtp_port := a.smtp_port, smtp_security := a.smtp_security,
          smtp_verify_peer := a.smtp_verify_peer, smtp_verify_host := a.smtp_verify_host,
          smtp_authentication := a.smtp_authentication, maxsessions := a.maxsessions,
          maxattempts := a.maxattempts,
          attempt_interval := a.attempt_interval } : zbx_am_mediatype_t).mediatypeid = some M := by
      rw [← hk] at hs; exact hs
    rw [am_get_mediatype_store hs2]
    simp [hk]
  | none =>
    simp only [Option.getD_none]
    have h0 : am_get_mediatype
        { m with mediatypes :=
          zbx_hashset_insert mediatype_key m.mediatypes (mediatype_local id) } id
        = some (mediatype_local id) := by
      unfold am_get_mediatype at hs ⊢
      simp only
      rw [zbx_hashset_search_insert _ _ _ _ (by simpa [mediatype_key, mediatype_local] using hs)]
      simp [mediatype_key, mediatype_local]
    have h02 : am_get_mediatype
        { m with mediatypes :=
          zbx_hashset_insert mediatype_key m.mediatypes (mediatype_local id) }
        ({ mediatype_local id with
          type := a.type, description := a.description, smtp_server := a.smtp_server,
          smtp_helo := a.smtp_helo, smtp_email := a.smtp_email, exec_path := a.exec_path,
          exec_params := a.exec_params, gsm_modem := a.gsm_modem, username := a.username,
          passwd := a.passwd, smtp_port := a.smtp_port, smtp_security := a.smtp_security,
          smtp_verify_peer := a.smtp_verify_peer, smtp_verify_host := a.smtp_verify_host,
          smtp_authentication := a.smtp_authentication, maxsessions := a.maxsessions,
          maxattempts := a.maxattempts,
          attempt_interval := a.attempt_interval } : zbx_am_mediatype_t).mediatypeid
        = some (mediatype_local id) := h0
    rw [am_get_mediatype_store h02]
    by_cases he : id' = id
    · simp [he, mediatype_local]
    · simp only [mediatype_local, he, if_false]
      unfold am_get_mediatype at hs ⊢
      simp only
      rw [zbx_hashset_search_insert _ _ _ _ (by simpa [mediatype_key, mediatype_local] using hs)]
      simp [mediatype_key, he]

@[simp] theorem am_update_mediatype_deref (m : zbx_am_t) (id : Nat) (a : am_mediatype_args)
    (mid pid : Nat) :
    alertpool_deref (am_update_mediatype m id a) mid pid = alertpool_deref m mid pid := by
  unfold am_update_mediatype
  cases am_get_mediatype m id <;> rfl

@[simp] theorem am_update_mediatype_queue (m : zbx_am_t) (id : Nat) (a : am_mediatype_args) :
    (am_update_mediatype m id a).queue = m.queue := by
  unfold am_update_mediatype
  cases am_get_mediatype m id <;> rfl

@[simp] theorem am_update_mediatype_alertpools (m : zbx_am_t) (id : Nat)
    (a : am_mediatype_args) : (am_update_mediatype m id a).alertpools = m.alertpools := by
  unfold am_update_mediatype
  cases am_get_mediatype m id <;> rfl

theorem am_update_mediatype_keys (m : zbx_am_t) (id : Nat) (a : am_mediatype_args)
    (h : (m.mediatypes.map mediatype_key).Nodup) :
    ((am_update_mediatype m id a).mediatypes.map mediatype_key).Nodup := by
  unfold am_update_mediatype
  cases hs : am_get_mediatype m id with
  | some M =>
    show ((hashset_store mediatype_key m.mediatypes _).map mediatype_key).Nodup
    rw [hashset_store_keys]; exact h
  | none =>
    show ((hashset_store mediatype_key
      (zbx_hashset_insert mediatype_key m.mediatypes (mediatype_local id)) _).map
        mediatype_key).Nodup
    rw [hashset_store_keys]
    have hs2 : zbx_hashset_search mediatype_key m.mediatypes
        (mediatype_key (mediatype_local id)) = none := by
      simpa [mediatype_key, mediatype_local, am_get_mediatype] using hs
    unfold zbx_hashset_insert
    rw [hs2]
    exact hashset_cons_keys_nodup mediatype_key m.mediatypes _ h hs2

theorem am_wf_update_mediatype {m : zbx_am_t} (hw : am_wf m) (id : Nat)
    (a : am_mediatype_args) : am_wf (am_update_mediatype m id a) := by
  have hg := am_update_mediatype_get m id a
  have key : ∀ M1, am_get_mediatype (am_update_mediatype m id a) id = some M1 →
      (∃ M, am_get_mediatype m id = some M ∧ M1.location = M.location ∧ M1.queue = M.queue) ∨
      (am_get_mediatype m id = none ∧ M1.location = ZBX_AM_LOCATION_NOWHERE ∧ M1.queue = []) := by
    intro M1 h1
    rw [hg, if_pos rfl] at h1
    cases hs : am_get_mediatype m id with
    | some M =>
      rw [hs] at h1; simp only [Option.getD_some] at h1
      cases h1
      exact Or.inl ⟨M, rfl, rfl, rfl⟩
    | none =>
      rw [hs] at h1; simp only [Option.getD_none] at h1
      cases h1
      exact Or.inr ⟨rfl, rfl, rfl⟩
  have hex : ∀ M, am_get_mediatype m id = some M →
      ∃ M1, am_get_mediatype (am_update_mediatype m id a) id = some M1 ∧
        M1.location = M.location ∧ M1.queue = M.queue := by
    intro M hM
    rw [hg, if_pos rfl, hM]
    exact ⟨_, rfl, rfl, rfl⟩
  constructor
  · intro id1 hid1
    simp only [am_update_mediatype_queue] at hid1
    obtain ⟨M, h1, h2, h3⟩ := hw.queue_mt id1 hid1
    by_cases he : id1 = id
    · subst he
      obtain ⟨M1, h4, h5, h6⟩ := hex M h1
      exact ⟨M1, h4, h5 ▸ h2, h6 ▸ h3⟩
    · rw [hg, if_neg he]; exact ⟨M, h1, h2, h3⟩
  · intro id1 M1 h1 h2
    simp only [am_update_mediatype_queue]
    by_cases he : id1 = id
    · subst he
      rcases key M1 h1 with ⟨M, h3, h4, -⟩ | ⟨-, h4, -⟩
      · exact hw.mt_queue _ M h3 (h4 ▸ h2)
      · rw [h4] at h2; cases h2
    · rw [hg, if_neg he] at h1; exact hw.mt_queue id1 M1 h1 h2
  · intro id1 M1 h1
    by_cases he : id1 = id
    · subst he
      rcases key M1 h1 with ⟨M, h3, h4, -⟩ | ⟨-, h4, -⟩
      · rw [h4]; exact hw.mt_loc _ M h3
      · exact Or.inl h4
    · rw [hg, if_neg he] at h1; exact hw.mt_loc id1 M1 h1
  · simp only [am_update_mediatype_queue]; exact hw.queue_nodup
  · intro id1 M1 h1 pid1 hpid1
    simp only [am_update_mediatype_deref]
    by_cases he : id1 = id
    · subst he
      rcases key M1 h1 with ⟨M, h3, -, h5⟩ | ⟨-, -, h5⟩
      · exact hw.mtq_pool _ M h3 pid1 (h5 ▸ hpid1)
      · rw [h5] at hpid1; cases hpid1
    · rw [hg, if_neg he] at h1; exact hw.mtq_pool id1 M1 h1 pid1 hpid1
  · intro mid1 pid1 P1 h1 hl
    simp only [am_update_mediatype_deref] at h1
    obtain ⟨M, h2, h3⟩ := hw.pool_mtq mid1 pid1 P1 h1 hl
    by_cases he : mid1 = id
    · subst he
      obtain ⟨M1, h4, -, h6⟩ := hex M h2
      exact ⟨M1, h4, h6 ▸ h3⟩
    · rw [hg, if_neg he]; exact ⟨M, h2, h3⟩
  · intro mid1 pid1 P1 h1
    simp only [am_update_mediatype_deref] at h1
    exact hw.pool_loc mid1 pid1 P1 h1
  · intro id1 M1 h1
    by_cases he : id1 = id
    · subst he
      rcases key M1 h1 with ⟨M, h3, -, h5⟩ | ⟨-, -, h5⟩
      · rw [h5]; exact hw.mtq_nodup _ M h3
      · rw [h5]; exact List.nodup_nil
    · rw [hg, if_neg he] at h1; exact hw.mtq_nodup id1 M1 h1
  · exact am_update_mediatype_keys m id a hw.mt_keys
  · simp only [am_update_mediatype_alertpools]; exact hw.pool_keys

/-! ## Well-formedness is kept by the queue primitives -/

theorem am_wf_push_meditype {m m' : zbx_am_t} {id : Nat} (hw : am_wf m)
    (h : am_push_meditype m id = some m') : am_wf m' := by
  obtain ⟨M, hM, hk, h⟩ := am_push_meditype_inv h
  rcases h with ⟨-, rfl⟩ | ⟨hne, hloc, -, q, hq, rfl⟩ | ⟨-, -, -, rfl⟩ | ⟨-, -, q, hq, rfl⟩
  · exact hw
  · obtain ⟨hp, hnm⟩ := zbx_binary_heap_insert_perm _ _ _ _ _ hq
    have hnm := hnm rfl
    have hMs : am_get_mediatype m
        ({ M with location := ZBX_AM_LOCATION_QUEUE } : zbx_am_mediatype_t).mediatypeid
          = some M := by rw [← hk] at hM; exact hM
    apply am_wf_requeue_mediatype hw hMs rfl (Or.inr rfl)
    · intro x
      show x ∈ q ↔ (x ≠ M.mediatypeid ∧ x ∈ m.queue) ∨
        (x = M.mediatypeid ∧ ZBX_AM_LOCATION_QUEUE = ZBX_AM_LOCATION_QUEUE)
      rw [hp.mem_iff, List.mem_cons, hk]
      constructor
      · rintro (h1 | h1)
        · exact Or.inr ⟨h1, rfl⟩
        · exact Or.inl ⟨fun e => hnm (e ▸ h1), h1⟩
      · rintro (⟨-, h1⟩ | ⟨h1, -⟩)
        · exact Or.inr h1
        · exact Or.inl h1
    · rw [hp.nodup_iff, List.nodup_cons]; exact ⟨hnm, hw.queue_nodup⟩
    · intro _; exact hne
  · exact hw
  · exact am_wf_set_queue hw (zbx_binary_heap_update_direct_perm _ _ _ _ hq).1

theorem am_wf_pop_mediatype {m m' : zbx_am_t} {id : Nat} (hw : am_wf m)
    (h : am_pop_mediatype m = some (some id, m')) :
    am_wf m' ∧ ∃ M, am_get_mediatype m' id = some M ∧
      M.location = ZBX_AM_LOCATION_NOWHERE ∧ M.queue ≠ [] ∧ id ∉ m'.queue := by
  rcases am_pop_mediatype_inv h with ⟨-, h2⟩ | ⟨id1, t, M, q, hq0, hM, hq, h2⟩
  · cases h2
  · cases h2
    have hk := am_get_mediatype_key hM
    have hp := zbx_binary_heap_remove_min_perm _ id t q (hq0 ▸ hq)
    have hnd := hw.queue_nodup
    rw [hq0, List.nodup_cons] at hnd
    obtain ⟨M0, hM0, -, hne⟩ := hw.queue_mt id (by rw [hq0]; exact List.mem_cons_self _ _)
    rw [hM] at hM0; cases hM0
    have hMs : am_get_mediatype m
        ({ M with location := ZBX_AM_LOCATION_NOWHERE } : zbx_am_mediatype_t).mediatypeid
          = some M := by rw [← hk] at hM; exact hM
    refine ⟨(?_ : am_wf (mediatype_store { m with queue := q }
      { M with location := ZBX_AM_LOCATION_NOWHERE })), ?_⟩
    · apply am_wf_requeue_mediatype hw hMs rfl (Or.inl rfl)
      · intro x
        show x ∈ q ↔ (x ≠ M.mediatypeid ∧ x ∈ m.queue) ∨
          (x = M.mediatypeid ∧ ZBX_AM_LOCATION_NOWHERE = ZBX_AM_LOCATION_QUEUE)
        rw [hp.mem_iff, hq0, List.mem_cons, hk]
        constructor
        · intro h1; exact Or.inl ⟨fun e => hnd.1 (e ▸ h1), Or.inr h1⟩
        · rintro (⟨h1, h2 | h2⟩ | ⟨-, h2⟩)
          · exact absurd h2 h1
          · exact h2
          · cases h2
      · exact hp.nodup_iff.2 hnd.2
      · intro h1; cases h1
    · refine ⟨{ M with location := ZBX_AM_LOCATION_NOWHERE }, ?_, rfl, hne, ?_⟩
      · have hMs2 : am_get_mediatype { m with queue := q }
            ({ M with location := ZBX_AM_LOCATION_NOWHERE } : zbx_am_mediatype_t).mediatypeid
              = some M := hMs
        have := am_get_mediatype_store hMs2 id
        rw [if_pos hk.symm] at this
        exact this
      · show id ∉ q
        rw [hp.mem_iff]; exact hnd.1

theorem am_wf_push_alertpool {m m' : zbx_am_t} {mid pid : Nat} (hw : am_wf m)
    (h : am_push_alertpool m mid pid = some m')
    (hne : ∀ P, alertpool_deref m mid pid = some P → P.queue ≠ []) :
    am_wf m' ∧ ∃ M, am_get_mediatype m' mid = some M ∧ M.queue ≠ [] := by
  obtain ⟨M, P, hM, hP, h⟩ := am_push_alertpool_inv h
  have hk := am_get_mediatype_key hM
  obtain ⟨hk1, hk2⟩ := alertpool_deref_key hP
  rcases h with ⟨hloc, q, hq, rfl⟩ | ⟨hloc, q, hq, rfl⟩
  · obtain ⟨hp, hnm⟩ := zbx_binary_heap_insert_perm _ _ _ _ _ hq
    have hnm := hnm rfl
    have hMs : am_get_mediatype m ({ M with queue := q } : zbx_am_mediatype_t).mediatypeid
        = some M := by rw [← hk] at hM; exact hM
    have hPs : alertpool_deref m
        ({ P with location := ZBX_AM_LOCATION_QUEUE } : zbx_am_alertpool_t).mediatypeid
        ({ P with location := ZBX_AM_LOCATION_QUEUE } : zbx_am_alertpool_t).id = some P := by
      rw [← hk1, ← hk2] at hP; exact hP
    have hqne : q ≠ [] := by
      intro e; rw [e] at hp; exact List.cons_ne_nil _ _ (List.perm_nil.1 hp.symm)
    refine ⟨?_, ?_⟩
    · apply am_wf_requeue_alertpool hw hMs hPs (hk2.trans hk.symm) rfl (Or.inr rfl)
      · intro x
        show x ∈ q ↔ (x ≠ P.id ∧ x ∈ M.queue) ∨
          (x = P.id ∧ ZBX_AM_LOCATION_QUEUE = ZBX_AM_LOCATION_QUEUE)
        rw [hp.mem_iff, List.mem_cons, hk1]
        constructor
        · rintro (h1 | h1)
          · exact Or.inr ⟨h1, rfl⟩
          · exact Or.inl ⟨fun e => hnm (e ▸ h1), h1⟩
        · rintro (⟨-, h1⟩ | ⟨h1, -⟩)
          · exact Or.inr h1
          · exact Or.inl h1
      · show q.Nodup
        rw [hp.nodup_iff, List.nodup_cons]; exact ⟨hnm, hw.mtq_nodup mid M hM⟩
      · intro _; exact hne P hP
      · intro _; exact hqne
    · refine ⟨{ M with queue := q }, ?_, hqne⟩
      simp only [am_get_mediatype_alertpool_store]
      rw [am_get_mediatype_store hMs, if_pos hk.symm]
  · obtain ⟨hp, hmem⟩ := zbx_binary_heap_update_direct_perm _ _ _ _ hq
    have hMs : am_get_mediatype m ({ M with queue := q } : zbx_am_mediatype_t).mediatypeid
        = some M := by rw [← hk] at hM; exact hM
    have hqne : q ≠ [] := by
      intro e; rw [e] at hp; rw [List.perm_nil.1 hp.symm] at hmem; cases hmem
    refine ⟨am_wf_store_mediatype hw hMs rfl hp, { M with queue := q }, ?_, hqne⟩
    rw [am_get_mediatype_store hMs, if_pos hk.symm]

theorem am_wf_pop_alertpool {m m' : zbx_am_t} {mid pid : Nat} (hw : am_wf m)
    (h : am_pop_alertpool m mid = some (some pid, m')) (hnq : mid ∉ m.queue) :
    am_wf m' ∧ ∃ P, alertpool_deref m' mid pid = some P ∧
      P.location = ZBX_AM_LOCATION_NOWHERE ∧ P.queue ≠ [] := by
  obtain ⟨M, hM, h⟩ := am_pop_alertpool_inv h
  rcases h with ⟨-, h2⟩ | ⟨pid1, t, P, q, hq0, hP, hq, h2⟩
  · cases h2
  · cases h2
    have hk := am_get_mediatype_key hM
    obtain ⟨hk1, hk2⟩ := alertpool_deref_key hP
    have hp := zbx_binary_heap_remove_min_perm _ pid t q (hq0 ▸ hq)
    have hnd := hw.mtq_nodup mid M hM
    rw [hq0, List.nodup_cons] at hnd
    obtain ⟨P0, hP0, -, hPne⟩ := hw.mtq_pool mid M hM pid (by rw [hq0]; exact List.mem_cons_self _ _)
    rw [hP] at hP0; cases hP0
    have hMs : am_get_mediatype m ({ M with queue := q } : zbx_am_mediatype_t).mediatypeid
        = some M := by rw [← hk] at hM; exact hM
    have hPs : alertpool_deref m
        ({ P with location := ZBX_AM_LOCATION_NOWHERE } : zbx_am_alertpool_t).mediatypeid
        ({ P with location := ZBX_AM_LOCATION_NOWHERE } : zbx_am_alertpool_t).id = some P := by
      rw [← hk1, ← hk2] at hP; exact hP
    rw [store_comm]
    refine ⟨?_, ?_⟩
    · apply am_wf_requeue_alertpool hw hMs hPs (hk2.trans hk.symm) rfl (Or.inl rfl)
      · intro x
        show x ∈ q ↔ (x ≠ P.id ∧ x ∈ M.queue) ∨
          (x = P.id ∧ ZBX_AM_LOCATION_NOWHERE = ZBX_AM_LOCATION_QUEUE)
        rw [hp.mem_iff, hq0, List.mem_cons, hk1]
        constructor
        · intro h1; exact Or.inl ⟨fun e => hnd.1 (e ▸ h1), Or.inr h1⟩
        · rintro (⟨h1, h2 | h2⟩ | ⟨-, h2⟩)
          · exact absurd h2 h1
          · exact h2
          · cases h2
      · exact hp.nodup_iff.2 hnd.2
      · intro h1; cases h1
      · intro h1; exact absurd (hw.mt_queue mid M hM h1) hnq
    · refine ⟨{ P with location := ZBX_AM_LOCATION_NOWHERE }, ?_, rfl, hPne⟩
      have hPs' : alertpool_deref (mediatype_store m { M with queue := q })
        ({ P with location := ZBX_AM_LOCATION_NOWHERE } : zbx_am_alertpool_t).mediatypeid
        ({ P with location := ZBX_AM_LOCATION_NOWHERE } : zbx_am_alertpool_t).id = some P := hPs
      rw [alertpool_deref_store hPs', if_pos ⟨hk2.symm, hk1.symm⟩]

theorem am_wf_push_alert {m m' : zbx_am_t} {mid pid : Nat} {a : zbx_am_alert_t} (hw : am_wf m)
    (h : am_push_alert m mid pid a = some m') :
    am_wf m' ∧ ∀ P, alertpool_deref m' mid pid = some P → P.queue ≠ [] := by
  obtain ⟨P, q, hP, hq, rfl⟩ := am_push_alert_inv h
  obtain ⟨hk1, hk2⟩ := alertpool_deref_key hP
  obtain ⟨hp, -⟩ := zbx_binary_heap_insert_perm _ _ _ _ _ hq
  have hqne : q ≠ [] := by
    intro e; rw [e] at hp; exact List.cons_ne_nil _ _ (List.perm_nil.1 hp.symm)
  have hPs : alertpool_deref m ({ P with queue := q } : zbx_am_alertpool_t).mediatypeid
      ({ P with queue := q } : zbx_am_alertpool_t).id = some P := by
    rw [← hk1, ← hk2] at hP; exact hP
  refine ⟨am_wf_store_alertpool hw hPs rfl (fun _ => hqne), ?_⟩
  intro P1 h1
  rw [alertpool_deref_store hPs, if_pos ⟨hk2.symm, hk1.symm⟩] at h1
  cases h1
  exact hqne

/-! ## Inversion of the composite operations -/

theorem am_pop_alert_nil {m : zbx_am_t} (h : m.queue = []) :
    am_pop_alert m = some (none, m) := by
  unfold am_pop_alert
  rw [am_pop_mediatype_nil h]
  rfl

theorem am_pop_alert_none {m m' : zbx_am_t} (h : am_pop_alert m = some (none, m')) :
    m.queue = [] ∧ m' = m := by
  unfold am_pop_alert at h
  rw [Option.bind_eq_some] at h
  obtain ⟨r1, h1, h⟩ := h
  rcases am_pop_mediatype_inv h1 with ⟨hq, rfl⟩ | ⟨id, t, M, q, -, -, -, rfl⟩
  · simp only [Option.some.injEq, Prod.mk.injEq, true_and] at h
    exact ⟨hq, h.symm⟩
  · simp only [Option.bind_eq_some] at h
    obtain ⟨r2, -, pid, -, P, -, a, -, q2, -, M2, -, h⟩ := h
    split at h
    · rw [Option.bind_eq_some] at h
      obtain ⟨m5, -, h⟩ := h
      cases h
    · cases h

theorem am_pop_alert_inv {m m' : zbx_am_t} {a : zbx_am_alert_t}
    (h : am_pop_alert m = some (some a, m')) :
    ∃ id m1 pid m2 P q M,
      am_pop_mediatype m = some (some id, m1) ∧
      am_pop_alertpool m1 id = some (some pid, m2) ∧
      alertpool_deref m2 id pid = some P ∧
      P.queue.head? = some a ∧
      zbx_binary_heap_remove_min am_alert_queue_compare P.queue = some q ∧
      am_get_mediatype (alertpool_store m2 { P with queue := q }) id = some M ∧
      (((M.maxsessions = 0 ∨ M.alerts_num + 1 < M.maxsessions) ∧
          am_push_meditype
            (mediatype_store (alertpool_store m2 { P with queue := q })
              { M with alerts_num := M.alerts_num + 1 }) id = some m') ∨
       (¬ (M.maxsessions = 0 ∨ M.alerts_num + 1 < M.maxsessions) ∧
          m' = mediatype_store (alertpool_store m2 { P with queue := q })
              { M with alerts_num := M.alerts_num + 1 })) := by
  unfold am_pop_alert at h
  rw [Option.bind_eq_some] at h
  obtain ⟨r1, h1, h⟩ := h
  obtain ⟨o1, m1⟩ := r1
  cases o1 with
  | none => simp at h
  | some id =>
    simp only [Option.bind_eq_some] at h
    obtain ⟨r2, h2, pid, hpid, P, hP, a1, ha1, q, hq, M, hM, h⟩ := h
    obtain ⟨o2, m2⟩ := r2
    simp only at hpid hP hM h
    subst hpid
    refine ⟨id, m1, pid, m2, P, q, M, h1, h2, hP, ?_, hq, hM, ?_⟩
    · split at h
      · rw [Option.bind_eq_some] at h
        obtain ⟨m5, -, h⟩ := h
        cases h; exact ha1
      · cases h; exact ha1
    · split at h
      · rename_i hc
        rw [Option.bind_eq_some] at h
        obtain ⟨m5, h5, h⟩ := h
        cases h
        exact Or.inl ⟨hc, h5⟩
      · rename_i hc
        cases h
        exact Or.inr ⟨hc, rfl⟩

theorem am_db_queue_alert_inv {m m' : zbx_am_t} {a : zbx_am_alert_t}
    (h : am_db_queue_alert m a = some m') :
    (am_get_mediatype m a.mediatypeid = none ∧ m' = m) ∨
    ∃ M m2 m3, am_get_mediatype m a.mediatypeid = some M ∧
      am_push_alert (am_get_alertpool m a.mediatypeid a.alertpoolid).2 a.mediatypeid
        a.alertpoolid a = some m2 ∧
      am_push_alertpool m2 a.mediatypeid a.alertpoolid = some m3 ∧
      am_push_meditype m3 a.mediatypeid = some m' := by
  unfold am_db_queue_alert at h
  split at h
  · rename_i hn
    exact Or.inl ⟨hn, (Option.some.inj h).symm⟩
  · rename_i M hM
    simp only [Option.bind_eq_some] at h
    obtain ⟨m2, h2, m3, h3, h4⟩ := h
    exact Or.inr ⟨M, m2, m3, hM, h2, h3, h4⟩

theorem am_remove_alert_inv {m m' : zbx_am_t} {a : zbx_am_alert_t}
    (h : am_remove_alert m a = some m') :
    (am_get_mediatype m a.mediatypeid = none ∧ m' = m) ∨
    ∃ M m3 M3, am_get_mediatype m a.mediatypeid = some M ∧
      (((am_get_alertpool
            (mediatype_store m { M with alerts_num := M.alerts_num - 1 })
            a.mediatypeid a.alertpoolid).1.queue = [] ∧
          m3 = am_remove_alertpool
            (am_get_alertpool
              (mediatype_store m { M with alerts_num := M.alerts_num - 1 })
              a.mediatypeid a.alertpoolid).2 a.mediatypeid a.alertpoolid) ∨
       ((am_get_alertpool
            (mediatype_store m { M with alerts_num := M.alerts_num - 1 })
            a.mediatypeid a.alertpoolid).1.queue ≠ [] ∧
          am_push_alertpool
            (am_get_alertpool
              (mediatype_store m { M with alerts_num := M.alerts_num - 1 })
              a.mediatypeid a.alertpoolid).2 a.mediatypeid a.alertpoolid = some m3)) ∧
      am_get_mediatype m3 a.mediatypeid = some M3 ∧
      ((M3.queue = [] ∧ M3.alerts_num = 0 ∧ m' = am_remove_mediatype m3 a.mediatypeid) ∨
       (¬ (M3.queue = [] ∧ M3.alerts_num = 0) ∧ am_push_meditype m3 a.mediatypeid = some m')) := by
  unfold am_remove_alert at h
  split at h
  · rename_i hn
    exact Or.inl ⟨hn, (Option.some.inj h).symm⟩
  · rename_i M hM
    simp only [Option.bind_eq_some] at h
    obtain ⟨m3, h3, M3, hM3, h⟩ := h
    refine Or.inr ⟨M, m3, M3, hM, ?_, hM3, ?_⟩
    · split at h3
      · rename_i he
        exact Or.inl ⟨(heap_empty_iff _).1 he, (Option.some.inj h3).symm⟩
      · rename_i he
        exact Or.inr ⟨fun hh => he ((heap_empty_iff _).2 hh), h3⟩
    · split at h
      · rename_i hc
        exact Or.inl ⟨(heap_empty_iff _).1 hc.1, hc.2, (Option.some.inj h).symm⟩
      · rename_i hc
        refine Or.inr ⟨fun hh => hc ⟨(heap_empty_iff _).2 hh.1, hh.2⟩, h⟩

theorem am_retry_alert_inv {m : zbx_am_t} {a : zbx_am_alert_t} {now : Int} {r : Int × zbx_am_t}
    (h : am_retry_alert m a now = some r) :
    (am_get_mediatype m a.mediatypeid = none ∧ r = (FAIL, m)) ∨
    (∃ M, am_get_mediatype m a.mediatypeid = some M ∧ M.maxattempts ≤ a.retries + 1 ∧
      r.1 = FAIL ∧ am_remove_alert m { a with retries := a.retries + 1 } = some r.2) ∨
    (∃ M m3 m4, am_get_mediatype m a.mediatypeid = some M ∧ ¬ M.maxattempts ≤ a.retries + 1 ∧
      r.1 = SUCCEED ∧
      am_push_alert
        (am_get_alertpool (mediatype_store m { M with alerts_num := M.alerts_num - 1 })
          a.mediatypeid a.alertpoolid).2 a.mediatypeid a.alertpoolid
        { a with retries := a.retries + 1, nextsend := int_wrap (now + M.attempt_interval) } = some m3 ∧
      am_push_alertpool m3 a.mediatypeid a.alertpoolid = some m4 ∧
      am_push_meditype m4 a.mediatypeid = some r.2) := by
  unfold am_retry_alert at h
  split at h
  · rename_i hn
    left
    refine ⟨hn, ?_⟩
    unfold am_remove_alert at h
    rw [hn] at h
    simp only [Option.map_some', Option.some.injEq] at h
    exact h.symm
  · rename_i M hM
    right
    split at h
    · rename_i hc
      left
      rw [Option.map_eq_some'] at h
      obtain ⟨m1, h1, h2⟩ := h
      subst h2
      exact ⟨M, hM, hc, rfl, h1⟩
    · rename_i hc
      right
      simp only [Option.bind_eq_some] at h
      obtain ⟨m3, h3, m4, h4, m5, h5, h⟩ := h
      cases h
      exact ⟨M, m3, m4, hM, hc, rfl, h3, h4, h5⟩

/-! ## Well-formedness is kept by the composite operations -/

theorem am_wf_pool_queued_ne {m : zbx_am_t} (hw : am_wf m) {mid pid : Nat}
    {P : zbx_am_alertpool_t} (hP : alertpool_deref m mid pid = some P)
    (hl : P.location = ZBX_AM_LOCATION_QUEUE) : P.queue ≠ [] := by
  obtain ⟨M, hM, hmem⟩ := hw.pool_mtq mid pid P hP hl
  obtain ⟨P1, hP1, -, hne⟩ := hw.mtq_pool mid M hM pid hmem
  rw [hP] at hP1; cases hP1
  exact hne

theorem am_wf_db_queue_alert {m m' : zbx_am_t} {a : zbx_am_alert_t} (hw : am_wf m)
    (h : am_db_queue_alert m a = some m') : am_wf m' := by
  rcases am_db_queue_alert_inv h with ⟨-, rfl⟩ | ⟨M, m2, m3, -, h2, h3, h4⟩
  · exact hw
  · obtain ⟨hw2, hne⟩ := am_wf_push_alert (am_wf_get_alertpool hw _ _) h2
    obtain ⟨hw3, -⟩ := am_wf_push_alertpool hw2 h3 hne
    exact am_wf_push_meditype hw3 h4

theorem am_wf_pop_alert {m m' : zbx_am_t} {o : Option zbx_am_alert_t} (hw : am_wf m)
    (h : am_pop_alert m = some (o, m')) : am_wf m' := by
  cases o with
  | none => rw [(am_pop_alert_none h).2]; exact hw
  | some a =>
    obtain ⟨id, m1, pid, m2, P, q, M, h1, h2, hP, -, -, hM, h⟩ := am_pop_alert_inv h
    obtain ⟨hw1, M1, -, -, -, hnq⟩ := am_wf_pop_mediatype hw h1
    obtain ⟨hw2, P2, hP2, hloc, -⟩ := am_wf_pop_alertpool hw1 h2 hnq
    rw [hP] at hP2; cases hP2
    obtain ⟨hk1, hk2⟩ := alertpool_deref_key hP
    have hPs : alertpool_deref m2 ({ P with queue := q } : zbx_am_alertpool_t).mediatypeid
        ({ P with queue := q } : zbx_am_alertpool_t).id = some P := by
      rw [← hk1, ← hk2] at hP; exact hP
    have hw3 : am_wf (alertpool_store m2 { P with queue := q }) :=
      am_wf_store_alertpool hw2 hPs rfl (fun hh => by rw [hloc] at hh; cases hh)
    have hk := am_get_mediatype_key hM
    have hMs : am_get_mediatype (alertpool_store m2 { P with queue := q })
        ({ M with alerts_num := M.alerts_num + 1 } : zbx_am_mediatype_t).mediatypeid = some M := by
      rw [← hk] at hM; exact hM
    have hw4 := am_wf_store_mediatype hw3 hMs rfl (List.Perm.refl _)
    rcases h with ⟨-, h5⟩ | ⟨-, rfl⟩
    · exact am_wf_push_meditype hw4 h5
    · exact hw4

theorem am_wf_remove_alert {m m' : zbx_am_t} {a : zbx_am_alert_t} (hw : am_wf m)
    (h : am_remove_alert m a = some m') : am_wf m' := by
  rcases am_remove_alert_inv h with ⟨-, rfl⟩ | ⟨M, m3, M3, hM, h3, hM3, h4⟩
  · exact hw
  · have hk := am_get_mediatype_key hM
    have hMs : am_get_mediatype m
        ({ M with alerts_num := M.alerts_num - 1 } : zbx_am_mediatype_t).mediatypeid = some M := by
      rw [← hk] at hM; exact hM
    have hw1 := am_wf_store_mediatype hw hMs rfl (List.Perm.refl _)
    have hw2 := am_wf_get_alertpool hw1 a.mediatypeid a.alertpoolid
    have hd := (am_get_alertpool_deref
      (mediatype_store m { M with alerts_num := M.alerts_num - 1 })
      a.mediatypeid a.alertpoolid).1
    have hw3 : am_wf m3 := by
      rcases h3 with ⟨he, rfl⟩ | ⟨hne, hp⟩
      · apply am_wf_remove_alertpool hw2
        intro P hP hl
        rw [hd] at hP; cases hP
        exact am_wf_pool_queued_ne hw2 hd hl he
      · refine (am_wf_push_alertpool hw2 hp ?_).1
        intro P hP
        rw [hd] at hP; cases hP
        exact hne
    rcases h4 with ⟨he, -, rfl⟩ | ⟨-, hp⟩
    · apply am_wf_remove_mediatype hw3
      intro M4 hM4
      rw [hM3] at hM4; cases hM4
      exact he
    · exact am_wf_push_meditype hw3 hp

theorem am_wf_retry_alert {m : zbx_am_t} {a : zbx_am_alert_t} {now : Int} {r : Int × zbx_am_t}
    (hw : am_wf m) (h : am_retry_alert m a now = some r) : am_wf r.2 := by
  rcases am_retry_alert_inv h with ⟨-, rfl⟩ | ⟨M, -, -, -, h1⟩ | ⟨M, m3, m4, hM, -, -, h3, h4, h5⟩
  · exact hw
  · exact am_wf_remove_alert hw h1
  · have hk := am_get_mediatype_key hM
    have hMs : am_get_mediatype m
        ({ M with alerts_num := M.alerts_num - 1 } : zbx_am_mediatype_t).mediatypeid = some M := by
      rw [← hk] at hM; exact hM
    have hw1 := am_wf_store_mediatype hw hMs rfl (List.Perm.refl _)
    obtain ⟨hw3, hne⟩ := am_wf_push_alert (am_wf_get_alertpool hw1 _ _) h3
    obtain ⟨hw4, -⟩ := am_wf_push_alertpool hw3 h4 hne
    exact am_wf_push_meditype hw4 h5

theorem am_wf_step {s s' : am_sched} {op : am_op} (hw : am_wf s.manager)
    (h : am_step s op = some s') : am_wf s'.manager := by
  cases op with
  | update_mediatype id a =>
    simp only [am_step, Option.some.injEq] at h
    subst h
    exact am_wf_update_mediatype hw id a
  | queue_alert a =>
    simp only [am_step, Option.map_eq_some'] at h
    obtain ⟨m1, h1, rfl⟩ := h
    exact am_wf_db_queue_alert hw h1
  | pop_alert =>
    simp only [am_step, Option.map_eq_some'] at h
    obtain ⟨r, h1, rfl⟩ := h
    have := @am_wf_pop_alert s.manager r.2 r.1 hw h1
    split <;> exact this
  | remove_alert a =>
    simp only [am_step, Option.map_eq_some'] at h
    obtain ⟨m1, h1, rfl⟩ := h
    exact am_wf_remove_alert hw h1
  | retry_alert a now =>
    simp only [am_step, Option.map_eq_some'] at h
    obtain ⟨r, h1, rfl⟩ := h
    exact am_wf_retry_alert hw h1

/-- Induction over a run: a property of the scheduler that every permitted step keeps holds
after the run. -/
theorem am_run_induction {guard : am_sched → am_op → Bool} (I : am_sched → Prop)
    (hstep : ∀ s op s', I s → guard s op = true → am_step s op = some s' → I s')
    (ops : List am_op) : ∀ s s', I s → am_run guard s ops = some s' → I s' := by
  induction ops with
  | nil =>
    intro s s' hI h
    simp only [am_run, Option.some.injEq] at h
    exact h ▸ hI
  | cons op ops ih =>
    intro s s' hI h
    simp only [am_run] at h
    split at h
    · rename_i hg
      rw [Option.bind_eq_some] at h
      obtain ⟨s1, h1, h2⟩ := h
      exact ih s1 s' (hstep s op s1 hI hg h1) h2
    · cases h

theorem am_wf_run {guard : am_sched → am_op → Bool} {ops : List am_op} {s s' : am_sched}
    (hw : am_wf s.manager) (h : am_run guard s ops = some s') : am_wf s'.manager :=
  am_run_induction (fun s => am_wf s.manager) (fun _ _ _ hI _ hs => am_wf_step hI hs) ops s s'
    hw h

/-! ## Frames of the queue primitives -/

theorem am_mt_frame_refl (m : zbx_am_t) : am_mt_frame m m := by
  intro id
  exact ⟨fun h => h, fun M hM => ⟨M, hM, rfl, fun h => Or.inl h⟩⟩

theorem am_mt_frame_of_eq {m m' : zbx_am_t}
    (h : ∀ id, am_get_mediatype m' id = am_get_mediatype m id) : am_mt_frame m m' := by
  intro id
  rw [h id]
  exact ⟨fun h => h, fun M hM => ⟨M, hM, rfl, fun h => Or.inl h⟩⟩

theorem am_mt_frame_trans {m1 m2 m3 : zbx_am_t} (h12 : am_mt_frame m1 m2)
    (h23 : am_mt_frame m2 m3) : am_mt_frame m1 m3 := by
  intro id
  refine ⟨fun h => (h23 id).1 ((h12 id).1 h), ?_⟩
  intro M hM
  obtain ⟨M2, hM2, e2, c2⟩ := (h12 id).2 M hM
  obtain ⟨M3, hM3, e3, c3⟩ := (h23 id).2 M2 hM2
  refine ⟨M3, hM3, ?_, ?_⟩
  · rw [e3, e2]
  · intro hl
    rcases c3 hl with h | h
    · exact c2 h
    · right
      rw [e2] at h
      exact h

theorem am_mt_frame_store {m : zbx_am_t} {M M' : zbx_am_mediatype_t}
    (hM : am_get_mediatype m M'.mediatypeid = some M)
    (he : M' = { M with location := M'.location, queue := M'.queue })
    (hc : M'.location = ZBX_AM_LOCATION_QUEUE → M.location = ZBX_AM_LOCATION_QUEUE ∨ mt_cap M) :
    am_mt_frame m (mediatype_store m M') := by
  intro id
  rw [am_get_mediatype_store hM]
  by_cases hid : id = M'.mediatypeid
  · subst hid
    rw [if_pos rfl]
    refine ⟨fun h => ?_, ?_⟩
    · rw [hM] at h; cases h
    · intro M1 hM1
      rw [hM] at hM1; cases hM1
      exact ⟨M', rfl, he, hc⟩
  · rw [if_neg hid]
    exact ⟨fun h => h, fun M1 hM1 => ⟨M1, hM1, rfl, fun h => Or.inl h⟩⟩

theorem am_push_meditype_frame {m m' : zbx_am_t} {id : Nat}
    (h : am_push_meditype m id = some m') :
    am_mt_frame m m' ∧ (∀ mid pid, alertpool_deref m' mid pid = alertpool_deref m mid pid) ∧
      m'.alertpools = m.alertpools := by
  obtain ⟨M, hM, hk, h⟩ := am_push_meditype_inv h
  rcases h with ⟨-, rfl⟩ | ⟨hne, hloc, hcap, q, hq, rfl⟩ | ⟨-, -, -, rfl⟩ | ⟨-, -, q, hq, rfl⟩
  · exact ⟨am_mt_frame_refl _, fun _ _ => rfl, rfl⟩
  · refine ⟨?_, fun _ _ => rfl, rfl⟩
    have hMs : am_get_mediatype { m with queue := q }
        ({ M with location := ZBX_AM_LOCATION_QUEUE } : zbx_am_mediatype_t).mediatypeid
          = some M := by rw [← hk] at hM; exact hM
    have := am_mt_frame_store hMs rfl (fun _ => Or.inr hcap)
    exact am_mt_frame_trans (am_mt_frame_of_eq (fun _ => rfl)) this
  · exact ⟨am_mt_frame_refl _, fun _ _ => rfl, rfl⟩
  · exact ⟨am_mt_frame_of_eq (fun _ => rfl), fun _ _ => rfl, rfl⟩

theorem am_pop_mediatype_frame {m m' : zbx_am_t} {o : Option Nat}
    (h : am_pop_mediatype m = some (o, m')) :
    am_mt_frame m m' ∧ (∀ mid pid, alertpool_deref m' mid pid = alertpool_deref m mid pid) ∧
      m'.alertpools = m.alertpools := by
  rcases am_pop_mediatype_inv h with ⟨-, h2⟩ | ⟨id1, t, M, q, hq0, hM, hq, h2⟩
  · cases h2; exact ⟨am_mt_frame_refl _, fun _ _ => rfl, rfl⟩
  · cases h2
    have hk := am_get_mediatype_key hM
    refine ⟨?_, fun _ _ => rfl, rfl⟩
    have hMs : am_get_mediatype { m with queue := q }
        ({ M with location := ZBX_AM_LOCATION_NOWHERE } : zbx_am_mediatype_t).mediatypeid
          = some M := by rw [← hk] at hM; exact hM
    have := am_mt_frame_store hMs rfl (fun hh => by cases hh)
    exact am_mt_frame_trans (am_mt_frame_of_eq (fun _ => rfl)) this

theorem am_push_alertpool_frame {m m' : zbx_am_t} {mid pid : Nat} (hw : am_wf m)
    (h : am_push_alertpool m mid pid = some m') :
    am_mt_frame m m' ∧ am_pool_frame m m' mid pid ∧
      ∃ P, alertpool_deref m mid pid = some P ∧
        alertpool_deref m' mid pid = some { P with location := ZBX_AM_LOCATION_QUEUE } := by
  obtain ⟨M, P, hM, hP, h⟩ := am_push_alertpool_inv h
  have hk := am_get_mediatype_key hM
  obtain ⟨hk1, hk2⟩ := alertpool_deref_key hP
  have hMs : ∀ q, am_get_mediatype m ({ M with queue := q } : zbx_am_mediatype_t).mediatypeid
      = some M := by intro q; rw [← hk] at hM; exact hM
  rcases h with ⟨hloc, q, hq, rfl⟩ | ⟨hloc, q, hq, rfl⟩
  · have hPs : alertpool_deref (mediatype_store m { M with queue := q })
        ({ P with location := ZBX_AM_LOCATION_QUEUE } : zbx_am_alertpool_t).mediatypeid
        ({ P with location := ZBX_AM_LOCATION_QUEUE } : zbx_am_alertpool_t).id = some P := by
      rw [← hk1, ← hk2] at hP; exact hP
    refine ⟨?_, ?_, P, hP, ?_⟩
    · exact am_mt_frame_trans (am_mt_frame_store (hMs q) rfl (fun hh => Or.inl hh))
        (am_mt_frame_of_eq (fun _ => rfl))
    · intro mid' pid' hne
      rw [alertpool_deref_store hPs, if_neg]
      · rfl
      · rintro ⟨e1, e2⟩; exact hne ⟨e1.trans hk2, e2.trans hk1⟩
    · rw [alertpool_deref_store hPs, if_pos ⟨hk2.symm, hk1.symm⟩]
  · refine ⟨am_mt_frame_store (hMs q) rfl (fun hh => Or.inl hh), fun _ _ _ => rfl, P, hP, ?_⟩
    have hl : P.location = ZBX_AM_LOCATION_QUEUE := by
      rcases hw.pool_loc mid pid P hP with h1 | h1
      · exact absurd h1 hloc
      · exact h1
    rw [← hl]
    exact hP

theorem am_pop_alertpool_frame {m m' : zbx_am_t} {mid pid : Nat}
    (h : am_pop_alertpool m mid = some (some pid, m')) :
    am_mt_frame m m' ∧ am_pool_frame m m' mid pid ∧
      ∃ P, alertpool_deref m mid pid = some P ∧
        alertpool_deref m' mid pid = some { P with location := ZBX_AM_LOCATION_NOWHERE } := by
  obtain ⟨M, hM, h⟩ := am_pop_alertpool_inv h
  rcases h with ⟨-, h2⟩ | ⟨pid1, t, P, q, hq0, hP, hq, h2⟩
  · cases h2
  · cases h2
    have hk := am_get_mediatype_key hM
    obtain ⟨hk1, hk2⟩ := alertpool_deref_key hP
    have hPs : alertpool_deref m
        ({ P with location := ZBX_AM_LOCATION_NOWHERE } : zbx_am_alertpool_t).mediatypeid
        ({ P with location := ZBX_AM_LOCATION_NOWHERE } : zbx_am_alertpool_t).id = some P := by
      rw [← hk1, ← hk2] at hP; exact hP
    have hMs : am_get_mediatype
        (alertpool_store m { P with location := ZBX_AM_LOCATION_NOWHERE })
        ({ M with queue := q } : zbx_am_mediatype_t).mediatypeid = some M := by
      rw [← hk] at hM; exact hM
    refine ⟨?_, ?_, P, hP, ?_⟩
    · exact am_mt_frame_trans (am_mt_frame_of_eq (fun _ => rfl))
        (am_mt_frame_store hMs rfl (fun hh => Or.inl hh))
    · intro mid' pid' hne
      simp only [alertpool_deref_mediatype_store]
      rw [alertpool_deref_store hPs, if_neg]
      rintro ⟨e1, e2⟩; exact hne ⟨e1.trans hk2, e2.trans hk1⟩
    · simp only [alertpool_deref_mediatype_store]
      rw [alertpool_deref_store hPs, if_pos ⟨hk2.symm, hk1.symm⟩]

theorem am_push_alert_frame {m m' : zbx_am_t} {mid pid : Nat} {a : zbx_am_alert_t}
    (h : am_push_alert m mid pid a = some m') :
    (∀ id, am_get_mediatype m' id = am_get_mediatype m id) ∧ m'.mediatypes = m.mediatypes ∧
      m'.queue = m.queue ∧ am_pool_frame m m' mid pid ∧
      ∃ P q, alertpool_deref m mid pid = some P ∧ q.Perm (a :: P.queue) ∧
        zbx_binary_heap_insert am_alert_queue_compare false P.queue a = some q ∧
        alertpool_deref m' mid pid = some { P with queue := q } := by
  obtain ⟨P, q, hP, hq, rfl⟩ := am_push_alert_inv h
  obtain ⟨hk1, hk2⟩ := alertpool_deref_key hP
  have hPs : alertpool_deref m ({ P with queue := q } : zbx_am_alertpool_t).mediatypeid
      ({ P with queue := q } : zbx_am_alertpool_t).id = some P := by
    rw [← hk1, ← hk2] at hP; exact hP
  refine ⟨fun _ => rfl, rfl, rfl, ?_, P, q, hP, (zbx_binary_heap_insert_perm _ _ _ _ _ hq).1, hq, ?_⟩
  · intro mid' pid' hne
    rw [alertpool_deref_store hPs, if_neg]
    rintro ⟨e1, e2⟩; exact hne ⟨e1.trans hk2, e2.trans hk1⟩
  · rw [alertpool_deref_store hPs, if_pos ⟨hk2.symm, hk1.symm⟩]

/-! ## Media types other than the one an operation works on are left alone -/

theorem am_push_meditype_other {m m' : zbx_am_t} {id : Nat}
    (h : am_push_meditype m id = some m') :
    ∀ id', id' ≠ id → am_get_mediatype m' id' = am_get_mediatype m id' := by
  obtain ⟨M, hM, hk, h⟩ := am_push_meditype_inv h
  rcases h with ⟨-, rfl⟩ | ⟨hne, hloc, hcap, q, hq, rfl⟩ | ⟨-, -, -, rfl⟩ | ⟨-, -, q, hq, rfl⟩
  · exact fun _ _ => rfl
  · intro id' hne'
    have hMs : am_get_mediatype { m with queue := q }
        ({ M with location := ZBX_AM_LOCATION_QUEUE } : zbx_am_mediatype_t).mediatypeid
          = some M := by rw [← hk] at hM; exact hM
    rw [am_get_mediatype_store hMs, if_neg]
    · rfl
    · exact fun e => hne' (e.trans hk)
  · exact fun _ _ => rfl
  · exact fun _ _ => rfl

theorem am_pop_mediatype_other {m m' : zbx_am_t} {id : Nat}
    (h : am_pop_mediatype m = some (some id, m')) :
    ∀ id', id' ≠ id → am_get_mediatype m' id' = am_get_mediatype m id' := by
  rcases am_pop_mediatype_inv h with ⟨-, h2⟩ | ⟨id1, t, M, q, hq0, hM, hq, h2⟩
  · cases h2
  · cases h2
    have hk := am_get_mediatype_key hM
    intro id' hne'
    have hMs : am_get_mediatype { m with queue := q }
        ({ M with location := ZBX_AM_LOCATION_NOWHERE } : zbx_am_mediatype_t).mediatypeid
          = some M := by rw [← hk] at hM; exact hM
    show am_get_mediatype (mediatype_store { m with queue := q }
      { M with location := ZBX_AM_LOCATION_NOWHERE }) id' = _
    rw [am_get_mediatype_store hMs, if_neg]
    · rfl
    · exact fun e => hne' (e.trans hk)

theorem am_push_alertpool_other {m m' : zbx_am_t} {mid pid : Nat}
    (h : am_push_alertpool m mid pid = some m') :
    (∀ id', id' ≠ mid → am_get_mediatype m' id' = am_get_mediatype m id') ∧
      m'.queue = m.queue := by
  obtain ⟨M, P, hM, hP, h⟩ := am_push_alertpool_inv h
  have hk := am_get_mediatype_key hM
  have hMs : ∀ q, am_get_mediatype m ({ M with queue := q } : zbx_am_mediatype_t).mediatypeid
      = some M := by intro q; rw [← hk] at hM; exact hM
  rcases h with ⟨hloc, q, hq, rfl⟩ | ⟨hloc, q, hq, rfl⟩
  · refine ⟨?_, rfl⟩
    intro id' hne'
    simp only [am_get_mediatype_alertpool_store]
    rw [am_get_mediatype_store (hMs q), if_neg]
    exact fun e => hne' (e.trans hk)
  · refine ⟨?_, rfl⟩
    intro id' hne'
    rw [am_get_mediatype_store (hMs q), if_neg]
    exact fun e => hne' (e.trans hk)

theorem am_pop_alertpool_other {m m' : zbx_am_t} {mid pid : Nat}
    (h : am_pop_alertpool m mid = some (some pid, m')) :
    (∀ id', id' ≠ mid → am_get_mediatype m' id' = am_get_mediatype m id') ∧
      m'.queue = m.queue := by
  obtain ⟨M, hM, h⟩ := am_pop_alertpool_inv h
  rcases h with ⟨-, h2⟩ | ⟨pid1, t, P, q, hq0, hP, hq, h2⟩
  · cases h2
  · cases h2
    have hk := am_get_mediatype_key hM
    have hMs : am_get_mediatype
        (alertpool_store m { P with location := ZBX_AM_LOCATION_NOWHERE })
        ({ M with queue := q } : zbx_am_mediatype_t).mediatypeid = some M := by
      rw [← hk] at hM; exact hM
    refine ⟨?_, rfl⟩
    intro id' hne'
    rw [am_get_mediatype_store hMs, if_neg]
    · rfl
    · exact fun e => hne' (e.trans hk)

/-! ## Effects of queueing an alert -/

theorem am_get_alertpool_frame (m : zbx_am_t) (mid pid : Nat) :
    am_mt_frame m (am_get_alertpool m mid pid).2 :=
  am_mt_frame_of_eq (am_get_alertpool_deref m mid pid).2.2.1

theorem am_db_queue_alert_effect {m m' : zbx_am_t} {a : zbx_am_alert_t} (hw : am_wf m)
    (h : am_db_queue_alert m a = some m') (hex : am_get_mediatype m a.mediatypeid ≠ none) :
    am_mt_frame m m' ∧
    (∀ id', id' ≠ a.mediatypeid → am_get_mediatype m' id' = am_get_mediatype m id') ∧
    am_pool_frame m m' a.mediatypeid a.alertpoolid ∧
    ∃ P0 q, (alertpool_deref m a.mediatypeid a.alertpoolid = some P0 ∨
        (alertpool_deref m a.mediatypeid a.alertpoolid = none ∧
          P0 = { id := a.alertpoolid, mediatypeid := a.mediatypeid, queue := [],
                 location := ZBX_AM_LOCATION_NOWHERE })) ∧
      q.Perm (a :: P0.queue) ∧
      alertpool_deref m' a.mediatypeid a.alertpoolid =
        some { P0 with queue := q, location := ZBX_AM_LOCATION_QUEUE } := by
  rcases am_db_queue_alert_inv h with ⟨hn, -⟩ | ⟨M, m2, m3, hM, h2, h3, h4⟩
  · exact absurd hn hex
  · have hg := am_get_alertpool_deref m a.mediatypeid a.alertpoolid
    obtain ⟨hg1, hg2, hg3, hg4, hg5⟩ := hg
    obtain ⟨f2a, -, -, f2b, P, q, hP, hq, -, hP2⟩ := am_push_alert_frame h2
    obtain ⟨hw2, hne⟩ := am_wf_push_alert (am_wf_get_alertpool hw _ _) h2
    obtain ⟨f3a, f3b, P3, hP3, hP3'⟩ := am_push_alertpool_frame hw2 h3
    obtain ⟨f4a, f4b, -⟩ := am_push_meditype_frame h4
    rw [hg1] at hP; cases hP
    rw [hP2] at hP3; cases hP3
    refine ⟨?_, ?_, ?_, (am_get_alertpool m a.mediatypeid a.alertpoolid).1, q, ?_, hq, ?_⟩
    · exact am_mt_frame_trans (am_get_alertpool_frame m _ _)
        (am_mt_frame_trans (am_mt_frame_of_eq f2a) (am_mt_frame_trans f3a f4a))
    · intro id' hne'
      rw [am_push_meditype_other h4 id' hne', (am_push_alertpool_other h3).1 id' hne', f2a, hg3]
    · intro mid' pid' hne'
      rw [f4b, f3b mid' pid' hne', f2b mid' pid' hne', hg2 mid' pid' hne']
    · rcases hg5 with h5 | ⟨h5, h6⟩
      · exact Or.inl h5
      · exact Or.inr ⟨h5, h6⟩
    · rw [f4b, hP3']

/-! ## The media type an operation works on -/

theorem am_pop_mediatype_get {m m' : zbx_am_t} {id : Nat}
    (h : am_pop_mediatype m = some (some id, m')) :
    ∃ M t, m.queue = id :: t ∧ am_get_mediatype m id = some M ∧
      am_get_mediatype m' id = some { M with location := ZBX_AM_LOCATION_NOWHERE } ∧
      m'.queue.Perm t := by
  rcases am_pop_mediatype_inv h with ⟨-, h2⟩ | ⟨id1, t, M, q, hq0, hM, hq, h2⟩
  · cases h2
  · cases h2
    have hk := am_get_mediatype_key hM
    have hMs : am_get_mediatype { m with queue := q }
        ({ M with location := ZBX_AM_LOCATION_NOWHERE } : zbx_am_mediatype_t).mediatypeid
          = some M := by rw [← hk] at hM; exact hM
    refine ⟨M, t, hq0, hM, ?_, zbx_binary_heap_remove_min_perm _ id t q (hq0 ▸ hq)⟩
    show am_get_mediatype (mediatype_store { m with queue := q }
      { M with location := ZBX_AM_LOCATION_NOWHERE }) id = _
    rw [am_get_mediatype_store hMs, if_pos hk.symm]

theorem am_pop_alertpool_get {m m' : zbx_am_t} {mid pid : Nat}
    (h : am_pop_alertpool m mid = some (some pid, m')) :
    ∃ M t q, am_get_mediatype m mid = some M ∧ M.queue = pid :: t ∧ q.Perm t ∧
      am_get_mediatype m' mid = some { M with queue := q } := by
  obtain ⟨M, hM, h⟩ := am_pop_alertpool_inv h
  rcases h with ⟨-, h2⟩ | ⟨pid1, t, P, q, hq0, hP, hq, h2⟩
  · cases h2
  · cases h2
    have hk := am_get_mediatype_key hM
    have hMs : am_get_mediatype
        (alertpool_store m { P with location := ZBX_AM_LOCATION_NOWHERE })
        ({ M with queue := q } : zbx_am_mediatype_t).mediatypeid = some M := by
      rw [← hk] at hM; exact hM
    refine ⟨M, t, q, hM, hq0, zbx_binary_heap_remove_min_perm _ pid t q (hq0 ▸ hq), ?_⟩
    rw [am_get_mediatype_store hMs, if_pos hk.symm]

theorem am_push_meditype_get {m m' : zbx_am_t} {id : Nat}
    (h : am_push_meditype m id = some m') :
    ∃ M, am_get_mediatype m id = some M ∧
      ((M.queue ≠ [] ∧ M.location = ZBX_AM_LOCATION_NOWHERE ∧ mt_cap M ∧
          am_get_mediatype m' id = some { M with location := ZBX_AM_LOCATION_QUEUE } ∧
          m'.queue.Perm (id :: m.queue)) ∨
       (¬ (M.queue ≠ [] ∧ M.location = ZBX_AM_LOCATION_NOWHERE ∧ mt_cap M) ∧
          am_get_mediatype m' id = some M ∧ m'.queue.Perm m.queue)) := by
  obtain ⟨M, hM, hk, h⟩ := am_push_meditype_inv h
  refine ⟨M, hM, ?_⟩
  rcases h with ⟨he, rfl⟩ | ⟨hne, hloc, hcap, q, hq, rfl⟩ | ⟨-, -, hc, rfl⟩ | ⟨-, hl, q, hq, rfl⟩
  · exact Or.inr ⟨fun hh => hh.1 he, hM, List.Perm.refl _⟩
  · left
    have hMs : am_get_mediatype { m with queue := q }
        ({ M with location := ZBX_AM_LOCATION_QUEUE } : zbx_am_mediatype_t).mediatypeid
          = some M := by rw [← hk] at hM; exact hM
    refine ⟨hne, hloc, hcap, ?_, (zbx_binary_heap_insert_perm _ _ _ _ _ hq).1⟩
    rw [am_get_mediatype_store hMs, if_pos hk.symm]
  · exact Or.inr ⟨fun hh => hc hh.2.2, hM, List.Perm.refl _⟩
  · exact Or.inr ⟨fun hh => hl hh.2.1, hM, (zbx_binary_heap_update_direct_perm _ _ _ _ hq).1⟩

theorem am_push_alertpool_get {m m' : zbx_am_t} {mid pid : Nat}
    (h : am_push_alertpool m mid pid = some m') :
    ∃ M P q, am_get_mediatype m mid = some M ∧ alertpool_deref m mid pid = some P ∧
      am_get_mediatype m' mid = some { M with queue := q } ∧
      ((P.location = ZBX_AM_LOCATION_NOWHERE ∧ q.Perm (pid :: M.queue)) ∨
       (P.location ≠ ZBX_AM_LOCATION_NOWHERE ∧ q.Perm M.queue)) := by
  obtain ⟨M, P, hM, hP, h⟩ := am_push_alertpool_inv h
  have hk := am_get_mediatype_key hM
  have hMs : ∀ q, am_get_mediatype m ({ M with queue := q } : zbx_am_mediatype_t).mediatypeid
      = some M := by intro q; rw [← hk] at hM; exact hM
  rcases h with ⟨hloc, q, hq, rfl⟩ | ⟨hloc, q, hq, rfl⟩
  · refine ⟨M, P, q, hM, hP, ?_, Or.inl ⟨hloc, (zbx_binary_heap_insert_perm _ _ _ _ _ hq).1⟩⟩
    simp only [am_get_mediatype_alertpool_store]
    rw [am_get_mediatype_store (hMs q), if_pos hk.symm]
  · refine ⟨M, P, q, hM, hP, ?_,
      Or.inr ⟨hloc, (zbx_binary_heap_update_direct_perm _ _ _ _ hq).1⟩⟩
    rw [am_get_mediatype_store (hMs q), if_pos hk.symm]

/-! ## Effects of am_pop_alert -/

theorem am_pop_alert_effect {m m' : zbx_am_t} {a : zbx_am_alert_t} (hw : am_wf m)
    (h : am_pop_alert m = some (some a, m')) :
    ∃ id t M pid tp P rest q M',
      m.queue = id :: t ∧ am_get_mediatype m id = some M ∧ M.queue = pid :: tp ∧
      alertpool_deref m id pid = some P ∧ P.queue = a :: rest ∧
      M.location = ZBX_AM_LOCATION_QUEUE ∧ P.location = ZBX_AM_LOCATION_QUEUE ∧
      q.Perm rest ∧
      (∀ id', id' ≠ id → am_get_mediatype m' id' = am_get_mediatype m id') ∧
      am_get_mediatype m' id = some M' ∧
      M' = { M with alerts_num := M.alerts_num + 1, location := M'.location,
                    queue := M'.queue } ∧
      M'.queue.Perm tp ∧
      (M'.location = ZBX_AM_LOCATION_QUEUE ↔ (M'.queue ≠ [] ∧ mt_cap M')) ∧
      (m'.queue.Perm (if M'.location = ZBX_AM_LOCATION_QUEUE then id :: t else t)) ∧
      am_pool_frame m m' id pid ∧
      alertpool_deref m' id pid =
        some { P with queue := q, location := ZBX_AM_LOCATION_NOWHERE } := by
  obtain ⟨id, m1, pid, m2, P2, q, M3, h1, h2, hP2, ha, hq, hM3, h5⟩ := am_pop_alert_inv h
  obtain ⟨M, t, hq0, hM, hM1, hp1⟩ := am_pop_mediatype_get h1
  obtain ⟨f1a, f1b, -⟩ := am_pop_mediatype_frame h1
  obtain ⟨M1, tp, q2, hM1', hMq, hp2, hM2⟩ := am_pop_alertpool_get h2
  rw [hM1] at hM1'; cases hM1'
  obtain ⟨f2a, f2b, P, hP, hP2'⟩ := am_pop_alertpool_frame h2
  rw [hP2] at hP2'; cases hP2'
  rw [f1b] at hP
  have hMloc : M.location = ZBX_AM_LOCATION_QUEUE := by
    obtain ⟨M0, hM0, hl, -⟩ := hw.queue_mt id (by rw [hq0]; exact List.mem_cons_self _ _)
    rw [hM] at hM0; cases hM0; exact hl
  have hPloc : P.location = ZBX_AM_LOCATION_QUEUE := by
    obtain ⟨P0, hP0, hl, -⟩ := hw.mtq_pool id M hM pid (by
      show pid ∈ M.queue
      rw [show M.queue = pid :: tp from hMq]; exact List.mem_cons_self _ _)
    rw [hP] at hP0; cases hP0; exact hl
  obtain ⟨hk1, hk2⟩ := alertpool_deref_key hP
  have hk := am_get_mediatype_key hM
  -- the alert queue of the pool
  obtain ⟨rest, hrest⟩ : ∃ rest, P.queue = a :: rest := by
    cases hpq : P.queue with
    | nil => simp [hpq] at ha
    | cons x rest =>
      simp only [hpq, List.head?_cons, Option.some.injEq] at ha
      exact ⟨rest, by rw [ha]⟩
  have hqp : q.Perm rest := by
    have := zbx_binary_heap_remove_min_perm am_alert_queue_compare a rest q
    apply this
    have hq' : zbx_binary_heap_remove_min am_alert_queue_compare P.queue = some q := hq
    rw [hrest] at hq'; exact hq'
  -- the states after the alert was taken
  have hPs : alertpool_deref m2
      ({ ({ P with location := ZBX_AM_LOCATION_NOWHERE } : zbx_am_alertpool_t) with
          queue := q } : zbx_am_alertpool_t).mediatypeid
      ({ ({ P with location := ZBX_AM_LOCATION_NOWHERE } : zbx_am_alertpool_t) with
          queue := q } : zbx_am_alertpool_t).id
      = some { P with location := ZBX_AM_LOCATION_NOWHERE } := by
    rw [← hk1, ← hk2] at hP2; exact hP2
  have hM3' : M3 = { ({ M with location := ZBX_AM_LOCATION_NOWHERE } : zbx_am_mediatype_t) with
      queue := q2 } := by
    simp only [am_get_mediatype_alertpool_store] at hM3
    rw [hM2] at hM3; cases hM3; rfl
  subst hM3'
  have hMs : am_get_mediatype
      (alertpool_store m2 { ({ P with location := ZBX_AM_LOCATION_NOWHERE } :
        zbx_am_alertpool_t) with queue := q })
      ({ ({ ({ M with location := ZBX_AM_LOCATION_NOWHERE } : zbx_am_mediatype_t) with
          queue := q2 } : zbx_am_mediatype_t) with
          alerts_num := M.alerts_num + 1 } : zbx_am_mediatype_t).mediatypeid
      = some { ({ M with location := ZBX_AM_LOCATION_NOWHERE } : zbx_am_mediatype_t) with
          queue := q2 } := by
    rw [← hk] at hM3; exact hM3
  have hother4 : ∀ id', id' ≠ id →
      am_get_mediatype
        (mediatype_store
          (alertpool_store m2 { ({ P with location := ZBX_AM_LOCATION_NOWHERE } :
            zbx_am_alertpool_t) with queue := q })
          { ({ ({ M with location := ZBX_AM_LOCATION_NOWHERE } : zbx_am_mediatype_t) with
              queue := q2 } : zbx_am_mediatype_t) with alerts_num := M.alerts_num + 1 }) id'
        = am_get_mediatype m id' := by
    intro id' hne'
    rw [am_get_mediatype_store hMs, if_neg (fun e => hne' (e.trans hk))]
    simp only [am_get_mediatype_alertpool_store]
    rw [(am_pop_alertpool_other h2).1 id' hne', am_pop_mediatype_other h1 id' hne']
  have hget4 : am_get_mediatype
        (mediatype_store
          (alertpool_store m2 { ({ P with location := ZBX_AM_LOCATION_NOWHERE } :
            zbx_am_alertpool_t) with queue := q })
          { ({ ({ M with location := ZBX_AM_LOCATION_NOWHERE } : zbx_am_mediatype_t) with
              queue := q2 } : zbx_am_mediatype_t) with alerts_num := M.alerts_num + 1 }) id
        = some { ({ ({ M with location := ZBX_AM_LOCATION_NOWHERE } : zbx_am_mediatype_t) with
              queue := q2 } : zbx_am_mediatype_t) with alerts_num := M.alerts_num + 1 } := by
    rw [am_get_mediatype_store hMs, if_pos hk.symm]
  have hpool4 : ∀ mid' pid',
      alertpool_deref
        (mediatype_store
          (alertpool_store m2 { ({ P with location := ZBX_AM_LOCATION_NOWHERE } :
            zbx_am_alertpool_t) with queue := q })
          { ({ ({ M with location := ZBX_AM_LOCATION_NOWHERE } : zbx_am_mediatype_t) with
              queue := q2 } : zbx_am_mediatype_t) with alerts_num := M.alerts_num + 1 })
        mid' pid'
        = if mid' = id ∧ pid' = pid then
            some { P with queue := q, location := ZBX_AM_LOCATION_NOWHERE }
          else alertpool_deref m mid' pid' := by
    intro mid' pid'
    simp only [alertpool_deref_mediatype_store]
    rw [alertpool_deref_store hPs]
    by_cases hc : mid' = id ∧ pid' = pid
    · rw [if_pos hc, if_pos ⟨hc.1.trans hk2.symm, hc.2.trans hk1.symm⟩]
    · rw [if_neg hc, if_neg (fun e => hc ⟨e.1.trans hk2, e.2.trans hk1⟩), f2b mid' pid' hc, f1b]
  have hqueue4 : m2.queue.Perm t := by
    rw [(am_pop_alertpool_other h2).2]; exact hp1
  rcases h5 with ⟨hc, h5⟩ | ⟨hc, rfl⟩
  · obtain ⟨M4, hM4, h6⟩ := am_push_meditype_get h5
    rw [hget4] at hM4; cases hM4
    have hpf := (am_push_meditype_frame h5).2.1
    rcases h6 with ⟨hne, -, hcap, hg, hpq⟩ | ⟨hn, hg, hpq⟩
    · refine ⟨id, t, M, pid, tp, P, rest, q, _, hq0, hM, hMq, hP, hrest, hMloc, hPloc, hqp,
        ?_, hg, rfl, hp2, ?_, ?_, ?_, ?_⟩
      · intro id' hne'
        rw [am_push_meditype_other h5 id' hne', hother4 id' hne']
      · exact ⟨fun _ => ⟨hne, hcap⟩, fun _ => rfl⟩
      · rw [if_pos rfl]
        exact hpq.trans (List.Perm.cons _ hqueue4)
      · intro mid' pid' hne'
        rw [hpf, hpool4, if_neg hne']
      · rw [hpf, hpool4, if_pos ⟨rfl, rfl⟩]
    · refine ⟨id, t, M, pid, tp, P, rest, q, _, hq0, hM, hMq, hP, hrest, hMloc, hPloc, hqp,
        ?_, hg, rfl, hp2, ?_, ?_, ?_, ?_⟩
      · intro id' hne'
        rw [am_push_meditype_other h5 id' hne', hother4 id' hne']
      · constructor
        · intro hh; cases hh
        · intro hh; exact absurd ⟨hh.1, rfl, hh.2⟩ hn
      · rw [if_neg (by intro hh; cases hh)]
        exact hpq.trans hqueue4
      · intro mid' pid' hne'
        rw [hpf, hpool4, if_neg hne']
      · rw [hpf, hpool4, if_pos ⟨rfl, rfl⟩]
  · refine ⟨id, t, M, pid, tp, P, rest, q, _, hq0, hM, hMq, hP, hrest, hMloc, hPloc, hqp,
      hother4, hget4, rfl, hp2, ?_, ?_, ?_, ?_⟩
    · constructor
      · intro hh; cases hh
      · intro hh; exact absurd hh.2 hc
    · rw [if_neg (by intro hh; cases hh)]
      exact hqueue4
    · intro mid' pid' hne'
      rw [hpool4, if_neg hne']
    · rw [hpool4, if_pos ⟨rfl, rfl⟩]

/-! ## Effects of am_remove_alert and am_retry_alert -/

theorem am_remove_alert_effect {m m' : zbx_am_t} {a : zbx_am_alert_t} {M : zbx_am_mediatype_t}
    (hw : am_wf m) (h : am_remove_alert m a = some m')
    (hM : am_get_mediatype m a.mediatypeid = some M) :
    (∀ id', id' ≠ a.mediatypeid → am_get_mediatype m' id' = am_get_mediatype m id') ∧
    ((am_get_mediatype m' a.mediatypeid = none ∧ M.alerts_num - 1 = 0) ∨
      ∃ M', am_get_mediatype m' a.mediatypeid = some M' ∧
        M' = { M with alerts_num := M.alerts_num - 1, location := M'.location,
                      queue := M'.queue } ∧
        ¬ (M'.queue = [] ∧ M'.alerts_num = 0) ∧
        (M'.location = ZBX_AM_LOCATION_QUEUE →
          M.location = ZBX_AM_LOCATION_QUEUE ∨
            mt_cap { M with alerts_num := M.alerts_num - 1 })) ∧
    am_pool_frame m m' a.mediatypeid a.alertpoolid ∧
    ((∀ P, alertpool_deref m a.mediatypeid a.alertpoolid = some P → P.queue = []) ∧
        alertpool_deref m' a.mediatypeid a.alertpoolid = none ∨
      ∃ P, alertpool_deref m a.mediatypeid a.alertpoolid = some P ∧ P.queue ≠ [] ∧
        alertpool_deref m' a.mediatypeid a.alertpoolid =
          some { P with location := ZBX_AM_LOCATION_QUEUE }) := by
  rcases am_remove_alert_inv h with ⟨hn, -⟩ | ⟨M0, m3, M3, hM0, h3, hM3, h4⟩
  · rw [hM] at hn; cases hn
  · rw [hM] at hM0; cases hM0
    have hk := am_get_mediatype_key hM
    have hMs : am_get_mediatype m
        ({ M with alerts_num := M.alerts_num - 1 } : zbx_am_mediatype_t).mediatypeid = some M := by
      rw [← hk] at hM; exact hM
    have hw1 := am_wf_store_mediatype hw hMs rfl (List.Perm.refl _)
    have hw2 := am_wf_get_alertpool hw1 a.mediatypeid a.alertpoolid
    obtain ⟨hg1, hg2, hg3, hg4, hg5⟩ := am_get_alertpool_deref
      (mediatype_store m { M with alerts_num := M.alerts_num - 1 })
      a.mediatypeid a.alertpoolid
    have hget1 : ∀ id, am_get_mediatype
        (am_get_alertpool (mediatype_store m { M with alerts_num := M.alerts_num - 1 })
          a.mediatypeid a.alertpoolid).2 id =
        if id = a.mediatypeid then some { M with alerts_num := M.alerts_num - 1 }
        else am_get_mediatype m id := by
      intro id
      rw [hg3, am_get_mediatype_store hMs]
      by_cases hc : id = a.mediatypeid
      · rw [if_pos hc, if_pos (hc.trans hk.symm)]
      · rw [if_neg hc, if_neg (fun e => hc (e.trans hk))]
    -- the alert pool
    have hpool : (∀ id, am_get_mediatype m3 id ≠ none ↔
          am_get_mediatype m id ≠ none) ∧
        (∀ id', id' ≠ a.mediatypeid → am_get_mediatype m3 id' = am_get_mediatype m id') ∧
        (∃ q, M3 = { M with alerts_num := M.alerts_num - 1, queue := q }) ∧
        am_pool_frame m m3 a.mediatypeid a.alertpoolid ∧
        ((∀ P, alertpool_deref m a.mediatypeid a.alertpoolid = some P → P.queue = []) ∧
            alertpool_deref m3 a.mediatypeid a.alertpoolid = none ∨
          ∃ P, alertpool_deref m a.mediatypeid a.alertpoolid = some P ∧ P.queue ≠ [] ∧
            alertpool_deref m3 a.mediatypeid a.alertpoolid =
              some { P with location := ZBX_AM_LOCATION_QUEUE }) := by
      rcases h3 with ⟨he, rfl⟩ | ⟨hne, hp⟩
      · have hget3 : ∀ id, am_get_mediatype (am_remove_alertpool
            (am_get_alertpool (mediatype_store m { M with alerts_num := M.alerts_num - 1 })
              a.mediatypeid a.alertpoolid).2 a.mediatypeid a.alertpoolid) id =
            if id = a.mediatypeid then some { M with alerts_num := M.alerts_num - 1 }
            else am_get_mediatype m id := hget1
        refine ⟨?_, ?_, ?_, ?_, Or.inl ⟨?_, ?_⟩⟩
        · intro id
          rw [hget3]
          by_cases hc : id = a.mediatypeid
          · rw [if_pos hc, hc, hM]; simp
          · rw [if_neg hc]
        · intro id' hne'
          rw [hget3, if_neg hne']
        · rw [hget3, if_pos rfl] at hM3
          cases hM3
          exact ⟨M.queue, rfl⟩
        · intro mid' pid' hne'
          rw [am_remove_alertpool_deref, if_neg hne', hg2 mid' pid' hne']
          rfl
        · intro P hP
          rcases hg5 with h5 | ⟨h5, -⟩
          · have h5' : alertpool_deref m a.mediatypeid a.alertpoolid = some _ := h5
            rw [hP] at h5'; cases h5'; exact he
          · have h5' : alertpool_deref m a.mediatypeid a.alertpoolid = none := h5
            rw [hP] at h5'; cases h5'
        · rw [am_remove_alertpool_deref, if_pos ⟨rfl, rfl⟩]
      · obtain ⟨f3a, f3b, P3, hP3, hP3'⟩ := am_push_alertpool_frame hw2 hp
        obtain ⟨M5, P5, q5, hM5, -, hM5', -⟩ := am_push_alertpool_get hp
        rw [hget1, if_pos rfl] at hM5; cases hM5
        rw [hM3] at hM5'; cases hM5'
        rw [hg1] at hP3; cases hP3
        refine ⟨?_, ?_, ⟨q5, rfl⟩, ?_, Or.inr ?_⟩
        · intro id
          by_cases hc : id = a.mediatypeid
          · rw [hc, hM3, hM]; simp
          · rw [(am_push_alertpool_other hp).1 id hc, hget1, if_neg hc]
        · intro id' hne'
          rw [(am_push_alertpool_other hp).1 id' hne', hget1, if_neg hne']
        · intro mid' pid' hne'
          rw [f3b mid' pid' hne', hg2 mid' pid' hne']
          rfl
        · rcases hg5 with h5 | ⟨-, h6⟩
          · exact ⟨_, h5, hne, hP3'⟩
          · rw [h6] at hne; exact absurd rfl hne
    obtain ⟨-, hoth3, ⟨q3, hM3e⟩, hpf3, hpl3⟩ := hpool
    subst hM3e
    rcases h4 with ⟨he, hz, rfl⟩ | ⟨hnz, hp⟩
    · refine ⟨?_, Or.inl ⟨?_, hz⟩, ?_, ?_⟩
      · intro id' hne'
        rw [am_remove_mediatype_get, if_neg hne', hoth3 id' hne']
      · rw [am_remove_mediatype_get, if_pos rfl]
      · intro mid' pid' hne'
        exact hpf3 mid' pid' hne'
      · exact hpl3
    · obtain ⟨M6, hM6, h6⟩ := am_push_meditype_get hp
      obtain ⟨-, f4b, -⟩ := am_push_meditype_frame hp
      rw [hM3] at hM6; cases hM6
      refine ⟨?_, Or.inr ?_, ?_, ?_⟩
      · intro id' hne'
        rw [am_push_meditype_other hp id' hne', hoth3 id' hne']
      · rcases h6 with ⟨-, hl, hcap, hg, -⟩ | ⟨-, hg, -⟩
        · exact ⟨_, hg, rfl, hnz, fun _ => Or.inr hcap⟩
        · exact ⟨_, hg, rfl, hnz, fun hh => Or.inl hh⟩
      · intro mid' pid' hne'
        rw [f4b, hpf3 mid' pid' hne']
      · rcases hpl3 with ⟨h7, h8⟩ | ⟨P, h7, h8, h9⟩
        · exact Or.inl ⟨h7, by rw [f4b]; exact h8⟩
        · exact Or.inr ⟨P, h7, h8, by rw [f4b]; exact h9⟩

theorem am_retry_alert_effect {m m' : zbx_am_t} {a : zbx_am_alert_t} {now : Int}
    {M : zbx_am_mediatype_t} (hw : am_wf m)
    (h : am_retry_alert m a now = some (SUCCEED, m'))
    (hM : am_get_mediatype m a.mediatypeid = some M) :
    ¬ M.maxattempts ≤ a.retries + 1 ∧
    (∀ id', id' ≠ a.mediatypeid → am_get_mediatype m' id' = am_get_mediatype m id') ∧
    (∃ M', am_get_mediatype m' a.mediatypeid = some M' ∧
        M' = { M with alerts_num := M.alerts_num - 1, location := M'.location,
                      queue := M'.queue } ∧
        M'.queue ≠ [] ∧
        (M'.location = ZBX_AM_LOCATION_QUEUE →
          M.location = ZBX_AM_LOCATION_QUEUE ∨
            mt_cap { M with alerts_num := M.alerts_num - 1 })) ∧
    am_pool_frame m m' a.mediatypeid a.alertpoolid ∧
    ∃ P0 q, (alertpool_deref m a.mediatypeid a.alertpoolid = some P0 ∨
        (alertpool_deref m a.mediatypeid a.alertpoolid = none ∧
          P0 = { id := a.alertpoolid, mediatypeid := a.mediatypeid, queue := [],
                 location := ZBX_AM_LOCATION_NOWHERE })) ∧
      q.Perm ({ a with retries := a.retries + 1, nextsend := int_wrap (now + M.attempt_interval) } ::
        P0.queue) ∧
      alertpool_deref m' a.mediatypeid a.alertpoolid =
        some { P0 with queue := q, location := ZBX_AM_LOCATION_QUEUE } := by
  rcases am_retry_alert_inv h with ⟨hn, -⟩ | ⟨M0, -, -, hf, -⟩ |
    ⟨M0, m3, m4, hM0, hc, -, h3, h4, h5⟩
  · rw [hM] at hn; cases hn
  · simp at hf
  · rw [hM] at hM0; cases hM0
    have hk := am_get_mediatype_key hM
    have hMs : am_get_mediatype m
        ({ M with alerts_num := M.alerts_num - 1 } : zbx_am_mediatype_t).mediatypeid = some M := by
      rw [← hk] at hM; exact hM
    have hw1 := am_wf_store_mediatype hw hMs rfl (List.Perm.refl _)
    obtain ⟨hg1, hg2, hg3, hg4, hg5⟩ := am_get_alertpool_deref
      (mediatype_store m { M with alerts_num := M.alerts_num - 1 })
      a.mediatypeid a.alertpoolid
    have hget1 : ∀ id, am_get_mediatype
        (am_get_alertpool (mediatype_store m { M with alerts_num := M.alerts_num - 1 })
          a.mediatypeid a.alertpoolid).2 id =
        if id = a.mediatypeid then some { M with alerts_num := M.alerts_num - 1 }
        else am_get_mediatype m id := by
      intro id
      rw [hg3, am_get_mediatype_store hMs]
      by_cases hc : id = a.mediatypeid
      · rw [if_pos hc, if_pos (hc.trans hk.symm)]
      · rw [if_neg hc, if_neg (fun e => hc (e.trans hk))]
    obtain ⟨f2a, -, -, f2b, P, q, hP, hq, -, hP2⟩ := am_push_alert_frame h3
    obtain ⟨hw3, hne⟩ := am_wf_push_alert (am_wf_get_alertpool hw1 _ _) h3
    obtain ⟨f3a, f3b, P3, hP3, hP3'⟩ := am_push_alertpool_frame hw3 h4
    obtain ⟨hw4, M4, hM4, hM4ne⟩ := am_wf_push_alertpool hw3 h4 hne
    obtain ⟨M5, P5, q5, hM5, -, hM5', -⟩ := am_push_alertpool_get h4
    rw [f2a, hget1, if_pos rfl] at hM5; cases hM5
    rw [hM4] at hM5'; cases hM5'
    obtain ⟨f4a, f4b, -⟩ := am_push_meditype_frame h5
    obtain ⟨M6, hM6, h6⟩ := am_push_meditype_get h5
    rw [hM4] at hM6; cases hM6
    rw [hg1] at hP; cases hP
    rw [hP2] at hP3; cases hP3
    refine ⟨hc, ?_, ?_, ?_, (am_get_alertpool
      (mediatype_store m { M with alerts_num := M.alerts_num - 1 })
      a.mediatypeid a.alertpoolid).1, q, ?_, hq, ?_⟩
    · intro id' hne'
      rw [am_push_meditype_other h5 id' hne', (am_push_alertpool_other h4).1 id' hne', f2a,
        hget1, if_neg hne']
    · rcases h6 with ⟨-, hl, hcap, hg, -⟩ | ⟨-, hg, -⟩
      · exact ⟨_, hg, rfl, hM4ne, fun _ => Or.inr hcap⟩
      · exact ⟨_, hg, rfl, hM4ne, fun hh => Or.inl hh⟩
    · intro mid' pid' hne'
      rw [f4b, f3b mid' pid' hne', f2b mid' pid' hne', hg2 mid' pid' hne']
      rfl
    · rcases hg5 with h5' | ⟨h5', h6'⟩
      · exact Or.inl h5'
      · exact Or.inr ⟨h5', h6'⟩
    · rw [f4b, hP3']

/-! ## The in-flight invariant -/

theorem am_in_flight_num_cons (a : zbx_am_alert_t) (fl : List zbx_am_alert_t) (id : Nat) :
    am_in_flight_num (a :: fl) id = am_in_flight_num fl id + if a.mediatypeid = id then 1 else 0 := by
  unfold am_in_flight_num
  rw [List.countP_cons]
  by_cases h : a.mediatypeid = id <;> simp [h]

theorem am_in_flight_num_perm {fl fl' : List zbx_am_alert_t} (h : fl.Perm fl') (id : Nat) :
    am_in_flight_num fl id = am_in_flight_num fl' id :=
  List.Perm.countP_eq _ h

theorem am_in_flight_num_erase {a : zbx_am_alert_t} {fl : List zbx_am_alert_t} (h : a ∈ fl)
    (id : Nat) :
    am_in_flight_num fl id =
      am_in_flight_num (fl.erase a) id + if a.mediatypeid = id then 1 else 0 := by
  rw [am_in_flight_num_perm (List.perm_cons_erase h) id, am_in_flight_num_cons]

theorem am_in_flight_num_zero {fl : List zbx_am_alert_t} {id : Nat}
    (h : ∀ a ∈ fl, a.mediatypeid ≠ id) : am_in_flight_num fl id = 0 := by
  unfold am_in_flight_num
  rw [List.countP_eq_zero]
  intro a ha
  simpa using h a ha

theorem am_in_flight_num_pos {fl : List zbx_am_alert_t} {a : zbx_am_alert_t} (h : a ∈ fl) :
    0 < am_in_flight_num fl a.mediatypeid := by
  unfold am_in_flight_num
  rw [List.countP_pos_iff]
  exact ⟨a, h, by simp⟩

theorem am_inv_init (n : Nat) : am_inv (am_sched_init n) := by
  constructor
  · exact am_wf_init n
  · intro id M h; simp [am_sched_init, am_init, am_get_mediatype, zbx_hashset_search] at h
  · intro a ha; simp [am_sched_init] at ha
  · intro mid pid P h; simp [am_sched_init, am_init, alertpool_deref, zbx_hashset_search] at h
  · intro mid pid P h; simp [am_sched_init, am_init, alertpool_deref, zbx_hashset_search] at h

theorem am_inv_perm {m : zbx_am_t} {fl fl' : List zbx_am_alert_t}
    (h : am_inv { manager := m, in_flight := fl }) (hp : fl.Perm fl') :
    am_inv { manager := m, in_flight := fl' } := by
  constructor
  · exact h.wf
  · intro id M hM
    rw [h.num id M hM]
    exact congrArg _ (am_in_flight_num_perm hp id)
  · intro a ha
    exact h.flight_mt a (hp.mem_iff.2 ha)
  · exact h.pool_ids
  · intro mid pid P hP hl hne
    obtain ⟨a, ha, h1⟩ := h.pool_busy mid pid P hP hl hne
    exact ⟨a, hp.mem_iff.1 ha, h1⟩

theorem am_inv_update_mediatype {s : am_sched} (h : am_inv s) (id : Nat)
    (a : am_mediatype_args) :
    am_inv { s with manager := am_update_mediatype s.manager id a } := by
  have hg := am_update_mediatype_get s.manager id a
  constructor
  · exact am_wf_update_mediatype h.wf id a
  · intro id1 M1 h1
    simp only at h1
    rw [hg] at h1
    split at h1
    · rename_i he; subst he
      cases hs : am_get_mediatype s.manager id1 with
      | some M =>
        rw [hs] at h1; simp only [Option.getD_some] at h1
        cases h1
        exact h.num id1 M hs
      | none =>
        rw [hs] at h1; simp only [Option.getD_none] at h1
        cases h1
        have : am_in_flight_num s.in_flight id1 = 0 := by
          apply am_in_flight_num_zero
          intro x hx he
          exact h.flight_mt x hx (he ▸ hs)
        simp [mediatype_local, this]
    · exact h.num id1 M1 h1
  · intro x hx
    simp only
    rw [hg]
    split
    · simp
    · exact h.flight_mt x hx
  · intro mid pid P hP
    simp only [am_update_mediatype_deref] at hP
    exact h.pool_ids mid pid P hP
  · intro mid pid P hP
    simp only [am_update_mediatype_deref] at hP
    exact h.pool_busy mid pid P hP

theorem am_inv_queue_alert {s : am_sched} {m' : zbx_am_t} {a : zbx_am_alert_t} (h : am_inv s)
    (hq : am_db_queue_alert s.manager a = some m') :
    am_inv { s with manager := m' } := by
  cases hs : am_get_mediatype s.manager a.mediatypeid with
  | none =>
    rcases am_db_queue_alert_inv hq with ⟨-, rfl⟩ | ⟨M, m2, m3, hM, -⟩
    · exact h
    · rw [hs] at hM; cases hM
  | some M =>
    obtain ⟨f1, -, f3, P0, q, hP0, hqp, hP'⟩ := am_db_queue_alert_effect h.wf hq (by rw [hs]; simp)
    constructor
    · exact am_wf_db_queue_alert h.wf hq
    · intro id1 M1 h1
      simp only at h1
      cases hs1 : am_get_mediatype s.manager id1 with
      | none => rw [(f1 id1).1 hs1] at h1; cases h1
      | some M0 =>
        obtain ⟨M', hM', he, -⟩ := (f1 id1).2 M0 hs1
        rw [hM'] at h1; cases h1
        rw [he]
        exact h.num id1 M0 hs1
    · intro x hx
      simp only
      cases hs1 : am_get_mediatype s.manager x.mediatypeid with
      | none => exact absurd hs1 (h.flight_mt x hx)
      | some M0 =>
        obtain ⟨M', hM', -, -⟩ := (f1 x.mediatypeid).2 M0 hs1
        rw [hM']; simp
    · intro mid pid P hP x hx
      simp only at hP
      by_cases hc : mid = a.mediatypeid ∧ pid = a.alertpoolid
      · obtain ⟨e1, e2⟩ := hc; subst e1 e2
        rw [hP'] at hP; cases hP
        rcases List.mem_cons.1 (hqp.mem_iff.1 hx) with hxa | hxa
        · subst hxa; exact ⟨rfl, rfl⟩
        · rcases hP0 with h0 | ⟨-, h0⟩
          · exact h.pool_ids _ _ P0 h0 x hxa
          · rw [h0] at hxa; cases hxa
      · rw [f3 mid pid hc] at hP
        exact h.pool_ids mid pid P hP x hx
    · intro mid pid P hP hl hne
      simp only at hP
      by_cases hc : mid = a.mediatypeid ∧ pid = a.alertpoolid
      · obtain ⟨e1, e2⟩ := hc; subst e1 e2
        rw [hP'] at hP; cases hP
        cases hl
      · rw [f3 mid pid hc] at hP
        exact h.pool_busy mid pid P hP hl hne

theorem am_inv_pop_alert {s : am_sched} {m' : zbx_am_t} {a : zbx_am_alert_t} (h : am_inv s)
    (hp : am_pop_alert s.manager = some (some a, m')) :
    am_inv { manager := m', in_flight := a :: s.in_flight } := by
  obtain ⟨id, t, M, pid, tp, P, rest, q, M', hq0, hM, hMq, hP, hPq, hMl, hPl, hqp, hoth, hM',
    hMe, -, -, -, hpf, hP'⟩ := am_pop_alert_effect h.wf hp
  have haid : a.mediatypeid = id ∧ a.alertpoolid = pid :=
    h.pool_ids id pid P hP a (by rw [hPq]; exact List.mem_cons_self _ _)
  constructor
  · exact am_wf_pop_alert h.wf hp
  · intro id1 M1 h1
    simp only at h1 ⊢
    rw [am_in_flight_num_cons]
    by_cases hc : id1 = id
    · subst hc
      rw [hM'] at h1; cases h1
      rw [hMe]
      simp only [haid.1, if_true]
      rw [h.num id1 M hM]
      push_cast; ring
    · rw [hoth id1 hc] at h1
      rw [if_neg (fun e => hc (e.symm.trans haid.1)), h.num id1 M1 h1]
      simp
  · intro x hx
    simp only at hx ⊢
    by_cases hc : x.mediatypeid = id
    · rw [hc, hM']; simp
    · rw [hoth _ hc]
      rcases List.mem_cons.1 hx with hxa | hxa
      · exact absurd (hxa ▸ haid.1) hc
      · exact h.flight_mt x hxa
  · intro mid1 pid1 P1 hP1 x hx
    simp only at hP1
    by_cases hc : mid1 = id ∧ pid1 = pid
    · obtain ⟨e1, e2⟩ := hc; subst e1 e2
      rw [hP'] at hP1; cases hP1
      exact h.pool_ids _ _ P hP x (by rw [hPq]; exact List.mem_cons_of_mem _ (hqp.mem_iff.1 hx))
    · rw [hpf mid1 pid1 hc] at hP1
      exact h.pool_ids mid1 pid1 P1 hP1 x hx
  · intro mid1 pid1 P1 hP1 hl hne
    simp only at hP1 ⊢
    by_cases hc : mid1 = id ∧ pid1 = pid
    · obtain ⟨e1, e2⟩ := hc; subst e1 e2
      exact ⟨a, List.mem_cons_self _ _, haid⟩
    · rw [hpf mid1 pid1 hc] at hP1
      obtain ⟨x, hx, hx2⟩ := h.pool_busy mid1 pid1 P1 hP1 hl hne
      exact ⟨x, List.mem_cons_of_mem _ hx, hx2⟩

theorem am_inv_remove_alert {s : am_sched} {m' : zbx_am_t} {a a1 : zbx_am_alert_t}
    (h : am_inv s) (ha : a ∈ s.in_flight) (h1 : a1.mediatypeid = a.mediatypeid)
    (h2 : a1.alertpoolid = a.alertpoolid) (hr : am_remove_alert s.manager a1 = some m') :
    am_inv { manager := m', in_flight := s.in_flight.erase a } := by
  cases hs : am_get_mediatype s.manager a.mediatypeid with
  | none => exact absurd hs (h.flight_mt a ha)
  | some M =>
    have hs1 : am_get_mediatype s.manager a1.mediatypeid = some M := by rw [h1]; exact hs
    obtain ⟨hoth, hmt, hpf, hpool⟩ := am_remove_alert_effect h.wf hr hs1
    rw [h1] at hoth hmt hpf hpool
    rw [h2] at hpf hpool
    have hnum := am_in_flight_num_erase ha
    constructor
    · exact am_wf_remove_alert h.wf hr
    · intro id1 M1 hM1
      simp only at hM1 ⊢
      by_cases hc : id1 = a.mediatypeid
      · subst hc
        rcases hmt with ⟨hn, -⟩ | ⟨M', hM', hMe, -, -⟩
        · rw [hn] at hM1; cases hM1
        · rw [hM'] at hM1; cases hM1
          rw [hMe]
          simp only
          rw [h.num _ M hs, hnum a.mediatypeid]
          simp
      · rw [hoth id1 hc] at hM1
        rw [h.num id1 M1 hM1, hnum id1, if_neg (fun e => hc e.symm)]
        simp
    · intro x hx
      simp only at hx ⊢
      have hx0 : x ∈ s.in_flight := List.mem_of_mem_erase hx
      by_cases hc : x.mediatypeid = a.mediatypeid
      · rw [hc]
        rcases hmt with ⟨-, hz⟩ | ⟨M', hM', -, -, -⟩
        · exfalso
          have hpos := am_in_flight_num_pos hx
          rw [hc] at hpos
          have := h.num _ M hs
          rw [hnum a.mediatypeid] at this
          simp only [if_true] at this
          rw [this] at hz
          push_cast at hz
          omega
        · rw [hM']; simp
      · rw [hoth _ hc]; exact h.flight_mt x hx0
    · intro mid1 pid1 P1 hP1 x hx
      simp only at hP1
      by_cases hc : mid1 = a.mediatypeid ∧ pid1 = a.alertpoolid
      · obtain ⟨e1, e2⟩ := hc; subst e1 e2
        rcases hpool with ⟨-, hn⟩ | ⟨P, hP, -, hP'⟩
        · rw [hn] at hP1; cases hP1
        · rw [hP'] at hP1; cases hP1
          exact h.pool_ids _ _ P hP x hx
      · rw [hpf mid1 pid1 hc] at hP1
        exact h.pool_ids mid1 pid1 P1 hP1 x hx
    · intro mid1 pid1 P1 hP1 hl hne
      simp only at hP1 ⊢
      by_cases hc : mid1 = a.mediatypeid ∧ pid1 = a.alertpoolid
      · obtain ⟨e1, e2⟩ := hc; subst e1 e2
        rcases hpool with ⟨-, hn⟩ | ⟨P, hP, -, hP'⟩
        · rw [hn] at hP1; cases hP1
        · rw [hP'] at hP1; cases hP1; cases hl
      · rw [hpf mid1 pid1 hc] at hP1
        obtain ⟨x, hx, hx2⟩ := h.pool_busy mid1 pid1 P1 hP1 hl hne
        refine ⟨x, ?_, hx2⟩
        rw [List.mem_erase_of_ne]
        · exact hx
        · intro e; subst e; exact hc ⟨hx2.1.symm, hx2.2.symm⟩

theorem am_inv_retry_alert {s : am_sched} {r : Int × zbx_am_t} {a : zbx_am_alert_t} {now : Int}
    (h : am_inv s) (ha : a ∈ s.in_flight)
    (hr : am_retry_alert s.manager a now = some r) :
    am_inv { manager := r.2, in_flight := s.in_flight.erase a } := by
  cases hs : am_get_mediatype s.manager a.mediatypeid with
  | none => exact absurd hs (h.flight_mt a ha)
  | some M =>
    rcases am_retry_alert_inv hr with ⟨hn, -⟩ | ⟨M0, -, -, -, h1⟩ | ⟨M0, m3, m4, -, -, hsucc, -⟩
    · rw [hs] at hn; cases hn
    · exact am_inv_remove_alert h ha rfl rfl h1
    · obtain ⟨r1, r2⟩ := r
      simp only at hsucc
      subst hsucc
      obtain ⟨-, hoth, ⟨M', hM', hMe, -, -⟩, hpf, P0, q, hP0, hqp, hP'⟩ :=
        am_retry_alert_effect h.wf hr hs
      have hnum := am_in_flight_num_erase ha
      constructor
      · exact am_wf_retry_alert h.wf hr
      · intro id1 M1 hM1
        simp only at hM1 ⊢
        by_cases hc : id1 = a.mediatypeid
        · subst hc
          rw [hM'] at hM1; cases hM1
          rw [hMe]
          simp only
          rw [h.num _ M hs, hnum a.mediatypeid]
          simp
        · rw [hoth id1 hc] at hM1
          rw [h.num id1 M1 hM1, hnum id1, if_neg (fun e => hc e.symm)]
          simp
      · intro x hx
        simp only at hx ⊢
        have hx0 : x ∈ s.in_flight := List.mem_of_mem_erase hx
        by_cases hc : x.mediatypeid = a.mediatypeid
        · rw [hc, hM']; simp
        · rw [hoth _ hc]; exact h.flight_mt x hx0
      · intro mid1 pid1 P1 hP1 x hx
        simp only at hP1
        by_cases hc : mid1 = a.mediatypeid ∧ pid1 = a.alertpoolid
        · obtain ⟨e1, e2⟩ := hc; subst e1 e2
          rw [hP'] at hP1; cases hP1
          rcases List.mem_cons.1 (hqp.mem_iff.1 hx) with hxa | hxa
          · subst hxa; exact ⟨rfl, rfl⟩
          · rcases hP0 with h0 | ⟨-, h0⟩
            · exact h.pool_ids _ _ P0 h0 x hxa
            · rw [h0] at hxa; cases hxa
        · rw [hpf mid1 pid1 hc] at hP1
          exact h.pool_ids mid1 pid1 P1 hP1 x hx
      · intro mid1 pid1 P1 hP1 hl hne
        simp only at hP1 ⊢
        by_cases hc : mid1 = a.mediatypeid ∧ pid1 = a.alertpoolid
        · obtain ⟨e1, e2⟩ := hc; subst e1 e2
          rw [hP'] at hP1; cases hP1; cases hl
        · rw [hpf mid1 pid1 hc] at hP1
          obtain ⟨x, hx, hx2⟩ := h.pool_busy mid1 pid1 P1 hP1 hl hne
          refine ⟨x, ?_, hx2⟩
          rw [List.mem_erase_of_ne]
          · exact hx
          · intro e; subst e; exact hc ⟨hx2.1.symm, hx2.2.symm⟩

theorem am_inv_step {s s' : am_sched} {op : am_op} (h : am_inv s)
    (hg : guard_in_flight s op = true) (hs : am_step s op = some s') : am_inv s' := by
  cases op with
  | update_mediatype id a =>
    simp only [am_step, Option.some.injEq] at hs
    subst hs
    exact am_inv_update_mediatype h id a
  | queue_alert a =>
    simp only [am_step, Option.map_eq_some'] at hs
    obtain ⟨m1, h1, rfl⟩ := hs
    exact am_inv_queue_alert h h1
  | pop_alert =>
    simp only [am_step, Option.map_eq_some'] at hs
    obtain ⟨r, h1, rfl⟩ := hs
    obtain ⟨o, m1⟩ := r
    cases o with
    | none =>
      simp only
      rw [(am_pop_alert_none h1).2]
      exact h
    | some a => exact am_inv_pop_alert h h1
  | remove_alert a =>
    simp only [am_step, Option.map_eq_some'] at hs
    obtain ⟨m1, h1, rfl⟩ := hs
    simp only [guard_in_flight, decide_eq_true_eq] at hg
    exact am_inv_remove_alert h hg rfl rfl h1
  | retry_alert a now =>
    simp only [am_step, Option.map_eq_some'] at hs
    obtain ⟨r, h1, rfl⟩ := hs
    simp only [guard_in_flight, decide_eq_true_eq] at hg
    exact am_inv_retry_alert h hg h1

/-! ## The capacity invariant -/

theorem mt_cap_congr {M M' : zbx_am_mediatype_t} (h1 : M'.alerts_num ≤ M.alerts_num)
    (h2 : M'.maxsessions = M.maxsessions) (h : mt_cap M) : mt_cap M' := by
  unfold mt_cap at *
  rw [h2]
  rcases h with h | h
  · exact Or.inl h
  · exact Or.inr (lt_of_le_of_lt h1 h)

theorem am_cap_at_remove_alert {m m1 : zbx_am_t} {a : zbx_am_alert_t} {id : Nat}
    (hw : am_wf m) (hc : am_cap_at m id) (h1 : am_remove_alert m a = some m1) :
    am_cap_at m1 id := by
  cases hg : am_get_mediatype m a.mediatypeid with
  | none =>
    rcases am_remove_alert_inv h1 with ⟨-, rfl⟩ | ⟨M, m3, M3, hM, -⟩
    · exact hc
    · rw [hg] at hM; cases hM
  | some M =>
    obtain ⟨hoth, hmt, -, -⟩ := am_remove_alert_effect hw h1 hg
    intro M1 hM1 hl
    by_cases he : id = a.mediatypeid
    · subst he
      rcases hmt with ⟨hn, -⟩ | ⟨M', hM', hMe, -, hcap⟩
      · rw [hn] at hM1; cases hM1
      · rw [hM'] at hM1; cases hM1
        rcases hcap hl with h2 | h2
        · refine mt_cap_congr (M := M) ?_ ?_ (hc M hg h2)
          · rw [hMe]; simp
          · rw [hMe]
        · refine mt_cap_congr ?_ ?_ h2
          · rw [hMe]
          · rw [hMe]
    · rw [hoth id he] at hM1
      exact hc M1 hM1 hl

theorem am_cap_at_step {s s' : am_sched} {op : am_op} {id : Nat} (hw : am_wf s.manager)
    (hc : am_cap_at s.manager id) (hs : am_step s op = some s')
    (hu : ∀ a M, op = am_op.update_mediatype id a → am_get_mediatype s.manager id = some M →
      a.maxsessions = M.maxsessions) :
    am_cap_at s'.manager id := by
  cases op with
  | update_mediatype id1 a =>
    simp only [am_step, Option.some.injEq] at hs
    subst hs
    intro M1 h1 hl
    simp only at h1
    rw [am_update_mediatype_get] at h1
    split at h1
    · rename_i he; subst he
      cases hg : am_get_mediatype s.manager id with
      | some M =>
        rw [hg] at h1; simp only [Option.getD_some] at h1
        cases h1
        have hm := hu a M rfl hg
        exact mt_cap_congr (M := M) (le_refl _) hm (hc M hg hl)
      | none =>
        rw [hg] at h1; simp only [Option.getD_none] at h1
        cases h1
        cases hl
    · exact hc M1 h1 hl
  | queue_alert a =>
    simp only [am_step, Option.map_eq_some'] at hs
    obtain ⟨m1, h1, rfl⟩ := hs
    cases hg : am_get_mediatype s.manager a.mediatypeid with
    | none =>
      rcases am_db_queue_alert_inv h1 with ⟨-, rfl⟩ | ⟨M, m2, m3, hM, -⟩
      · exact hc
      · rw [hg] at hM; cases hM
    | some M0 =>
      obtain ⟨f1, -, -, -⟩ := am_db_queue_alert_effect hw h1 (by rw [hg]; simp)
      intro M1 hM1 hl
      simp only at hM1
      cases hg1 : am_get_mediatype s.manager id with
      | none => rw [(f1 id).1 hg1] at hM1; cases hM1
      | some M =>
        obtain ⟨M', hM', he, hcap⟩ := (f1 id).2 M hg1
        rw [hM'] at hM1; cases hM1
        rcases hcap hl with h2 | h2
        · exact mt_cap_congr (by rw [he]) (by rw [he]) (hc M hg1 h2)
        · exact mt_cap_congr (by rw [he]) (by rw [he]) h2
  | pop_alert =>
    simp only [am_step, Option.map_eq_some'] at hs
    obtain ⟨r, h1, rfl⟩ := hs
    obtain ⟨o, m1⟩ := r
    cases o with
    | none => simp only; rw [(am_pop_alert_none h1).2]; exact hc
    | some a =>
      obtain ⟨id0, t, M, pid, tp, P, rest, q, M', -, -, -, -, -, -, -, -, hoth, hM', -, -, hloc,
        -, -, -⟩ := am_pop_alert_effect hw h1
      intro M1 hM1 hl
      simp only at hM1
      by_cases he : id = id0
      · subst he
        rw [hM'] at hM1; cases hM1
        exact (hloc.1 hl).2
      · rw [hoth id he] at hM1
        exact hc M1 hM1 hl
  | remove_alert a =>
    simp only [am_step, Option.map_eq_some'] at hs
    obtain ⟨m1, h1, rfl⟩ := hs
    exact am_cap_at_remove_alert hw hc h1
  | retry_alert a now =>
    simp only [am_step, Option.map_eq_some'] at hs
    obtain ⟨r, h1, rfl⟩ := hs
    rcases am_retry_alert_inv h1 with ⟨-, rfl⟩ | ⟨M0, -, -, -, h2⟩ | ⟨M0, m3, m4, hM0, -, hsucc, -⟩
    · exact hc
    · exact am_cap_at_remove_alert hw hc h2
    · obtain ⟨r1, r2⟩ := r
      simp only at hsucc
      subst hsucc
      obtain ⟨-, hoth, ⟨M', hM', hMe, -, hcap⟩, -, -⟩ := am_retry_alert_effect hw h1 hM0
      intro M1 hM1 hl
      simp only at hM1
      by_cases he : id = a.mediatypeid
      · subst he
        rw [hM'] at hM1; cases hM1
        rcases hcap hl with h2 | h2
        · refine mt_cap_congr (M := M0) ?_ ?_ (hc M0 hM0 h2)
          · rw [hMe]; simp
          · rw [hMe]
        · refine mt_cap_congr ?_ ?_ h2
          · rw [hMe]
          · rw [hMe]
      · rw [hoth id he] at hM1
        exact hc M1 hM1 hl

/-! ## Hash set membership and pointers -/

theorem am_get_mediatype_of_mem {m : zbx_am_t} (hw : am_wf m) {M : zbx_am_mediatype_t}
    (h : M ∈ m.mediatypes) : am_get_mediatype m M.mediatypeid = some M :=
  hashset_mem_search mediatype_key m.mediatypes M hw.mt_keys h

theorem alertpool_deref_of_mem {m : zbx_am_t} (hw : am_wf m) {P : zbx_am_alertpool_t}
    (h : P ∈ m.alertpools) : alertpool_deref m P.mediatypeid P.id = some P :=
  hashset_mem_search alertpool_key m.alertpools P hw.pool_keys h

theorem am_get_mediatype_mem {m : zbx_am_t} {id : Nat} {M : zbx_am_mediatype_t}
    (h : am_get_mediatype m id = some M) : M ∈ m.mediatypes :=
  (zbx_hashset_search_some h).2

theorem alertpool_deref_mem {m : zbx_am_t} {mid pid : Nat} {P : zbx_am_alertpool_t}
    (h : alertpool_deref m mid pid = some P) : P ∈ m.alertpools :=
  (zbx_hashset_search_some h).2

/-! ## The invariants hold along every run -/

theorem am_wf_reachable {guard : am_sched → am_op → Bool} {n : Nat} {ops : List am_op}
    {s : am_sched} (h : am_run guard (am_sched_init n) ops = some s) : am_wf s.manager :=
  am_wf_run (am_wf_init n) h

theorem guard_fixed_maxsessions_in_flight {mid : Nat} {k : Int} {s : am_sched} {op : am_op}
    (h : guard_fixed_maxsessions mid k s op = true) : guard_in_flight s op = true := by
  unfold guard_fixed_maxsessions at h
  rw [Bool.and_eq_true] at h
  exact h.1

theorem am_inv_run {guard : am_sched → am_op → Bool}
    (hg : ∀ s op, guard s op = true → guard_in_flight s op = true) {ops : List am_op}
    {s s' : am_sched} (hi : am_inv s) (h : am_run guard s ops = some s') : am_inv s' :=
  am_run_induction (fun s => am_inv s) (fun s op _ hI hgd hs => am_inv_step hI (hg s op hgd) hs)
    ops s s' hi h

theorem am_fixed_cap_remove {m m1 : zbx_am_t} {a : zbx_am_alert_t} {mid : Nat} {k : Int}
    (hw : am_wf m)
    (hb : ∀ M, am_get_mediatype m mid = some M → M.maxsessions = k ∧ M.alerts_num ≤ k)
    (h1 : am_remove_alert m a = some m1) :
    ∀ M, am_get_mediatype m1 mid = some M → M.maxsessions = k ∧ M.alerts_num ≤ k := by
  cases hgt : am_get_mediatype m a.mediatypeid with
  | none =>
    rcases am_remove_alert_inv h1 with ⟨-, rfl⟩ | ⟨M, m3, M3, hM, -⟩
    · exact hb
    · rw [hgt] at hM; cases hM
  | some M =>
    obtain ⟨hoth, hmt, -, -⟩ := am_remove_alert_effect hw h1 hgt
    intro M1 hM1
    by_cases he : mid = a.mediatypeid
    · subst he
      rcases hmt with ⟨hn, -⟩ | ⟨M', hM', hMe, -, -⟩
      · rw [hn] at hM1; cases hM1
      · rw [hM'] at hM1; cases hM1
        rw [hMe]
        simp only
        obtain ⟨hb1, hb2⟩ := hb M hgt
        exact ⟨hb1, by omega⟩
    · rw [hoth mid he] at hM1
      exact hb M1 hM1

/-- The invariant behind the concurrency cap: the media type is configured with `k`, holds at
most `k` alerts in flight and fewer while it is queued. -/
theorem am_fixed_cap_run {mid : Nat} {k : Int} (hk : 0 < k) {ops : List am_op} {s s' : am_sched}
    (hw : am_wf s.manager) (hc : am_cap_at s.manager mid)
    (hb : ∀ M, am_get_mediatype s.manager mid = some M → M.maxsessions = k ∧ M.alerts_num ≤ k)
    (h : am_run (guard_fixed_maxsessions mid k) s ops = some s') :
    ∀ M, am_get_mediatype s'.manager mid = some M → M.maxsessions = k ∧ M.alerts_num ≤ k := by
  have key := @am_run_induction (guard_fixed_maxsessions mid k)
    (fun s => am_wf s.manager ∧ am_cap_at s.manager mid ∧
      ∀ M, am_get_mediatype s.manager mid = some M → M.maxsessions = k ∧ M.alerts_num ≤ k)
    ?_ ops s s' ⟨hw, hc, hb⟩ h
  · exact key.2.2
  · intro s op s1 ⟨hw, hc, hb⟩ hg hs
    have hgm : guard_maxsessions mid k s op = true := by
      unfold guard_fixed_maxsessions at hg
      rw [Bool.and_eq_true] at hg
      exact hg.2
    refine ⟨am_wf_step hw hs, am_cap_at_step hw hc hs ?_, ?_⟩
    · intro a M he hM
      subst he
      simp only [guard_maxsessions, decide_eq_true_eq, forall_const] at hgm
      rw [hgm, (hb M hM).1]
    · cases op with
      | update_mediatype id1 a =>
        simp only [am_step, Option.some.injEq] at hs
        subst hs
        intro M1 h1
        simp only at h1
        rw [am_update_mediatype_get] at h1
        split at h1
        · rename_i he
          simp only [guard_maxsessions, decide_eq_true_eq] at hgm
          have hak := hgm he.symm
          cases hgt : am_get_mediatype s.manager id1 with
          | some M =>
            rw [hgt] at h1; simp only [Option.getD_some] at h1
            cases h1
            exact ⟨hak, (hb M (he ▸ hgt)).2⟩
          | none =>
            rw [hgt] at h1; simp only [Option.getD_none] at h1
            cases h1
            exact ⟨hak, le_of_lt hk⟩
        · exact hb M1 h1
      | queue_alert a =>
        simp only [am_step, Option.map_eq_some'] at hs
        obtain ⟨m1, h1, rfl⟩ := hs
        cases hgt : am_get_mediatype s.manager a.mediatypeid with
        | none =>
          rcases am_db_queue_alert_inv h1 with ⟨-, rfl⟩ | ⟨M, m2, m3, hM, -⟩
          · exact hb
          · rw [hgt] at hM; cases hM
        | some M0 =>
          obtain ⟨f1, -, -, -⟩ := am_db_queue_alert_effect hw h1 (by rw [hgt]; simp)
          intro M1 hM1
          simp only at hM1
          cases hg1 : am_get_mediatype s.manager mid with
          | none => rw [(f1 mid).1 hg1] at hM1; cases hM1
          | some M =>
            obtain ⟨M', hM', he, -⟩ := (f1 mid).2 M hg1
            rw [hM'] at hM1; cases hM1
            rw [he]
            exact hb M hg1
      | pop_alert =>
        simp only [am_step, Option.map_eq_some'] at hs
        obtain ⟨r, h1, rfl⟩ := hs
        obtain ⟨o, m1⟩ := r
        cases o with
        | none => simp only; rw [(am_pop_alert_none h1).2]; exact hb
        | some a =>
          obtain ⟨id0, t, M, pid, tp, P, rest, q, M', -, hM, -, -, -, hMl, -, -, hoth, hM', hMe,
            -, -, -, -, -⟩ := am_pop_alert_effect hw h1
          intro M1 hM1
          simp only at hM1
          by_cases he : mid = id0
          · subst he
            rw [hM'] at hM1; cases hM1
            rw [hMe]
            simp only
            obtain ⟨hb1, hb2⟩ := hb M hM
            refine ⟨hb1, ?_⟩
            rcases hc M hM hMl with h2 | h2
            · omega
            · omega
          · rw [hoth mid he] at hM1
            exact hb M1 hM1
      | remove_alert a =>
        simp only [am_step, Option.map_eq_some'] at hs
        obtain ⟨m1, h1, rfl⟩ := hs
        exact am_fixed_cap_remove hw hb h1
      | retry_alert a now =>
        simp only [am_step, Option.map_eq_some'] at hs
        obtain ⟨r, h1, rfl⟩ := hs
        rcases am_retry_alert_inv h1 with ⟨-, rfl⟩ | ⟨M0, -, -, -, h2⟩ |
          ⟨M0, m3, m4, hM0, -, hsucc, -⟩
        · exact hb
        · exact am_fixed_cap_remove hw hb h2
        · obtain ⟨r1, r2⟩ := r
          simp only at hsucc
          subst hsucc
          obtain ⟨-, hoth, ⟨M', hM', hMe, -, -⟩, -, -⟩ := am_retry_alert_effect hw h1 hM0
          intro M1 hM1
          simp only at hM1
          by_cases he : mid = a.mediatypeid
          · subst he
            rw [hM'] at hM1; cases hM1
            rw [hMe]
            simp only
            obtain ⟨hb1, hb2⟩ := hb M0 hM0
            exact ⟨hb1, by omega⟩
          · rw [hoth mid he] at hM1
            exact hb M1 hM1

/-! ## The scheduler operations leave the alerters alone -/

theorem am_same_alerters_refl (m : zbx_am_t) : am_same_alerters m m := ⟨rfl, rfl, rfl, rfl⟩

theorem am_same_alerters_trans {m1 m2 m3 : zbx_am_t} (h12 : am_same_alerters m1 m2)
    (h23 : am_same_alerters m2 m3) : am_same_alerters m1 m3 :=
  ⟨h23.1.trans h12.1, h23.2.1.trans h12.2.1, h23.2.2.1.trans h12.2.2.1,
    h23.2.2.2.trans h12.2.2.2⟩

theorem am_push_meditype_alerters {m m' : zbx_am_t} {id : Nat}
    (h : am_push_meditype m id = some m') : am_same_alerters m m' := by
  obtain ⟨M, -, -, h⟩ := am_push_meditype_inv h
  rcases h with ⟨-, rfl⟩ | ⟨-, -, -, q, -, rfl⟩ | ⟨-, -, -, rfl⟩ | ⟨-, -, q, -, rfl⟩ <;>
    exact ⟨rfl, rfl, rfl, rfl⟩

theorem am_pop_mediatype_alerters {m m' : zbx_am_t} {o : Option Nat}
    (h : am_pop_mediatype m = some (o, m')) : am_same_alerters m m' := by
  rcases am_pop_mediatype_inv h with ⟨-, h2⟩ | ⟨id1, t, M, q, -, -, -, h2⟩ <;> cases h2 <;>
    exact ⟨rfl, rfl, rfl, rfl⟩

theorem am_push_alertpool_alerters {m m' : zbx_am_t} {mid pid : Nat}
    (h : am_push_alertpool m mid pid = some m') : am_same_alerters m m' := by
  obtain ⟨M, P, -, -, h⟩ := am_push_alertpool_inv h
  rcases h with ⟨-, q, -, rfl⟩ | ⟨-, q, -, rfl⟩ <;> exact ⟨rfl, rfl, rfl, rfl⟩

theorem am_pop_alertpool_alerters {m m' : zbx_am_t} {mid : Nat} {o : Option Nat}
    (h : am_pop_alertpool m mid = some (o, m')) : am_same_alerters m m' := by
  obtain ⟨M, -, h⟩ := am_pop_alertpool_inv h
  rcases h with ⟨-, h2⟩ | ⟨pid1, t, P, q, -, -, -, h2⟩ <;> cases h2 <;>
    exact ⟨rfl, rfl, rfl, rfl⟩

theorem am_push_alert_alerters {m m' : zbx_am_t} {mid pid : Nat} {a : zbx_am_alert_t}
    (h : am_push_alert m mid pid a = some m') : am_same_alerters m m' := by
  obtain ⟨P, q, -, -, rfl⟩ := am_push_alert_inv h
  exact ⟨rfl, rfl, rfl, rfl⟩

theorem am_get_alertpool_alerters (m : zbx_am_t) (mid pid : Nat) :
    am_same_alerters m (am_get_alertpool m mid pid).2 := by
  cases hs : alertpool_deref m mid pid with
  | some P => rw [am_get_alertpool_some hs]; exact ⟨rfl, rfl, rfl, rfl⟩
  | none => rw [am_get_alertpool_none hs]; exact ⟨rfl, rfl, rfl, rfl⟩

theorem am_update_mediatype_alerters (m : zbx_am_t) (id : Nat) (a : am_mediatype_args) :
    am_same_alerters m (am_update_mediatype m id a) := by
  unfold am_update_mediatype
  cases am_get_mediatype m id <;> exact ⟨rfl, rfl, rfl, rfl⟩

theorem am_db_queue_alert_alerters {m m' : zbx_am_t} {a : zbx_am_alert_t}
    (h : am_db_queue_alert m a = some m') : am_same_alerters m m' := by
  rcases am_db_queue_alert_inv h with ⟨-, rfl⟩ | ⟨M, m2, m3, -, h2, h3, h4⟩
  · exact am_same_alerters_refl _
  · exact am_same_alerters_trans (am_get_alertpool_alerters _ _ _)
      (am_same_alerters_trans (am_push_alert_alerters h2)
        (am_same_alerters_trans (am_push_alertpool_alerters h3) (am_push_meditype_alerters h4)))

theorem am_pop_alert_alerters {m m' : zbx_am_t} {o : Option zbx_am_alert_t}
    (h : am_pop_alert m = some (o, m')) : am_same_alerters m m' := by
  cases o with
  | none => rw [(am_pop_alert_none h).2]; exact am_same_alerters_refl _
  | some a =>
    obtain ⟨id, m1, pid, m2, P, q, M, h1, h2, -, -, -, -, h5⟩ := am_pop_alert_inv h
    have e12 := am_same_alerters_trans (am_pop_mediatype_alerters h1)
      (am_pop_alertpool_alerters h2)
    have e4 : am_same_alerters m2
        (mediatype_store (alertpool_store m2 { P with queue := q })
          { M with alerts_num := M.alerts_num + 1 }) := ⟨rfl, rfl, rfl, rfl⟩
    rcases h5 with ⟨-, h5⟩ | ⟨-, rfl⟩
    · exact am_same_alerters_trans e12
        (am_same_alerters_trans e4 (am_push_meditype_alerters h5))
    · exact am_same_alerters_trans e12 e4

theorem am_remove_alert_alerters {m m' : zbx_am_t} {a : zbx_am_alert_t}
    (h : am_remove_alert m a = some m') : am_same_alerters m m' := by
  rcases am_remove_alert_inv h with ⟨-, rfl⟩ | ⟨M, m3, M3, -, h3, -, h4⟩
  · exact am_same_alerters_refl _
  · have e1 : am_same_alerters m
        (mediatype_store m { M with alerts_num := M.alerts_num - 1 }) := ⟨rfl, rfl, rfl, rfl⟩
    have e2 := am_same_alerters_trans e1 (am_get_alertpool_alerters
      (mediatype_store m { M with alerts_num := M.alerts_num - 1 })
      a.mediatypeid a.alertpoolid)
    have e3 : am_same_alerters m m3 := by
      rcases h3 with ⟨-, rfl⟩ | ⟨-, hp⟩
      · exact am_same_alerters_trans e2 ⟨rfl, rfl, rfl, rfl⟩
      · exact am_same_alerters_trans e2 (am_push_alertpool_alerters hp)
    rcases h4 with ⟨-, -, rfl⟩ | ⟨-, hp⟩
    · exact am_same_alerters_trans e3 ⟨rfl, rfl, rfl, rfl⟩
    · exact am_same_alerters_trans e3 (am_push_meditype_alerters hp)

theorem am_retry_alert_alerters {m : zbx_am_t} {a : zbx_am_alert_t} {now : Int}
    {r : Int × zbx_am_t} (h : am_retry_alert m a now = some r) : am_same_alerters m r.2 := by
  rcases am_retry_alert_inv h with ⟨-, rfl⟩ | ⟨M, -, -, -, h1⟩ | ⟨M, m3, m4, -, -, -, h3, h4, h5⟩
  · exact am_same_alerters_refl _
  · exact am_remove_alert_alerters h1
  · have e1 : am_same_alerters m
        (mediatype_store m { M with alerts_num := M.alerts_num - 1 }) := ⟨rfl, rfl, rfl, rfl⟩
    exact am_same_alerters_trans e1
      (am_same_alerters_trans (am_get_alertpool_alerters _ _ _)
        (am_same_alerters_trans (am_push_alert_alerters h3)
          (am_same_alerters_trans (am_push_alertpool_alerters h4)
            (am_push_meditype_alerters h5))))

/-! ## Invariants only look at the scheduler part of the manager -/

theorem am_wf_congr {m m' : zbx_am_t} (h1 : m'.mediatypes = m.mediatypes)
    (h2 : m'.alertpools = m.alertpools) (h3 : m'.queue = m.queue) (hw : am_wf m) : am_wf m' := by
  have hG : ∀ id, am_get_mediatype m' id = am_get_mediatype m id := by
    intro id; unfold am_get_mediatype; rw [h1]
  have hD : ∀ mid pid, alertpool_deref m' mid pid = alertpool_deref m mid pid := by
    intro mid pid; unfold alertpool_deref; rw [h2]
  constructor
  · intro id hid; rw [hG]; exact hw.queue_mt id (h3 ▸ hid)
  · intro id M hM hl; rw [h3]; exact hw.mt_queue id M (hG id ▸ hM) hl
  · intro id M hM; exact hw.mt_loc id M (hG id ▸ hM)
  · rw [h3]; exact hw.queue_nodup
  · intro id M hM pid hpid; rw [hD]; exact hw.mtq_pool id M (hG id ▸ hM) pid hpid
  · intro mid pid P hP hl; rw [hG]; exact hw.pool_mtq mid pid P (hD mid pid ▸ hP) hl
  · intro mid pid P hP; exact hw.pool_loc mid pid P (hD mid pid ▸ hP)
  · intro id M hM; exact hw.mtq_nodup id M (hG id ▸ hM)
  · rw [h1]; exact hw.mt_keys
  · rw [h2]; exact hw.pool_keys

theorem am_inv_congr {m m' : zbx_am_t} {fl : List zbx_am_alert_t}
    (h1 : m'.mediatypes = m.mediatypes) (h2 : m'.alertpools = m.alertpools)
    (h3 : m'.queue = m.queue) (h : am_inv { manager := m, in_flight := fl }) :
    am_inv { manager := m', in_flight := fl } := by
  have hG : ∀ id, am_get_mediatype m' id = am_get_mediatype m id := by
    intro id; unfold am_get_mediatype; rw [h1]
  have hD : ∀ mid pid, alertpool_deref m' mid pid = alertpool_deref m mid pid := by
    intro mid pid; unfold alertpool_deref; rw [h2]
  constructor
  · exact am_wf_congr h1 h2 h3 h.wf
  · intro id M hM; exact h.num id M (hG id ▸ hM)
  · intro a ha; simp only; rw [hG]; exact h.flight_mt a ha
  · intro mid pid P hP; exact h.pool_ids mid pid P (hD mid pid ▸ hP)
  · intro mid pid P hP; exact h.pool_busy mid pid P (hD mid pid ▸ hP)

/-! ## The alerts held by the alerters -/

theorem held_set_client (l : List zbx_am_alerter_t) (i : Nat) (x : zbx_am_alerter_t)
    (c : Option Nat) (h : l[i]? = some x) :
    (l.set i { x with client := c }).filterMap (fun y => y.alert) =
      l.filterMap (fun y => y.alert) := by
  induction l generalizing i with
  | nil => simp
  | cons y ys ih =>
    cases i with
    | zero =>
      simp only [List.getElem?_cons_zero, Option.some.injEq] at h
      subst h
      simp [List.filterMap_cons]
    | succ j =>
      simp only [List.getElem?_cons_succ] at h
      simp only [List.set_cons_succ, List.filterMap_cons]
      rw [ih j h]

theorem held_modify_some (l : List zbx_am_alerter_t) (i : Nat) (x : zbx_am_alerter_t)
    (a : zbx_am_alert_t) (h : l[i]? = some x) (hx : x.alert = none) :
    ((l.modify (fun y => { y with alert := some a }) i).filterMap (fun y => y.alert)).Perm
      (a :: l.filterMap (fun y => y.alert)) := by
  induction l generalizing i with
  | nil => simp at h
  | cons y ys ih =>
    cases i with
    | zero =>
      simp only [List.getElem?_cons_zero, Option.some.injEq] at h
      subst h
      simp [List.filterMap_cons, hx]
    | succ j =>
      simp only [List.getElem?_cons_succ] at h
      simp only [List.modify_succ_cons, List.filterMap_cons]
      cases hy : y.alert with
      | none => simpa using ih j h
      | some b =>
        simp only
        exact (List.Perm.cons b (ih j h)).trans (List.Perm.swap a b _)

theorem held_mem (l : List zbx_am_alerter_t) (i : Nat) (x : zbx_am_alerter_t)
    (a : zbx_am_alert_t) (h : l[i]? = some x) (hx : x.alert = some a) :
    a ∈ l.filterMap (fun y => y.alert) := by
  rw [List.mem_filterMap]
  exact ⟨x, List.getElem?_mem h, hx⟩

theorem held_modify_none (l : List zbx_am_alerter_t) (i : Nat) (x : zbx_am_alerter_t)
    (a : zbx_am_alert_t) (h : l[i]? = some x) (hx : x.alert = some a) :
    ((l.modify (fun y => { y with alert := none }) i).filterMap (fun y => y.alert)).Perm
      ((l.filterMap (fun y => y.alert)).erase a) := by
  induction l generalizing i with
  | nil => simp at h
  | cons y ys ih =>
    cases i with
    | zero =>
      simp only [List.getElem?_cons_zero, Option.some.injEq] at h
      subst h
      simp [List.filterMap_cons, hx]
    | succ j =>
      simp only [List.getElem?_cons_succ] at h
      simp only [List.modify_succ_cons, List.filterMap_cons]
      cases hy : y.alert with
      | none => simpa using ih j h
      | some b =>
        simp only
        by_cases hb : b = a
        · subst hb
          rw [List.erase_cons_head]
          exact (List.Perm.cons b (ih j h)).trans
            (List.perm_cons_erase (held_mem ys j x b h hx)).symm
        · rw [List.erase_cons_tail (by simpa using hb)]
          exact List.Perm.cons b (ih j h)

theorem held_length (l : List zbx_am_alerter_t) :
    (l.filterMap (fun y => y.alert)).length = (l.filter (fun y => y.alert.isSome)).length := by
  induction l with
  | nil => rfl
  | cons y ys ih =>
    cases hy : y.alert with
    | none => simp [List.filterMap_cons, List.filter_cons, hy, ih]
    | some b => simp [List.filterMap_cons, List.filter_cons, hy, ih]

/-! ## In-flight accounting -/

theorem sum_indicator (mts : List zbx_am_mediatype_t) (id : Nat)
    (hnd : (mts.map mediatype_key).Nodup) (hmem : id ∈ mts.map mediatype_key) :
    (mts.map (fun M => if id = M.mediatypeid then (1 : Int) else 0)).sum = 1 := by
  induction mts with
  | nil => simp at hmem
  | cons M Ms ih =>
    simp only [List.map_cons, List.nodup_cons, List.mem_cons, List.sum_cons] at hnd hmem ⊢
    by_cases he : id = M.mediatypeid
    · have hz : (Ms.map (fun M => if id = M.mediatypeid then (1 : Int) else 0)).sum = 0 := by
        apply List.sum_eq_zero
        intro x hx
        rw [List.mem_map] at hx
        obtain ⟨M1, hM1, rfl⟩ := hx
        have : id ≠ M1.mediatypeid := by
          intro e
          apply hnd.1
          rw [List.mem_map]
          exact ⟨M1, hM1, by simp [mediatype_key, ← e, he]⟩
        simp [this]
      rw [if_pos he, hz]; rfl
    · have : id ∈ Ms.map mediatype_key := by
        rcases hmem with h | h
        · exact absurd h he
        · exact h
      simp [he, ih hnd.2 this]

theorem sum_in_flight_num (mts : List zbx_am_mediatype_t) (fl : List zbx_am_alert_t)
    (hnd : (mts.map mediatype_key).Nodup)
    (hcov : ∀ a ∈ fl, a.mediatypeid ∈ mts.map mediatype_key) :
    (mts.map (fun M => (am_in_flight_num fl M.mediatypeid : Int))).sum = fl.length := by
  induction fl with
  | nil => simp [am_in_flight_num]
  | cons a fl ih =>
    have h1 : ∀ M : zbx_am_mediatype_t,
        (am_in_flight_num (a :: fl) M.mediatypeid : Int) =
          (am_in_flight_num fl M.mediatypeid : Int) +
            (if a.mediatypeid = M.mediatypeid then (1 : Int) else 0) := by
      intro M
      rw [am_in_flight_num_cons]
      split <;> simp
    simp only [h1, List.sum_map_add]
    rw [ih (fun x hx => hcov x (List.mem_cons_of_mem _ hx)),
      sum_indicator mts a.mediatypeid hnd (hcov a (List.mem_cons_self _ _))]
    simp

theorem am_inv_sum {s : am_sched} (h : am_inv s) :
    (s.manager.mediatypes.map (fun M => M.alerts_num)).sum = s.in_flight.length := by
  rw [← sum_in_flight_num s.manager.mediatypes s.in_flight h.wf.mt_keys]
  · congr 1
    apply List.map_congr_left
    intro M hM
    exact h.num _ M (am_get_mediatype_of_mem h.wf hM)
  · intro a ha
    cases hg : am_get_mediatype s.manager a.mediatypeid with
    | none => exact absurd hg (h.flight_mt a ha)
    | some M =>
      rw [List.mem_map]
      exact ⟨M, am_get_mediatype_mem hg, am_get_mediatype_key hg⟩

/-! ## The manager invariant along the events of the main loop -/

theorem am_held_alerts_init (n : Nat) : am_held_alerts (am_init n) = [] := by
  unfold am_held_alerts am_init
  simp only
  induction n with
  | zero => rfl
  | succ k ih => rw [List.replicate_succ, List.filterMap_cons]; exact ih

theorem am_main_inv_init (n : Nat) : am_main_inv (am_init n) := by
  constructor
  · rw [am_held_alerts_init]; exact am_inv_init n
  · intro i hi; simp [am_init] at hi
  · simp [am_init]
  · intro i x _ hx
    have := List.getElem?_mem hx
    simp only [am_init, List.mem_replicate] at this
    rw [this.2]
  · intro i hi; simp [am_init] at hi

theorem am_main_inv_of_sched {m m' : zbx_am_t} (h : am_main_inv m)
    (hs : am_same_alerters m m')
    (hi : am_inv { manager := m', in_flight := am_held_alerts m }) : am_main_inv m' := by
  obtain ⟨e1, e2, e3, e4⟩ := hs
  have hh : am_held_alerts m' = am_held_alerts m := by unfold am_held_alerts; rw [e1]
  constructor
  · rw [hh]; exact hi
  · rw [e1, e2]; exact h.free_idle
  · rw [e2]; exact h.free_nodup
  · rw [e1, e3]; exact h.unreg_idle
  · rw [e2, e3]; exact h.free_lt

theorem am_main_inv_register {m m' : zbx_am_t} {client : Nat} {ppid_ok : Bool}
    (h : am_main_inv m) (hs : am_register_alerter m client ppid_ok = some m') :
    am_main_inv m' := by
  unfold am_register_alerter at hs
  split at hs
  · cases hs; exact h
  · split at hs
    · cases hs
    · rename_i hlen
      rw [Option.bind_eq_some] at hs
      obtain ⟨x, hx, hs⟩ := hs
      cases hs
      have hxa : x.alert = none := h.unreg_idle _ x (le_refl _) hx
      have hget : ∀ j, j ≠ m.next_alerter_index →
          (m.alerters.set m.next_alerter_index { x with client := some client })[j]? =
            m.alerters[j]? := by
        intro j hj
        rw [List.getElem?_set_ne (fun e => hj e.symm)]
      constructor
      · have hh : am_held_alerts
            { m with
              alerters := m.alerters.set m.next_alerter_index { x with client := some client },
              next_alerter_index := m.next_alerter_index + 1,
              alerters_client :=
                if (m.alerters_client.find? fun i =>
                    decide ((m.alerters[i]?).bind (fun x => x.client) = some client)).isSome
                then m.alerters_client
                else m.next_alerter_index :: m.alerters_client,
              free_alerters := m.free_alerters ++ [m.next_alerter_index] }
            = am_held_alerts m := by
          unfold am_held_alerts
          exact held_set_client m.alerters _ x (some client) hx
        rw [hh]
        exact @am_inv_congr m _ _ rfl rfl rfl h.inv
      · intro i hi
        simp only [List.mem_append, List.mem_singleton] at hi
        rcases hi with hi | hi
        · have hlt := h.free_lt i hi
          obtain ⟨y, hy, hya⟩ := h.free_idle i hi
          refine ⟨y, ?_, hya⟩
          simp only
          rw [hget i (by omega)]; exact hy
        · subst hi
          refine ⟨{ x with client := some client }, ?_, hxa⟩
          simp only
          have hl : m.next_alerter_index < m.alerters.length := by
            rcases Nat.lt_or_ge m.next_alerter_index m.alerters.length with hl | hl
            · exact hl
            · rw [List.getElem?_eq_none hl] at hx; cases hx
          rw [List.getElem?_set_self hl]
      · simp only
        rw [List.nodup_append]
        refine ⟨h.free_nodup, List.nodup_singleton _, ?_⟩
        intro i hi hi2
        simp only [List.mem_singleton] at hi2
        have := h.free_lt i hi
        omega
      · intro i y hi hy
        simp only at hi hy
        rw [hget i (by omega)] at hy
        exact h.unreg_idle i y (by omega) hy
      · intro i hi
        simp only [List.mem_append, List.mem_singleton] at hi ⊢
        rcases hi with hi | hi
        · have := h.free_lt i hi; omega
        · omega

theorem am_db_update_mediatypes_inv {fl : List zbx_am_alert_t} (rows : List DB_MEDIATYPE) :
    ∀ m, am_inv { manager := m, in_flight := fl } →
      am_inv { manager := rows.foldl (fun m row =>
          if row.smtp_port < 65536 then
            am_update_mediatype m row.mediatypeid { row.args with smtp_port := row.smtp_port }
          else m) m, in_flight := fl } ∧
      am_same_alerters m (rows.foldl (fun m row =>
          if row.smtp_port < 65536 then
            am_update_mediatype m row.mediatypeid { row.args with smtp_port := row.smtp_port }
          else m) m) := by
  induction rows with
  | nil => intro m h; exact ⟨h, am_same_alerters_refl _⟩
  | cons row rows ih =>
    intro m h
    simp only [List.foldl_cons]
    split
    · have h1 := am_inv_update_mediatype h row.mediatypeid
        { row.args with smtp_port := row.smtp_port }
      obtain ⟨h2, h3⟩ := ih _ h1
      exact ⟨h2, am_same_alerters_trans (am_update_mediatype_alerters _ _ _) h3⟩
    · exact ih m h

theorem am_db_queue_alerts_loop_inv {fl : List zbx_am_alert_t} (alerts : List zbx_am_alert_t) :
    ∀ m m', am_inv { manager := m, in_flight := fl } →
      am_db_queue_alerts_loop m alerts = some m' →
      am_inv { manager := m', in_flight := fl } ∧ am_same_alerters m m' := by
  induction alerts with
  | nil =>
    intro m m' h hl
    simp only [am_db_queue_alerts_loop, Option.some.injEq] at hl
    subst hl
    exact ⟨h, am_same_alerters_refl _⟩
  | cons a alerts ih =>
    intro m m' h hl
    simp only [am_db_queue_alerts_loop, Option.bind_eq_some] at hl
    obtain ⟨m1, h1, h2⟩ := hl
    have hi1 : am_inv { manager := m1, in_flight := fl } :=
      am_inv_queue_alert (s := { manager := m, in_flight := fl }) h h1
    obtain ⟨h3, h4⟩ := ih m1 m' hi1 h2
    exact ⟨h3, am_same_alerters_trans (am_db_queue_alert_alerters h1) h4⟩

theorem am_main_inv_db_queue_alerts {m m' : zbx_am_t} {alerts : List zbx_am_alert_t}
    {media_type : List DB_MEDIATYPE} (h : am_main_inv m)
    (hs : am_db_queue_alerts m alerts media_type = some m') : am_main_inv m' := by
  unfold am_db_queue_alerts at hs
  split at hs
  · unfold am_db_update_mediatypes at hs
    obtain ⟨h1, h2⟩ := am_db_update_mediatypes_inv
      (media_type.filter fun row =>
        decide (row.mediatypeid ∈ alerts.map fun a => a.mediatypeid)) m h.inv
    obtain ⟨h3, h4⟩ := am_db_queue_alerts_loop_inv alerts _ m' h1 hs
    exact am_main_inv_of_sched h (am_same_alerters_trans h2 h4) h3
  · cases hs; exact h

theorem am_process_alert_inv {env : am_env} {m : zbx_am_t} {i : Nat} {a : zbx_am_alert_t}
    {res : am_process_alert_result} (h : am_process_alert env m i a = some res)
    (hM : am_get_mediatype m a.mediatypeid ≠ none) :
    (res.ret = SUCCEED ∧ res.manager = alerter_set_alert m i (some a) ∧ res.sent ≠ none) ∨
    (res.ret = FAIL ∧ res.sent = none ∧ ∃ err,
      am_remove_alert (am_db_update_alert m a.alertid ALERT_STATUS_FAILED 0 err) a
        = some res.manager) := by
  unfold am_process_alert at h
  split at h
  · rename_i hn; exact absurd hn hM
  · rename_i M hMs
    simp only at h
    split at h
    · cases h; exact Or.inl ⟨rfl, rfl, by simp⟩
    · split at h
      · cases h; exact Or.inl ⟨rfl, rfl, by simp⟩
      · split at h
        · cases h; exact Or.inl ⟨rfl, rfl, by simp⟩
        · split at h
          · cases h; exact Or.inl ⟨rfl, rfl, by simp⟩
          · split at h
            · split at h
              · rename_i err _
                rw [Option.map_eq_some'] at h
                obtain ⟨m1, h1, h2⟩ := h
                subst h2
                exact Or.inr ⟨rfl, rfl, err, h1⟩
              · cases h; exact Or.inl ⟨rfl, rfl, by simp⟩
            · rw [Option.map_eq_some'] at h
              obtain ⟨m1, h1, h2⟩ := h
              subst h2
              exact Or.inr ⟨rfl, rfl, _, h1⟩

theorem am_main_inv_dispatch {env : am_env} {m : zbx_am_t} {now : Int} {r : Bool × zbx_am_t}
    (h : am_main_inv m) (hs : am_dispatch_iteration env m now = some r) : am_main_inv r.2 := by
  unfold am_dispatch_iteration at hs
  rw [Option.bind_eq_some] at hs
  obtain ⟨ready, -, hs⟩ := hs
  split at hs
  · cases hs; exact h
  · split at hs
    · cases hs; exact h
    · rename_i i rest hfree
      simp only [Option.bind_eq_some] at hs
      obtain ⟨rp, hpop, a, ha, res, hres, hs⟩ := hs
      obtain ⟨o, m2⟩ := rp
      simp only at ha hres
      subst ha
      -- the free queue
      have hi_mem : i ∈ m.free_alerters := by rw [hfree]; exact List.mem_cons_self _ _
      have hnd := h.free_nodup
      rw [hfree, List.nodup_cons] at hnd
      obtain ⟨x, hx, hxa⟩ := h.free_idle i hi_mem
      have hilt := h.free_lt i hi_mem
      have hrest : ∀ j ∈ rest, j ∈ m.free_alerters := by
        intro j hj; rw [hfree]; exact List.mem_cons_of_mem _ hj
      -- the pop
      have hinv1 : am_inv (am_sched.mk { m with free_alerters := rest } (am_held_alerts m)) :=
        @am_inv_congr m _ _ rfl rfl rfl h.inv
      have hinv2 := am_inv_pop_alert hinv1 hpop
      simp only at hinv2
      obtain ⟨e1, e2, e3, e4⟩ := am_pop_alert_alerters hpop
      simp only at e1 e2 e3 e4
      have hMex : am_get_mediatype m2 a.mediatypeid ≠ none :=
        hinv2.flight_mt a (List.mem_cons_self _ _)
      rcases am_process_alert_inv hres hMex with ⟨hret, hman, -⟩ | ⟨hret, -, err, hrem⟩
      · -- the alert was sent to the alerter
        rw [hret] at hs
        simp only [SUCCEED, FAIL] at hs
        rw [if_neg (by decide)] at hs
        cases hs
        simp only
        rw [hman]
        have hx2 : m2.alerters[i]? = some x := by rw [e1]; exact hx
        have hperm := held_modify_some m2.alerters i x a hx2 hxa
        have hheld : (am_held_alerts (alerter_set_alert m2 i (some a))).Perm
            (a :: am_held_alerts m) := by
          unfold am_held_alerts alerter_set_alert
          simp only
          rw [← e1]
          exact hperm
        have hget : ∀ j, j ≠ i → (alerter_set_alert m2 i (some a)).alerters[j]? =
            m.alerters[j]? := by
          intro j hj
          unfold alerter_set_alert
          simp only
          rw [List.getElem?_modify_ne _ _ (fun e => hj e.symm), e1]
        constructor
        · exact am_inv_perm (@am_inv_congr m2 _ _ rfl rfl rfl hinv2) hheld.symm
        · intro j hj
          have hj' : j ∈ rest := by
            have : (alerter_set_alert m2 i (some a)).free_alerters = rest := e2
            rw [this] at hj; exact hj
          rw [hget j (fun e => hnd.1 (e ▸ hj'))]
          exact h.free_idle j (hrest j hj')
        · have : (alerter_set_alert m2 i (some a)).free_alerters = rest := e2
          rw [this]; exact hnd.2
        · intro j y hj hy
          have hn : (alerter_set_alert m2 i (some a)).next_alerter_index =
              m.next_alerter_index := e3
          rw [hn] at hj
          rw [hget j (by omega)] at hy
          exact h.unreg_idle j y hj hy
        · intro j hj
          have hn : (alerter_set_alert m2 i (some a)).next_alerter_index =
              m.next_alerter_index := e3
          have hf : (alerter_set_alert m2 i (some a)).free_alerters = rest := e2
          rw [hn]; rw [hf] at hj
          exact h.free_lt j (hrest j hj)
      · -- the alert failed at once
        rw [hret] at hs
        rw [if_pos rfl] at hs
        cases hs
        simp only
        have hinv3 : am_inv (am_sched.mk
            (am_db_update_alert m2 a.alertid ALERT_STATUS_FAILED 0 err)
            (a :: am_held_alerts m)) := @am_inv_congr m2 _ _ rfl rfl rfl hinv2
        have hinv4 := am_inv_remove_alert hinv3 (List.mem_cons_self _ _) rfl rfl hrem
        simp only [List.erase_cons_head] at hinv4
        obtain ⟨f1, f2, f3, f4⟩ := am_remove_alert_alerters hrem
        have g1 : res.manager.alerters = m.alerters := by rw [f1]; exact e1
        have g2 : res.manager.free_alerters = rest := by rw [f2]; exact e2
        have g3 : res.manager.next_alerter_index = m.next_alerter_index := by rw [f3]; exact e3
        have hh : am_held_alerts
            { res.manager with free_alerters := res.manager.free_alerters ++ [i] } =
              am_held_alerts m := by
          unfold am_held_alerts; simp only; rw [g1]
        constructor
        · rw [hh]
          exact @am_inv_congr res.manager _ _ rfl rfl rfl hinv4
        · intro j hj
          simp only [g1, g2, List.mem_append, List.mem_singleton] at hj ⊢
          rcases hj with hj | hj
          · exact h.free_idle j (hrest j hj)
          · subst hj; exact ⟨x, hx, hxa⟩
        · simp only [g2]
          rw [List.nodup_append]
          refine ⟨hnd.2, List.nodup_singleton _, ?_⟩
          intro j hj hj2
          simp only [List.mem_singleton] at hj2
          subst hj2
          exact hnd.1 hj
        · intro j y hj hy
          simp only [g1, g3] at hj hy
          exact h.unreg_idle j y hj hy
        · intro j hj
          simp only [g2, g3, List.mem_append, List.mem_singleton] at hj ⊢
          rcases hj with hj | hj
          · exact h.free_lt j (hrest j hj)
          · subst hj; exact hilt

theorem am_main_inv_finish {m m1 : zbx_am_t} {i : Nat} {x : zbx_am_alerter_t}
    {a : zbx_am_alert_t} (h : am_main_inv m) (hx : m.alerters[i]? = some x)
    (hxa : x.alert = some a) (hs : am_same_alerters m m1)
    (hi : am_inv { manager := m1, in_flight := (am_held_alerts m).erase a })
    (alertid : Nat) (status retries : Int) (error : String) :
    am_main_inv
      { alerter_set_alert (am_db_update_alert m1 alertid status retries error) i none with
        free_alerters :=
          (alerter_set_alert (am_db_update_alert m1 alertid status retries error) i
            none).free_alerters ++ [i] } := by
  obtain ⟨e1, e2, e3, e4⟩ := hs
  have hx1 : m1.alerters[i]? = some x := by rw [e1]; exact hx
  have hilt : i < m.next_alerter_index := by
    rcases Nat.lt_or_ge i m.next_alerter_index with hl | hl
    · exact hl
    · have := h.unreg_idle i x hl hx
      rw [hxa] at this; cases this
  have hnf : i ∉ m.free_alerters := by
    intro hmem
    obtain ⟨y, hy, hya⟩ := h.free_idle i hmem
    rw [hx] at hy; cases hy
    rw [hxa] at hya; cases hya
  have hget : ∀ j, j ≠ i →
      (m1.alerters.modify (fun y => { y with alert := none }) i)[j]? = m.alerters[j]? := by
    intro j hj
    rw [List.getElem?_modify_ne _ _ (fun e => hj e.symm), e1]
  have hgeti : (m1.alerters.modify (fun y => { y with alert := none }) i)[i]? =
      some { x with alert := none } := by
    rw [List.getElem?_modify_eq, hx1]; rfl
  constructor
  · have hperm := held_modify_none m1.alerters i x a hx1 hxa
    have hheld : (am_held_alerts
        { alerter_set_alert (am_db_update_alert m1 alertid status retries error) i none with
          free_alerters :=
            (alerter_set_alert (am_db_update_alert m1 alertid status retries error) i
              none).free_alerters ++ [i] }).Perm ((am_held_alerts m).erase a) := by
      unfold am_held_alerts
      rw [← e1]
      exact hperm
    exact am_inv_perm (@am_inv_congr m1 _ _ rfl rfl rfl hi) hheld.symm
  · intro j hj
    have hj' : j ∈ m.free_alerters ++ [i] := by rw [← e2]; exact hj
    show ∃ y, (m1.alerters.modify (fun y => { y with alert := none }) i)[j]? = some y ∧
      y.alert = none
    rw [List.mem_append, List.mem_singleton] at hj'
    rcases hj' with hj' | hj'
    · rw [hget j (fun e => hnf (e ▸ hj'))]
      exact h.free_idle j hj'
    · subst hj'
      exact ⟨_, hgeti, rfl⟩
  · show (m1.free_alerters ++ [i]).Nodup
    rw [e2, List.nodup_append]
    refine ⟨h.free_nodup, List.nodup_singleton _, ?_⟩
    intro j hj hj2
    simp only [List.mem_singleton] at hj2
    subst hj2
    exact hnf hj
  · intro j y hj hy
    have hj' : m.next_alerter_index ≤ j := by rw [← e3]; exact hj
    have hy' : (m1.alerters.modify (fun y => { y with alert := none }) i)[j]? = some y := hy
    rw [hget j (by omega)] at hy'
    exact h.unreg_idle j y hj' hy'
  · intro j hj
    have hj' : j ∈ m.free_alerters ++ [i] := by rw [← e2]; exact hj
    show j < m1.next_alerter_index
    rw [e3]
    rw [List.mem_append, List.mem_singleton] at hj'
    rcases hj' with hj' | hj'
    · exact h.free_lt j hj'
    · subst hj'; exact hilt

theorem am_main_inv_result {m : zbx_am_t} {client : Nat} {errcode : Int} {errmsg : String}
    {now : Int} {r : Int × zbx_am_t} (h : am_main_inv m)
    (hs : am_process_result m client errcode errmsg now = some r) : am_main_inv r.2 := by
  unfold am_process_result at hs
  simp only [Option.bind_eq_some] at hs
  obtain ⟨i, -, x, hx, a, hxa, hs⟩ := hs
  have hmem : a ∈ am_held_alerts m := held_mem m.alerters i x a hx hxa
  split at hs
  · rw [Option.map_eq_some'] at hs
    obtain ⟨m1, h1, h2⟩ := hs
    subst h2
    have hi := am_inv_remove_alert h.inv hmem rfl rfl h1
    exact am_main_inv_finish h hx hxa (am_remove_alert_alerters h1) hi _ _ _ _
  · rw [Option.map_eq_some'] at hs
    obtain ⟨r1, h1, h2⟩ := hs
    subst h2
    have hi := am_inv_retry_alert h.inv hmem h1
    exact am_main_inv_finish h hx hxa (am_retry_alert_alerters h1) hi _ _ _ _

theorem am_main_inv_step {m m' : zbx_am_t} {e : am_event} (h : am_main_inv m)
    (hs : am_event_step m e = some m') : am_main_inv m' := by
  cases e with
  | register client ppid_ok => exact am_main_inv_register h hs
  | db_queue_alerts alerts media_type => exact am_main_inv_db_queue_alerts h hs
  | dispatch env now =>
    simp only [am_event_step, Option.map_eq_some'] at hs
    obtain ⟨r, h1, rfl⟩ := hs
    exact am_main_inv_dispatch h h1
  | result client errcode errmsg now =>
    simp only [am_event_step, Option.map_eq_some'] at hs
    obtain ⟨r, h1, rfl⟩ := hs
    exact am_main_inv_result h h1

theorem am_main_inv_run (es : List am_event) :
    ∀ m m', am_main_inv m → am_main_run m es = some m' → am_main_inv m' := by
  induction es with
  | nil =>
    intro m m' h hr
    simp only [am_main_run, Option.some.injEq] at hr
    exact hr ▸ h
  | cons e es ih =>
    intro m m' h hr
    simp only [am_main_run, Option.bind_eq_some] at hr
    obtain ⟨m1, h1, h2⟩ := hr
    exact ih m1 m' (am_main_inv_step h h1) h2

/-! ## Binary heap lemmas: the operations restore the heap order -/

theorem zbx_return_if_not_equal_le (a b : Int) : zbx_return_if_not_equal a b ≤ 0 ↔ a ≤ b := by
  unfold zbx_return_if_not_equal
  split
  · split
    · constructor
      · intro _; omega
      · intro _; decide
    · constructor
      · intro h; exact absurd h (by decide)
      · intro h; omega
  · constructor
    · intro _; omega
    · intro _; decide

theorem zbx_return_if_not_equal_pos (a b : Int) : 0 < zbx_return_if_not_equal a b ↔ b < a := by
  have := zbx_return_if_not_equal_le a b
  constructor
  · intro h; by_contra hc; exact absurd (this.2 (by omega)) (by omega)
  · intro h; by_contra hc; exact absurd (this.1 (by omega)) (by omega)

theorem getElem?_lt {α : Type} {h : List α} {i : Nat} {x : α} (e : h[i]? = some x) :
    i < h.length := by
  rcases Nat.lt_or_ge i h.length with hl | hl
  · exact hl
  · rw [List.getElem?_eq_none hl] at e; cases e

theorem heap_swap_get {α : Type} (h : List α) (i j : Nat) (a b : α) (hi : h[i]? = some a)
    (hj : h[j]? = some b) (hij : i ≠ j) (k : Nat) :
    ((h.set i b).set j a)[k]? =
      if k = j then some a else if k = i then some b else h[k]? := by
  have hil := getElem?_lt hi
  have hjl := getElem?_lt hj
  by_cases hkj : k = j
  · subst hkj
    rw [if_pos rfl, List.getElem?_set_self (by simpa using hjl)]
  · rw [if_neg hkj, List.getElem?_set_ne (fun e => hkj e.symm)]
    by_cases hki : k = i
    · subst hki
      rw [if_pos rfl, List.getElem?_set_self hil]
    · rw [if_neg hki, List.getElem?_set_ne (fun e => hki e.symm)]

theorem heap_cmp_by_perm {α : Type} {cmp : α → α → Option Int} {kt : α → Int} {h h' : List α}
    (hp : h'.Perm h) (hc : heap_cmp_by cmp kt h) : heap_cmp_by cmp kt h' :=
  fun x hx y hy => hc x (hp.mem_iff.1 hx) y (hp.mem_iff.1 hy)

theorem heap_ordered_up_inv {α : Type} {kt : α → Int} {h : List α} (ho : heap_ordered kt h)
    (i : Nat) : heap_up_inv kt h i := by
  refine ⟨fun j x y hj _ hx hy => ho j x y hj hx hy, ?_⟩
  intro j x y hi hj hji hx hy
  have hil : i < h.length := by
    have := getElem?_lt hy
    omega
  have h1 := ho i x h[i] hi hx (List.getElem?_eq_getElem hil)
  have h2 := ho j h[i] y hj (by rw [hji]; exact List.getElem?_eq_getElem hil) hy
  exact le_trans h1 h2

theorem heap_ordered_down_inv {α : Type} {kt : α → Int} {h : List α} (ho : heap_ordered kt h)
    (i : Nat) : heap_down_inv kt h i :=
  ⟨fun j x y hj _ hx hy => ho j x y hj hx hy, (heap_ordered_up_inv ho i).2⟩

theorem heap_root_min {α : Type} {kt : α → Int} {h : List α} (ho : heap_ordered kt h)
    {r : α} (hr : h[0]? = some r) : ∀ (j : Nat) (y : α), h[j]? = some y → kt r ≤ kt y := by
  intro j
  induction j using Nat.strong_induction_on with
  | _ j ih =>
    intro y hy
    by_cases hj : j = 0
    · subst hj; rw [hr] at hy; cases hy; exact le_refl _
    · have hjl := getElem?_lt hy
      have hpl : (j - 1) / 2 < h.length := by omega
      have h1 := ih ((j - 1) / 2) (by omega) h[(j - 1) / 2] (List.getElem?_eq_getElem hpl)
      have h2 := ho j h[(j - 1) / 2] y (by omega) (List.getElem?_eq_getElem hpl) hy
      exact le_trans h1 h2

theorem heap_root_min_mem {α : Type} {kt : α → Int} {r : α} {t : List α}
    (ho : heap_ordered kt (r :: t)) : ∀ y ∈ r :: t, kt r ≤ kt y := by
  intro y hy
  obtain ⟨j, hj⟩ := List.mem_iff_getElem?.1 hy
  exact heap_root_min ho (by simp) j y hj

theorem binary_heap_bubble_up_ordered {α : Type} [DecidableEq α] (cmp : α → α → Option Int)
    (kt : α → Int) :
    ∀ (fuel : Nat) (h : List α) (i : Nat), heap_cmp_by cmp kt h → i < h.length → i ≤ fuel →
      heap_up_inv kt h i →
      ∃ h' i', binary_heap_bubble_up cmp fuel h i = some (h', i') ∧ heap_ordered kt h' ∧
        h'.Perm h ∧ i' ≤ i ∧ (i' = i → h' = h) := by
  intro fuel
  induction fuel with
  | zero =>
    intro h i _ _ hf hu
    have hi : i = 0 := by omega
    subst hi
    exact ⟨h, 0, rfl, fun j x y hj hx hy => hu.1 j x y hj (by omega) hx hy, List.Perm.refl _,
      le_refl _, fun _ => rfl⟩
  | succ fuel ih =>
    intro h i hc hil hf hu
    by_cases hi : i = 0
    · subst hi
      refine ⟨h, 0, ?_, fun j x y hj hx hy => hu.1 j x y hj (by omega) hx hy, List.Perm.refl _,
        le_refl _, fun _ => rfl⟩
      rw [binary_heap_bubble_up, if_pos rfl]
    · have hpl : (i - 1) / 2 < h.length := by omega
      have hp := List.getElem?_eq_getElem hpl
      have hci := List.getElem?_eq_getElem hil
      have hcmp := hc _ (List.getElem_mem hpl) _ (List.getElem_mem hil)
      by_cases hle : kt h[(i - 1) / 2] ≤ kt h[i]
      · refine ⟨h, i, ?_, ?_, List.Perm.refl _, le_refl _, fun _ => rfl⟩
        · rw [binary_heap_bubble_up, if_neg hi, hp, hci]
          simp only [hcmp]
          rw [if_pos ((zbx_return_if_not_equal_le _ _).2 hle)]
        · intro j x y hj hx hy
          by_cases hji : j = i
          · subst hji
            rw [hp] at hx; rw [hci] at hy
            cases hx; cases hy
            exact hle
          · exact hu.1 j x y hj hji hx hy
      · have hne : (i - 1) / 2 ≠ i := by omega
        have hsw := heap_swap_get h ((i - 1) / 2) i h[(i - 1) / 2] h[i] hp hci hne
        have hperm := heap_swap_perm h ((i - 1) / 2) i h[(i - 1) / 2] h[i] hp hci hne
        have hlt : kt h[i] < kt h[(i - 1) / 2] := by omega
        have hu2 : heap_up_inv kt ((h.set ((i - 1) / 2) h[i]).set i h[(i - 1) / 2])
            ((i - 1) / 2) := by
          constructor
          · intro j x y hj hjp hx hy
            rw [hsw] at hx hy
            by_cases hji : j = i
            · subst hji
              rw [if_pos rfl] at hy
              rw [if_neg hne, if_pos rfl] at hx
              cases hx; cases hy
              omega
            · rw [if_neg hji, if_neg hjp] at hy
              by_cases hqi : (j - 1) / 2 = i
              · rw [if_pos hqi] at hx
                cases hx
                exact hu.2 j _ y (by omega) hj hqi hp hy
              · rw [if_neg hqi] at hx
                by_cases hqp : (j - 1) / 2 = (i - 1) / 2
                · rw [if_pos hqp] at hx
                  cases hx
                  have := hu.1 j _ y hj hji (by rw [hqp]; exact hp) hy
                  omega
                · rw [if_neg hqp] at hx
                  exact hu.1 j x y hj hji hx hy
          · intro j x y hp0 hj hjp hx hy
            rw [hsw] at hx hy
            have hg1 : (((i - 1) / 2 - 1) / 2) ≠ i := by omega
            have hg2 : (((i - 1) / 2 - 1) / 2) ≠ (i - 1) / 2 := by omega
            rw [if_neg hg1, if_neg hg2] at hx
            have h1 := hu.1 ((i - 1) / 2) x _ hp0 hne hx hp
            by_cases hji : j = i
            · rw [if_pos hji] at hy
              cases hy
              exact h1
            · rw [if_neg hji, if_neg (by omega)] at hy
              have h2 := hu.1 j _ y hj hji (by rw [hjp]; exact hp) hy
              omega
        obtain ⟨h', i', e, ho, hp', hle', _⟩ :=
          ih _ ((i - 1) / 2) (heap_cmp_by_perm hperm hc) (by simpa using hpl) (by omega) hu2
        refine ⟨h', i', ?_, ho, hp'.trans hperm, by omega, fun e' => absurd e' (by omega)⟩
        rw [binary_heap_bubble_up, if_neg hi, hp, hci]
        simp only [hcmp]
        rw [if_neg (fun hh => hle ((zbx_return_if_not_equal_le _ _).1 hh))]
        exact e

theorem heap_down_inv_ok {α : Type} {kt : α → Int} {h : List α} {i : Nat}
    (hd : heap_down_inv kt h i)
    (hk : ∀ (j : Nat) (x y : α), 0 < j → (j - 1) / 2 = i → h[i]? = some x → h[j]? = some y →
      kt x ≤ kt y) : heap_ordered kt h := by
  intro j x y hj hx hy
  by_cases hq : (j - 1) / 2 = i
  · exact hk j x y hj hq (hq ▸ hx) hy
  · exact hd.1 j x y hj hq hx hy

theorem heap_down_inv_leaf {α : Type} {kt : α → Int} {h : List α} {i : Nat}
    (hd : heap_down_inv kt h i) (hl : h.length ≤ 2 * i + 1) : heap_ordered kt h := by
  apply heap_down_inv_ok hd
  intro j x y hj hq _ hy
  have := getElem?_lt hy
  omega

theorem heap_down_swap {α : Type} {kt : α → Int} {h : List α} {i c : Nat} {x cv : α}
    (hd : heap_down_inv kt h i) (hc0 : 0 < c) (hci : (c - 1) / 2 = i) (hx : h[i]? = some x)
    (hc : h[c]? = some cv) (hlt : kt cv < kt x)
    (hmin : ∀ (j : Nat) (y : α), 0 < j → (j - 1) / 2 = i → h[j]? = some y → kt cv ≤ kt y) :
    heap_down_inv kt ((h.set i cv).set c x) c := by
  have hne : i ≠ c := by omega
  have hsw := heap_swap_get h i c x cv hx hc hne
  constructor
  · intro j a b hj hq ha hb
    rw [hsw] at ha hb
    rw [if_neg hq] at ha
    by_cases hjc : j = c
    · subst hjc
      rw [if_pos rfl] at hb
      rw [if_pos hci] at ha
      cases ha; cases hb
      omega
    · rw [if_neg hjc] at hb
      by_cases hji : j = i
      · subst hji
        rw [if_pos rfl] at hb
        rw [if_neg (by omega)] at ha
        cases hb
        exact hd.2 c _ _ hj hc0 hci ha hc
      · rw [if_neg hji] at hb
        by_cases hqi : (j - 1) / 2 = i
        · rw [if_pos hqi] at ha
          cases ha
          exact hmin j b hj hqi hb
        · rw [if_neg hqi] at ha
          exact hd.1 j a b hj hqi ha hb
  · intro j a b _ hj hq ha hb
    rw [hsw] at ha hb
    rw [if_neg (by omega), if_pos hci] at ha
    rw [if_neg (by omega), if_neg (by omega)] at hb
    cases ha
    exact hd.1 j _ _ hj (by omega) (by rw [hq]; exact hc) hb

theorem binary_heap_bubble_down_ordered {α : Type} [DecidableEq α]
    (cmp : α → α → Option Int) (kt : α → Int) :
    ∀ (fuel : Nat) (h : List α) (i : Nat), heap_cmp_by cmp kt h → h.length ≤ fuel + i →
      heap_down_inv kt h i →
      ∃ h' i', binary_heap_bubble_down cmp fuel h i = some (h', i') ∧ heap_ordered kt h' ∧
        h'.Perm h := by
  intro fuel
  induction fuel with
  | zero =>
    intro h i _ hf hd
    exact ⟨h, i, rfl, heap_down_inv_leaf hd (by omega), List.Perm.refl _⟩
  | succ fuel ih =>
    intro h i hc hf hd
    by_cases h1 : h.length ≤ 2 * i + 1
    · refine ⟨h, i, ?_, heap_down_inv_leaf hd h1, List.Perm.refl _⟩
      rw [binary_heap_bubble_down, if_pos h1]
    · have hil : i < h.length := by omega
      have hll : 2 * i + 1 < h.length := by omega
      have hx := List.getElem?_eq_getElem hil
      have hl := List.getElem?_eq_getElem hll
      have hcl := hc _ (List.getElem_mem hil) _ (List.getElem_mem hll)
      by_cases h2 : h.length ≤ 2 * i + 2
      · by_cases hlt : kt h[2 * i + 1] < kt h[i]
        · have hd2 : heap_down_inv kt ((h.set i h[2 * i + 1]).set (2 * i + 1) h[i])
              (2 * i + 1) := by
            apply heap_down_swap hd (by omega) (by omega) hx hl hlt
            intro j y hj hq hy
            have := getElem?_lt hy
            have hj2 : j = 2 * i + 1 := by omega
            subst hj2
            rw [hl] at hy; cases hy
            exact le_refl _
          refine ⟨_, 2 * i + 1, ?_, heap_down_inv_leaf hd2 (by simp; omega),
            heap_swap_perm h i (2 * i + 1) _ _ hx hl (by omega)⟩
          rw [binary_heap_bubble_down, if_neg h1, if_pos h2, hx, hl]
          simp only [hcl]
          rw [if_pos ((zbx_return_if_not_equal_pos _ _).2 hlt)]
        · refine ⟨h, i, ?_, ?_, List.Perm.refl _⟩
          · rw [binary_heap_bubble_down, if_neg h1, if_pos h2, hx, hl]
            simp only [hcl]
            rw [if_neg (fun hh => hlt ((zbx_return_if_not_equal_pos _ _).1 hh))]
          · apply heap_down_inv_ok hd
            intro j a b hj hq ha hb
            have := getElem?_lt hb
            have hj2 : j = 2 * i + 1 := by omega
            subst hj2
            rw [hl] at hb; rw [hx] at ha; cases ha; cases hb
            omega
      · have hrl : 2 * i + 2 < h.length := by omega
        have hr := List.getElem?_eq_getElem hrl
        have hclr := hc _ (List.getElem_mem hll) _ (List.getElem_mem hrl)
        have hcr := hc _ (List.getElem_mem hil) _ (List.getElem_mem hrl)
        have hchild : ∀ (j : Nat) (y : α), 0 < j → (j - 1) / 2 = i → h[j]? = some y →
            y = h[2 * i + 1] ∨ y = h[2 * i + 2] := by
          intro j y hj hq hy
          have hj2 : j = 2 * i + 1 ∨ j = 2 * i + 2 := by omega
          rcases hj2 with e | e
          · subst e; rw [hl] at hy; cases hy; exact Or.inl rfl
          · subst e; rw [hr] at hy; cases hy; exact Or.inr rfl
        by_cases hlr : kt h[2 * i + 1] ≤ kt h[2 * i + 2]
        · by_cases hlt : kt h[2 * i + 1] < kt h[i]
          · have hd2 : heap_down_inv kt ((h.set i h[2 * i + 1]).set (2 * i + 1) h[i])
                (2 * i + 1) := by
              apply heap_down_swap hd (by omega) (by omega) hx hl hlt
              intro j y hj hq hy
              rcases hchild j y hj hq hy with e | e
              · rw [e]
              · rw [e]; exact hlr
            have hperm := heap_swap_perm h i (2 * i + 1) _ _ hx hl (by omega)
            obtain ⟨h', i', e, ho, hp'⟩ := ih _ (2 * i + 1) (heap_cmp_by_perm hperm hc)
              (by simp; omega) hd2
            refine ⟨h', i', ?_, ho, hp'.trans hperm⟩
            rw [binary_heap_bubble_down, if_neg h1, if_neg h2, hx, hl, hr]
            simp only [hclr, hcl]
            rw [if_pos ((zbx_return_if_not_equal_le _ _).2 hlr),
              if_pos ((zbx_return_if_not_equal_pos _ _).2 hlt)]
            exact e
          · refine ⟨h, i, ?_, ?_, List.Perm.refl _⟩
            · rw [binary_heap_bubble_down, if_neg h1, if_neg h2, hx, hl, hr]
              simp only [hclr, hcl]
              rw [if_pos ((zbx_return_if_not_equal_le _ _).2 hlr),
                if_neg (fun hh => hlt ((zbx_return_if_not_equal_pos _ _).1 hh))]
            · apply heap_down_inv_ok hd
              intro j a b hj hq ha hb
              rw [hx] at ha; cases ha
              rcases hchild j b hj hq hb with e | e
              · rw [e]; omega
              · rw [e]; omega
        · by_cases hlt : kt h[2 * i + 2] < kt h[i]
          · have hd2 : heap_down_inv kt ((h.set i h[2 * i + 2]).set (2 * i + 2) h[i])
                (2 * i + 2) := by
              apply heap_down_swap hd (by omega) (by omega) hx hr hlt
              intro j y hj hq hy
              rcases hchild j y hj hq hy with e | e
              · rw [e]; omega
              · rw [e]
            have hperm := heap_swap_perm h i (2 * i + 2) _ _ hx hr (by omega)
            obtain ⟨h', i', e, ho, hp'⟩ := ih _ (2 * i + 2) (heap_cmp_by_perm hperm hc)
              (by simp; omega) hd2
            refine ⟨h', i', ?_, ho, hp'.trans hperm⟩
            rw [binary_heap_bubble_down, if_neg h1, if_neg h2, hx, hl, hr]
            simp only [hclr, hcr]
            rw [if_neg (fun hh => hlr ((zbx_return_if_not_equal_le _ _).1 hh)),
              if_pos ((zbx_return_if_not_equal_pos _ _).2 hlt)]
            exact e
          · refine ⟨h, i, ?_, ?_, List.Perm.refl _⟩
            · rw [binary_heap_bubble_down, if_neg h1, if_neg h2, hx, hl, hr]
              simp only [hclr, hcr]
              rw [if_neg (fun hh => hlr ((zbx_return_if_not_equal_le _ _).1 hh)),
                if_neg (fun hh => hlt ((zbx_return_if_not_equal_pos _ _).1 hh))]
            · apply heap_down_inv_ok hd
              intro j a b hj hq ha hb
              rw [hx] at ha; cases ha
              rcases hchild j b hj hq hb with e | e
              · rw [e]; omega
              · rw [e]; omega

theorem heap_ordered_hole {α : Type} {kt : α → Int} {h : List α} (ho : heap_ordered kt h)
    (i : Nat) : heap_hole_inv kt h i :=
  ⟨fun j x y hj _ _ hx hy => ho j x y hj hx hy, (heap_ordered_up_inv ho i).2⟩

theorem heap_hole_not_mem {α : Type} {kt : α → Int} {h : List α} {i : Nat}
    (hh : heap_hole_inv kt h i) (hi : h.length ≤ i) : heap_ordered kt h := by
  intro j x y hj hx hy
  have h1 := getElem?_lt hx
  have h2 := getElem?_lt hy
  exact hh.1 j x y hj (by omega) (by omega) hx hy

theorem indexOf_getElem? {α : Type} [DecidableEq α] {h : List α} (hn : h.Nodup) {j : Nat}
    {e : α} (hj : h[j]? = some e) : h.indexOf e = j := by
  have hjl := getElem?_lt hj
  have he : h[j] = e := by
    rw [List.getElem?_eq_getElem hjl] at hj; exact Option.some.inj hj
  rw [← he]
  exact List.indexOf_getElem hn j hjl

theorem heap_hole_congr {α : Type} [DecidableEq α] {kt kt' : α → Int} {h : List α} {e : α}
    (hh : heap_hole_inv kt h (h.indexOf e)) (hn : h.Nodup)
    (hk : ∀ x ∈ h, x ≠ e → kt' x = kt x) : heap_hole_inv kt' h (h.indexOf e) := by
  have hne : ∀ (j : Nat) (x : α), h[j]? = some x → j ≠ h.indexOf e → kt' x = kt x := by
    intro j x hx hj
    apply hk x (List.getElem?_mem hx)
    intro hxe
    subst hxe
    exact hj (indexOf_getElem? hn hx).symm
  constructor
  · intro j x y hj hji hqi hx hy
    rw [hne _ x hx hqi, hne _ y hy hji]
    exact hh.1 j x y hj hji hqi hx hy
  · intro j x y hi hj hq hx hy
    rw [hne _ x hx (by omega), hne _ y hy (by omega)]
    exact hh.2 j x y hi hj hq hx hy

theorem heap_ordered_congr {α : Type} {kt kt' : α → Int} {h : List α}
    (ho : heap_ordered kt h) (hk : ∀ x ∈ h, kt' x = kt x) : heap_ordered kt' h := by
  intro j x y hj hx hy
  rw [hk x (List.getElem?_mem hx), hk y (List.getElem?_mem hy)]
  exact ho j x y hj hx hy

theorem heap_cmp_by_congr {α : Type} {cmp cmp' : α → α → Option Int} {kt kt' : α → Int}
    {h : List α} (hc : heap_cmp_by cmp kt h) (hk : ∀ x ∈ h, kt' x = kt x)
    (hcc : ∀ x ∈ h, ∀ y ∈ h, cmp' x y = cmp x y) : heap_cmp_by cmp' kt' h := by
  intro x hx y hy
  rw [hcc x hx y hy, hk x hx, hk y hy]
  exact hc x hx y hy

theorem heap_ordered_nil {α : Type} (kt : α → Int) : heap_ordered kt ([] : List α) := by
  intro j x y _ hx _
  simp at hx

theorem zbx_binary_heap_insert_ordered {α : Type} [DecidableEq α] (cmp : α → α → Option Int)
    (kt : α → Int) (direct : Bool) (h : List α) (elem : α) (ho : heap_ordered kt h)
    (hc : heap_cmp_by cmp kt (elem :: h)) (hd : direct = true → elem ∉ h) :
    ∃ h', zbx_binary_heap_insert cmp direct h elem = some h' ∧ heap_ordered kt h' ∧
      h'.Perm (elem :: h) := by
  have hperm : (h ++ [elem]).Perm (elem :: h) := List.perm_append_singleton elem h
  have hu : heap_up_inv kt (h ++ [elem]) h.length := by
    constructor
    · intro j x y hj hjl hx hy
      have h2 := getElem?_lt hy
      simp only [List.length_append, List.length_singleton] at h2
      rw [List.getElem?_append_left (by omega)] at hx hy
      exact ho j x y hj hx hy
    · intro j x y _ hj hq _ hy
      have h2 := getElem?_lt hy
      simp only [List.length_append, List.length_singleton] at h2
      omega
  obtain ⟨h', i', e, ho', hp', _⟩ := binary_heap_bubble_up_ordered cmp kt h.length
    (h ++ [elem]) h.length (heap_cmp_by_perm hperm hc) (by simp) (le_refl _) hu
  refine ⟨h', ?_, ho', hp'.trans hperm⟩
  unfold zbx_binary_heap_insert
  rw [if_neg (fun hh => hd hh.1 hh.2), e]
  rfl

theorem zbx_binary_heap_remove_min_ordered {α : Type} [DecidableEq α]
    (cmp : α → α → Option Int) (kt : α → Int) (h : List α) (ho : heap_ordered kt h)
    (hc : heap_cmp_by cmp kt h) (hne : h ≠ []) :
    ∃ h', zbx_binary_heap_remove_min cmp h = some h' ∧ heap_ordered kt h' := by
  match h, ho, hc, hne with
  | [], _, _, hne => exact absurd rfl hne
  | [_], _, _, _ => exact ⟨[], rfl, heap_ordered_nil kt⟩
  | r :: x :: rest, ho, hc, _ =>
    have hsub : ∀ y ∈ (x :: rest).getLast (List.cons_ne_nil x rest) :: (x :: rest).dropLast,
        y ∈ r :: x :: rest := by
      intro y hy
      rcases List.mem_cons.1 hy with e | e
      · rw [e]; exact List.mem_cons_of_mem _ (List.getLast_mem _)
      · exact List.mem_cons_of_mem _ (List.dropLast_subset _ e)
    have hget : ∀ (k : Nat) (y : α),
        ((x :: rest).getLast (List.cons_ne_nil x rest) :: (x :: rest).dropLast)[k + 1]? = some y →
        (r :: x :: rest)[k + 1]? = some y := by
      intro k y hy
      rw [List.getElem?_cons_succ] at hy ⊢
      rw [List.dropLast_eq_take, List.getElem?_take] at hy
      split at hy
      · exact hy
      · cases hy
    have hdn : heap_down_inv kt
        ((x :: rest).getLast (List.cons_ne_nil x rest) :: (x :: rest).dropLast) 0 := by
      constructor
      · intro j a b hj hq ha hb
        obtain ⟨k, rfl⟩ : ∃ k, j = k + 1 := ⟨j - 1, by omega⟩
        obtain ⟨q, hqe⟩ : ∃ q, (k + 1 - 1) / 2 = q + 1 := ⟨(k + 1 - 1) / 2 - 1, by omega⟩
        rw [hqe] at ha
        have ha2 := hget q a ha
        rw [← hqe] at ha2
        exact ho (k + 1) a b hj ha2 (hget k b hb)
      · intro j a b h0 _ _ _ _
        omega
    obtain ⟨h', i', e, ho', _⟩ := binary_heap_bubble_down_ordered cmp kt (x :: rest).length _ 0
      (fun a ha b hb => hc a (hsub a ha) b (hsub b hb)) (by simp) hdn
    refine ⟨h', ?_, ho'⟩
    unfold zbx_binary_heap_remove_min
    simp only [e]
    rfl

theorem binary_heap_bubble_up_stay {α : Type} (cmp : α → α → Option Int) (fuel : Nat)
    (h : List α) (i : Nat) (p c : α) (r : Int) (hp : h[(i - 1) / 2]? = some p)
    (hc : h[i]? = some c) (hcmp : cmp p c = some r) (hr : r ≤ 0) :
    binary_heap_bubble_up cmp fuel h i = some (h, i) := by
  cases fuel with
  | zero => rfl
  | succ fuel =>
    rw [binary_heap_bubble_up]
    split
    · rfl
    · rw [hp, hc]
      simp only [hcmp]
      rw [if_pos hr]

theorem binary_heap_bubble_up_root {α : Type} (cmp : α → α → Option Int) (fuel : Nat)
    (h : List α) : binary_heap_bubble_up cmp fuel h 0 = some (h, 0) := by
  cases fuel with
  | zero => rfl
  | succ fuel => rw [binary_heap_bubble_up, if_pos rfl]

theorem zbx_binary_heap_update_direct_ordered {α : Type} [DecidableEq α]
    (cmp : α → α → Option Int) (kt : α → Int) (h : List α) (elem : α) (hm : elem ∈ h)
    (hh : heap_hole_inv kt h (h.indexOf elem)) (hc : heap_cmp_by cmp kt h) :
    ∃ h', zbx_binary_heap_update_direct cmp h elem = some h' ∧ heap_ordered kt h' := by
  have hil : h.indexOf elem < h.length := List.indexOf_lt_length.2 hm
  generalize hie : h.indexOf elem = i at hh hil
  have key : ∃ h1 i1, binary_heap_bubble_up cmp i h i = some (h1, i1) ∧ h1.Perm h ∧
      (i1 = i → heap_down_inv kt h1 i1) ∧ (i1 ≠ i → heap_ordered kt h1) := by
    have hci := List.getElem?_eq_getElem hil
    by_cases hi : i = 0
    · subst hi
      refine ⟨h, 0, binary_heap_bubble_up_root cmp 0 h, List.Perm.refl _, ?_,
        fun hh' => absurd rfl hh'⟩
      intro _
      exact ⟨fun j x y hj hq hx hy => hh.1 j x y hj (by omega) hq hx hy, hh.2⟩
    · have hpl : (i - 1) / 2 < h.length := by omega
      have hp := List.getElem?_eq_getElem hpl
      have hcmp := hc _ (List.getElem_mem hpl) _ (List.getElem_mem hil)
      by_cases hle : kt h[(i - 1) / 2] ≤ kt h[i]
      · refine ⟨h, i, binary_heap_bubble_up_stay cmp i h i _ _ _ hp hci hcmp
          ((zbx_return_if_not_equal_le _ _).2 hle), List.Perm.refl _, ?_,
          fun hh' => absurd rfl hh'⟩
        intro _
        refine ⟨?_, hh.2⟩
        intro j x y hj hq hx hy
        by_cases hji : j = i
        · subst hji
          rw [hp] at hx; rw [hci] at hy
          cases hx; cases hy
          exact hle
        · exact hh.1 j x y hj hji hq hx hy
      · have hu : heap_up_inv kt h i := by
          refine ⟨?_, hh.2⟩
          intro j x y hj hji hx hy
          by_cases hq : (j - 1) / 2 = i
          · have h1 := hh.2 j _ y (by omega) hj hq hp hy
            rw [hq, hci] at hx
            cases hx
            omega
          · exact hh.1 j x y hj hji hq hx hy
        obtain ⟨h1, i1, e, ho, hp1, _, _⟩ :=
          binary_heap_bubble_up_ordered cmp kt i h i hc hil (le_refl _) hu
        exact ⟨h1, i1, e, hp1, fun _ => heap_ordered_down_inv ho i1, fun _ => ho⟩
  obtain ⟨h1, i1, e, hp1, hd1, ho1⟩ := key
  unfold zbx_binary_heap_update_direct
  rw [if_pos hm, hie, e]
  by_cases hi1 : i1 = i
  · obtain ⟨h2, i2, e2, ho2, _⟩ := binary_heap_bubble_down_ordered cmp kt h1.length h1 i1
      (heap_cmp_by_perm hp1 hc) (by omega) (hd1 hi1)
    refine ⟨h2, ?_, ho2⟩
    simp only []
    rw [if_pos hi1, e2]
    rfl
  · refine ⟨h1, ?_, ho1 hi1⟩
    simp only []
    rw [if_neg hi1]

/-! ## The keys of the queues -/

theorem am_pool_key_congr {m m' : zbx_am_t} {mid pid : Nat}
    (h : am_pool_head m' mid pid = am_pool_head m mid pid) :
    am_pool_key m' mid pid = am_pool_key m mid pid := by
  unfold am_pool_key
  rw [h]

theorem am_mediatype_key_congr {m m' : zbx_am_t} {id : Nat}
    (h : am_mediatype_head m' id = am_mediatype_head m id) :
    am_mediatype_key m' id = am_mediatype_key m id := by
  unfold am_mediatype_key
  rw [h]

theorem am_pool_head_congr {m m' : zbx_am_t} {mid pid : Nat}
    (h : alertpool_deref m' mid pid = alertpool_deref m mid pid) :
    am_pool_head m' mid pid = am_pool_head m mid pid := by
  unfold am_pool_head
  rw [h]

theorem am_mediatype_head_eq (m : zbx_am_t) (id : Nat) :
    am_mediatype_head m id =
      ((am_get_mediatype m id).bind fun M => zbx_binary_heap_find_min M.queue).bind
        fun pid => am_pool_head m id pid := by
  unfold am_mediatype_head
  cases am_get_mediatype m id with
  | none => rfl
  | some M => rfl

theorem am_mediatype_head_congr {m m' : zbx_am_t} {id : Nat}
    (hg : ((am_get_mediatype m' id).bind fun M => zbx_binary_heap_find_min M.queue) =
      ((am_get_mediatype m id).bind fun M => zbx_binary_heap_find_min M.queue))
    (hp : ∀ pid, am_pool_head m' id pid = am_pool_head m id pid) :
    am_mediatype_head m' id = am_mediatype_head m id := by
  rw [am_mediatype_head_eq, am_mediatype_head_eq, hg]
  congr 1
  funext pid
  exact hp pid

theorem am_pool_head_some {m : zbx_am_t} {mid pid : Nat} {P : zbx_am_alertpool_t}
    (hP : alertpool_deref m mid pid = some P) (hne : P.queue ≠ []) :
    ∃ a, am_pool_head m mid pid = some a ∧ P.queue.head? = some a := by
  unfold am_pool_head zbx_binary_heap_find_min
  rw [hP]
  cases hq : P.queue with
  | nil => exact absurd hq hne
  | cons a t => exact ⟨a, by simp [hq], rfl⟩

theorem am_mediatype_head_some {m : zbx_am_t} (hw : am_wf m) {id : Nat}
    {M : zbx_am_mediatype_t} (hM : am_get_mediatype m id = some M) (hne : M.queue ≠ []) :
    ∃ a, am_mediatype_head m id = some a := by
  unfold am_mediatype_head zbx_binary_heap_find_min
  rw [hM]
  cases hq : M.queue with
  | nil => exact absurd hq hne
  | cons pid t =>
    obtain ⟨P, hP, _, hPne⟩ := hw.mtq_pool id M hM pid (by rw [hq]; exact List.mem_cons_self _ _)
    obtain ⟨a, ha, _⟩ := am_pool_head_some hP hPne
    exact ⟨a, by simpa [hq] using ha⟩

theorem am_alertpool_queue_compare_key {m : zbx_am_t} {mid x y : Nat} {a b : zbx_am_alert_t}
    (hx : am_pool_head m mid x = some a) (hy : am_pool_head m mid y = some b) :
    am_alertpool_queue_compare m mid x y =
      some (zbx_return_if_not_equal (am_pool_key m mid x) (am_pool_key m mid y)) := by
  unfold am_pool_key
  rw [hx, hy]
  unfold am_pool_head at hx hy
  unfold am_alertpool_queue_compare am_alertpool_compare am_alert_compare
  cases h1 : alertpool_deref m mid x with
  | none => rw [h1] at hx; cases hx
  | some P1 =>
    cases h2 : alertpool_deref m mid y with
    | none => rw [h2] at hy; cases hy
    | some P2 =>
      rw [h1] at hx; rw [h2] at hy
      simp only [Option.some_bind] at hx hy ⊢
      rw [hx, hy]
      rfl

theorem am_mediatype_queue_compare_key {m : zbx_am_t} {x y : Nat} {a b : zbx_am_alert_t}
    (hx : am_mediatype_head m x = some a) (hy : am_mediatype_head m y = some b) :
    am_mediatype_queue_compare m x y =
      some (zbx_return_if_not_equal (am_mediatype_key m x) (am_mediatype_key m y)) := by
  unfold am_mediatype_key
  rw [hx, hy]
  unfold am_mediatype_head am_pool_head at hx hy
  unfold am_mediatype_queue_compare am_mediatype_compare am_alertpool_compare am_alert_compare
  cases h1 : am_get_mediatype m x with
  | none => rw [h1] at hx; cases hx
  | some M1 =>
    cases h2 : am_get_mediatype m y with
    | none => rw [h2] at hy; cases hy
    | some M2 =>
      rw [h1] at hx; rw [h2] at hy
      simp only [Option.some_bind] at hx hy ⊢
      rw [am_get_mediatype_key h1, am_get_mediatype_key h2]
      cases h3 : zbx_binary_heap_find_min M1.queue with
      | none => rw [h3] at hx; cases hx
      | some p1 =>
        cases h4 : zbx_binary_heap_find_min M2.queue with
        | none => rw [h4] at hy; cases hy
        | some p2 =>
          rw [h3] at hx; rw [h4] at hy
          simp only [Option.some_bind] at hx hy ⊢
          cases h5 : alertpool_deref m x p1 with
          | none => rw [h5] at hx; cases hx
          | some P1 =>
            cases h6 : alertpool_deref m y p2 with
            | none => rw [h6] at hy; cases hy
            | some P2 =>
              rw [h5] at hx; rw [h6] at hy
              simp only [Option.some_bind] at hx hy ⊢
              rw [hx, hy]
              rfl

theorem am_pool_cmp_by {m : zbx_am_t} {mid : Nat} {h : List Nat}
    (hd : ∀ x ∈ h, ∃ a, am_pool_head m mid x = some a) :
    heap_cmp_by (am_alertpool_queue_compare m mid) (am_pool_key m mid) h := by
  intro x hx y hy
  obtain ⟨a, ha⟩ := hd x hx
  obtain ⟨b, hb⟩ := hd y hy
  exact am_alertpool_queue_compare_key ha hb

theorem am_mediatype_cmp_by {m : zbx_am_t} {h : List Nat}
    (hd : ∀ x ∈ h, ∃ a, am_mediatype_head m x = some a) :
    heap_cmp_by (am_mediatype_queue_compare m) (am_mediatype_key m) h := by
  intro x hx y hy
  obtain ⟨a, ha⟩ := hd x hx
  obtain ⟨b, hb⟩ := hd y hy
  exact am_mediatype_queue_compare_key ha hb

theorem am_alert_cmp_by (h : List zbx_am_alert_t) :
    heap_cmp_by am_alert_queue_compare (fun a : zbx_am_alert_t => a.nextsend) h :=
  fun _ _ _ _ => rfl

/-! ## Conversions between the order invariants -/

theorem am_ord_to_mt {m : zbx_am_t} (ho : am_ord m) (mid : Nat) : am_ord_mt m mid :=
  ⟨ho.alerts, ho.pools, heap_ordered_hole ho.mts _⟩

theorem am_ord_mt_to_at {m : zbx_am_t} {mid : Nat} (ho : am_ord_mt m mid) (pid : Nat) :
    am_ord_at m mid pid :=
  ⟨ho.alerts, fun id M hM _ => ho.pools id M hM,
    fun M hM => heap_ordered_hole (ho.pools mid M hM) _, ho.mts⟩

theorem am_ord_mt_to_ord {m : zbx_am_t} {mid : Nat} (ho : am_ord_mt m mid)
    (hn : mid ∉ m.queue) : am_ord m :=
  ⟨ho.alerts, ho.pools,
    heap_hole_not_mem ho.mts (le_of_eq (List.indexOf_eq_length.2 hn).symm)⟩

theorem am_ord_at_to_mt {m : zbx_am_t} {mid pid : Nat} (ho : am_ord_at m mid pid)
    (hn : ∀ M, am_get_mediatype m mid = some M → pid ∉ M.queue) : am_ord_mt m mid := by
  refine ⟨ho.alerts, ?_, ho.mts⟩
  intro id M hM
  by_cases hid : id = mid
  · subst hid
    exact heap_hole_not_mem (ho.pool_at M hM)
      (le_of_eq (List.indexOf_eq_length.2 (hn M hM)).symm)
  · exact ho.pools id M hM hid

/-! ## The order invariants under changes of the state -/

theorem am_pool_head_of_queue {m m' : zbx_am_t} {mid pid : Nat}
    (h : (alertpool_deref m' mid pid).map (fun P => P.queue) =
      (alertpool_deref m mid pid).map (fun P => P.queue)) :
    am_pool_head m' mid pid = am_pool_head m mid pid := by
  unfold am_pool_head
  cases h1 : alertpool_deref m' mid pid with
  | none =>
    cases h2 : alertpool_deref m mid pid with
    | none => rfl
    | some P => rw [h1, h2] at h; cases h
  | some P' =>
    cases h2 : alertpool_deref m mid pid with
    | none => rw [h1, h2] at h; cases h
    | some P =>
      rw [h1, h2] at h
      have hq : P'.queue = P.queue := Option.some.inj h
      simp only [Option.some_bind, hq]

theorem am_mediatype_view_of_queue {m m' : zbx_am_t} {id : Nat}
    (h : (am_get_mediatype m' id).map (fun M => M.queue) =
      (am_get_mediatype m id).map (fun M => M.queue)) :
    ((am_get_mediatype m' id).bind fun M => zbx_binary_heap_find_min M.queue) =
      ((am_get_mediatype m id).bind fun M => zbx_binary_heap_find_min M.queue) := by
  cases h1 : am_get_mediatype m' id with
  | none =>
    cases h2 : am_get_mediatype m id with
    | none => rfl
    | some P => rw [h1, h2] at h; cases h
  | some P' =>
    cases h2 : am_get_mediatype m id with
    | none => rw [h1, h2] at h; cases h
    | some P =>
      rw [h1, h2] at h
      have hq : P'.queue = P.queue := Option.some.inj h
      simp only [Option.some_bind, hq]

theorem am_ord_frame {m m' : zbx_am_t} (ho : am_ord m) (hq : m'.queue = m.queue)
    (hg1 : ∀ id M', am_get_mediatype m' id = some M' →
      M'.queue = [] ∨ ∃ M, am_get_mediatype m id = some M ∧ M'.queue = M.queue)
    (hg2 : ∀ id ∈ m.queue,
      ((am_get_mediatype m' id).bind fun M => zbx_binary_heap_find_min M.queue) =
        ((am_get_mediatype m id).bind fun M => zbx_binary_heap_find_min M.queue))
    (ha : ∀ mid pid P', alertpool_deref m' mid pid = some P' →
      heap_ordered (fun a : zbx_am_alert_t => a.nextsend) P'.queue)
    (hp : ∀ mid pid, am_pool_head m' mid pid = am_pool_head m mid pid) : am_ord m' := by
  refine ⟨ha, ?_, ?_⟩
  · intro id M' hM'
    rcases hg1 id M' hM' with e | ⟨M, hM, e⟩
    · rw [e]; exact heap_ordered_nil _
    · rw [e]
      exact heap_ordered_congr (ho.pools id M hM) (fun x _ => am_pool_key_congr (hp id x))
  · rw [hq]
    exact heap_ordered_congr ho.mts (fun x hx =>
      am_mediatype_key_congr (am_mediatype_head_congr (hg2 x hx) (hp x)))

theorem am_ord_at_frame {m m' : zbx_am_t} {mid pid : Nat} (ho : am_ord m) (hw : am_wf m)
    (hq : m'.queue = m.queue)
    (hg1 : ∀ id M', am_get_mediatype m' id = some M' →
      M'.queue = [] ∨ ∃ M, am_get_mediatype m id = some M ∧ M'.queue = M.queue)
    (hg2 : ∀ id ∈ m.queue,
      ((am_get_mediatype m' id).bind fun M => zbx_binary_heap_find_min M.queue) =
        ((am_get_mediatype m id).bind fun M => zbx_binary_heap_find_min M.queue))
    (ha : ∀ mid pid P', alertpool_deref m' mid pid = some P' →
      heap_ordered (fun a : zbx_am_alert_t => a.nextsend) P'.queue)
    (hp : ∀ mid' pid', ¬ (mid' = mid ∧ pid' = pid) →
      am_pool_head m' mid' pid' = am_pool_head m mid' pid') : am_ord_at m' mid pid := by
  refine ⟨ha, ?_, ?_, ?_⟩
  · intro id M' hM' hne
    rcases hg1 id M' hM' with e | ⟨M, hM, e⟩
    · rw [e]; exact heap_ordered_nil _
    · rw [e]
      exact heap_ordered_congr (ho.pools id M hM)
        (fun x _ => am_pool_key_congr (hp id x (fun hh => hne hh.1)))
  · intro M' hM'
    rcases hg1 mid M' hM' with e | ⟨M, hM, e⟩
    · rw [e]; exact heap_ordered_hole (heap_ordered_nil _) _
    · rw [e]
      exact heap_hole_congr (heap_ordered_hole (ho.pools mid M hM) _) (hw.mtq_nodup mid M hM)
        (fun x _ hx => am_pool_key_congr (hp mid x (fun hh => hx hh.2)))
  · rw [hq]
    exact heap_hole_congr (heap_ordered_hole ho.mts _) hw.queue_nodup (fun x hx hxm =>
      am_mediatype_key_congr (am_mediatype_head_congr (hg2 x hx)
        (fun p => hp x p (fun hh => hxm hh.1))))

theorem am_ord_set_queue {m m' : zbx_am_t} {mid : Nat} (ho : am_ord_mt m mid)
    (hd : ∀ mid' pid', alertpool_deref m' mid' pid' = alertpool_deref m mid' pid')
    (hg : ∀ id, (am_get_mediatype m' id).map (fun M => M.queue) =
      (am_get_mediatype m id).map (fun M => M.queue))
    (hq : heap_ordered (am_mediatype_key m) m'.queue) : am_ord m' := by
  have hp : ∀ mid' pid', am_pool_head m' mid' pid' = am_pool_head m mid' pid' :=
    fun mid' pid' => am_pool_head_congr (hd mid' pid')
  refine ⟨?_, ?_, ?_⟩
  · intro mid' pid' P hP
    rw [hd] at hP
    exact ho.alerts mid' pid' P hP
  · intro id M' hM'
    have h1 := hg id
    rw [hM'] at h1
    cases h2 : am_get_mediatype m id with
    | none => rw [h2] at h1; cases h1
    | some M =>
      rw [h2] at h1
      have e : M'.queue = M.queue := Option.some.inj h1
      rw [e]
      exact heap_ordered_congr (ho.pools id M h2) (fun x _ => am_pool_key_congr (hp id x))
  · exact heap_ordered_congr hq (fun x _ =>
      am_mediatype_key_congr (am_mediatype_head_congr (am_mediatype_view_of_queue (hg x))
        (hp x)))

theorem am_ord_mt_set_pool_queue {m m' : zbx_am_t} {mid pid : Nat} {q : List Nat}
    (ho : am_ord_at m mid pid) (hn : m.queue.Nodup) (hq : m'.queue = m.queue)
    (hg : ∀ id, id ≠ mid → am_get_mediatype m' id = am_get_mediatype m id)
    (hM' : (am_get_mediatype m' mid).map (fun M => M.queue) = some q)
    (hoq : heap_ordered (am_pool_key m mid) q)
    (hd : ∀ mid' pid', (alertpool_deref m' mid' pid').map (fun P => P.queue) =
      (alertpool_deref m mid' pid').map (fun P => P.queue)) : am_ord_mt m' mid := by
  have hp : ∀ mid' pid', am_pool_head m' mid' pid' = am_pool_head m mid' pid' :=
    fun mid' pid' => am_pool_head_of_queue (hd mid' pid')
  refine ⟨?_, ?_, ?_⟩
  · intro mid' pid' P' hP'
    have h1 := hd mid' pid'
    rw [hP'] at h1
    cases h2 : alertpool_deref m mid' pid' with
    | none => rw [h2] at h1; cases h1
    | some P =>
      rw [h2] at h1
      have e : P'.queue = P.queue := Option.some.inj h1
      rw [e]
      exact ho.alerts mid' pid' P h2
  · intro id M hM
    by_cases hid : id = mid
    · subst hid
      rw [hM] at hM'
      have e : M.queue = q := Option.some.inj hM'
      rw [e]
      exact heap_ordered_congr hoq (fun x _ => am_pool_key_congr (hp id x))
    · rw [hg id hid] at hM
      exact heap_ordered_congr (ho.pools id M hM hid) (fun x _ => am_pool_key_congr (hp id x))
  · rw [hq]
    exact heap_hole_congr ho.mts hn (fun x _ hxm =>
      am_mediatype_key_congr (am_mediatype_head_congr (by rw [hg x hxm]) (hp x)))

/-! ## The queue primitives keep the heaps ordered and do not fail -/

theorem am_wf_queue_heads {m : zbx_am_t} (hw : am_wf m) :
    ∀ x ∈ m.queue, ∃ a, am_mediatype_head m x = some a := by
  intro x hx
  obtain ⟨M, hM, _, hne⟩ := hw.queue_mt x hx
  exact am_mediatype_head_some hw hM hne

theorem am_wf_pool_heads {m : zbx_am_t} (hw : am_wf m) {id : Nat} {M : zbx_am_mediatype_t}
    (hM : am_get_mediatype m id = some M) :
    ∀ x ∈ M.queue, ∃ a, am_pool_head m id x = some a := by
  intro x hx
  obtain ⟨P, hP, _, hne⟩ := hw.mtq_pool id M hM x hx
  obtain ⟨a, ha, _⟩ := am_pool_head_some hP hne
  exact ⟨a, ha⟩

theorem am_store_location_queue {m : zbx_am_t} {id : Nat} {M : zbx_am_mediatype_t}
    (hM : am_get_mediatype m id = some M) (q : List Nat) (l : Nat) (id' : Nat) :
    (am_get_mediatype (mediatype_store { m with queue := q } { M with location := l }) id').map
        (fun M => M.queue) = (am_get_mediatype m id').map (fun M => M.queue) := by
  have hk := am_get_mediatype_key hM
  have hs := @am_get_mediatype_store { m with queue := q } { M with location := l } M
    (by rw [am_get_mediatype_set_queue]; show am_get_mediatype m M.mediatypeid = some M
        rw [hk]; exact hM) id'
  rw [hs]
  by_cases e : id' = M.mediatypeid
  · rw [if_pos e, e, hk, hM]; rfl
  · rw [if_neg e]; rfl

theorem am_push_meditype_ord {m : zbx_am_t} {id : Nat} {M : zbx_am_mediatype_t}
    (hw : am_wf m) (ho : am_ord_mt m id) (hM : am_get_mediatype m id = some M) :
    ∃ m', am_push_meditype m id = some m' ∧ am_ord m' := by
  have hkey := am_get_mediatype_key hM
  subst hkey
  unfold am_push_meditype
  rw [hM]
  simp only [Option.some_bind]
  by_cases he : zbx_binary_heap_empty M.queue = true
  · rw [if_pos he]
    have hMq := (heap_empty_iff _).1 he
    refine ⟨m, rfl, am_ord_mt_to_ord ho ?_⟩
    intro hin
    obtain ⟨M2, hM2, _, hne⟩ := hw.queue_mt _ hin
    rw [hM] at hM2
    cases hM2
    exact hne hMq
  · rw [if_neg he]
    have hne : M.queue ≠ [] := fun e => he ((heap_empty_iff _).2 e)
    by_cases hl : M.location = ZBX_AM_LOCATION_NOWHERE
    · rw [if_pos hl]
      have hnin : M.mediatypeid ∉ m.queue := by
        intro hin
        obtain ⟨M2, hM2, hq, _⟩ := hw.queue_mt _ hin
        rw [hM] at hM2
        cases hM2
        rw [hl] at hq
        exact absurd hq (by decide)
      by_cases hc : M.maxsessions = 0 ∨ M.alerts_num < M.maxsessions
      · rw [if_pos hc]
        have hcb : heap_cmp_by (am_mediatype_queue_compare m) (am_mediatype_key m)
            (M.mediatypeid :: m.queue) := by
          apply am_mediatype_cmp_by
          intro x hx
          rcases List.mem_cons.1 hx with e | e
          · rw [e]; exact am_mediatype_head_some hw hM hne
          · exact am_wf_queue_heads hw x e
        obtain ⟨q, hq, hoq, _⟩ := zbx_binary_heap_insert_ordered
          (am_mediatype_queue_compare m) (am_mediatype_key m) true m.queue M.mediatypeid
          (am_ord_mt_to_ord ho hnin).mts hcb (fun _ => hnin)
        rw [hq]
        simp only [Option.some_bind]
        exact ⟨_, rfl, am_ord_set_queue ho (fun _ _ => rfl)
          (am_store_location_queue hM q ZBX_AM_LOCATION_QUEUE) hoq⟩
      · rw [if_neg hc]
        exact ⟨m, rfl, am_ord_mt_to_ord ho hnin⟩
    · rw [if_neg hl]
      have hlq : M.location = ZBX_AM_LOCATION_QUEUE := by
        rcases hw.mt_loc _ M hM with e | e
        · exact absurd e hl
        · exact e
      have hin := hw.mt_queue _ M hM hlq
      obtain ⟨q, hq, hoq⟩ := zbx_binary_heap_update_direct_ordered
        (am_mediatype_queue_compare m) (am_mediatype_key m) m.queue M.mediatypeid hin ho.mts
        (am_mediatype_cmp_by (am_wf_queue_heads hw))
      rw [hq]
      simp only [Option.some_bind]
      exact ⟨_, rfl, am_ord_set_queue ho (fun _ _ => rfl) (fun _ => rfl) hoq⟩

theorem am_pop_mediatype_ord {m : zbx_am_t} {id : Nat} {t : List Nat} (hw : am_wf m)
    (ho : am_ord m) (hq : m.queue = id :: t) :
    ∃ m', am_pop_mediatype m = some (some id, m') ∧ am_ord m' := by
  obtain ⟨M, hM, _, _⟩ := hw.queue_mt id (by rw [hq]; exact List.mem_cons_self _ _)
  unfold am_pop_mediatype
  have hne : zbx_binary_heap_empty m.queue ≠ true := by
    intro e
    rw [(heap_empty_iff _).1 e] at hq
    cases hq
  rw [if_neg hne]
  have hfm : zbx_binary_heap_find_min m.queue = some id := by
    unfold zbx_binary_heap_find_min
    rw [hq]; rfl
  rw [hfm]
  simp only [Option.some_bind]
  rw [hM]
  simp only [Option.some_bind, queue_mediatype_store]
  have hview := am_store_location_queue hM m.queue ZBX_AM_LOCATION_NOWHERE
  have hheads : ∀ x, am_mediatype_head
      (mediatype_store m { M with location := ZBX_AM_LOCATION_NOWHERE }) x =
      am_mediatype_head m x :=
    fun x => am_mediatype_head_congr (am_mediatype_view_of_queue (hview x)) (fun _ => rfl)
  have hcb : heap_cmp_by
      (am_mediatype_queue_compare (mediatype_store m { M with location := ZBX_AM_LOCATION_NOWHERE }))
      (am_mediatype_key m) m.queue := by
    have := @am_mediatype_cmp_by
      (mediatype_store m { M with location := ZBX_AM_LOCATION_NOWHERE }) m.queue (by
        intro x hx
        rw [hheads x]
        exact am_wf_queue_heads hw x hx)
    exact heap_cmp_by_congr this (fun x _ => (am_mediatype_key_congr (hheads x)).symm)
      (fun _ _ _ _ => rfl)
  obtain ⟨q, hq2, hoq⟩ := zbx_binary_heap_remove_min_ordered _ (am_mediatype_key m) m.queue
    ho.mts hcb (by rw [hq]; exact List.cons_ne_nil _ _)
  rw [hq2]
  simp only [Option.some_bind]
  exact ⟨_, rfl, am_ord_set_queue (am_ord_to_mt ho id) (fun _ _ => rfl)
    (am_store_location_queue hM q ZBX_AM_LOCATION_NOWHERE) hoq⟩

theorem am_store_pool_location_queue {m : zbx_am_t} {mid pid : Nat} {P : zbx_am_alertpool_t}
    (hP : alertpool_deref m mid pid = some P) (l : Nat) (mid' pid' : Nat) :
    (alertpool_deref (alertpool_store m { P with location := l }) mid' pid').map
        (fun P => P.queue) = (alertpool_deref m mid' pid').map (fun P => P.queue) := by
  have hk := alertpool_deref_key hP
  have hs := @alertpool_deref_store m { P with location := l } P
    (by show alertpool_deref m P.mediatypeid P.id = some P
        rw [hk.1, hk.2]; exact hP) mid' pid'
  rw [hs]
  by_cases e : mid' = P.mediatypeid ∧ pid' = P.id
  · rw [if_pos e, e.1, e.2, hk.1, hk.2, hP]; rfl
  · rw [if_neg e]

theorem am_store_mediatype_queue_get {m : zbx_am_t} {id : Nat} {M : zbx_am_mediatype_t}
    (hM : am_get_mediatype m id = some M) (q : List Nat) (id' : Nat) :
    am_get_mediatype (mediatype_store m { M with queue := q }) id' =
      if id' = id then some { M with queue := q } else am_get_mediatype m id' := by
  have hk := am_get_mediatype_key hM
  have hs := @am_get_mediatype_store m { M with queue := q } M
    (by show am_get_mediatype m M.mediatypeid = some M
        rw [hk]; exact hM) id'
  rw [hs]
  show (if id' = M.mediatypeid then _ else _) = _
  rw [hk]

theorem am_push_alertpool_ord {m : zbx_am_t} {mid pid : Nat} {M : zbx_am_mediatype_t}
    {P : zbx_am_alertpool_t} (hw : am_wf m) (ho : am_ord_at m mid pid)
    (hM : am_get_mediatype m mid = some M) (hP : alertpool_deref m mid pid = some P)
    (hne : P.queue ≠ []) :
    ∃ m', am_push_alertpool m mid pid = some m' ∧ am_ord_mt m' mid := by
  have hk := alertpool_deref_key hP
  have hk1 := hk.1
  subst hk1
  unfold am_push_alertpool
  rw [hM, hP]
  simp only [Option.some_bind]
  have hheadP : ∃ a, am_pool_head m mid P.id = some a := by
    obtain ⟨a, ha, _⟩ := am_pool_head_some hP hne
    exact ⟨a, ha⟩
  by_cases hl : P.location = ZBX_AM_LOCATION_NOWHERE
  · rw [if_pos hl]
    have hnin : P.id ∉ M.queue := by
      intro hin
      obtain ⟨P2, hP2, hq, _⟩ := hw.mtq_pool mid M hM _ hin
      rw [hP] at hP2
      cases hP2
      rw [hl] at hq
      exact absurd hq (by decide)
    have hcb : heap_cmp_by (am_alertpool_queue_compare m mid) (am_pool_key m mid)
        (P.id :: M.queue) := by
      apply am_pool_cmp_by
      intro x hx
      rcases List.mem_cons.1 hx with e | e
      · rw [e]; exact hheadP
      · exact am_wf_pool_heads hw hM x e
    obtain ⟨q, hq, hoq, _⟩ := zbx_binary_heap_insert_ordered
      (am_alertpool_queue_compare m mid) (am_pool_key m mid) true M.queue P.id
      (heap_hole_not_mem (ho.pool_at M hM) (le_of_eq (List.indexOf_eq_length.2 hnin).symm))
      hcb (fun _ => hnin)
    rw [hq]
    simp only [Option.some_bind]
    refine ⟨_, rfl, am_ord_mt_set_pool_queue ho hw.queue_nodup rfl ?_ ?_ hoq ?_⟩
    · intro id hid
      rw [am_get_mediatype_alertpool_store, am_store_mediatype_queue_get hM, if_neg hid]
    · rw [am_get_mediatype_alertpool_store, am_store_mediatype_queue_get hM, if_pos rfl]
      rfl
    · intro mid' pid'
      exact @am_store_pool_location_queue (mediatype_store m { M with queue := q }) mid P.id P
        hP ZBX_AM_LOCATION_QUEUE mid' pid'
  · rw [if_neg hl]
    have hlq : P.location = ZBX_AM_LOCATION_QUEUE := by
      rcases hw.pool_loc mid _ P hP with e | e
      · exact absurd e hl
      · exact e
    have hin : P.id ∈ M.queue := by
      obtain ⟨M2, hM2, hin⟩ := hw.pool_mtq mid _ P hP hlq
      rw [hM] at hM2
      cases hM2
      exact hin
    obtain ⟨q, hq, hoq⟩ := zbx_binary_heap_update_direct_ordered
      (am_alertpool_queue_compare m mid) (am_pool_key m mid) M.queue P.id hin
      (ho.pool_at M hM) (am_pool_cmp_by (am_wf_pool_heads hw hM))
    rw [hq]
    simp only [Option.some_bind]
    refine ⟨_, rfl, am_ord_mt_set_pool_queue ho hw.queue_nodup rfl ?_ ?_ hoq (fun _ _ => rfl)⟩
    · intro id hid
      rw [am_store_mediatype_queue_get hM, if_neg hid]
    · rw [am_store_mediatype_queue_get hM, if_pos rfl]
      rfl

theorem am_pop_alertpool_ord {m : zbx_am_t} {id pid : Nat} {tp : List Nat}
    {M : zbx_am_mediatype_t} (hw : am_wf m) (ho : am_ord m)
    (hM : am_get_mediatype m id = some M) (hq : M.queue = pid :: tp) (hnin : id ∉ m.queue) :
    ∃ m', am_pop_alertpool m id = some (some pid, m') ∧ am_ord m' := by
  obtain ⟨P, hP, _, _⟩ := hw.mtq_pool id M hM pid (by rw [hq]; exact List.mem_cons_self _ _)
  unfold am_pop_alertpool
  rw [hM]
  simp only [Option.some_bind]
  have hne : zbx_binary_heap_empty M.queue ≠ true := by
    intro e
    rw [(heap_empty_iff _).1 e] at hq
    cases hq
  rw [if_neg hne]
  have hfm : zbx_binary_heap_find_min M.queue = some pid := by
    unfold zbx_binary_heap_find_min
    rw [hq]; rfl
  rw [hfm]
  simp only [Option.some_bind]
  rw [hP]
  simp only [Option.some_bind]
  have hview := am_store_pool_location_queue hP ZBX_AM_LOCATION_NOWHERE
  have hheads : ∀ x, am_pool_head
      (alertpool_store m { P with location := ZBX_AM_LOCATION_NOWHERE }) id x =
      am_pool_head m id x := fun x => am_pool_head_of_queue (hview id x)
  have hcb : heap_cmp_by
      (am_alertpool_queue_compare
        (alertpool_store m { P with location := ZBX_AM_LOCATION_NOWHERE }) id)
      (am_pool_key m id) M.queue := by
    have := @am_pool_cmp_by
      (alertpool_store m { P with location := ZBX_AM_LOCATION_NOWHERE }) id M.queue (by
        intro x hx
        rw [hheads x]
        exact am_wf_pool_heads hw hM x hx)
    exact heap_cmp_by_congr this (fun x _ => (am_pool_key_congr (hheads x)).symm)
      (fun _ _ _ _ => rfl)
  obtain ⟨q, hq2, hoq⟩ := zbx_binary_heap_remove_min_ordered _ (am_pool_key m id) M.queue
    (ho.pools id M hM) hcb (by rw [hq]; exact List.cons_ne_nil _ _)
  rw [hq2]
  simp only [Option.some_bind]
  refine ⟨_, rfl, am_ord_mt_to_ord (am_ord_mt_set_pool_queue
    (am_ord_mt_to_at (am_ord_to_mt ho id) pid) hw.queue_nodup rfl ?_ ?_ hoq ?_) hnin⟩
  · intro id' hid
    rw [@am_store_mediatype_queue_get
      (alertpool_store m { P with location := ZBX_AM_LOCATION_NOWHERE }) id M hM, if_neg hid]
    rfl
  · rw [@am_store_mediatype_queue_get
      (alertpool_store m { P with location := ZBX_AM_LOCATION_NOWHERE }) id M hM, if_pos rfl]
    rfl
  · intro mid' pid'
    exact hview mid' pid'

theorem am_store_pool_queue_deref {m : zbx_am_t} {mid pid : Nat} {P : zbx_am_alertpool_t}
    (hP : alertpool_deref m mid pid = some P) (q : List zbx_am_alert_t) (mid' pid' : Nat) :
    alertpool_deref (alertpool_store m { P with queue := q }) mid' pid' =
      if mid' = mid ∧ pid' = pid then some { P with queue := q }
      else alertpool_deref m mid' pid' := by
  have hk := alertpool_deref_key hP
  have hs := @alertpool_deref_store m { P with queue := q } P
    (by show alertpool_deref m P.mediatypeid P.id = some P
        rw [hk.1, hk.2]; exact hP) mid' pid'
  rw [hs]
  show (if mid' = P.mediatypeid ∧ pid' = P.id then _ else _) = _
  rw [hk.1, hk.2]

theorem am_ord_at_store_pool_queue {m : zbx_am_t} {mid pid : Nat} {P : zbx_am_alertpool_t}
    {q : List zbx_am_alert_t} (hw : am_wf m) (ho : am_ord m)
    (hP : alertpool_deref m mid pid = some P)
    (hoq : heap_ordered (fun a : zbx_am_alert_t => a.nextsend) q) :
    am_ord_at (alertpool_store m { P with queue := q }) mid pid := by
  refine @am_ord_at_frame m (alertpool_store m { P with queue := q }) mid pid ho hw rfl
    ?_ ?_ ?_ ?_
  · intro id M' hM'
    exact Or.inr ⟨M', hM', rfl⟩
  · intro id _
    rfl
  · intro mid' pid' P' hP'
    rw [am_store_pool_queue_deref hP] at hP'
    split at hP'
    · cases hP'; exact hoq
    · exact ho.alerts _ _ _ hP'
  · intro mid' pid' hne
    apply am_pool_head_congr
    rw [am_store_pool_queue_deref hP, if_neg hne]

theorem am_push_alert_ord {m : zbx_am_t} {mid pid : Nat} {P : zbx_am_alertpool_t}
    (a : zbx_am_alert_t) (hw : am_wf m) (ho : am_ord m)
    (hP : alertpool_deref m mid pid = some P) :
    ∃ m', am_push_alert m mid pid a = some m' ∧ am_ord_at m' mid pid := by
  unfold am_push_alert
  rw [hP]
  simp only [Option.some_bind]
  obtain ⟨q, hq, hoq, _⟩ := zbx_binary_heap_insert_ordered am_alert_queue_compare
    (fun a : zbx_am_alert_t => a.nextsend) false P.queue a (ho.alerts _ _ _ hP)
    (am_alert_cmp_by _) (fun hh => absurd hh (by decide))
  rw [hq]
  exact ⟨_, rfl, am_ord_at_store_pool_queue hw ho hP hoq⟩

theorem am_ord_store_pool_queue_idle {m : zbx_am_t} {mid pid : Nat} {P : zbx_am_alertpool_t}
    {q : List zbx_am_alert_t} (hw : am_wf m) (ho : am_ord m)
    (hP : alertpool_deref m mid pid = some P) (hl : P.location = ZBX_AM_LOCATION_NOWHERE)
    (hnin : mid ∉ m.queue)
    (hoq : heap_ordered (fun a : zbx_am_alert_t => a.nextsend) q) :
    am_ord (alertpool_store m { P with queue := q }) := by
  refine am_ord_mt_to_ord (am_ord_at_to_mt (am_ord_at_store_pool_queue hw ho hP hoq) ?_) hnin
  intro M hM hin
  obtain ⟨P2, hP2, hq, _⟩ := hw.mtq_pool mid M hM pid hin
  rw [hP] at hP2
  cases hP2
  rw [hl] at hq
  exact absurd hq (by decide)

theorem am_ord_store_mediatype {m : zbx_am_t} {id : Nat} {M M' : zbx_am_mediatype_t}
    (ho : am_ord m) (hM : am_get_mediatype m id = some M) (hk : M'.mediatypeid = id)
    (hq : M'.queue = M.queue) : am_ord (mediatype_store m M') := by
  have hs := @am_get_mediatype_store m M' M (by rw [hk]; exact hM)
  refine @am_ord_frame m (mediatype_store m M') ho rfl ?_ ?_ ?_ ?_
  · intro id' M2 hM2
    rw [hs] at hM2
    split at hM2
    · rename_i e
      cases hM2
      exact Or.inr ⟨M, by rw [e, hk]; exact hM, hq⟩
    · exact Or.inr ⟨M2, hM2, rfl⟩
  · intro id' _
    rw [hs]
    split
    · rename_i e
      rw [e, hk, hM]
      simp only [Option.some_bind, hq]
    · rfl
  · intro mid' pid' P' hP'
    exact ho.alerts mid' pid' P' hP'
  · intro mid' pid'
    rfl

theorem am_pop_alert_ord {m : zbx_am_t} {id : Nat} {t : List Nat} (hw : am_wf m)
    (ho : am_ord m) (hq : m.queue = id :: t) :
    ∃ a m', am_pop_alert m = some (some a, m') ∧ am_ord m' := by
  obtain ⟨m1, h1, ho1⟩ := am_pop_mediatype_ord hw ho hq
  obtain ⟨hw1, M1, hM1, -, hne1, hnin1⟩ := am_wf_pop_mediatype hw h1
  obtain ⟨pid, tp, hq1⟩ := List.exists_cons_of_ne_nil hne1
  obtain ⟨m2, h2, ho2⟩ := am_pop_alertpool_ord hw1 ho1 hM1 hq1 hnin1
  obtain ⟨hw2, P2, hP2, hl2, hne2⟩ := am_wf_pop_alertpool hw1 h2 hnin1
  obtain ⟨a, rest, hq2⟩ := List.exists_cons_of_ne_nil hne2
  have hq12 : m2.queue = m1.queue := (am_pop_alertpool_other h2).2
  have hnin2 : id ∉ m2.queue := by rw [hq12]; exact hnin1
  obtain ⟨q3, hq3, hoq3⟩ := zbx_binary_heap_remove_min_ordered am_alert_queue_compare
    (fun a : zbx_am_alert_t => a.nextsend) P2.queue (ho2.alerts _ _ _ hP2)
    (am_alert_cmp_by _) hne2
  have ho3 := am_ord_store_pool_queue_idle hw2 ho2 hP2 hl2 hnin2 hoq3
  obtain ⟨hk1, hk2⟩ := alertpool_deref_key hP2
  have hPs : alertpool_deref m2 ({ P2 with queue := q3 } : zbx_am_alertpool_t).mediatypeid
      ({ P2 with queue := q3 } : zbx_am_alertpool_t).id = some P2 := by
    rw [← hk1, ← hk2] at hP2; exact hP2
  have hw3 : am_wf (alertpool_store m2 { P2 with queue := q3 }) :=
    am_wf_store_alertpool hw2 hPs rfl (fun hh => by rw [hl2] at hh; cases hh)
  obtain ⟨M2, t2, q2, -, -, -, hM2⟩ := am_pop_alertpool_get h2
  generalize ({ M2 with queue := q2 } : zbx_am_mediatype_t) = M3 at hM2
  have hM3 : am_get_mediatype (alertpool_store m2 { P2 with queue := q3 }) id = some M3 := hM2
  have hk3 := am_get_mediatype_key hM3
  have ho4 := @am_ord_store_mediatype _ id M3 { M3 with alerts_num := M3.alerts_num + 1 }
    ho3 hM3 hk3 rfl
  have hM3s : am_get_mediatype (alertpool_store m2 { P2 with queue := q3 })
      ({ M3 with alerts_num := M3.alerts_num + 1 } : zbx_am_mediatype_t).mediatypeid =
      some M3 := by
    show am_get_mediatype _ M3.mediatypeid = some M3
    rw [hk3]; exact hM3
  have hw4 := am_wf_store_mediatype hw3 hM3s rfl (List.Perm.refl _)
  have hfm : zbx_binary_heap_find_min P2.queue = some a := by
    unfold zbx_binary_heap_find_min
    rw [hq2]; rfl
  unfold am_pop_alert
  rw [h1]
  simp only [Option.some_bind]
  rw [h2]
  simp only [Option.some_bind]
  rw [hP2]
  simp only [Option.some_bind]
  rw [hfm]
  simp only [Option.some_bind]
  rw [hq3]
  simp only [Option.some_bind]
  rw [hM3]
  simp only [Option.some_bind]
  split
  · have hM4 : am_get_mediatype (mediatype_store
        (alertpool_store m2 { P2 with queue := q3 })
        { M3 with alerts_num := M3.alerts_num + 1 }) id =
        some { M3 with alerts_num := M3.alerts_num + 1 } := by
      rw [am_get_mediatype_store hM3s, if_pos hk3.symm]
    obtain ⟨m5, h5, ho5⟩ := am_push_meditype_ord hw4 (am_ord_to_mt ho4 id) hM4
    rw [h5]
    exact ⟨a, m5, rfl, ho5⟩
  · exact ⟨a, _, rfl, ho4⟩

theorem am_ord_get_alertpool {m : zbx_am_t} (ho : am_ord m) (mid pid : Nat) :
    am_ord (am_get_alertpool m mid pid).2 := by
  obtain ⟨hd, hother, hg, hq, hcase⟩ := am_get_alertpool_deref m mid pid
  refine @am_ord_frame m (am_get_alertpool m mid pid).2 ho hq ?_ ?_ ?_ ?_
  · intro id M' hM'
    rw [hg] at hM'
    exact Or.inr ⟨M', hM', rfl⟩
  · intro id _
    rw [hg]
  · intro mid' pid' P' hP'
    by_cases e : mid' = mid ∧ pid' = pid
    · rw [e.1, e.2, hd] at hP'
      cases hP'
      rcases hcase with h1 | ⟨_, h2⟩
      · exact ho.alerts mid pid _ h1
      · rw [h2]; exact heap_ordered_nil _
    · rw [hother mid' pid' e] at hP'
      exact ho.alerts mid' pid' P' hP'
  · intro mid' pid'
    by_cases e : mid' = mid ∧ pid' = pid
    · rw [e.1, e.2]
      unfold am_pool_head
      rcases hcase with h1 | ⟨h1, h2⟩
      · rw [hd, h1]
      · rw [hd, h1, h2]; rfl
    · exact am_pool_head_congr (hother mid' pid' e)

theorem am_push_chain_ord {m : zbx_am_t} {mid pid : Nat} {M : zbx_am_mediatype_t}
    {P : zbx_am_alertpool_t} (a : zbx_am_alert_t) (hw : am_wf m) (ho : am_ord m)
    (hM : am_get_mediatype m mid = some M) (hP : alertpool_deref m mid pid = some P) :
    ∃ m2 m3 m4, am_push_alert m mid pid a = some m2 ∧
      am_push_alertpool m2 mid pid = some m3 ∧ am_push_meditype m3 mid = some m4 ∧
      am_ord m4 := by
  obtain ⟨m2, h2, ho2⟩ := am_push_alert_ord a hw ho hP
  obtain ⟨hw2, hne⟩ := am_wf_push_alert hw h2
  obtain ⟨P0, q, hP0, -, hm2⟩ := am_push_alert_inv h2
  rw [hP] at hP0
  cases hP0
  have hM2 : am_get_mediatype m2 mid = some M := by rw [hm2]; exact hM
  have hP2 : alertpool_deref m2 mid pid = some { P with queue := q } := by
    rw [hm2, am_store_pool_queue_deref hP, if_pos ⟨rfl, rfl⟩]
  obtain ⟨m3, h3, ho3⟩ := am_push_alertpool_ord hw2 ho2 hM2 hP2 (hne _ hP2)
  obtain ⟨hw3, M3, hM3, -⟩ := am_wf_push_alertpool hw2 h3 hne
  obtain ⟨m4, h4, ho4⟩ := am_push_meditype_ord hw3 ho3 hM3
  exact ⟨m2, m3, m4, h2, h3, h4, ho4⟩

theorem am_db_queue_alert_ord {m : zbx_am_t} (a : zbx_am_alert_t) (hw : am_wf m)
    (ho : am_ord m) : ∃ m', am_db_queue_alert m a = some m' ∧ am_ord m' := by
  unfold am_db_queue_alert
  cases hG : am_get_mediatype m a.mediatypeid with
  | none => exact ⟨m, rfl, ho⟩
  | some M =>
    obtain ⟨hd, -, hg, -, -⟩ := am_get_alertpool_deref m a.mediatypeid a.alertpoolid
    obtain ⟨m2, m3, m4, h2, h3, h4, ho4⟩ := am_push_chain_ord a
      (am_wf_get_alertpool hw a.mediatypeid a.alertpoolid)
      (am_ord_get_alertpool ho a.mediatypeid a.alertpoolid)
      (by rw [hg]; exact hG) hd
    simp only []
    rw [h2]
    simp only [Option.some_bind]
    rw [h3]
    simp only [Option.some_bind]
    exact ⟨m4, h4, ho4⟩

theorem am_ord_remove_alertpool {m : zbx_am_t} {mid pid : Nat} {P : zbx_am_alertpool_t}
    (ho : am_ord m) (hP : alertpool_deref m mid pid = some P) (he : P.queue = []) :
    am_ord (am_remove_alertpool m mid pid) := by
  refine @am_ord_frame m (am_remove_alertpool m mid pid) ho rfl ?_ ?_ ?_ ?_
  · intro id M' hM'
    exact Or.inr ⟨M', hM', rfl⟩
  · intro id _
    rfl
  · intro mid' pid' P' hP'
    rw [am_remove_alertpool_deref] at hP'
    split at hP'
    · cases hP'
    · exact ho.alerts mid' pid' P' hP'
  · intro mid' pid'
    unfold am_pool_head
    rw [am_remove_alertpool_deref]
    split
    · rename_i e
      rw [e.1, e.2, hP]
      simp only [Option.none_bind, Option.some_bind, he]
      rfl
    · rfl

theorem am_ord_remove_mediatype {m : zbx_am_t} {id : Nat} (ho : am_ord m)
    (hn : id ∉ m.queue) : am_ord (am_remove_mediatype m id) := by
  refine @am_ord_frame m (am_remove_mediatype m id) ho rfl ?_ ?_ ?_ ?_
  · intro id' M' hM'
    rw [am_remove_mediatype_get] at hM'
    split at hM'
    · cases hM'
    · exact Or.inr ⟨M', hM', rfl⟩
  · intro id' hin
    have hne : id' ≠ id := fun e => hn (by rw [← e]; exact hin)
    rw [am_remove_mediatype_get, if_neg hne]
  · intro mid' pid' P' hP'
    exact ho.alerts mid' pid' P' hP'
  · intro mid' pid'
    rfl

theorem am_remove_tail_ord {m : zbx_am_t} {mid : Nat} {M : zbx_am_mediatype_t}
    (hw : am_wf m) (ho : am_ord_mt m mid) (hM : am_get_mediatype m mid = some M) :
    ∃ m', (if zbx_binary_heap_empty M.queue = true ∧ M.alerts_num = 0 then
        some (am_remove_mediatype m mid) else am_push_meditype m mid) = some m' ∧
      am_ord m' := by
  by_cases hc : zbx_binary_heap_empty M.queue = true ∧ M.alerts_num = 0
  · rw [if_pos hc]
    have hnin : mid ∉ m.queue := by
      intro hin
      obtain ⟨M2, hM2, _, hne⟩ := hw.queue_mt mid hin
      rw [hM] at hM2
      cases hM2
      exact hne ((heap_empty_iff _).1 hc.1)
    exact ⟨_, rfl, am_ord_remove_mediatype (am_ord_mt_to_ord ho hnin) hnin⟩
  · rw [if_neg hc]
    exact am_push_meditype_ord hw ho hM

theorem am_remove_alert_ord {m : zbx_am_t} (a : zbx_am_alert_t) (hw : am_wf m)
    (ho : am_ord m) : ∃ m', am_remove_alert m a = some m' ∧ am_ord m' := by
  unfold am_remove_alert
  cases hG : am_get_mediatype m a.mediatypeid with
  | none => exact ⟨m, rfl, ho⟩
  | some M =>
    simp only []
    have hk := am_get_mediatype_key hG
    have hMs : am_get_mediatype m
        ({ M with alerts_num := M.alerts_num - 1 } : zbx_am_mediatype_t).mediatypeid =
        some M := by
      show am_get_mediatype m M.mediatypeid = some M
      rw [hk]; exact hG
    have hw1 := am_wf_store_mediatype hw hMs rfl (List.Perm.refl _)
    have ho1 := @am_ord_store_mediatype m a.mediatypeid M
      { M with alerts_num := M.alerts_num - 1 } ho hG hk rfl
    have hM1 : am_get_mediatype (mediatype_store m { M with alerts_num := M.alerts_num - 1 })
        a.mediatypeid = some { M with alerts_num := M.alerts_num - 1 } := by
      rw [am_get_mediatype_store hMs, if_pos hk.symm]
    have hwr := am_wf_get_alertpool hw1 a.mediatypeid a.alertpoolid
    have hor := am_ord_get_alertpool ho1 a.mediatypeid a.alertpoolid
    obtain ⟨hd, -, hg, -, -⟩ := am_get_alertpool_deref
      (mediatype_store m { M with alerts_num := M.alerts_num - 1 })
      a.mediatypeid a.alertpoolid
    have hMr := (hg a.mediatypeid).trans hM1
    by_cases he : zbx_binary_heap_empty
        (am_get_alertpool (mediatype_store m { M with alerts_num := M.alerts_num - 1 })
          a.mediatypeid a.alertpoolid).1.queue = true
    · rw [if_pos he]
      simp only [Option.some_bind]
      have hq := (heap_empty_iff _).1 he
      have hw3 := am_wf_remove_alertpool hwr a.mediatypeid a.alertpoolid (by
        intro P hP hl
        rw [hd] at hP
        cases hP
        exact am_wf_pool_queued_ne hwr hd hl hq)
      have ho3 := am_ord_remove_alertpool hor hd hq
      have hM3 : am_get_mediatype (am_remove_alertpool
          (am_get_alertpool (mediatype_store m { M with alerts_num := M.alerts_num - 1 })
            a.mediatypeid a.alertpoolid).2 a.mediatypeid a.alertpoolid) a.mediatypeid =
          some { M with alerts_num := M.alerts_num - 1 } := hMr
      rw [hM3]
      simp only [Option.some_bind]
      exact am_remove_tail_ord hw3 (am_ord_to_mt ho3 _) hM3
    · rw [if_neg he]
      have hne : (am_get_alertpool
          (mediatype_store m { M with alerts_num := M.alerts_num - 1 })
          a.mediatypeid a.alertpoolid).1.queue ≠ [] := fun e => he ((heap_empty_iff _).2 e)
      obtain ⟨m3, h3, ho3⟩ := am_push_alertpool_ord hwr
        (am_ord_mt_to_at (am_ord_to_mt hor a.mediatypeid) a.alertpoolid) hMr hd hne
      obtain ⟨hw3, M3, hM3, -⟩ := am_wf_push_alertpool hwr h3 (by
        intro P hP
        rw [hd] at hP
        cases hP
        exact hne)
      rw [h3]
      simp only [Option.some_bind]
      rw [hM3]
      simp only [Option.some_bind]
      exact am_remove_tail_ord hw3 ho3 hM3

theorem am_retry_alert_ord {m : zbx_am_t} (a : zbx_am_alert_t) (now : Int) (hw : am_wf m)
    (ho : am_ord m) : ∃ r, am_retry_alert m a now = some r ∧ am_ord r.2 := by
  unfold am_retry_alert
  cases hG : am_get_mediatype m a.mediatypeid with
  | none =>
    obtain ⟨m', h, ho'⟩ := am_remove_alert_ord a hw ho
    simp only []
    rw [h]
    exact ⟨_, rfl, ho'⟩
  | some M =>
    simp only []
    by_cases hc : M.maxattempts ≤ a.retries + 1
    · rw [if_pos hc]
      obtain ⟨m', h, ho'⟩ := am_remove_alert_ord { a with retries := a.retries + 1 } hw ho
      rw [h]
      exact ⟨_, rfl, ho'⟩
    · rw [if_neg hc]
      have hk := am_get_mediatype_key hG
      have hMs : am_get_mediatype m
          ({ M with alerts_num := M.alerts_num - 1 } : zbx_am_mediatype_t).mediatypeid =
          some M := by
        show am_get_mediatype m M.mediatypeid = some M
        rw [hk]; exact hG
      have hw1 := am_wf_store_mediatype hw hMs rfl (List.Perm.refl _)
      have ho1 := @am_ord_store_mediatype m a.mediatypeid M
        { M with alerts_num := M.alerts_num - 1 } ho hG hk rfl
      have hM1 : am_get_mediatype
          (mediatype_store m { M with alerts_num := M.alerts_num - 1 })
          a.mediatypeid = some { M with alerts_num := M.alerts_num - 1 } := by
        rw [am_get_mediatype_store hMs, if_pos hk.symm]
      have hwr := am_wf_get_alertpool hw1 a.mediatypeid a.alertpoolid
      have hor := am_ord_get_alertpool ho1 a.mediatypeid a.alertpoolid
      obtain ⟨hd, -, hg, -, -⟩ := am_get_alertpool_deref
        (mediatype_store m { M with alerts_num := M.alerts_num - 1 })
        a.mediatypeid a.alertpoolid
      have hMr := (hg a.mediatypeid).trans hM1
      obtain ⟨m2, m3, m4, h2, h3, h4, ho4⟩ := am_push_chain_ord
        { a with retries := a.retries + 1, nextsend := int_wrap (now + M.attempt_interval) }
        hwr hor hMr hd
      rw [h2]
      simp only [Option.some_bind]
      rw [h3]
      simp only [Option.some_bind]
      rw [h4]
      exact ⟨_, rfl, ho4⟩

theorem am_ord_update_mediatype {m : zbx_am_t} (ho : am_ord m) (id : Nat)
    (a : am_mediatype_args) : am_ord (am_update_mediatype m id a) := by
  refine @am_ord_frame m (am_update_mediatype m id a) ho (am_update_mediatype_queue m id a)
    ?_ ?_ ?_ ?_
  · intro id' M' hM'
    rw [am_update_mediatype_get] at hM'
    split at hM'
    · rename_i e
      cases hM'
      cases hG : am_get_mediatype m id with
      | none => exact Or.inl rfl
      | some M => exact Or.inr ⟨M, by rw [e]; exact hG, rfl⟩
    · exact Or.inr ⟨M', hM', rfl⟩
  · intro id' _
    rw [am_update_mediatype_get]
    split
    · rename_i e
      rw [e]
      cases hG : am_get_mediatype m id with
      | none => rfl
      | some M => rfl
    · rfl
  · intro mid' pid' P' hP'
    rw [am_update_mediatype_deref] at hP'
    exact ho.alerts mid' pid' P' hP'
  · intro mid' pid'
    exact am_pool_head_congr (am_update_mediatype_deref m id a mid' pid')

theorem am_ord_init (n : Nat) : am_ord (am_init n) := by
  refine ⟨?_, ?_, heap_ordered_nil _⟩
  · intro mid pid P h
    simp [am_init, alertpool_deref, zbx_hashset_search] at h
  · intro id M h
    simp [am_init, am_get_mediatype, zbx_hashset_search] at h

/-! ## Every operation succeeds and keeps the queues ordered -/

theorem am_step_ord {s : am_sched} (hw : am_wf s.manager) (ho : am_ord s.manager)
    (op : am_op) : ∃ s', am_step s op = some s' ∧ am_ord s'.manager := by
  cases op with
  | update_mediatype id a => exact ⟨_, rfl, am_ord_update_mediatype ho id a⟩
  | queue_alert a =>
    obtain ⟨m', h, ho'⟩ := am_db_queue_alert_ord a hw ho
    refine ⟨{ s with manager := m' }, ?_, ho'⟩
    simp only [am_step, h]
    rfl
  | pop_alert =>
    cases hq : s.manager.queue with
    | nil =>
      refine ⟨{ s with manager := s.manager }, ?_, ho⟩
      simp only [am_step, am_pop_alert_nil hq]
      rfl
    | cons id t =>
      obtain ⟨a, m', h, ho'⟩ := am_pop_alert_ord hw ho hq
      refine ⟨{ manager := m', in_flight := a :: s.in_flight }, ?_, ho'⟩
      simp only [am_step, h]
      rfl
  | remove_alert a =>
    obtain ⟨m', h, ho'⟩ := am_remove_alert_ord a hw ho
    refine ⟨{ manager := m', in_flight := s.in_flight.erase a }, ?_, ho'⟩
    simp only [am_step, h]
    rfl
  | retry_alert a now =>
    obtain ⟨r, h, ho'⟩ := am_retry_alert_ord a now hw ho
    refine ⟨{ manager := r.2, in_flight := s.in_flight.erase a }, ?_, ho'⟩
    simp only [am_step, h]
    rfl

theorem am_ord_run {guard : am_sched → am_op → Bool} {ops : List am_op} {s s' : am_sched}
    (hw : am_wf s.manager) (ho : am_ord s.manager) (h : am_run guard s ops = some s') :
    am_wf s'.manager ∧ am_ord s'.manager := by
  refine am_run_induction (fun s => am_wf s.manager ∧ am_ord s.manager) ?_ ops s s' ⟨hw, ho⟩ h
  intro s1 op s2 hI _ hs
  refine ⟨am_wf_step hI.1 hs, ?_⟩
  obtain ⟨s3, h3, ho3⟩ := am_step_ord hI.1 hI.2 op
  rw [hs] at h3
  cases h3
  exact ho3

theorem am_ord_reachable {guard : am_sched → am_op → Bool} {n : Nat} {ops : List am_op}
    {s : am_sched} (h : am_run guard (am_sched_init n) ops = some s) :
    am_wf s.manager ∧ am_ord s.manager :=
  am_ord_run (am_wf_init n) (am_ord_init n) h

theorem am_mediatype_key_root {m : zbx_am_t} {id pid : Nat} {tp : List Nat}
    {M : zbx_am_mediatype_t} (hM : am_get_mediatype m id = some M) (hq : M.queue = pid :: tp) :
    am_mediatype_key m id = am_pool_key m id pid := by
  unfold am_mediatype_key am_pool_key am_mediatype_head zbx_binary_heap_find_min
  rw [hM]
  simp only [Option.some_bind, hq, List.head?_cons]

theorem am_pool_key_root {m : zbx_am_t} {mid pid : Nat} {a : zbx_am_alert_t}
    {rest : List zbx_am_alert_t} {P : zbx_am_alertpool_t}
    (hP : alertpool_deref m mid pid = some P) (hq : P.queue = a :: rest) :
    am_pool_key m mid pid = a.nextsend := by
  unfold am_pool_key am_pool_head zbx_binary_heap_find_min
  rw [hP]
  simp only [Option.some_bind, hq, List.head?_cons, Option.map_some', Option.getD_some]

theorem am_ord_root_min {m : zbx_am_t} (ho : am_ord m) {id0 : Nat} {t : List Nat}
    (hq : m.queue = id0 :: t) {id pid : Nat} {M : zbx_am_mediatype_t}
    {P : zbx_am_alertpool_t} {b : zbx_am_alert_t} (hid : id ∈ m.queue)
    (hM : am_get_mediatype m id = some M) (hpid : pid ∈ M.queue)
    (hP : alertpool_deref m id pid = some P) (hb : b ∈ P.queue) :
    am_mediatype_key m id0 ≤ b.nextsend := by
  have h1 : am_mediatype_key m id0 ≤ am_mediatype_key m id := by
    have hoq := ho.mts
    rw [hq] at hoq hid
    exact heap_root_min_mem hoq id hid
  obtain ⟨p0, tp, hMq⟩ := List.exists_cons_of_ne_nil (List.ne_nil_of_mem hpid)
  have h2 : am_pool_key m id p0 ≤ am_pool_key m id pid := by
    have hoq := ho.pools id M hM
    rw [hMq] at hoq hpid
    exact heap_root_min_mem hoq pid hpid
  obtain ⟨a0, rest, hPq⟩ := List.exists_cons_of_ne_nil (List.ne_nil_of_mem hb)
  have h3 : a0.nextsend ≤ b.nextsend := by
    have hoq := ho.alerts id pid P hP
    rw [hPq] at hoq hb
    exact heap_root_min_mem hoq b hb
  rw [am_mediatype_key_root hM hMq] at h1
  rw [am_pool_key_root hP hPq] at h2
  omega

theorem am_cap_run {ops : List am_op} {s s' : am_sched} (hw : am_wf s.manager)
    (hc : ∀ id, am_cap_at s.manager id)
    (h : am_run guard_keep_maxsessions s ops = some s') : ∀ id, am_cap_at s'.manager id := by
  have key := @am_run_induction guard_keep_maxsessions
    (fun s => am_wf s.manager ∧ ∀ id, am_cap_at s.manager id) ?_ ops s s' ⟨hw, hc⟩ h
  · exact key.2
  · intro s op s1 ⟨hw, hc⟩ hg hs
    refine ⟨am_wf_step hw hs, fun id => am_cap_at_step hw (hc id) hs ?_⟩
    intro a M he hM
    subst he
    simp only [guard_keep_maxsessions, hM, decide_eq_true_eq] at hg
    exact hg

/-- C1 (code defect): the per-pool serialization is broken by queueing into a busy pool.  After
alert 1 of pool (1, 7) was popped and alert 2 of the same pool was queued, alert 1 is still in
flight and am_pop_alert returns alert 2. -/
theorem C1_pool_serialization_broken :
    (am_run guard_in_flight (am_sched_init 0) serialization_ops).map (fun s => s.in_flight)
        = some [sample_alert 1 1 7 10] ∧
      ((am_run guard_in_flight (am_sched_init 0) serialization_ops).bind
        fun s => (am_pop_alert s.manager).map Prod.fst) = some (some (sample_alert 2 1 7 20)) ∧
      (sample_alert 2 1 7 20).mediatypeid = (sample_alert 1 1 7 10).mediatypeid ∧
      (sample_alert 2 1 7 20).alertpoolid = (sample_alert 1 1 7 10).alertpoolid ∧
      sample_alert 2 1 7 20 ≠ sample_alert 1 1 7 10 := by
  decide

/-- C2: for a media type whose maxsessions is the fixed positive value `k`, alerts_num never
exceeds maxsessions in a state reached from the empty manager by creating media types, queueing,
am_pop_alert, and am_remove_alert and am_retry_alert applied to alerts in flight. -/
theorem C2_concurrency_cap (n mid : Nat) (k : Int) (hk : 0 < k) (ops : List am_op)
    (s : am_sched)
    (h : am_run (guard_fixed_maxsessions mid k) (am_sched_init n) ops = some s) :
    ∀ M ∈ s.manager.mediatypes, M.mediatypeid = mid →
      M.maxsessions = k ∧ M.alerts_num ≤ M.maxsessions := by
  intro M hM hid
  have hw := am_wf_reachable h
  have hget := am_get_mediatype_of_mem hw hM
  rw [hid] at hget
  have := am_fixed_cap_run hk (am_wf_init n)
    (by intro M0 h0; simp [am_sched_init, am_init, am_get_mediatype, zbx_hashset_search] at h0)
    (by intro M0 h0; simp [am_sched_init, am_init, am_get_mediatype, zbx_hashset_search] at h0)
    h M hget
  exact ⟨this.1, by rw [this.1]; exact this.2⟩

/-- Witness of C2: the run over three pools of a media type limited to two sessions. -/
theorem C2_concurrency_cap_witness :
    am_run (guard_fixed_maxsessions 1 2) (am_sched_init 0) capped_ops
        = some (am_run_state (guard_fixed_maxsessions 1 2) capped_ops) ∧
      ∀ M ∈ (am_run_state (guard_fixed_maxsessions 1 2) capped_ops).manager.mediatypes,
        M.mediatypeid = 1 → M.maxsessions = 2 ∧ M.alerts_num ≤ M.maxsessions :=
  ⟨by decide, C2_concurrency_cap 0 1 2 (by decide) capped_ops _ (by decide)⟩

/-- C3 (counterexample): after a queued media type with one alert in flight is reconfigured
with maxsessions 1, it is an element of the manager queue with alerts_num = maxsessions = 1. -/
theorem C3_reconfigured_counterexample :
    (am_run guard_any (am_sched_init 0) reconfigure_ops).map
        (fun s => (s.manager.queue,
          s.manager.mediatypes.map fun M => (M.mediatypeid, M.maxsessions, M.alerts_num)))
      = some ([1], [(1, 1, 1)]) := by
  decide

/-- C3 (amended): in every state reached from the empty manager by am_update_mediatype,
queueing, am_pop_alert, am_remove_alert and am_retry_alert, every media type in the manager
queue has a non-empty pool queue; when no am_update_mediatype call changes the maxsessions of a
media type already in the table, it also satisfies maxsessions = 0 or
alerts_num < maxsessions. -/
theorem C3_manager_queue_invariant (n : Nat) (ops : List am_op) (s : am_sched) :
    (am_run guard_any (am_sched_init n) ops = some s →
      ∀ M ∈ s.manager.mediatypes, M.mediatypeid ∈ s.manager.queue → M.queue ≠ []) ∧
    (am_run guard_keep_maxsessions (am_sched_init n) ops = some s →
      ∀ M ∈ s.manager.mediatypes, M.mediatypeid ∈ s.manager.queue →
        M.queue ≠ [] ∧ (M.maxsessions = 0 ∨ M.alerts_num < M.maxsessions)) := by
  have key : ∀ guard, am_run guard (am_sched_init n) ops = some s →
      ∀ M ∈ s.manager.mediatypes, M.mediatypeid ∈ s.manager.queue →
        M.queue ≠ [] ∧ M.location = ZBX_AM_LOCATION_QUEUE := by
    intro guard h M hM hq
    have hw := am_wf_reachable h
    obtain ⟨M1, h1, h2, h3⟩ := hw.queue_mt _ hq
    rw [am_get_mediatype_of_mem hw hM] at h1
    cases h1
    exact ⟨h3, h2⟩
  refine ⟨fun h M hM hq => (key _ h M hM hq).1, fun h M hM hq => ?_⟩
  obtain ⟨h1, h2⟩ := key _ h M hM hq
  refine ⟨h1, ?_⟩
  have hc := am_cap_run (am_wf_init n)
    (by intro id M0 h0; simp [am_sched_init, am_init, am_get_mediatype, zbx_hashset_search] at h0)
    h M.mediatypeid
  exact hc M (am_get_mediatype_of_mem (am_wf_reachable h) hM) h2

/-- Witness of C3 (amended): the run over three pools of a media type limited to two
sessions. -/
theorem C3_manager_queue_invariant_witness :
    am_run guard_any (am_sched_init 0) capped_ops = some (am_run_state guard_any capped_ops) ∧
    am_run guard_keep_maxsessions (am_sched_init 0) capped_ops
      = some (am_run_state guard_any capped_ops) ∧
    (∀ M ∈ (am_run_state guard_any capped_ops).manager.mediatypes,
      M.mediatypeid ∈ (am_run_state guard_any capped_ops).manager.queue → M.queue ≠ []) ∧
    (∀ M ∈ (am_run_state guard_any capped_ops).manager.mediatypes,
      M.mediatypeid ∈ (am_run_state guard_any capped_ops).manager.queue →
        M.queue ≠ [] ∧ (M.maxsessions = 0 ∨ M.alerts_num < M.maxsessions)) :=
  ⟨by decide, by decide,
    (C3_manager_queue_invariant 0 capped_ops (am_run_state guard_any capped_ops)).1 (by decide),
    (C3_manager_queue_invariant 0 capped_ops (am_run_state guard_any capped_ops)).2 (by decide)⟩

/-- C4: in every state reached from the empty manager by creating media types, queueing,
am_pop_alert, am_remove_alert and am_retry_alert, every alert pool that is an element of the
pool queue of its media type has a non-empty alert queue. -/
theorem C4_pool_queue_invariant (n : Nat) (ops : List am_op) (s : am_sched)
    (h : am_run guard_any (am_sched_init n) ops = some s) :
    ∀ M ∈ s.manager.mediatypes, ∀ P ∈ s.manager.alertpools,
      P.mediatypeid = M.mediatypeid → P.id ∈ M.queue → P.queue ≠ [] := by
  intro M hM P hP hmid hq
  have hw := am_wf_reachable h
  obtain ⟨P1, h1, -, h3⟩ := hw.mtq_pool _ M (am_get_mediatype_of_mem hw hM) P.id hq
  rw [← hmid, alertpool_deref_of_mem hw hP] at h1
  cases h1
  exact h3

/-- Witness of C4: the run over three pools of a media type limited to two sessions. -/
theorem C4_pool_queue_invariant_witness :
    am_run guard_any (am_sched_init 0) capped_ops = some (am_run_state guard_any capped_ops) ∧
    ∀ M ∈ (am_run_state guard_any capped_ops).manager.mediatypes,
      ∀ P ∈ (am_run_state guard_any capped_ops).manager.alertpools,
        P.mediatypeid = M.mediatypeid → P.id ∈ M.queue → P.queue ≠ [] :=
  ⟨by decide, C4_pool_queue_invariant 0 capped_ops _ (by decide)⟩

/-- C5: in every reachable state an alert pool is an element of the pool queue of its media
type iff its location is ZBX_AM_LOCATION_QUEUE, a media type is an element of the manager queue
iff its location is ZBX_AM_LOCATION_QUEUE, every queue element refers to an object that is still
in its hash set (nothing is destroyed while queued), and no queue holds an element twice. -/
theorem C5_location_flags (n : Nat) (ops : List am_op) (s : am_sched)
    (h : am_run guard_any (am_sched_init n) ops = some s) :
    (∀ P ∈ s.manager.alertpools,
      (∃ M ∈ s.manager.mediatypes, M.mediatypeid = P.mediatypeid ∧ P.id ∈ M.queue) ↔
        P.location = ZBX_AM_LOCATION_QUEUE) ∧
    (∀ M ∈ s.manager.mediatypes,
      M.mediatypeid ∈ s.manager.queue ↔ M.location = ZBX_AM_LOCATION_QUEUE) ∧
    (∀ M ∈ s.manager.mediatypes, ∀ pid ∈ M.queue,
      ∃ P ∈ s.manager.alertpools, P.id = pid ∧ P.mediatypeid = M.mediatypeid) ∧
    (∀ id ∈ s.manager.queue, ∃ M ∈ s.manager.mediatypes, M.mediatypeid = id) ∧
    s.manager.queue.Nodup ∧
    (∀ M ∈ s.manager.mediatypes, M.queue.Nodup) := by
  have hw := am_wf_reachable h
  refine ⟨?_, ?_, ?_, ?_, hw.queue_nodup, ?_⟩
  · intro P hP
    have hd := alertpool_deref_of_mem hw hP
    constructor
    · rintro ⟨M, hM, hmid, hq⟩
      obtain ⟨P1, h1, h2, -⟩ := hw.mtq_pool _ M (am_get_mediatype_of_mem hw hM) P.id hq
      rw [hmid, hd] at h1
      cases h1
      exact h2
    · intro hl
      obtain ⟨M, h1, h2⟩ := hw.pool_mtq _ _ P hd hl
      exact ⟨M, am_get_mediatype_mem h1, am_get_mediatype_key h1, h2⟩
  · intro M hM
    have hg := am_get_mediatype_of_mem hw hM
    constructor
    · intro hq
      obtain ⟨M1, h1, h2, -⟩ := hw.queue_mt _ hq
      rw [hg] at h1
      cases h1
      exact h2
    · exact hw.mt_queue _ M hg
  · intro M hM pid hpid
    obtain ⟨P, h1, -, -⟩ := hw.mtq_pool _ M (am_get_mediatype_of_mem hw hM) pid hpid
    exact ⟨P, alertpool_deref_mem h1, (alertpool_deref_key h1).1, (alertpool_deref_key h1).2⟩
  · intro id hid
    obtain ⟨M, h1, -, -⟩ := hw.queue_mt id hid
    exact ⟨M, am_get_mediatype_mem h1, am_get_mediatype_key h1⟩
  · intro M hM
    exact hw.mtq_nodup _ M (am_get_mediatype_of_mem hw hM)

/-- Witness of C5: the state after the run over three pools of a media type limited to two
sessions. -/
theorem C5_location_flags_witness :
    am_run guard_any (am_sched_init 0) capped_ops = some (am_run_state guard_any capped_ops) ∧
    (∀ P ∈ (am_run_state guard_any capped_ops).manager.alertpools,
      (∃ M ∈ (am_run_state guard_any capped_ops).manager.mediatypes,
          M.mediatypeid = P.mediatypeid ∧ P.id ∈ M.queue) ↔
        P.location = ZBX_AM_LOCATION_QUEUE) ∧
    (∀ M ∈ (am_run_state guard_any capped_ops).manager.mediatypes,
      M.mediatypeid ∈ (am_run_state guard_any capped_ops).manager.queue ↔
        M.location = ZBX_AM_LOCATION_QUEUE) ∧
    (∀ M ∈ (am_run_state guard_any capped_ops).manager.mediatypes, ∀ pid ∈ M.queue,
      ∃ P ∈ (am_run_state guard_any capped_ops).manager.alertpools,
        P.id = pid ∧ P.mediatypeid = M.mediatypeid) ∧
    (∀ id ∈ (am_run_state guard_any capped_ops).manager.queue,
      ∃ M ∈ (am_run_state guard_any capped_ops).manager.mediatypes, M.mediatypeid = id) ∧
    (am_run_state guard_any capped_ops).manager.queue.Nodup ∧
    (∀ M ∈ (am_run_state guard_any capped_ops).manager.mediatypes, M.queue.Nodup) :=
  ⟨by decide, C5_location_flags 0 capped_ops _ (by decide)⟩

/-- C10: am_pop_alert (through am_pop_mediatype) returns no alert iff the manager queue is
empty, and then the manager state is unchanged. -/
theorem C10_pop_alert_empty (m : zbx_am_t) :
    ((am_pop_alert m).map Prod.fst = some none ↔ m.queue = []) ∧
    ((am_pop_mediatype m).map Prod.fst = some none ↔ m.queue = []) ∧
    (m.queue = [] → am_pop_alert m = some (none, m)) := by
  refine ⟨⟨?_, ?_⟩, ⟨?_, ?_⟩, am_pop_alert_nil⟩
  · intro h
    rw [Option.map_eq_some'] at h
    obtain ⟨⟨o, m1⟩, h1, h2⟩ := h
    simp only at h2
    subst h2
    exact (am_pop_alert_none h1).1
  · intro h
    rw [am_pop_alert_nil h]
    rfl
  · intro h
    rw [Option.map_eq_some'] at h
    obtain ⟨⟨o, m1⟩, h1, h2⟩ := h
    simp only at h2
    subst h2
    rcases am_pop_mediatype_inv h1 with ⟨hq, -⟩ | ⟨id, t, M, q, -, -, -, h3⟩
    · exact hq
    · cases h3
  · intro h
    rw [am_pop_mediatype_nil h]
    rfl

/-- Witness of C10: the empty manager. -/
theorem C10_pop_alert_empty_witness :
    (am_init 0).queue = [] ∧ am_pop_alert (am_init 0) = some (none, am_init 0) :=
  ⟨rfl, (C10_pop_alert_empty (am_init 0)).2.2 rfl⟩

theorem am_inv_queued_alert_mediatype {s : am_sched} (h : am_inv s) {P : zbx_am_alertpool_t}
    (hP : P ∈ s.manager.alertpools) {a : zbx_am_alert_t} (ha : a ∈ P.queue) :
    am_get_mediatype s.manager a.mediatypeid ≠ none := by
  have hd := alertpool_deref_of_mem h.wf hP
  have hid := (h.pool_ids _ _ P hd a ha).1
  rw [hid]
  rcases h.wf.pool_loc _ _ P hd with hl | hl
  · obtain ⟨x, hx, hx1, -⟩ := h.pool_busy _ _ P hd hl (List.ne_nil_of_mem ha)
    rw [← hx1]
    exact h.flight_mt x hx
  · obtain ⟨M, hM, -⟩ := h.wf.pool_mtq _ _ P hd hl
    rw [hM]; simp

/-- C6: in every state the main loop reaches through alerter registration, am_db_queue_alerts,
dispatch-loop iterations and am_process_result, the sum of alerts_num over the media types in
the table equals the number of alerters that hold an alert. -/
theorem C6_in_flight_accounting (n : Nat) (es : List am_event) (m : zbx_am_t)
    (h : am_main_run (am_init n) es = some m) :
    (m.mediatypes.map (fun M => M.alerts_num)).sum =
      ((m.alerters.filter (fun x => x.alert.isSome)).length : Int) := by
  have hi := am_main_inv_run es _ _ (am_main_inv_init n) h
  have := am_inv_sum hi.inv
  simp only at this
  rw [this]
  unfold am_held_alerts
  rw [held_length]

/-- Witness of C6: after an alerter registered, two alerts were queued and one was dispatched,
alerts_num sums to one and one alerter is busy. -/
theorem C6_in_flight_accounting_witness :
    am_main_run (am_init 2) sample_events = some (am_main_state 2 sample_events) ∧
    ((am_main_state 2 sample_events).mediatypes.map (fun M => M.alerts_num)).sum =
      (((am_main_state 2 sample_events).alerters.filter
        (fun x => x.alert.isSome)).length : Int) ∧
    (((am_main_state 2 sample_events).alerters.filter (fun x => x.alert.isSome)).length = 1) :=
  ⟨by decide, C6_in_flight_accounting 2 sample_events _ (by decide), by decide⟩

/-- C7: in every state the main loop reaches, the media type of every alert stored in an alert
queue and of every alert held by an alerter is in the media type table; and the alert
am_pop_alert returns in a dispatch-loop iteration has its media type in the table when
am_process_alert receives it, so the branches for an absent media type are never taken. -/
theorem C7_mediatype_exists (n : Nat) (es : List am_event) (m : zbx_am_t)
    (h : am_main_run (am_init n) es = some m) :
    (∀ P ∈ m.alertpools, ∀ a ∈ P.queue, am_get_mediatype m a.mediatypeid ≠ none) ∧
    (∀ x ∈ m.alerters, ∀ a, x.alert = some a → am_get_mediatype m a.mediatypeid ≠ none) ∧
    (∀ i rest a m2, m.free_alerters = i :: rest →
      am_pop_alert { m with free_alerters := rest } = some (some a, m2) →
      am_get_mediatype m2 a.mediatypeid ≠ none) := by
  have hi := am_main_inv_run es _ _ (am_main_inv_init n) h
  refine ⟨?_, ?_, ?_⟩
  · intro P hP a ha
    exact am_inv_queued_alert_mediatype hi.inv hP ha
  · intro x hx a hxa
    apply hi.inv.flight_mt a
    show a ∈ am_held_alerts m
    unfold am_held_alerts
    rw [List.mem_filterMap]
    exact ⟨x, hx, hxa⟩
  · intro i rest a m2 _ hpop
    have hinv1 : am_inv (am_sched.mk { m with free_alerters := rest } (am_held_alerts m)) :=
      @am_inv_congr m _ _ rfl rfl rfl hi.inv
    exact (am_inv_pop_alert hinv1 hpop).flight_mt a (List.mem_cons_self _ _)

/-- Witness of C7: the state after an alerter registered, two alerts were queued and one was
dispatched. -/
theorem C7_mediatype_exists_witness :
    am_main_run (am_init 2) sample_events = some (am_main_state 2 sample_events) ∧
    (∀ P ∈ (am_main_state 2 sample_events).alertpools, ∀ a ∈ P.queue,
      am_get_mediatype (am_main_state 2 sample_events) a.mediatypeid ≠ none) ∧
    (∀ x ∈ (am_main_state 2 sample_events).alerters, ∀ a, x.alert = some a →
      am_get_mediatype (am_main_state 2 sample_events) a.mediatypeid ≠ none) :=
  ⟨by decide,
    (C7_mediatype_exists 2 sample_events _ (by decide)).1,
    (C7_mediatype_exists 2 sample_events _ (by decide)).2.1⟩

/-! ## Claims C8 and C9 -/

/-- C8: in every state reached from the empty manager with a non-empty manager queue
am_pop_alert returns an alert, and the nextsend of that alert is not greater than the nextsend
of any alert stored in a queued alert pool of a queued media type; the three levels of queues
are heaps with respect to their keys (the parent queues are re-keyed after every change). -/
theorem C8_pop_alert_earliest (n : Nat) (ops : List am_op) (s : am_sched)
    (h : am_run guard_any (am_sched_init n) ops = some s) (hq : s.manager.queue ≠ []) :
    am_ord s.manager ∧
    ∃ a m', am_pop_alert s.manager = some (some a, m') ∧
      ∀ M ∈ s.manager.mediatypes, M.mediatypeid ∈ s.manager.queue →
        ∀ P ∈ s.manager.alertpools, P.mediatypeid = M.mediatypeid → P.id ∈ M.queue →
          ∀ b ∈ P.queue, a.nextsend ≤ b.nextsend := by
  obtain ⟨hw, ho⟩ := am_ord_reachable h
  refine ⟨ho, ?_⟩
  obtain ⟨id0, t0, hq0⟩ := List.exists_cons_of_ne_nil hq
  obtain ⟨a, m', hpop, -⟩ := am_pop_alert_ord hw ho hq0
  refine ⟨a, m', hpop, ?_⟩
  intro M hM hMq P hP hPM hPq b hb
  obtain ⟨id, t, M0, pid0, tp, P0, rest, q, M1, hq1, hM0, hM0q, hP0, hP0q, -⟩ :=
    am_pop_alert_effect hw hpop
  have hkey : am_mediatype_key s.manager id = a.nextsend := by
    rw [am_mediatype_key_root hM0 hM0q, am_pool_key_root hP0 hP0q]
  have hP2 := alertpool_deref_of_mem hw hP
  rw [hPM] at hP2
  have := am_ord_root_min ho hq1 hMq (am_get_mediatype_of_mem hw hM) hPq hP2 hb
  omega

/-- Witness of C8: the state after queueing five alerts out of order into four pools of two
media types. -/
theorem C8_pop_alert_earliest_witness :
    am_run guard_any (am_sched_init 0) ordering_ops =
      some (am_run_state guard_any ordering_ops) ∧
    (am_run_state guard_any ordering_ops).manager.queue ≠ [] ∧
    ∃ a m', am_pop_alert (am_run_state guard_any ordering_ops).manager = some (some a, m') ∧
      ∀ M ∈ (am_run_state guard_any ordering_ops).manager.mediatypes,
        M.mediatypeid ∈ (am_run_state guard_any ordering_ops).manager.queue →
        ∀ P ∈ (am_run_state guard_any ordering_ops).manager.alertpools,
          P.mediatypeid = M.mediatypeid → P.id ∈ M.queue →
          ∀ b ∈ P.queue, a.nextsend ≤ b.nextsend :=
  ⟨by decide, by decide, (C8_pop_alert_earliest 0 ordering_ops _ (by decide) (by decide)).2⟩

/-- C9: in every state reached from the empty manager whose manager queue has the root `id`,
am_pop_alert returns the root alert of the root alert pool `pid` of the media type `id`; after
it alerts_num of the media type is one greater, the pool has location NOWHERE, lost the
returned alert and is not an element of the pool queue of the media type (which lost just that
pool), the media type is an element of the manager queue iff its pool queue is non-empty and
maxsessions is zero or the incremented alerts_num is below maxsessions, and every other media
type and alert pool is unchanged. -/
theorem C9_pop_alert_post_state (n : Nat) (ops : List am_op) (s : am_sched)
    (h : am_run guard_any (am_sched_init n) ops = some s) (id : Nat) (t : List Nat)
    (hq : s.manager.queue = id :: t) :
    ∃ a m' M pid tp P rest M' P',
      am_pop_alert s.manager = some (some a, m') ∧
      am_get_mediatype s.manager id = some M ∧ M.queue = pid :: tp ∧
      alertpool_deref s.manager id pid = some P ∧ P.queue = a :: rest ∧
      am_get_mediatype m' id = some M' ∧ alertpool_deref m' id pid = some P' ∧
      M'.alerts_num = M.alerts_num + 1 ∧
      M' = { M with alerts_num := M.alerts_num + 1, location := M'.location,
                    queue := M'.queue } ∧
      P'.location = ZBX_AM_LOCATION_NOWHERE ∧ pid ∉ M'.queue ∧ P'.queue.Perm rest ∧
      M'.queue.Perm tp ∧
      (id ∈ m'.queue ↔
        (M'.queue ≠ [] ∧ (M.maxsessions = 0 ∨ M.alerts_num + 1 < M.maxsessions))) ∧
      (∀ id', id' ≠ id → am_get_mediatype m' id' = am_get_mediatype s.manager id') ∧
      (∀ mid' pid', ¬ (mid' = id ∧ pid' = pid) →
        alertpool_deref m' mid' pid' = alertpool_deref s.manager mid' pid') := by
  obtain ⟨hw, ho⟩ := am_ord_reachable h
  obtain ⟨a, m', hpop, -⟩ := am_pop_alert_ord hw ho hq
  have hw' := am_wf_pop_alert hw hpop
  obtain ⟨id1, t1, M, pid, tp, P, rest, q, M', hq1, hM, hMq, hP, hPq, -, -, hqp, hother, hM',
    hMe, hM'q, hloc, -, hpf, hP'⟩ := am_pop_alert_effect hw hpop
  rw [hq] at hq1
  cases hq1
  have hnum : M'.alerts_num = M.alerts_num + 1 := by rw [hMe]
  have hmax : M'.maxsessions = M.maxsessions := by rw [hMe]
  refine ⟨a, m', M, pid, tp, P, rest, M', _, hpop, hM, hMq, hP, hPq, hM', hP', hnum, hMe, rfl,
    ?_, hqp, hM'q, ?_, hother, hpf⟩
  · intro hin
    have hnd := hw.mtq_nodup id M hM
    rw [hMq] at hnd
    exact (List.nodup_cons.1 hnd).1 (hM'q.mem_iff.1 hin)
  · have hcap : mt_cap M' ↔ (M.maxsessions = 0 ∨ M.alerts_num + 1 < M.maxsessions) := by
      unfold mt_cap
      rw [hnum, hmax]
    rw [← hcap, ← hloc]
    constructor
    · intro hin
      obtain ⟨M2, hM2, hl, -⟩ := hw'.queue_mt id hin
      rw [hM'] at hM2
      cases hM2
      exact hl
    · intro hl
      exact hw'.mt_queue id M' hM' hl

/-- Witness of C9: the pop in the state after queueing five alerts out of order. -/
theorem C9_pop_alert_post_state_witness :
    am_run guard_any (am_sched_init 0) ordering_ops =
      some (am_run_state guard_any ordering_ops) ∧
    (am_run_state guard_any ordering_ops).manager.queue = 1 :: [2] ∧
    ∃ a m' M pid tp P rest M' P',
      am_pop_alert (am_run_state guard_any ordering_ops).manager = some (some a, m') ∧
      am_get_mediatype (am_run_state guard_any ordering_ops).manager 1 = some M ∧
      M.queue = pid :: tp ∧
      alertpool_deref (am_run_state guard_any ordering_ops).manager 1 pid = some P ∧
      P.queue = a :: rest ∧
      am_get_mediatype m' 1 = some M' ∧ alertpool_deref m' 1 pid = some P' ∧
      M'.alerts_num = M.alerts_num + 1 ∧
      M' = { M with alerts_num := M.alerts_num + 1, location := M'.location,
                    queue := M'.queue } ∧
      P'.location = ZBX_AM_LOCATION_NOWHERE ∧ pid ∉ M'.queue ∧ P'.queue.Perm rest ∧
      M'.queue.Perm tp ∧
      (1 ∈ m'.queue ↔
        (M'.queue ≠ [] ∧ (M.maxsessions = 0 ∨ M.alerts_num + 1 < M.maxsessions))) ∧
      (∀ id', id' ≠ 1 → am_get_mediatype m' id' =
        am_get_mediatype (am_run_state guard_any ordering_ops).manager id') ∧
      (∀ mid' pid', ¬ (mid' = 1 ∧ pid' = pid) →
        alertpool_deref m' mid' pid' =
          alertpool_deref (am_run_state guard_any ordering_ops).manager mid' pid') :=
  ⟨by decide, by decide,
    C9_pop_alert_post_state 0 ordering_ops _ (by decide) 1 [2] (by decide)⟩

/-! ## Contracts of am_push_meditype, am_remove_alert and am_retry_alert -/

theorem am_push_meditype_mem {m m' : zbx_am_t} {id : Nat} {M : zbx_am_mediatype_t}
    (hM : am_get_mediatype m id = some M) (h : am_push_meditype m id = some m') (id' : Nat) :
    id' ∈ m'.queue ↔ (id' ∈ m.queue ∨ (id' = id ∧ M.queue ≠ [] ∧ mt_cap M)) := by
  obtain ⟨M0, hM0, -, hcase⟩ := am_push_meditype_inv h
  rw [hM] at hM0
  cases hM0
  rcases hcase with ⟨he, rfl⟩ | ⟨hne, -, hc, q, hq, rfl⟩ | ⟨-, -, hc, rfl⟩ | ⟨-, -, q, hq, rfl⟩
  · constructor
    · intro hh; exact Or.inl hh
    · rintro (hh | ⟨-, hh, -⟩)
      · exact hh
      · exact absurd he hh
  · have hp := (zbx_binary_heap_insert_perm _ _ _ _ _ hq).1
    show id' ∈ q ↔ _
    rw [hp.mem_iff, List.mem_cons]
    constructor
    · rintro (hh | hh)
      · exact Or.inr ⟨hh, hne, hc⟩
      · exact Or.inl hh
    · rintro (hh | ⟨hh, -, -⟩)
      · exact Or.inr hh
      · exact Or.inl hh
  · constructor
    · intro hh; exact Or.inl hh
    · rintro (hh | ⟨-, -, hh⟩)
      · exact hh
      · exact absurd hh hc
  · obtain ⟨hp, hin⟩ := zbx_binary_heap_update_direct_perm _ _ _ _ hq
    show id' ∈ q ↔ _
    rw [hp.mem_iff]
    constructor
    · intro hh; exact Or.inl hh
    · rintro (hh | ⟨hh, -, -⟩)
      · exact hh
      · rw [hh]; exact hin

theorem am_push_meditype_fields {m m' : zbx_am_t} {id : Nat} {M : zbx_am_mediatype_t}
    (hM : am_get_mediatype m id = some M) (h : am_push_meditype m id = some m') :
    (∃ M', am_get_mediatype m' id = some M' ∧ M' = { M with location := M'.location }) ∧
    (∀ id', id' ≠ id → am_get_mediatype m' id' = am_get_mediatype m id') ∧
    m'.alertpools = m.alertpools := by
  obtain ⟨M0, hM0, hk, hcase⟩ := am_push_meditype_inv h
  rw [hM] at hM0
  cases hM0
  rcases hcase with ⟨-, rfl⟩ | ⟨-, -, -, q, -, rfl⟩ | ⟨-, -, -, rfl⟩ | ⟨-, -, q, -, rfl⟩
  · exact ⟨⟨M, hM, rfl⟩, fun _ _ => rfl, rfl⟩
  · have hs := @am_get_mediatype_store { m with queue := q }
      { M with location := ZBX_AM_LOCATION_QUEUE } M (by
        show am_get_mediatype m M.mediatypeid = some M
        rw [hk]; exact hM)
    refine ⟨⟨_, by rw [hs, if_pos hk.symm], rfl⟩, ?_, rfl⟩
    intro id' hne
    rw [hs, if_neg (fun e => hne (e.trans hk))]
    rfl
  · exact ⟨⟨M, hM, rfl⟩, fun _ _ => rfl, rfl⟩
  · exact ⟨⟨M, hM, rfl⟩, fun _ _ => rfl, rfl⟩

/-- C11: am_push_meditype for a media type of the table: afterwards a media type is an element
of the manager queue iff it was one before or it is the pushed one, its pool queue is not empty
and maxsessions is 0 or alerts_num is below maxsessions; the call changes nothing when the pool
queue is empty and when the media type is not queued and alerts_num >= maxsessions != 0; it
changes no field of a media type but the location of the pushed one, and no alert pool; and in
the states in which it is called (the manager queue a heap up to the pushed media type) it
returns. -/
theorem C11_push_meditype_contract (m : zbx_am_t) (id : Nat) (M : zbx_am_mediatype_t)
    (hM : am_get_mediatype m id = some M) :
    (∀ m', am_push_meditype m id = some m' →
      (∀ id', id' ∈ m'.queue ↔
        (id' ∈ m.queue ∨
          (id' = id ∧ M.queue ≠ [] ∧ (M.maxsessions = 0 ∨ M.alerts_num < M.maxsessions)))) ∧
      (M.queue = [] → m' = m) ∧
      (M.location = ZBX_AM_LOCATION_NOWHERE → M.maxsessions ≠ 0 →
        M.maxsessions ≤ M.alerts_num → m' = m) ∧
      (∃ M', am_get_mediatype m' id = some M' ∧ M' = { M with location := M'.location }) ∧
      (∀ id', id' ≠ id → am_get_mediatype m' id' = am_get_mediatype m id') ∧
      m'.alertpools = m.alertpools) ∧
    (am_wf m → am_ord_mt m id → ∃ m', am_push_meditype m id = some m') := by
  refine ⟨?_, fun hw ho => ?_⟩
  · intro m' h
    refine ⟨am_push_meditype_mem hM h, ?_, ?_, am_push_meditype_fields hM h⟩
    · intro he
      obtain ⟨M0, hM0, -, hcase⟩ := am_push_meditype_inv h
      rw [hM] at hM0
      cases hM0
      rcases hcase with ⟨-, e⟩ | ⟨hne, -⟩ | ⟨-, -, -, e⟩ | ⟨hne, -⟩
      · exact e
      · exact absurd he hne
      · exact e
      · exact absurd he hne
    · intro hl h0 hle
      obtain ⟨M0, hM0, -, hcase⟩ := am_push_meditype_inv h
      rw [hM] at hM0
      cases hM0
      rcases hcase with ⟨-, e⟩ | ⟨-, -, hc, -⟩ | ⟨-, -, -, e⟩ | ⟨-, hnl, -⟩
      · exact e
      · rcases hc with hc | hc
        · exact absurd hc h0
        · omega
      · exact e
      · exact absurd hl hnl
  · obtain ⟨m', h, -⟩ := am_push_meditype_ord hw ho hM
    exact ⟨m', h⟩

/-- Witness of C11: pushing media type 2 in the state after five alerts were queued. -/
theorem C11_push_meditype_contract_witness :
    am_get_mediatype (am_run_state guard_any ordering_ops).manager 2 =
      some ((am_get_mediatype (am_run_state guard_any ordering_ops).manager 2).getD
        (mediatype_local 2)) ∧
    am_push_meditype (am_run_state guard_any ordering_ops).manager 2 =
      some ((am_push_meditype (am_run_state guard_any ordering_ops).manager 2).getD
        (am_init 0)) ∧
    (∀ id', id' ∈ ((am_push_meditype (am_run_state guard_any ordering_ops).manager 2).getD
        (am_init 0)).queue ↔
      (id' ∈ (am_run_state guard_any ordering_ops).manager.queue ∨
        (id' = 2 ∧
          ((am_get_mediatype (am_run_state guard_any ordering_ops).manager 2).getD
            (mediatype_local 2)).queue ≠ [] ∧
          (((am_get_mediatype (am_run_state guard_any ordering_ops).manager 2).getD
              (mediatype_local 2)).maxsessions = 0 ∨
            ((am_get_mediatype (am_run_state guard_any ordering_ops).manager 2).getD
              (mediatype_local 2)).alerts_num <
            ((am_get_mediatype (am_run_state guard_any ordering_ops).manager 2).getD
              (mediatype_local 2)).maxsessions)))) :=
  ⟨by decide, by decide,
    ((C11_push_meditype_contract (am_run_state guard_any ordering_ops).manager 2 _
      (by decide)).1 _ (by decide)).1⟩

/-- C12: am_remove_alert for an alert whose media type is not in the table returns the manager
unchanged: no table, queue or alerts_num changes and no alert pool is created. -/
theorem C12_remove_alert_absent (m : zbx_am_t) (a : zbx_am_alert_t)
    (h : am_get_mediatype m a.mediatypeid = none) : am_remove_alert m a = some m := by
  unfold am_remove_alert
  rw [h]

/-- Witness of C12: an alert of media type 9 removed from the state after five alerts of the
media types 1 and 2 were queued. -/
theorem C12_remove_alert_absent_witness :
    am_get_mediatype (am_run_state guard_any ordering_ops).manager
        (sample_alert 6 9 7 10).mediatypeid = none ∧
    am_remove_alert (am_run_state guard_any ordering_ops).manager (sample_alert 6 9 7 10) =
      some (am_run_state guard_any ordering_ops).manager :=
  ⟨by decide, C12_remove_alert_absent _ _ (by decide)⟩

theorem am_remove_alert_retries (m : zbx_am_t) (a : zbx_am_alert_t) (r : Int) :
    am_remove_alert m { a with retries := r } = am_remove_alert m a := rfl

/-- C15: in every state reached from the empty manager am_remove_alert for an alert whose
media type is in the table returns; alerts_num of the media type is decremented by one (the
media type is destroyed only when that makes it zero); the alert pool of the alert is absent
from the hash set afterwards iff it was absent or its alert queue was empty at the call;
otherwise it stays in the hash set with its alerts and is an element of the pool queue of the
media type. -/
theorem C15_remove_alert_pool (n : Nat) (ops : List am_op) (s : am_sched)
    (h : am_run guard_any (am_sched_init n) ops = some s) (a : zbx_am_alert_t)
    (M : zbx_am_mediatype_t) (hM : am_get_mediatype s.manager a.mediatypeid = some M) :
    ∃ m', am_remove_alert s.manager a = some m' ∧
      ((am_get_mediatype m' a.mediatypeid = none ∧ M.alerts_num - 1 = 0) ∨
        ∃ M', am_get_mediatype m' a.mediatypeid = some M' ∧
          M'.alerts_num = M.alerts_num - 1) ∧
      (alertpool_deref m' a.mediatypeid a.alertpoolid = none ↔
        ∀ P, alertpool_deref s.manager a.mediatypeid a.alertpoolid = some P → P.queue = []) ∧
      (∀ P, alertpool_deref s.manager a.mediatypeid a.alertpoolid = some P → P.queue ≠ [] →
        ∃ M' P', am_get_mediatype m' a.mediatypeid = some M' ∧
          alertpool_deref m' a.mediatypeid a.alertpoolid = some P' ∧
          P'.queue = P.queue ∧ a.alertpoolid ∈ M'.queue) := by
  obtain ⟨hw, ho⟩ := am_ord_reachable h
  obtain ⟨m', hr, -⟩ := am_remove_alert_ord a hw ho
  have hw' := am_wf_remove_alert hw hr
  obtain ⟨-, hcase, -, hpool⟩ := am_remove_alert_effect hw hr hM
  refine ⟨m', hr, ?_, ?_, ?_⟩
  · rcases hcase with h0 | ⟨M', hM', he, -⟩
    · exact Or.inl h0
    · exact Or.inr ⟨M', hM', by rw [he]⟩
  · rcases hpool with ⟨he, hn⟩ | ⟨P, hP, hne, hP'⟩
    · exact ⟨fun _ => he, fun _ => hn⟩
    · constructor
      · intro hn; rw [hP'] at hn; cases hn
      · intro he; exact absurd (he P hP) hne
  · intro P hP hne
    rcases hpool with ⟨he, -⟩ | ⟨P0, hP0, -, hP'⟩
    · exact absurd (he P hP) hne
    · rw [hP] at hP0
      cases hP0
      obtain ⟨M', hM', hin⟩ := hw'.pool_mtq _ _ _ hP' rfl
      exact ⟨M', _, hM', hP', rfl, hin⟩

/-- Witness of C15: the completion of alert 1 of pool 7 after a second alert was queued into
that pool. -/
theorem C15_remove_alert_pool_witness :
    am_run guard_any (am_sched_init 0) serialization_ops =
      some (am_run_state guard_any serialization_ops) ∧
    am_get_mediatype (am_run_state guard_any serialization_ops).manager
        (sample_alert 1 1 7 10).mediatypeid =
      some ((am_get_mediatype (am_run_state guard_any serialization_ops).manager 1).getD
        (mediatype_local 1)) ∧
    ∃ m', am_remove_alert (am_run_state guard_any serialization_ops).manager
        (sample_alert 1 1 7 10) = some m' ∧
      ((am_get_mediatype m' (sample_alert 1 1 7 10).mediatypeid = none ∧
          ((am_get_mediatype (am_run_state guard_any serialization_ops).manager 1).getD
            (mediatype_local 1)).alerts_num - 1 = 0) ∨
        ∃ M', am_get_mediatype m' (sample_alert 1 1 7 10).mediatypeid = some M' ∧
          M'.alerts_num =
            ((am_get_mediatype (am_run_state guard_any serialization_ops).manager 1).getD
              (mediatype_local 1)).alerts_num - 1) ∧
      (alertpool_deref m' (sample_alert 1 1 7 10).mediatypeid
          (sample_alert 1 1 7 10).alertpoolid = none ↔
        ∀ P, alertpool_deref (am_run_state guard_any serialization_ops).manager
          (sample_alert 1 1 7 10).mediatypeid (sample_alert 1 1 7 10).alertpoolid = some P →
          P.queue = []) ∧
      (∀ P, alertpool_deref (am_run_state guard_any serialization_ops).manager
          (sample_alert 1 1 7 10).mediatypeid (sample_alert 1 1 7 10).alertpoolid = some P →
        P.queue ≠ [] →
        ∃ M' P', am_get_mediatype m' (sample_alert 1 1 7 10).mediatypeid = some M' ∧
          alertpool_deref m' (sample_alert 1 1 7 10).mediatypeid
            (sample_alert 1 1 7 10).alertpoolid = some P' ∧
          P'.queue = P.queue ∧ (sample_alert 1 1 7 10).alertpoolid ∈ M'.queue) :=
  ⟨by decide, by decide,
    C15_remove_alert_pool 0 serialization_ops _ (by decide) (sample_alert 1 1 7 10) _
      (by decide)⟩

theorem am_retry_alert_exhausted {m : zbx_am_t} {a : zbx_am_alert_t} (now : Int)
    {M : zbx_am_mediatype_t} (hM : am_get_mediatype m a.mediatypeid = some M)
    (hle : M.maxattempts ≤ a.retries + 1) :
    am_retry_alert m a now = (am_remove_alert m a).map fun m1 => (FAIL, m1) := by
  unfold am_retry_alert
  rw [hM]
  simp only []
  rw [if_pos hle, am_remove_alert_retries]

theorem am_retry_alert_absent {m : zbx_am_t} {a : zbx_am_alert_t} (now : Int)
    (hM : am_get_mediatype m a.mediatypeid = none) :
    am_retry_alert m a now = (am_remove_alert m a).map fun m1 => (FAIL, m1) := by
  unfold am_retry_alert
  rw [hM]

/-- C16: when the media type of the alert is in the table, a returning am_retry_alert returns
FAIL iff retries + 1 >= maxattempts, and then it is am_remove_alert on that alert paired with
FAIL; when the media type is absent it is am_remove_alert paired with FAIL, too; in the states
reached from the empty manager am_retry_alert returns. -/
theorem C16_retry_alert_exhausted (m : zbx_am_t) (a : zbx_am_alert_t) (now : Int) :
    (∀ M, am_get_mediatype m a.mediatypeid = some M →
      (M.maxattempts ≤ a.retries + 1 →
        am_retry_alert m a now = (am_remove_alert m a).map fun m1 => (FAIL, m1)) ∧
      (∀ r, am_retry_alert m a now = some r →
        (r.1 = FAIL ↔ M.maxattempts ≤ a.retries + 1))) ∧
    (am_get_mediatype m a.mediatypeid = none →
      am_retry_alert m a now = (am_remove_alert m a).map fun m1 => (FAIL, m1)) ∧
    (∀ n ops s, am_run guard_any (am_sched_init n) ops = some s → s.manager = m →
      ∃ r, am_retry_alert m a now = some r) := by
  refine ⟨?_, am_retry_alert_absent now, ?_⟩
  · intro M hM
    refine ⟨am_retry_alert_exhausted now hM, ?_⟩
    intro r hr
    rcases am_retry_alert_inv hr with ⟨h0, -⟩ | ⟨M0, hM0, hle, hf, -⟩ | ⟨M0, m3, m4, hM0, hlt, hs, -⟩
    · rw [hM] at h0; cases h0
    · rw [hM] at hM0; cases hM0
      exact ⟨fun _ => hle, fun _ => hf⟩
    · rw [hM] at hM0; cases hM0
      constructor
      · intro hf
        rw [hs] at hf
        exact absurd hf (by decide)
      · intro hle
        exact absurd hle hlt
  · intro n ops s h hs
    subst hs
    obtain ⟨hw, ho⟩ := am_ord_reachable h
    obtain ⟨r, hr, -⟩ := am_retry_alert_ord a now hw ho
    exact ⟨r, hr⟩

/-- Witness of C16: the failure of the only alert of a media type with maxattempts 1. -/
theorem C16_retry_alert_exhausted_witness :
    am_run guard_any (am_sched_init 0) exhausted_ops =
      some (am_run_state guard_any exhausted_ops) ∧
    am_retry_alert (am_run_state guard_any exhausted_ops).manager (sample_alert 1 1 7 10) 100 =
      (am_remove_alert (am_run_state guard_any exhausted_ops).manager
        (sample_alert 1 1 7 10)).map (fun m1 => (FAIL, m1)) ∧
    (am_retry_alert (am_run_state guard_any exhausted_ops).manager (sample_alert 1 1 7 10)
      100).map (fun r => (r.1, r.2.mediatypes, r.2.alertpools, r.2.queue)) =
      some (FAIL, [], [], []) :=
  ⟨by decide,
    ((C16_retry_alert_exhausted (am_run_state guard_any exhausted_ops).manager
      (sample_alert 1 1 7 10) 100).1
      ((am_get_mediatype (am_run_state guard_any exhausted_ops).manager 1).getD
        (mediatype_local 1)) (by decide)).1 (by decide),
    by decide⟩

theorem am_check_queue_eq {m : zbx_am_t} {id pid : Nat} {t tp : List Nat}
    {M : zbx_am_mediatype_t} {P : zbx_am_alertpool_t} {a : zbx_am_alert_t}
    {rest : List zbx_am_alert_t} (hq : m.queue = id :: t)
    (hM : am_get_mediatype m id = some M) (hMq : M.queue = pid :: tp)
    (hP : alertpool_deref m id pid = some P) (hPq : P.queue = a :: rest) (now : Int) :
    am_check_queue m now = some (decide (a.nextsend ≤ now)) := by
  have hk := am_get_mediatype_key hM
  unfold am_check_queue zbx_binary_heap_empty zbx_binary_heap_find_min
  rw [hq]
  simp only [List.isEmpty_cons, List.head?_cons, Option.some_bind, hM, hMq, hk, hP, hPq]
  by_cases hlt : now < a.nextsend
  · simp [hlt]
  · simp [hlt]
    omega

theorem am_check_queue_true {m : zbx_am_t} {now : Int}
    (h : am_check_queue m now = some true) :
    ∃ id t M pid tp P a rest, m.queue = id :: t ∧ am_get_mediatype m id = some M ∧
      M.queue = pid :: tp ∧ alertpool_deref m id pid = some P ∧ P.queue = a :: rest ∧
      a.nextsend ≤ now := by
  unfold am_check_queue zbx_binary_heap_empty zbx_binary_heap_find_min at h
  cases hq : m.queue with
  | nil => rw [hq] at h; simp at h
  | cons id t =>
    rw [hq] at h
    simp only [List.isEmpty_cons, List.head?_cons, Option.some_bind] at h
    cases hM : am_get_mediatype m id with
    | none => rw [hM] at h; simp at h
    | some M =>
      rw [hM] at h
      have hk := am_get_mediatype_key hM
      simp only [Option.some_bind, hk] at h
      cases hMq : M.queue with
      | nil => rw [hMq] at h; simp at h
      | cons pid tp =>
        rw [hMq] at h
        simp only [List.isEmpty_cons, List.head?_cons, Option.some_bind] at h
        cases hP : alertpool_deref m id pid with
        | none => rw [hP] at h; simp at h
        | some P =>
          rw [hP] at h
          simp only [Option.some_bind] at h
          cases hPq : P.queue with
          | nil => rw [hPq] at h; simp at h
          | cons a rest =>
            rw [hPq] at h
            simp only [List.isEmpty_cons, List.head?_cons, Option.some_bind] at h
            refine ⟨id, t, M, pid, tp, P, a, rest, rfl, hM, hMq, hP, hPq, ?_⟩
            by_cases hlt : now < a.nextsend
            · simp [hlt] at h
            · omega

theorem am_check_queue_total {m : zbx_am_t} (hw : am_wf m) (now : Int) :
    ∃ b, am_check_queue m now = some b := by
  cases hq : m.queue with
  | nil =>
    refine ⟨false, ?_⟩
    unfold am_check_queue zbx_binary_heap_empty
    rw [hq]
    rfl
  | cons id t =>
    obtain ⟨M, hM, -, hne⟩ := hw.queue_mt id (by rw [hq]; exact List.mem_cons_self _ _)
    obtain ⟨pid, tp, hMq⟩ := List.exists_cons_of_ne_nil hne
    obtain ⟨P, hP, -, hPne⟩ := hw.mtq_pool id M hM pid (by rw [hMq]; exact List.mem_cons_self _ _)
    obtain ⟨a, rest, hPq⟩ := List.exists_cons_of_ne_nil hPne
    exact ⟨_, am_check_queue_eq hq hM hMq hP hPq now⟩

/-- C20: am_check_queue returns SUCCEED iff the manager queue is not empty, the pool queue of
its root media type is not empty, the alert queue of the root pool of that is not empty and the
root alert has nextsend <= now; it returns a value in every well-formed state, and when it
returns FAIL the dispatch loop iteration leaves the manager as it is; in a state reached from
the empty manager it returns SUCCEED iff some alert in a queued pool of a queued media type is
due. -/
theorem C20_check_queue (m : zbx_am_t) (now : Int) :
    (am_check_queue m now = some true ↔
      ∃ id t M pid tp P a rest, m.queue = id :: t ∧ am_get_mediatype m id = some M ∧
        M.queue = pid :: tp ∧ alertpool_deref m id pid = some P ∧ P.queue = a :: rest ∧
        a.nextsend ≤ now) ∧
    (am_wf m → ∃ b, am_check_queue m now = some b) ∧
    (∀ env, am_check_queue m now = some false →
      am_dispatch_iteration env m now = some (false, m)) ∧
    (∀ n ops s, am_run guard_any (am_sched_init n) ops = some s → s.manager = m →
      (am_check_queue m now = some true ↔
        ∃ M ∈ m.mediatypes, M.mediatypeid ∈ m.queue ∧
          ∃ P ∈ m.alertpools, P.mediatypeid = M.mediatypeid ∧ P.id ∈ M.queue ∧
            ∃ b ∈ P.queue, b.nextsend ≤ now)) := by
  refine ⟨⟨am_check_queue_true, ?_⟩, fun hw => am_check_queue_total hw now, ?_, ?_⟩
  · rintro ⟨id, t, M, pid, tp, P, a, rest, hq, hM, hMq, hP, hPq, hle⟩
    rw [am_check_queue_eq hq hM hMq hP hPq now]
    simp [hle]
  · intro env h
    unfold am_dispatch_iteration
    rw [h]
    rfl
  · intro n ops s h hs
    subst hs
    obtain ⟨hw, ho⟩ := am_ord_reachable h
    constructor
    · intro hc
      obtain ⟨id, t, M, pid, tp, P, a, rest, hq, hM, hMq, hP, hPq, hle⟩ :=
        am_check_queue_true hc
      have hMm := am_get_mediatype_mem hM
      have hMk := am_get_mediatype_key hM
      have hPm := alertpool_deref_mem hP
      have hPk := alertpool_deref_key hP
      refine ⟨M, hMm, ?_, P, hPm, ?_, ?_, a, ?_, hle⟩
      · rw [hMk, hq]; exact List.mem_cons_self _ _
      · rw [hPk.2, hMk]
      · rw [hPk.1, hMq]; exact List.mem_cons_self _ _
      · rw [hPq]; exact List.mem_cons_self _ _
    · rintro ⟨M, hMm, hMq, P, hPm, hPM, hPq, b, hb, hle⟩
      obtain ⟨id0, t0, hq0⟩ := List.exists_cons_of_ne_nil (List.ne_nil_of_mem hMq)
      obtain ⟨M0, hM0, -, hne0⟩ := hw.queue_mt id0 (by rw [hq0]; exact List.mem_cons_self _ _)
      obtain ⟨pid0, tp0, hMq0⟩ := List.exists_cons_of_ne_nil hne0
      obtain ⟨P0, hP0, -, hPne0⟩ := hw.mtq_pool id0 M0 hM0 pid0
        (by rw [hMq0]; exact List.mem_cons_self _ _)
      obtain ⟨a0, rest0, hPq0⟩ := List.exists_cons_of_ne_nil hPne0
      have hP2 := alertpool_deref_of_mem hw hPm
      rw [hPM] at hP2
      have hmin := am_ord_root_min ho hq0 hMq (am_get_mediatype_of_mem hw hMm) hPq hP2 hb
      rw [am_mediatype_key_root hM0 hMq0, am_pool_key_root hP0 hPq0] at hmin
      rw [am_check_queue_eq hq0 hM0 hMq0 hP0 hPq0 now]
      simp
      omega

/-! ## Empty alert pools belong to alerts in flight -/

theorem am_pool_live_init (n : Nat) : am_pool_live (am_sched_init n) := by
  intro mid pid P hP
  simp [am_sched_init, am_init, alertpool_deref, zbx_hashset_search] at hP

theorem am_pool_live_queue_alert {s : am_sched} {m1 : zbx_am_t} {a : zbx_am_alert_t}
    (hi : am_inv s) (hl : am_pool_live s) (h1 : am_db_queue_alert s.manager a = some m1) :
    am_pool_live { s with manager := m1 } := by
  rcases am_db_queue_alert_inv h1 with ⟨-, rfl⟩ | ⟨M, m2, m3, hM, -⟩
  · exact hl
  · obtain ⟨-, -, hpf, P0, q, -, hq, hP'⟩ :=
      am_db_queue_alert_effect hi.wf h1 (by rw [hM]; exact Option.some_ne_none _)
    intro mid pid P hP he
    by_cases e : mid = a.mediatypeid ∧ pid = a.alertpoolid
    · rw [e.1, e.2] at hP
      rw [hP'] at hP
      cases hP
      simp only at he
      rw [he] at hq
      exact absurd hq.symm (List.cons_ne_nil _ _ ∘ List.Perm.eq_nil)
    · rw [hpf mid pid e] at hP
      exact hl mid pid P hP he

theorem am_pool_live_pop_alert {s : am_sched} {m1 : zbx_am_t} {a : zbx_am_alert_t}
    (hi : am_inv s) (hl : am_pool_live s) (h1 : am_pop_alert s.manager = some (some a, m1)) :
    am_pool_live { manager := m1, in_flight := a :: s.in_flight } := by
  obtain ⟨id, t, M, pid0, tp, P0, rest, q, M', -, -, -, hP0, hP0q, -, -, -, -, -, -, -, -, -,
    hpf, -⟩ := am_pop_alert_effect hi.wf h1
  intro mid pid P hP he
  by_cases e : mid = id ∧ pid = pid0
  · refine ⟨a, List.mem_cons_self _ _, ?_⟩
    rw [e.1, e.2]
    exact hi.pool_ids id pid0 P0 hP0 a (by rw [hP0q]; exact List.mem_cons_self _ _)
  · rw [hpf mid pid e] at hP
    obtain ⟨b, hb, hbk⟩ := hl mid pid P hP he
    exact ⟨b, List.mem_cons_of_mem _ hb, hbk⟩

theorem am_pool_live_remove_alert {s : am_sched} {m1 : zbx_am_t} {a a1 : zbx_am_alert_t}
    (hi : am_inv s) (hl : am_pool_live s) (ha : a ∈ s.in_flight)
    (hk1 : a1.mediatypeid = a.mediatypeid) (hk2 : a1.alertpoolid = a.alertpoolid)
    (h1 : am_remove_alert s.manager a1 = some m1) :
    am_pool_live { manager := m1, in_flight := s.in_flight.erase a } := by
  cases hM : am_get_mediatype s.manager a1.mediatypeid with
  | none =>
    rw [hk1] at hM
    exact absurd hM (hi.flight_mt a ha)
  | some M =>
    obtain ⟨-, -, hpf, hpool⟩ := am_remove_alert_effect hi.wf h1 hM
    intro mid pid P hP he
    by_cases e : mid = a1.mediatypeid ∧ pid = a1.alertpoolid
    · rw [e.1, e.2] at hP
      rcases hpool with ⟨-, hn⟩ | ⟨P0, -, hne, hP'⟩
      · rw [hn] at hP; cases hP
      · rw [hP'] at hP
        cases hP
        exact absurd he hne
    · rw [hpf mid pid e] at hP
      obtain ⟨b, hb, hbk⟩ := hl mid pid P hP he
      refine ⟨b, (List.mem_erase_of_ne ?_).2 hb, hbk⟩
      intro hba
      apply e
      rw [← hbk.1, ← hbk.2, hba, hk1, hk2]
      exact ⟨rfl, rfl⟩

theorem am_pool_live_retry_alert {s : am_sched} {a : zbx_am_alert_t} {now : Int}
    {r : Int × zbx_am_t} (hi : am_inv s) (hl : am_pool_live s) (ha : a ∈ s.in_flight)
    (h1 : am_retry_alert s.manager a now = some r) :
    am_pool_live { manager := r.2, in_flight := s.in_flight.erase a } := by
  rcases am_retry_alert_inv h1 with ⟨h0, -⟩ | ⟨M, -, -, -, hr⟩ | ⟨M, m3, m4, hM, -, hs, -⟩
  · exact absurd h0 (hi.flight_mt a ha)
  · exact am_pool_live_remove_alert hi hl ha rfl rfl hr
  · obtain ⟨x, m'⟩ := r
    simp only at hs
    subst hs
    obtain ⟨-, -, -, hpf, P0, q, -, hq, hP'⟩ := am_retry_alert_effect hi.wf h1 hM
    intro mid pid P hP he
    by_cases e : mid = a.mediatypeid ∧ pid = a.alertpoolid
    · rw [e.1, e.2] at hP
      simp only at hP
      rw [hP'] at hP
      cases hP
      simp only at he
      rw [he] at hq
      exact absurd hq.symm (List.cons_ne_nil _ _ ∘ List.Perm.eq_nil)
    · simp only at hP
      rw [hpf mid pid e] at hP
      obtain ⟨b, hb, hbk⟩ := hl mid pid P hP he
      refine ⟨b, (List.mem_erase_of_ne ?_).2 hb, hbk⟩
      intro hba
      apply e
      rw [← hbk.1, ← hbk.2, hba]
      exact ⟨rfl, rfl⟩

theorem am_pool_live_step {s s' : am_sched} {op : am_op} (hi : am_inv s)
    (hl : am_pool_live s) (hg : guard_in_flight s op = true)
    (hs : am_step s op = some s') : am_pool_live s' := by
  cases op with
  | update_mediatype id a =>
    simp only [am_step, Option.some.injEq] at hs
    subst hs
    intro mid pid P hP he
    simp only at hP
    rw [am_update_mediatype_deref] at hP
    exact hl mid pid P hP he
  | queue_alert a =>
    simp only [am_step, Option.map_eq_some'] at hs
    obtain ⟨m1, h1, rfl⟩ := hs
    exact am_pool_live_queue_alert hi hl h1
  | pop_alert =>
    simp only [am_step, Option.map_eq_some'] at hs
    obtain ⟨r, h1, rfl⟩ := hs
    obtain ⟨o, m1⟩ := r
    cases o with
    | none =>
      simp only
      rw [(am_pop_alert_none h1).2]
      exact hl
    | some a => exact am_pool_live_pop_alert hi hl h1
  | remove_alert a =>
    simp only [am_step, Option.map_eq_some'] at hs
    obtain ⟨m1, h1, rfl⟩ := hs
    simp only [guard_in_flight, decide_eq_true_eq] at hg
    exact am_pool_live_remove_alert hi hl hg rfl rfl h1
  | retry_alert a now =>
    simp only [am_step, Option.map_eq_some'] at hs
    obtain ⟨r, h1, rfl⟩ := hs
    simp only [guard_in_flight, decide_eq_true_eq] at hg
    exact am_pool_live_retry_alert hi hl hg h1

theorem am_pool_live_run {ops : List am_op} {s s' : am_sched} (hi : am_inv s)
    (hl : am_pool_live s) (h : am_run guard_in_flight s ops = some s') :
    am_inv s' ∧ am_pool_live s' := by
  refine am_run_induction (fun s => am_inv s ∧ am_pool_live s) ?_ ops s s' ⟨hi, hl⟩ h
  intro s1 op s2 hI hg hs
  exact ⟨am_inv_step hI.1 hg hs, am_pool_live_step hI.1 hI.2 hg hs⟩

theorem am_cleanup_state {s : am_sched} {mid : Nat} (hi : am_inv s) (hl : am_pool_live s)
    (hq : ∀ P ∈ s.manager.alertpools, P.mediatypeid = mid → P.queue = [])
    (hf : ∀ b ∈ s.in_flight, b.mediatypeid ≠ mid)
    (hk : ∀ M, am_get_mediatype s.manager mid = some M → ¬ (M.queue = [] ∧ M.alerts_num = 0)) :
    am_get_mediatype s.manager mid = none ∧
    (∀ M ∈ s.manager.mediatypes, M.mediatypeid ≠ mid) ∧
    (∀ P ∈ s.manager.alertpools, P.mediatypeid ≠ mid) := by
  have hnone : am_get_mediatype s.manager mid = none := by
    cases hM : am_get_mediatype s.manager mid with
    | none => rfl
    | some M =>
      exfalso
      apply hk M hM
      constructor
      · cases hMq : M.queue with
        | nil => rfl
        | cons pid tp =>
          exfalso
          obtain ⟨P, hP, -, hne⟩ := hi.wf.mtq_pool mid M hM pid
            (by rw [hMq]; exact List.mem_cons_self _ _)
          exact hne (hq P (alertpool_deref_mem hP) (alertpool_deref_key hP).2)
      · rw [hi.num mid M hM]
        have : am_in_flight_num s.in_flight mid = 0 := by
          unfold am_in_flight_num
          rw [List.countP_eq_zero]
          intro b hb
          simpa using hf b hb
        rw [this]
        rfl
  refine ⟨hnone, ?_, ?_⟩
  · intro M hM he
    have := am_get_mediatype_of_mem hi.wf hM
    rw [he, hnone] at this
    cases this
  · intro P hP he
    have hd := alertpool_deref_of_mem hi.wf hP
    obtain ⟨b, hb, hbk⟩ := hl _ _ P hd (hq P hP he)
    exact hf b hb (hbk.1.trans he)

theorem am_remove_alert_not_idle {m m' : zbx_am_t} {a : zbx_am_alert_t} (hw : am_wf m)
    (h : am_remove_alert m a = some m') (hex : am_get_mediatype m a.mediatypeid ≠ none) :
    ∀ M, am_get_mediatype m' a.mediatypeid = some M → ¬ (M.queue = [] ∧ M.alerts_num = 0) := by
  cases hM : am_get_mediatype m a.mediatypeid with
  | none => exact absurd hM hex
  | some M0 =>
    obtain ⟨-, hcase, -⟩ := am_remove_alert_effect hw h hM
    intro M hM'
    rcases hcase with ⟨hn, -⟩ | ⟨M', hM1, -, hne, -⟩
    · rw [hn] at hM'; cases hM'
    · rw [hM1] at hM'
      cases hM'
      exact hne

theorem am_retry_alert_not_idle {m : zbx_am_t} {a : zbx_am_alert_t} {now : Int}
    {r : Int × zbx_am_t} (hw : am_wf m) (h : am_retry_alert m a now = some r)
    (hex : am_get_mediatype m a.mediatypeid ≠ none) :
    ∀ M, am_get_mediatype r.2 a.mediatypeid = some M →
      ¬ (M.queue = [] ∧ M.alerts_num = 0) := by
  rcases am_retry_alert_inv h with ⟨h0, -⟩ | ⟨M0, -, -, -, hr⟩ | ⟨M0, m3, m4, hM, -, hs, -⟩
  · exact absurd h0 hex
  · rw [am_remove_alert_retries] at hr
    exact am_remove_alert_not_idle hw hr hex
  · obtain ⟨x, m'⟩ := r
    simp only at hs
    subst hs
    obtain ⟨-, -, ⟨M', hM', -, hne, -⟩, -⟩ := am_retry_alert_effect hw h hM
    intro M hM1 hc
    simp only at hM1
    rw [hM'] at hM1
    cases hM1
    exact hne hc.1

/-- C13: in every state reached from the empty manager (am_remove_alert and am_retry_alert
applied to alerts in flight), am_remove_alert and am_retry_alert on an alert in flight return,
and when afterwards no alert of its media type is queued in an alert pool and none is in
flight, the media type is not in the media type table and no alert pool of the media type is
in the alert pool table. -/
theorem C13_mediatype_cleanup (n : Nat) (ops : List am_op) (s : am_sched)
    (h : am_run guard_in_flight (am_sched_init n) ops = some s) (a : zbx_am_alert_t)
    (ha : a ∈ s.in_flight) :
    (∃ s1, am_step s (.remove_alert a) = some s1) ∧
    (∀ now, ∃ s2, am_step s (.retry_alert a now) = some s2) ∧
    ∀ op s', (op = .remove_alert a ∨ ∃ now, op = .retry_alert a now) →
      am_step s op = some s' →
      (∀ P ∈ s'.manager.alertpools, P.mediatypeid = a.mediatypeid → P.queue = []) →
      (∀ b ∈ s'.in_flight, b.mediatypeid ≠ a.mediatypeid) →
      am_get_mediatype s'.manager a.mediatypeid = none ∧
      (∀ M ∈ s'.manager.mediatypes, M.mediatypeid ≠ a.mediatypeid) ∧
      (∀ P ∈ s'.manager.alertpools, P.mediatypeid ≠ a.mediatypeid) := by
  obtain ⟨hi, hl⟩ := am_pool_live_run (am_inv_init n) (am_pool_live_init n) h
  obtain ⟨hw, ho⟩ := am_ord_reachable h
  refine ⟨?_, ?_, ?_⟩
  · obtain ⟨s1, h1, -⟩ := am_step_ord hw ho (.remove_alert a)
    exact ⟨s1, h1⟩
  · intro now
    obtain ⟨s2, h2, -⟩ := am_step_ord hw ho (.retry_alert a now)
    exact ⟨s2, h2⟩
  · intro op s' hop hs hq hf
    have hg : guard_in_flight s op = true := by
      rcases hop with rfl | ⟨now, rfl⟩
      · simpa [guard_in_flight] using ha
      · simpa [guard_in_flight] using ha
    have hi' := am_inv_step hi hg hs
    have hl' := am_pool_live_step hi hl hg hs
    apply am_cleanup_state hi' hl' hq hf
    rcases hop with rfl | ⟨now, rfl⟩
    · simp only [am_step, Option.map_eq_some'] at hs
      obtain ⟨m1, h1, rfl⟩ := hs
      exact am_remove_alert_not_idle hw h1 (hi.flight_mt a ha)
    · simp only [am_step, Option.map_eq_some'] at hs
      obtain ⟨r, h1, rfl⟩ := hs
      exact am_retry_alert_not_idle hw h1 (hi.flight_mt a ha)

/-- Witness of C13: the completion of the only alert of media type 1. -/
theorem C13_mediatype_cleanup_witness :
    am_run guard_in_flight (am_sched_init 0) exhausted_ops =
      some (am_run_state guard_in_flight exhausted_ops) ∧
    sample_alert 1 1 7 10 ∈ (am_run_state guard_in_flight exhausted_ops).in_flight ∧
    (am_step (am_run_state guard_in_flight exhausted_ops)
      (.remove_alert (sample_alert 1 1 7 10))).map
        (fun s => (s.manager.mediatypes, s.manager.alertpools, s.in_flight)) =
      some ([], [], []) ∧
    (am_step (am_run_state guard_in_flight exhausted_ops)
      (.retry_alert (sample_alert 1 1 7 10) 100)).map
        (fun s => (s.manager.mediatypes, s.manager.alertpools, s.in_flight)) =
      some ([], [], []) ∧
    (∃ s1, am_step (am_run_state guard_in_flight exhausted_ops)
      (.remove_alert (sample_alert 1 1 7 10)) = some s1) :=
  ⟨by decide, by decide, by decide, by decide,
    (C13_mediatype_cleanup 0 exhausted_ops _ (by decide) (sample_alert 1 1 7 10)
      (by decide)).1⟩

/-! ## The manager with a single alert -/

theorem list_eq_singleton {α : Type} {l : List α} {p : α} (hn : l.Nodup)
    (hall : ∀ x ∈ l, x = p) (hp : p ∈ l) : l = [p] := by
  cases l with
  | nil => cases hp
  | cons x t =>
    have hx : x = p := hall x (List.mem_cons_self _ _)
    subst hx
    cases t with
    | nil => rfl
    | cons y t2 =>
      exfalso
      have hy : y = x := hall y (List.mem_cons_of_mem _ (List.mem_cons_self _ _))
      rw [List.nodup_cons] at hn
      exact hn.1 (by rw [hy]; exact List.mem_cons_self _ _)

theorem am_retry_alert_queued {m m' : zbx_am_t} {a : zbx_am_alert_t} {now : Int}
    {M : zbx_am_mediatype_t} (hw : am_wf m) (h : am_retry_alert m a now = some (SUCCEED, m'))
    (hM : am_get_mediatype m a.mediatypeid = some M)
    (hc : M.maxsessions = 0 ∨ M.alerts_num - 1 < M.maxsessions) : a.mediatypeid ∈ m'.queue := by
  rcases am_retry_alert_inv h with ⟨-, h0⟩ | ⟨M0, -, -, hf, -⟩ | ⟨M0, m3, m4, hM0, -, -, h3, h4, h5⟩
  · cases h0
  · simp only at hf
    exact absurd hf (by decide)
  · simp only at h5
    obtain ⟨-, -, ⟨M', hM', he, hne, -⟩, -⟩ := am_retry_alert_effect hw h hM
    obtain ⟨M4, hM4, hcase⟩ := am_push_meditype_get h5
    have hM4e : M4.queue = M'.queue ∧ M4.alerts_num = M'.alerts_num ∧
        M4.maxsessions = M'.maxsessions := by
      rcases hcase with ⟨-, -, -, hg, -⟩ | ⟨-, hg, -⟩
      · rw [hM'] at hg
        cases hg
        exact ⟨rfl, rfl, rfl⟩
      · rw [hM'] at hg
        cases hg
        exact ⟨rfl, rfl, rfl⟩
    apply (am_push_meditype_mem hM4 h5 a.mediatypeid).2
    refine Or.inr ⟨rfl, ?_, ?_⟩
    · rw [hM4e.1]; exact hne
    · unfold mt_cap
      rw [hM4e.2.1, hM4e.2.2, he]
      exact hc

theorem am_single_pop {m : zbx_am_t} {A : zbx_am_alert_t} {M : zbx_am_mediatype_t}
    (hs : am_single m A M) :
    ∃ m1 M1 P, am_pop_alert m = some (some A, m1) ∧ am_wf m1 ∧ am_ord m1 ∧ m1.queue = [] ∧
      am_get_mediatype m1 A.mediatypeid = some M1 ∧
      M1 = { M with alerts_num := M.alerts_num + 1, location := M1.location,
                    queue := M1.queue } ∧
      M1.queue = [] ∧
      alertpool_deref m A.mediatypeid A.alertpoolid = some P ∧
      alertpool_deref m1 A.mediatypeid A.alertpoolid =
        some { P with queue := [], location := ZBX_AM_LOCATION_NOWHERE } ∧
      (∀ id', id' ≠ A.mediatypeid → am_get_mediatype m1 id' = am_get_mediatype m id') ∧
      am_pool_frame m m1 A.mediatypeid A.alertpoolid := by
  obtain ⟨P, hP, hPq⟩ := hs.pool
  obtain ⟨a, m1, hpop, ho1⟩ := am_pop_alert_ord hs.wf hs.ord hs.queue
  have hw1 := am_wf_pop_alert hs.wf hpop
  obtain ⟨id, t, M0, pid, tp, P0, rest, q, M1, hq, hM0, hM0q, hP0, hP0q, -, -, hqp, hother,
    hM1, hM1e, hM1q, hloc, hm1q, hpf, hP1⟩ := am_pop_alert_effect hs.wf hpop
  rw [hs.queue] at hq
  injection hq with e1 e2
  subst e1 e2
  rw [hs.mt] at hM0
  cases hM0
  rw [hs.mt_queue] at hM0q
  injection hM0q with e3 e4
  subst e3 e4
  rw [hP] at hP0
  cases hP0
  rw [hPq] at hP0q
  injection hP0q with e5 e6
  subst e5 e6
  have hq0 : q = [] := List.Perm.eq_nil hqp
  subst hq0
  have hM1q0 : M1.queue = [] := List.Perm.eq_nil hM1q
  have hnl : ¬ M1.location = ZBX_AM_LOCATION_QUEUE := fun hl => (hloc.1 hl).1 hM1q0
  rw [if_neg hnl] at hm1q
  exact ⟨m1, M1, P, hpop, hw1, ho1, List.Perm.eq_nil hm1q, hM1, hM1e, hM1q0, hP, hP1, hother,
    hpf⟩

theorem am_single_cycle {m : zbx_am_t} {A : zbx_am_alert_t} {M : zbx_am_mediatype_t}
    (hs : am_single m A M) (hlt : A.retries + 1 < M.maxattempts)
    (hc : M.maxsessions = 0 ∨ 0 < M.maxsessions) (now : Int) :
    ∃ m1 m2, am_pop_alert m = some (some A, m1) ∧
      am_retry_alert m1 A now = some (SUCCEED, m2) ∧
      am_single m2 { A with retries := A.retries + 1, nextsend := int_wrap (now + M.attempt_interval) }
        M := by
  obtain ⟨m1, M1, P, hpop, hw1, ho1, hq1, hM1, hM1e, hM1q, hP, hP1, hother1, hpf1⟩ :=
    am_single_pop hs
  have hnum1 : M1.alerts_num = M.alerts_num + 1 := by rw [hM1e]
  have hmax1 : M1.maxattempts = M.maxattempts := by rw [hM1e]
  have hint1 : M1.attempt_interval = M.attempt_interval := by rw [hM1e]
  have hses1 : M1.maxsessions = M.maxsessions := by rw [hM1e]
  obtain ⟨⟨x, m2⟩, hr, ho2⟩ := am_retry_alert_ord A now hw1 ho1
  have hw2 : am_wf m2 := am_wf_retry_alert hw1 hr
  have hx : x = SUCCEED := by
    rcases am_retry_alert_inv hr with ⟨h0, -⟩ | ⟨M0, hM0, hle, -⟩ | ⟨M0, m3, m4, -, -, hx, -⟩
    · rw [hM1] at h0; cases h0
    · rw [hM1] at hM0
      cases hM0
      omega
    · exact hx
  subst hx
  obtain ⟨-, hother2, ⟨M2, hM2, hM2e, -, -⟩, hpf2, P0, q, hP0, hq, hP2⟩ :=
    am_retry_alert_effect hw1 hr hM1
  have hP0e : P0 = ({ P with queue := [], location := ZBX_AM_LOCATION_NOWHERE } :
      zbx_am_alertpool_t) := by
    rcases hP0 with h1 | ⟨h1, -⟩
    · rw [hP1] at h1
      exact (Option.some.inj h1).symm
    · rw [hP1] at h1
      cases h1
  subst hP0e
  rw [hint1] at hq
  have hq1e : q =
      [({ A with retries := A.retries + 1, nextsend := int_wrap (now + M.attempt_interval) } :
        zbx_am_alert_t)] := List.perm_singleton.1 hq
  subst hq1e
  -- the media type is queued again
  have hin : A.mediatypeid ∈ m2.queue :=
    am_retry_alert_queued hw1 hr hM1 (by rw [hses1, hnum1, hs.idle]; omega)
  have hqueue : m2.queue = [A.mediatypeid] := by
    apply list_eq_singleton hw2.queue_nodup _ hin
    intro y hy
    by_contra hne
    obtain ⟨My, hMy, hly, -⟩ := hw2.queue_mt y hy
    rw [hother2 y hne] at hMy
    have := hw1.mt_queue y My hMy hly
    rw [hq1] at this
    cases this
  have hloc2 : M2.location = ZBX_AM_LOCATION_QUEUE := by
    obtain ⟨My, hMy, hly, -⟩ := hw2.queue_mt _ hin
    rw [hM2] at hMy
    cases hMy
    exact hly
  have hlocM : M.location = ZBX_AM_LOCATION_QUEUE := by
    obtain ⟨My, hMy, hly, -⟩ := hs.wf.queue_mt A.mediatypeid
      (by rw [hs.queue]; exact List.mem_cons_self _ _)
    rw [hs.mt] at hMy
    cases hMy
    exact hly
  -- the pool queue of the media type
  obtain ⟨Mz, hMz, hpin⟩ := hw2.pool_mtq _ _ _ hP2 rfl
  rw [hM2] at hMz
  cases hMz
  have hM2q : M2.queue = [A.alertpoolid] := by
    apply list_eq_singleton (hw2.mtq_nodup _ M2 hM2) _ hpin
    intro y hy
    by_contra hne
    obtain ⟨Py, hPy, hly, -⟩ := hw2.mtq_pool _ M2 hM2 y hy
    rw [hpf2 _ y (fun hh => hne hh.2)] at hPy
    obtain ⟨My, hMy, hyin⟩ := hw1.pool_mtq _ _ Py hPy hly
    rw [hM1] at hMy
    cases hMy
    rw [hM1q] at hyin
    cases hyin
  have e2 : M2 =
      { M with alerts_num := M.alerts_num + 1 - 1, location := M2.location, queue := M2.queue } := by
    have e := hM2e
    rw [hM1e] at e
    exact e
  have hM2M : M2 = M := by
    have h3 : M.alerts_num + 1 - 1 = M.alerts_num := by omega
    rw [e2, h3, hloc2, hM2q, ← hlocM, ← hs.mt_queue]
  rw [hM2M] at hM2
  exact ⟨m1, m2, hpop, hr, hw2, ho2, hqueue, hM2, hs.mt_queue, hs.idle, _, hP2, rfl⟩

theorem am_single_last {m : zbx_am_t} {A : zbx_am_alert_t} {M : zbx_am_mediatype_t}
    (hs : am_single m A M) (hle : M.maxattempts ≤ A.retries + 1) (now : Int) :
    ∃ m1 m2, am_pop_alert m = some (some A, m1) ∧
      am_retry_alert m1 A now = some (FAIL, m2) ∧ m2.queue = [] ∧
      am_get_mediatype m2 A.mediatypeid = none ∧
      alertpool_deref m2 A.mediatypeid A.alertpoolid = none := by
  obtain ⟨m1, M1, P, hpop, hw1, ho1, hq1, hM1, hM1e, hM1q, hP, hP1, hother1, hpf1⟩ :=
    am_single_pop hs
  have hnum1 : M1.alerts_num = M.alerts_num + 1 := by rw [hM1e]
  have hmax1 : M1.maxattempts = M.maxattempts := by rw [hM1e]
  obtain ⟨m2, hrem, ho2⟩ := am_remove_alert_ord A hw1 ho1
  have hw2 : am_wf m2 := am_wf_remove_alert hw1 hrem
  have hr : am_retry_alert m1 A now = some (FAIL, m2) := by
    rw [am_retry_alert_exhausted now hM1 (by rw [hmax1]; exact hle), hrem]
    rfl
  obtain ⟨hother2, hcase, hpf2, hpool⟩ := am_remove_alert_effect hw1 hrem hM1
  have hP2 : alertpool_deref m2 A.mediatypeid A.alertpoolid = none := by
    rcases hpool with ⟨-, hn⟩ | ⟨P0, hP0, hne, -⟩
    · exact hn
    · rw [hP1] at hP0
      cases hP0
      exact absurd rfl hne
  have hM2 : am_get_mediatype m2 A.mediatypeid = none := by
    rcases hcase with ⟨hn, -⟩ | ⟨M2, hM2, hM2e, hnot, -⟩
    · exact hn
    · exfalso
      apply hnot
      constructor
      · cases hM2q : M2.queue with
        | nil => rfl
        | cons y tq =>
          exfalso
          have hy : y ∈ M2.queue := by rw [hM2q]; exact List.mem_cons_self _ _
          obtain ⟨Py, hPy, hly, -⟩ := hw2.mtq_pool _ M2 hM2 y hy
          have hne : y ≠ A.alertpoolid := by
            intro e
            rw [e, hP2] at hPy
            cases hPy
          rw [hpf2 _ y (fun hh => hne hh.2)] at hPy
          obtain ⟨My, hMy, hyin⟩ := hw1.pool_mtq _ _ Py hPy hly
          rw [hM1] at hMy
          cases hMy
          rw [hM1q] at hyin
          cases hyin
      · rw [hM2e]
        show M1.alerts_num - 1 = 0
        rw [hnum1, hs.idle]
        rfl
  have hqueue : m2.queue = [] := by
    cases hq2 : m2.queue with
    | nil => rfl
    | cons y tq =>
      exfalso
      have hy : y ∈ m2.queue := by rw [hq2]; exact List.mem_cons_self _ _
      obtain ⟨My, hMy, hly, -⟩ := hw2.queue_mt y hy
      have hne : y ≠ A.mediatypeid := by
        intro e
        rw [e, hM2] at hMy
        cases hMy
      rw [hother2 y hne] at hMy
      have := hw1.mt_queue y My hMy hly
      rw [hq1] at this
      cases this
  exact ⟨m1, m2, hpop, hr, hqueue, hM2, hP2⟩

/-! ## The queues stay ordered along the main loop -/

theorem am_ord_congr {m m' : zbx_am_t} (h1 : m'.mediatypes = m.mediatypes)
    (h2 : m'.alertpools = m.alertpools) (h3 : m'.queue = m.queue) (ho : am_ord m) :
    am_ord m' := by
  have hG : ∀ id, am_get_mediatype m' id = am_get_mediatype m id := by
    intro id
    unfold am_get_mediatype
    rw [h1]
  have hD : ∀ mid pid, alertpool_deref m' mid pid = alertpool_deref m mid pid := by
    intro mid pid
    unfold alertpool_deref
    rw [h2]
  refine @am_ord_frame m m' ho h3 ?_ ?_ ?_ ?_
  · intro id M' hM'
    rw [hG] at hM'
    exact Or.inr ⟨M', hM', rfl⟩
  · intro id _
    rw [hG]
  · intro mid pid P' hP'
    rw [hD] at hP'
    exact ho.alerts mid pid P' hP'
  · intro mid pid
    exact am_pool_head_congr (hD mid pid)

theorem am_ord_of_pop {m m' : zbx_am_t} {o : Option zbx_am_alert_t} (hw : am_wf m)
    (ho : am_ord m) (h : am_pop_alert m = some (o, m')) : am_ord m' := by
  cases hq : m.queue with
  | nil =>
    rw [am_pop_alert_nil hq] at h
    cases h
    exact ho
  | cons id t =>
    obtain ⟨a, m1, h1, ho1⟩ := am_pop_alert_ord hw ho hq
    rw [h] at h1
    cases h1
    exact ho1

theorem am_ord_of_remove {m m' : zbx_am_t} {a : zbx_am_alert_t} (hw : am_wf m)
    (ho : am_ord m) (h : am_remove_alert m a = some m') : am_ord m' := by
  obtain ⟨m1, h1, ho1⟩ := am_remove_alert_ord a hw ho
  rw [h] at h1
  cases h1
  exact ho1

theorem am_ord_of_retry {m : zbx_am_t} {a : zbx_am_alert_t} {now : Int} {r : Int × zbx_am_t}
    (hw : am_wf m) (ho : am_ord m) (h : am_retry_alert m a now = some r) : am_ord r.2 := by
  obtain ⟨r1, h1, ho1⟩ := am_retry_alert_ord a now hw ho
  rw [h] at h1
  cases h1
  exact ho1

theorem am_ord_of_db_queue_alert {m m' : zbx_am_t} {a : zbx_am_alert_t} (hw : am_wf m)
    (ho : am_ord m) (h : am_db_queue_alert m a = some m') : am_ord m' := by
  obtain ⟨m1, h1, ho1⟩ := am_db_queue_alert_ord a hw ho
  rw [h] at h1
  cases h1
  exact ho1

theorem am_ord_db_update_mediatypes (rows : List DB_MEDIATYPE) :
    ∀ m, am_wf m → am_ord m →
      am_wf (rows.foldl (fun m row =>
          if row.smtp_port < 65536 then
            am_update_mediatype m row.mediatypeid { row.args with smtp_port := row.smtp_port }
          else m) m) ∧
      am_ord (rows.foldl (fun m row =>
          if row.smtp_port < 65536 then
            am_update_mediatype m row.mediatypeid { row.args with smtp_port := row.smtp_port }
          else m) m) := by
  induction rows with
  | nil => intro m hw ho; exact ⟨hw, ho⟩
  | cons row rows ih =>
    intro m hw ho
    simp only [List.foldl_cons]
    apply ih
    · split
      · exact am_wf_update_mediatype hw _ _
      · exact hw
    · split
      · exact am_ord_update_mediatype ho _ _
      · exact ho

theorem am_ord_db_queue_alerts_loop (alerts : List zbx_am_alert_t) :
    ∀ m m', am_wf m → am_ord m → am_db_queue_alerts_loop m alerts = some m' →
      am_wf m' ∧ am_ord m' := by
  induction alerts with
  | nil =>
    intro m m' hw ho h
    simp only [am_db_queue_alerts_loop, Option.some.injEq] at h
    subst h
    exact ⟨hw, ho⟩
  | cons a alerts ih =>
    intro m m' hw ho h
    simp only [am_db_queue_alerts_loop, Option.bind_eq_some] at h
    obtain ⟨m1, h1, h2⟩ := h
    exact ih m1 m' (am_wf_db_queue_alert hw h1) (am_ord_of_db_queue_alert hw ho h1) h2

theorem am_ord_event_step {m m' : zbx_am_t} {e : am_event} (h : am_main_inv m)
    (ho : am_ord m) (hs : am_event_step m e = some m') : am_ord m' := by
  have hw : am_wf m := h.inv.wf
  cases e with
  | register client ppid_ok =>
    simp only [am_event_step] at hs
    unfold am_register_alerter at hs
    split at hs
    · cases hs; exact ho
    · split at hs
      · cases hs
      · rw [Option.bind_eq_some] at hs
        obtain ⟨x, -, hs⟩ := hs
        cases hs
        exact @am_ord_congr m _ rfl rfl rfl ho
  | db_queue_alerts alerts media_type =>
    simp only [am_event_step] at hs
    unfold am_db_queue_alerts at hs
    split at hs
    · unfold am_db_update_mediatypes at hs
      obtain ⟨h1, h2⟩ := am_ord_db_update_mediatypes
        (media_type.filter fun row =>
          decide (row.mediatypeid ∈ alerts.map fun a => a.mediatypeid)) m hw ho
      exact (am_ord_db_queue_alerts_loop alerts _ m' h1 h2 hs).2
    · cases hs; exact ho
  | dispatch env now =>
    simp only [am_event_step, Option.map_eq_some'] at hs
    obtain ⟨r, hs, rfl⟩ := hs
    unfold am_dispatch_iteration at hs
    rw [Option.bind_eq_some] at hs
    obtain ⟨ready, -, hs⟩ := hs
    split at hs
    · cases hs; exact ho
    · split at hs
      · cases hs; exact ho
      · rename_i i rest hfree
        simp only [Option.bind_eq_some] at hs
        obtain ⟨rp, hpop, a, ha, res, hres, hs⟩ := hs
        obtain ⟨o, m2⟩ := rp
        simp only at ha hres
        subst ha
        have hw1 : am_wf { m with free_alerters := rest } := @am_wf_congr m _ rfl rfl rfl hw
        have ho1 : am_ord { m with free_alerters := rest } := @am_ord_congr m _ rfl rfl rfl ho
        have hw2 := am_wf_pop_alert hw1 hpop
        have ho2 := am_ord_of_pop hw1 ho1 hpop
        have hinv1 : am_inv (am_sched.mk { m with free_alerters := rest } (am_held_alerts m)) :=
          @am_inv_congr m _ _ rfl rfl rfl h.inv
        have hinv2 := am_inv_pop_alert hinv1 hpop
        have hMex : am_get_mediatype m2 a.mediatypeid ≠ none :=
          hinv2.flight_mt a (List.mem_cons_self _ _)
        have hres_ord : am_ord res.manager := by
          rcases am_process_alert_inv hres hMex with ⟨-, hman, -⟩ | ⟨-, -, err, hrem⟩
          · rw [hman]
            exact @am_ord_congr m2 _ rfl rfl rfl ho2
          · exact am_ord_of_remove
              (@am_wf_congr m2 (am_db_update_alert m2 a.alertid ALERT_STATUS_FAILED 0 err)
                rfl rfl rfl hw2)
              (@am_ord_congr m2 (am_db_update_alert m2 a.alertid ALERT_STATUS_FAILED 0 err)
                rfl rfl rfl ho2) hrem
        split at hs
        · cases hs
          exact @am_ord_congr res.manager _ rfl rfl rfl hres_ord
        · cases hs
          exact hres_ord
  | result client errcode errmsg now =>
    simp only [am_event_step, Option.map_eq_some'] at hs
    obtain ⟨r, hs, rfl⟩ := hs
    unfold am_process_result at hs
    simp only [Option.bind_eq_some] at hs
    obtain ⟨i, -, x, hx, a, hxa, hs⟩ := hs
    split at hs
    · rw [Option.map_eq_some'] at hs
      obtain ⟨m1, h1, h2⟩ := hs
      subst h2
      exact @am_ord_congr m1 _ rfl rfl rfl (am_ord_of_remove hw ho h1)
    · rw [Option.map_eq_some'] at hs
      obtain ⟨r1, h1, h2⟩ := hs
      subst h2
      exact @am_ord_congr r1.2 _ rfl rfl rfl (am_ord_of_retry hw ho h1)

theorem am_main_ord_run (es : List am_event) :
    ∀ m m', am_main_inv m → am_ord m → am_main_run m es = some m' →
      am_main_inv m' ∧ am_ord m' := by
  induction es with
  | nil =>
    intro m m' h ho hs
    simp only [am_main_run, Option.some.injEq] at hs
    subst hs
    exact ⟨h, ho⟩
  | cons e es ih =>
    intro m m' h ho hs
    simp only [am_main_run, Option.bind_eq_some] at hs
    obtain ⟨m1, h1, h2⟩ := hs
    exact ih m1 m' (am_main_inv_step h h1) (am_ord_event_step h ho h1) h2

theorem am_main_reachable {n : Nat} {es : List am_event} {m : zbx_am_t}
    (h : am_main_run (am_init n) es = some m) : am_main_inv m ∧ am_ord m :=
  am_main_ord_run es _ _ (am_main_inv_init n) (am_ord_init n) h

/-! ## Retries -/

theorem find?_map_key {β κ : Type} [DecidableEq κ] (key : β → κ) (f : β → β)
    (hf : ∀ x, key (f x) = key x) (k : κ) (l : List β) :
    (l.map f).find? (fun x => decide (key x = k)) =
      (l.find? (fun x => decide (key x = k))).map f := by
  induction l with
  | nil => rfl
  | cons x t ih =>
    simp only [List.map_cons, List.find?_cons, hf]
    split
    · rfl
    · exact ih

theorem am_db_update_alert_search (m : zbx_am_t) (alertid : Nat) (status retries : Int)
    (error : String) :
    ∃ u, zbx_hashset_search (fun u : zbx_am_alertstatus_t => u.alertid)
        (am_db_update_alert m alertid status retries error).alertupdates alertid = some u ∧
      u.status = status ∧ u.retries = retries ∧ u.error = error := by
  have key : ∀ l : List zbx_am_alertstatus_t,
      (∃ v, zbx_hashset_search (fun u : zbx_am_alertstatus_t => u.alertid) l alertid =
        some v) →
      ∃ u, zbx_hashset_search (fun u : zbx_am_alertstatus_t => u.alertid)
          (l.map fun u =>
            if u.alertid = alertid then
              { u with retries := retries, status := status, error := error }
            else u) alertid = some u ∧
        u.status = status ∧ u.retries = retries ∧ u.error = error := by
    intro l ⟨v, hv⟩
    unfold zbx_hashset_search at hv ⊢
    rw [find?_map_key (fun u : zbx_am_alertstatus_t => u.alertid) _ (by
      intro x
      split
      · rfl
      · rfl), hv]
    have hva : v.alertid = alertid := by
      have := List.find?_some hv
      simpa using this
    refine ⟨_, rfl, ?_⟩
    simp only [if_pos hva, and_self]
  unfold am_db_update_alert
  simp only []
  cases hs : zbx_hashset_search (fun u : zbx_am_alertstatus_t => u.alertid) m.alertupdates
      alertid with
  | some v => exact key _ ⟨v, hs⟩
  | none =>
    apply key
    refine ⟨{ alertid := alertid, retries := 0, status := 0, error := "", flags := 0 }, ?_⟩
    rw [zbx_hashset_search_insert _ _ _ _ hs, if_pos rfl]

theorem am_single_of_run {n : Nat} {ops : List am_op} {s : am_sched}
    (h : am_run guard_in_flight (am_sched_init n) ops = some s) (hf : s.in_flight = [])
    {A : zbx_am_alert_t} {M : zbx_am_mediatype_t} {P : zbx_am_alertpool_t}
    (hq : s.manager.queue = [A.mediatypeid])
    (hM : am_get_mediatype s.manager A.mediatypeid = some M)
    (hMq : M.queue = [A.alertpoolid])
    (hP : alertpool_deref s.manager A.mediatypeid A.alertpoolid = some P)
    (hPq : P.queue = [A]) : am_single s.manager A M := by
  obtain ⟨hw, ho⟩ := am_ord_reachable h
  have hi := am_inv_run (fun _ _ hg => hg) (am_inv_init n) h
  refine ⟨hw, ho, hq, hM, hMq, ?_, P, hP, hPq⟩
  rw [hi.num _ M hM, hf]
  rfl

theorem am_fail_loop_count {M : zbx_am_mediatype_t}
    (hc : M.maxsessions = 0 ∨ 0 < M.maxsessions) (now : Int) :
    ∀ (d : Nat) (m : zbx_am_t) (A : zbx_am_alert_t), am_single m A M →
      (M.maxattempts - (A.retries + 1)).toNat = d →
      ∀ fuel, d + 2 ≤ fuel →
        ∃ m', am_fail_loop fuel m now = some (d + 1, m') ∧ m'.queue = [] ∧
          am_get_mediatype m' A.mediatypeid = none := by
  intro d
  induction d with
  | zero =>
    intro m A hs hd fuel hfuel
    obtain ⟨m1, m2, hpop, hr, hq2, hM2, -⟩ := am_single_last hs (by omega) now
    obtain ⟨f, rfl⟩ : ∃ f, fuel = f + 1 + 1 := ⟨fuel - 2, by omega⟩
    refine ⟨m2, ?_, hq2, hM2⟩
    simp only [am_fail_loop, hpop, hr, Option.some_bind, am_pop_alert_nil hq2, Option.map_some']
  | succ d ih =>
    intro m A hs hd fuel hfuel
    obtain ⟨m1, m2, hpop, hr, hs2⟩ := am_single_cycle hs (by omega) hc now
    obtain ⟨f, rfl⟩ : ∃ f, fuel = f + 1 := ⟨fuel - 1, by omega⟩
    obtain ⟨m', hl, hq', hM'⟩ := ih m2 _ hs2 (by simp only; omega) f (by omega)
    refine ⟨m', ?_, hq', hM'⟩
    simp only [am_fail_loop, hpop, hr, Option.some_bind, hl, Option.map_some']

theorem am_process_result_failure {m : zbx_am_t} {client i : Nat} {x : zbx_am_alerter_t}
    {a : zbx_am_alert_t} {M : zbx_am_mediatype_t} {errcode : Int} (errmsg : String)
    (now : Int) (hw : am_wf m) (ho : am_ord m)
    (hc : am_get_alerter_by_client m client = some i) (hx : m.alerters[i]? = some x)
    (ha : x.alert = some a) (hM : am_get_mediatype m a.mediatypeid = some M)
    (he : errcode ≠ SUCCEED) :
    ∃ m', am_process_result m client errcode errmsg now = some (FAIL, m') ∧
      (∃ u, zbx_hashset_search (fun u : zbx_am_alertstatus_t => u.alertid) m'.alertupdates
          a.alertid = some u ∧
        u.status = (if a.retries + 1 < M.maxattempts then ALERT_STATUS_NOT_SENT
          else ALERT_STATUS_FAILED) ∧ u.retries = a.retries ∧ u.error = errmsg) ∧
      (a.retries + 1 < M.maxattempts →
        ∃ P', alertpool_deref m' a.mediatypeid a.alertpoolid = some P' ∧
          ({ a with retries := a.retries + 1, nextsend := int_wrap (now + M.attempt_interval) } :
            zbx_am_alert_t) ∈ P'.queue) ∧
      (M.maxattempts ≤ a.retries + 1 →
        ∀ P', alertpool_deref m' a.mediatypeid a.alertpoolid = some P' →
          ∃ P, alertpool_deref m a.mediatypeid a.alertpoolid = some P ∧
            P'.queue = P.queue) := by
  obtain ⟨⟨ret, m1⟩, hr, -⟩ := am_retry_alert_ord a now hw ho
  have hres : am_process_result m client errcode errmsg now =
      some (FAIL,
        { alerter_set_alert (am_db_update_alert m1 a.alertid
            (if ret = SUCCEED then ALERT_STATUS_NOT_SENT else ALERT_STATUS_FAILED) a.retries
            errmsg) i none with
          free_alerters := (alerter_set_alert (am_db_update_alert m1 a.alertid
            (if ret = SUCCEED then ALERT_STATUS_NOT_SENT else ALERT_STATUS_FAILED) a.retries
            errmsg) i none).free_alerters ++ [i] }) := by
    unfold am_process_result
    rw [hc]
    simp only [Option.some_bind]
    rw [hx]
    simp only [Option.some_bind]
    rw [ha]
    simp only [Option.some_bind]
    rw [if_neg he, hr]
    rfl
  have hret : ret = SUCCEED ↔ a.retries + 1 < M.maxattempts := by
    rcases am_retry_alert_inv hr with ⟨h0, -⟩ | ⟨M0, hM0, hle, hf, -⟩ | ⟨M0, m3, m4, hM0, hlt, hs, -⟩
    · rw [hM] at h0; cases h0
    · rw [hM] at hM0
      cases hM0
      simp only at hf
      constructor
      · intro e
        rw [e] at hf
        exact absurd hf (by decide)
      · intro e
        omega
    · rw [hM] at hM0
      cases hM0
      simp only at hs
      exact ⟨fun _ => by omega, fun _ => hs⟩
  refine ⟨_, hres, ?_, ?_, ?_⟩
  · obtain ⟨u, hu, h1, h2, h3⟩ := am_db_update_alert_search m1 a.alertid
      (if ret = SUCCEED then ALERT_STATUS_NOT_SENT else ALERT_STATUS_FAILED) a.retries errmsg
    refine ⟨u, hu, ?_, h2, h3⟩
    rw [h1]
    by_cases hlt : a.retries + 1 < M.maxattempts
    · rw [if_pos (hret.2 hlt), if_pos hlt]
    · rw [if_neg (fun e => hlt (hret.1 e)), if_neg hlt]
  · intro hlt
    have hs := hret.2 hlt
    subst hs
    obtain ⟨-, -, -, -, P0, q, -, hq, hP'⟩ := am_retry_alert_effect hw hr hM
    exact ⟨_, hP', hq.mem_iff.2 (List.mem_cons_self _ _)⟩
  · intro hle P' hP'
    have hrem : am_remove_alert m a = some m1 := by
      have := am_retry_alert_exhausted now hM hle
      rw [hr, eq_comm, Option.map_eq_some'] at this
      obtain ⟨m2, h2, h3⟩ := this
      cases h3
      exact h2
    obtain ⟨-, -, -, hpool⟩ := am_remove_alert_effect hw hrem hM
    rcases hpool with ⟨-, hn⟩ | ⟨P, hP, -, hP1⟩
    · have : alertpool_deref m1 a.mediatypeid a.alertpoolid = some P' := hP'
      rw [hn] at this
      cases this
    · have : alertpool_deref m1 a.mediatypeid a.alertpoolid = some P' := hP'
      rw [hP1] at this
      cases this
      exact ⟨P, hP, rfl⟩

/-- C18: (1) in a manager whose only alert `A` has retries 0 and whose media type has
maxattempts k + 1 (maxsessions 0 or positive), the loop in which every delivery fails hands
out an alert exactly k + 1 times and ends with the manager queue empty and the media type
destroyed; (2) in every state the main loop reaches, the failure result for the alert `a` held
by an alerter buffers the status NOT_SENT when retries + 1 < maxattempts, and then the alert
with retries incremented is queued in its alert pool, and buffers the status FAILED otherwise,
and then the alert is not queued again. -/
theorem C18_bounded_retries :
    (∀ (n : Nat) (ops : List am_op) (s : am_sched) (A : zbx_am_alert_t)
        (M : zbx_am_mediatype_t) (P : zbx_am_alertpool_t) (k : Nat) (now : Int),
      am_run guard_in_flight (am_sched_init n) ops = some s → s.in_flight = [] →
      s.manager.queue = [A.mediatypeid] →
      am_get_mediatype s.manager A.mediatypeid = some M → M.queue = [A.alertpoolid] →
      alertpool_deref s.manager A.mediatypeid A.alertpoolid = some P → P.queue = [A] →
      (M.maxsessions = 0 ∨ 0 < M.maxsessions) → A.retries = 0 → M.maxattempts = (k : Int) + 1 →
      ∃ m', am_fail_loop (k + 2) s.manager now = some (k + 1, m') ∧ m'.queue = [] ∧
        am_get_mediatype m' A.mediatypeid = none) ∧
    (∀ (n : Nat) (es : List am_event) (m : zbx_am_t) (client i : Nat) (x : zbx_am_alerter_t)
        (a : zbx_am_alert_t) (M : zbx_am_mediatype_t) (errcode : Int) (errmsg : String)
        (now : Int),
      am_main_run (am_init n) es = some m → am_get_alerter_by_client m client = some i →
      m.alerters[i]? = some x → x.alert = some a →
      am_get_mediatype m a.mediatypeid = some M → errcode ≠ SUCCEED →
      ∃ m', am_process_result m client errcode errmsg now = some (FAIL, m') ∧
        (∃ u, zbx_hashset_search (fun u : zbx_am_alertstatus_t => u.alertid) m'.alertupdates
            a.alertid = some u ∧
          u.status = (if a.retries + 1 < M.maxattempts then ALERT_STATUS_NOT_SENT
            else ALERT_STATUS_FAILED) ∧ u.retries = a.retries ∧ u.error = errmsg) ∧
        (a.retries + 1 < M.maxattempts →
          ∃ P', alertpool_deref m' a.mediatypeid a.alertpoolid = some P' ∧
            ({ a with retries := a.retries + 1, nextsend := int_wrap (now + M.attempt_interval) } :
              zbx_am_alert_t) ∈ P'.queue) ∧
        (M.maxattempts ≤ a.retries + 1 →
          ∀ P', alertpool_deref m' a.mediatypeid a.alertpoolid = some P' →
            ∃ P, alertpool_deref m a.mediatypeid a.alertpoolid = some P ∧
              P'.queue = P.queue)) := by
  constructor
  · intro n ops s A M P k now h hf hq hM hMq hP hPq hc hr hk
    have hs := am_single_of_run h hf hq hM hMq hP hPq
    exact am_fail_loop_count hc now k s.manager A hs (by rw [hr, hk]; simp) (k + 2) (le_refl _)
  · intro n es m client i x a M errcode errmsg now h hc hx ha hM he
    obtain ⟨hi, ho⟩ := am_main_reachable h
    exact am_process_result_failure errmsg now hi.inv.wf ho hc hx ha hM he

/-- Witness of C18: an alert under a media type with maxattempts 3 is handed out three times
by the failing loop, and the first failure result of the main loop buffers NOT_SENT; the main
loop run with three failures ends with the status FAILED buffered and nothing queued. -/
theorem C18_bounded_retries_witness :
    (∃ m', am_fail_loop 4 (am_run_state guard_in_flight single_ops).manager 100 =
        some (3, m') ∧ m'.queue = [] ∧
      am_get_mediatype m' (sample_alert 1 1 7 10).mediatypeid = none) ∧
    (∃ m', am_process_result (am_main_state 2 retry_events) 100 FAIL "failed" 100 =
        some (FAIL, m') ∧
      ∃ u, zbx_hashset_search (fun u : zbx_am_alertstatus_t => u.alertid) m'.alertupdates
          (sample_alert 1 1 7 10).alertid = some u ∧
        u.status = (if (sample_alert 1 1 7 10).retries + 1 <
            ((am_get_mediatype (am_main_state 2 retry_events) 1).getD
              (mediatype_local 1)).maxattempts
          then ALERT_STATUS_NOT_SENT else ALERT_STATUS_FAILED) ∧
        u.retries = (sample_alert 1 1 7 10).retries ∧ u.error = "failed") ∧
    am_main_run (am_init 2) failing_events = some (am_main_state 2 failing_events) ∧
    (am_main_state 2 failing_events).queue = [] ∧
    (am_main_state 2 failing_events).alertupdates.map (fun u => (u.alertid, u.status, u.retries))
      = [(1, ALERT_STATUS_FAILED, 2)] :=
  ⟨C18_bounded_retries.1 0 single_ops _ (sample_alert 1 1 7 10)
      ((am_get_mediatype (am_run_state guard_in_flight single_ops).manager 1).getD
        (mediatype_local 1))
      ((alertpool_deref (am_run_state guard_in_flight single_ops).manager 1 7).getD
        { id := 7, mediatypeid := 1, queue := [], location := 0 })
      2 100 (by decide) (by decide) (by decide) (by decide) (by decide) (by decide) (by decide)
      (by decide) (by decide) (by decide),
    Exists.imp (fun _ h => ⟨h.1, h.2.1⟩)
      (C18_bounded_retries.2 2 retry_events _ 100 0
        (((am_main_state 2 retry_events).alerters[0]?).getD { client := none, alert := none })
        (sample_alert 1 1 7 10)
        ((am_get_mediatype (am_main_state 2 retry_events) 1).getD (mediatype_local 1))
        FAIL "failed" 100 (by decide) (by decide) (by decide) (by decide) (by decide)
        (by decide)),
    by decide, by decide, by decide⟩

/-- Witness of C20: in the state after five alerts were queued, the earliest of which has
nextsend 5, am_check_queue returns FAIL at the time 4 and SUCCEED at the time 5. -/
theorem C20_check_queue_witness :
    am_check_queue (am_run_state guard_any ordering_ops).manager 4 = some false ∧
    am_check_queue (am_run_state guard_any ordering_ops).manager 5 = some true ∧
    ∃ id t M pid tp P a rest,
      (am_run_state guard_any ordering_ops).manager.queue = id :: t ∧
      am_get_mediatype (am_run_state guard_any ordering_ops).manager id = some M ∧
      M.queue = pid :: tp ∧
      alertpool_deref (am_run_state guard_any ordering_ops).manager id pid = some P ∧
      P.queue = a :: rest ∧ a.nextsend ≤ 5 :=
  ⟨by decide, by decide,
    (C20_check_queue (am_run_state guard_any ordering_ops).manager 5).1.1 (by decide)⟩

/-! ## The status updates are not touched by the scheduler -/

theorem am_push_meditype_updates {m m' : zbx_am_t} {id : Nat}
    (h : am_push_meditype m id = some m') : m'.alertupdates = m.alertupdates := by
  obtain ⟨M, -, -, h⟩ := am_push_meditype_inv h
  rcases h with ⟨-, rfl⟩ | ⟨-, -, -, q, -, rfl⟩ | ⟨-, -, -, rfl⟩ | ⟨-, -, q, -, rfl⟩ <;> rfl

theorem am_push_alertpool_updates {m m' : zbx_am_t} {mid pid : Nat}
    (h : am_push_alertpool m mid pid = some m') : m'.alertupdates = m.alertupdates := by
  obtain ⟨M, P, -, -, h⟩ := am_push_alertpool_inv h
  rcases h with ⟨-, q, -, rfl⟩ | ⟨-, q, -, rfl⟩ <;> rfl

theorem am_get_alertpool_updates (m : zbx_am_t) (mid pid : Nat) :
    (am_get_alertpool m mid pid).2.alertupdates = m.alertupdates := by
  cases hs : alertpool_deref m mid pid with
  | some P => rw [am_get_alertpool_some hs]
  | none => rw [am_get_alertpool_none hs]

theorem am_remove_alert_updates {m m' : zbx_am_t} {a : zbx_am_alert_t}
    (h : am_remove_alert m a = some m') : m'.alertupdates = m.alertupdates := by
  rcases am_remove_alert_inv h with ⟨-, rfl⟩ | ⟨M, m3, M3, -, h3, -, h4⟩
  · rfl
  · have e2 : (am_get_alertpool (mediatype_store m { M with alerts_num := M.alerts_num - 1 })
        a.mediatypeid a.alertpoolid).2.alertupdates = m.alertupdates :=
      am_get_alertpool_updates _ _ _
    have e3 : m3.alertupdates = m.alertupdates := by
      rcases h3 with ⟨-, rfl⟩ | ⟨-, hp⟩
      · exact e2
      · exact (am_push_alertpool_updates hp).trans e2
    rcases h4 with ⟨-, -, rfl⟩ | ⟨-, hp⟩
    · exact e3
    · exact (am_push_meditype_updates hp).trans e3

theorem am_retry_alert_ret {m : zbx_am_t} {a : zbx_am_alert_t} {now : Int}
    {r : Int × zbx_am_t} (h : am_retry_alert m a now = some r) :
    r.1 = SUCCEED ∨ r.1 = FAIL := by
  rcases am_retry_alert_inv h with ⟨-, rfl⟩ | ⟨M, -, -, h1, -⟩ | ⟨M, m3, m4, -, -, h1, -⟩
  · exact Or.inr rfl
  · exact Or.inr h1
  · exact Or.inl h1

/-- The outcome of am_process_result in a well-formed and ordered manager. -/
theorem am_process_result_outcome {m : zbx_am_t} {client i : Nat} {x : zbx_am_alerter_t}
    {a : zbx_am_alert_t} (errcode : Int) (errmsg : String) (now : Int) (hw : am_wf m)
    (ho : am_ord m) (hc : am_get_alerter_by_client m client = some i)
    (hx : m.alerters[i]? = some x) (ha : x.alert = some a) :
    ∃ r u, am_process_result m client errcode errmsg now = some r ∧
      zbx_hashset_search (fun u : zbx_am_alertstatus_t => u.alertid) r.2.alertupdates
        a.alertid = some u ∧
      u.retries = a.retries ∧
      (u.status = ALERT_STATUS_SENT ↔ errcode = SUCCEED) ∧
      (errcode = SUCCEED → r.1 = SUCCEED ∧ u.error = "" ∧
        ∃ m1, am_remove_alert m a = some m1 ∧ r.2.mediatypes = m1.mediatypes ∧
          r.2.alertpools = m1.alertpools ∧ r.2.queue = m1.queue) ∧
      (u.status = ALERT_STATUS_NOT_SENT ↔
        errcode ≠ SUCCEED ∧ ∃ m1, am_retry_alert m a now = some (SUCCEED, m1)) ∧
      (u.status = ALERT_STATUS_FAILED ↔
        errcode ≠ SUCCEED ∧ ∃ m1, am_retry_alert m a now = some (FAIL, m1)) ∧
      (errcode ≠ SUCCEED → r.1 = FAIL ∧ u.error = errmsg ∧
        ∃ r1, am_retry_alert m a now = some r1 ∧ r.2.mediatypes = r1.2.mediatypes ∧
          r.2.alertpools = r1.2.alertpools ∧ r.2.queue = r1.2.queue) := by
  by_cases he : errcode = SUCCEED
  · obtain ⟨m1, hr, -⟩ := am_remove_alert_ord a hw ho
    have hres : am_process_result m client errcode errmsg now =
        some (SUCCEED,
          { alerter_set_alert (am_db_update_alert m1 a.alertid ALERT_STATUS_SENT a.retries "")
              i none with
            free_alerters := (alerter_set_alert (am_db_update_alert m1 a.alertid
              ALERT_STATUS_SENT a.retries "") i none).free_alerters ++ [i] }) := by
      unfold am_process_result
      rw [hc]
      simp only [Option.some_bind]
      rw [hx]
      simp only [Option.some_bind]
      rw [ha]
      simp only [Option.some_bind]
      rw [if_pos he, hr]
      rfl
    obtain ⟨u, hu, h1, h2, h3⟩ := am_db_update_alert_search m1 a.alertid ALERT_STATUS_SENT
      a.retries ""
    refine ⟨_, u, hres, hu, h2, ?_, ?_, ?_, ?_, ?_⟩
    · exact ⟨fun _ => he, fun _ => h1⟩
    · intro _
      exact ⟨rfl, h3, m1, hr, rfl, rfl, rfl⟩
    · rw [h1]
      exact ⟨fun e => absurd e (by decide), fun e => absurd he e.1⟩
    · rw [h1]
      exact ⟨fun e => absurd e (by decide), fun e => absurd he e.1⟩
    · intro e
      exact absurd he e
  · obtain ⟨⟨ret, m1⟩, hr, -⟩ := am_retry_alert_ord a now hw ho
    have hres : am_process_result m client errcode errmsg now =
        some (FAIL,
          { alerter_set_alert (am_db_update_alert m1 a.alertid
              (if ret = SUCCEED then ALERT_STATUS_NOT_SENT else ALERT_STATUS_FAILED) a.retries
              errmsg) i none with
            free_alerters := (alerter_set_alert (am_db_update_alert m1 a.alertid
              (if ret = SUCCEED then ALERT_STATUS_NOT_SENT else ALERT_STATUS_FAILED) a.retries
              errmsg) i none).free_alerters ++ [i] }) := by
      unfold am_process_result
      rw [hc]
      simp only [Option.some_bind]
      rw [hx]
      simp only [Option.some_bind]
      rw [ha]
      simp only [Option.some_bind]
      rw [if_neg he, hr]
      rfl
    obtain ⟨u, hu, h1, h2, h3⟩ := am_db_update_alert_search m1 a.alertid
      (if ret = SUCCEED then ALERT_STATUS_NOT_SENT else ALERT_STATUS_FAILED) a.retries errmsg
    have hret : ret = SUCCEED ∨ ret = FAIL := am_retry_alert_ret hr
    refine ⟨_, u, hres, hu, h2, ?_, ?_, ?_, ?_, ?_⟩
    · rw [h1]
      constructor
      · intro e
        rcases hret with e1 | e1
        · rw [if_pos e1] at e
          exact absurd e (by decide)
        · rw [e1] at e
          exact absurd e (by decide)
      · intro e
        exact absurd e he
    · intro e
      exact absurd e he
    · rw [h1]
      constructor
      · intro e
        rcases hret with e1 | e1
        · subst e1
          exact ⟨he, m1, hr⟩
        · rw [e1] at e
          exact absurd e (by decide)
      · rintro ⟨-, m2, h2⟩
        rw [hr] at h2
        cases h2
        rfl
    · rw [h1]
      constructor
      · intro e
        rcases hret with e1 | e1
        · rw [if_pos e1] at e
          exact absurd e (by decide)
        · subst e1
          exact ⟨he, m1, hr⟩
      · rintro ⟨-, m2, h2⟩
        rw [hr] at h2
        cases h2
        rfl
    · intro _
      exact ⟨rfl, h3, _, hr, rfl, rfl, rfl⟩

/-- C21: in every state the main loop reaches, the result of the alerter that holds the alert
`a` is processed (am_process_result returns), and the status update buffered for the alert
carries the retries of the alert and has the status SENT exactly when errcode is SUCCEED (then
the buffered error is empty whatever errmsg is, and the scheduler is the one am_remove_alert
leaves), the status NOT_SENT exactly when errcode is a failure and am_retry_alert returned
SUCCEED (the alert was queued again), and the status FAILED exactly when errcode is a failure
and am_retry_alert returned FAIL; on a failure the buffered error is errmsg. -/
theorem C21_process_result_outcome (n : Nat) (es : List am_event) (m : zbx_am_t)
    (client i : Nat) (x : zbx_am_alerter_t) (a : zbx_am_alert_t) (errcode : Int)
    (errmsg : String) (now : Int)
    (h : am_main_run (am_init n) es = some m)
    (hc : am_get_alerter_by_client m client = some i) (hx : m.alerters[i]? = some x)
    (ha : x.alert = some a) :
    ∃ r u, am_process_result m client errcode errmsg now = some r ∧
      zbx_hashset_search (fun u : zbx_am_alertstatus_t => u.alertid) r.2.alertupdates
        a.alertid = some u ∧
      u.retries = a.retries ∧
      (u.status = ALERT_STATUS_SENT ↔ errcode = SUCCEED) ∧
      (errcode = SUCCEED → r.1 = SUCCEED ∧ u.error = "" ∧
        ∃ m1, am_remove_alert m a = some m1 ∧ r.2.mediatypes = m1.mediatypes ∧
          r.2.alertpools = m1.alertpools ∧ r.2.queue = m1.queue) ∧
      (u.status = ALERT_STATUS_NOT_SENT ↔
        errcode ≠ SUCCEED ∧ ∃ m1, am_retry_alert m a now = some (SUCCEED, m1)) ∧
      (u.status = ALERT_STATUS_FAILED ↔
        errcode ≠ SUCCEED ∧ ∃ m1, am_retry_alert m a now = some (FAIL, m1)) ∧
      (errcode ≠ SUCCEED → r.1 = FAIL ∧ u.error = errmsg ∧
        ∃ r1, am_retry_alert m a now = some r1 ∧ r.2.mediatypes = r1.2.mediatypes ∧
          r.2.alertpools = r1.2.alertpools ∧ r.2.queue = r1.2.queue) := by
  obtain ⟨hi, ho⟩ := am_main_reachable h
  exact am_process_result_outcome errcode errmsg now hi.inv.wf ho hc hx ha

/-- Witness of C21: the alerter 100 holds the alert 1; a SUCCEED result buffers the status
SENT with an empty error although the worker sent a text, a FAIL result buffers NOT_SENT with
the text of the worker. -/
theorem C21_process_result_outcome_witness :
    (∃ r u, am_process_result (am_main_state 2 retry_events) 100 SUCCEED "ignored" 100 =
        some r ∧
      zbx_hashset_search (fun u : zbx_am_alertstatus_t => u.alertid) r.2.alertupdates
        (sample_alert 1 1 7 10).alertid = some u ∧
      u.retries = (sample_alert 1 1 7 10).retries ∧
      (u.status = ALERT_STATUS_SENT ↔ SUCCEED = SUCCEED)) ∧
    ((am_process_result (am_main_state 2 retry_events) 100 SUCCEED "ignored" 100).map fun r =>
      (r.1, r.2.alertupdates.map fun u => (u.alertid, u.status, u.retries, u.error))) =
      some (SUCCEED, [(1, ALERT_STATUS_SENT, 0, "")]) ∧
    ((am_process_result (am_main_state 2 retry_events) 100 FAIL "failed" 100).map fun r =>
      (r.1, r.2.alertupdates.map fun u => (u.alertid, u.status, u.retries, u.error))) =
      some (FAIL, [(1, ALERT_STATUS_NOT_SENT, 0, "failed")]) :=
  ⟨Exists.imp (fun _ => Exists.imp fun _ h => ⟨h.1, h.2.1, h.2.2.1, h.2.2.2.1⟩)
      (C21_process_result_outcome 2 retry_events _ 100 0
        (((am_main_state 2 retry_events).alerters[0]?).getD { client := none, alert := none })
        (sample_alert 1 1 7 10) SUCCEED "ignored" 100 (by decide) (by decide) (by decide)
        (by decide)),
    by decide, by decide⟩

/-- C22: in every state the main loop reaches, when the dispatch loop has taken an alerter
`i` from the free queue and am_pop_alert returns the alert `a` whose media type exists with a
type that is none of
e-mail, jabber, SMS, Ez Texting and script, am_process_alert returns FAIL and sends no
message; its manager is the one am_remove_alert leaves after the status update was buffered,
the buffered update of the alert has the status FAILED, retries 0 and the error
"unsupported media type", the alerters are unchanged (the alert is not assigned), and
alerts_num of the media type is decremented (or the media type is destroyed with
alerts_num 0). -/
theorem C22_unsupported_mediatype (n : Nat) (es : List am_event) (m : zbx_am_t) (env : am_env)
    (i : Nat) (rest : List Nat) (a : zbx_am_alert_t) (m2 : zbx_am_t) (M : zbx_am_mediatype_t)
    (h : am_main_run (am_init n) es = some m)
    (hp : am_pop_alert { m with free_alerters := rest } = some (some a, m2))
    (hM : am_get_mediatype m2 a.mediatypeid = some M)
    (h1 : M.type ≠ MEDIA_TYPE_EMAIL) (h2 : M.type ≠ MEDIA_TYPE_JABBER)
    (h3 : M.type ≠ MEDIA_TYPE_SMS) (h4 : M.type ≠ MEDIA_TYPE_EZ_TEXTING)
    (h5 : M.type ≠ MEDIA_TYPE_EXEC) :
    ∃ res, am_process_alert env m2 i a = some res ∧ res.ret = FAIL ∧ res.sent = none ∧
      am_remove_alert
        (am_db_update_alert m2 a.alertid ALERT_STATUS_FAILED 0 "unsupported media type") a =
        some res.manager ∧
      (∃ u, zbx_hashset_search (fun u : zbx_am_alertstatus_t => u.alertid)
          res.manager.alertupdates a.alertid = some u ∧
        u.status = ALERT_STATUS_FAILED ∧ u.retries = 0 ∧ u.error = "unsupported media type") ∧
      res.manager.alerters = m2.alerters ∧
      ((am_get_mediatype res.manager a.mediatypeid = none ∧ M.alerts_num - 1 = 0) ∨
        ∃ M', am_get_mediatype res.manager a.mediatypeid = some M' ∧
          M'.alerts_num = M.alerts_num - 1) := by
  obtain ⟨hi, ho⟩ := am_main_reachable h
  have hw0 : am_wf { m with free_alerters := rest } :=
    @am_wf_congr m _ rfl rfl rfl hi.inv.wf
  have ho0 : am_ord { m with free_alerters := rest } := @am_ord_congr m _ rfl rfl rfl ho
  have hw2 := am_wf_pop_alert hw0 hp
  have ho2 := am_ord_of_pop hw0 ho0 hp
  have hw3 : am_wf (am_db_update_alert m2 a.alertid ALERT_STATUS_FAILED 0
      "unsupported media type") := @am_wf_congr m2 _ rfl rfl rfl hw2
  have ho3 : am_ord (am_db_update_alert m2 a.alertid ALERT_STATUS_FAILED 0
      "unsupported media type") := @am_ord_congr m2 _ rfl rfl rfl ho2
  obtain ⟨m3, hr, -⟩ := am_remove_alert_ord a hw3 ho3
  have hM3 : am_get_mediatype (am_db_update_alert m2 a.alertid ALERT_STATUS_FAILED 0
      "unsupported media type") a.mediatypeid = some M := hM
  have hres : am_process_alert env m2 i a =
      some { ret := FAIL, manager := m3, sent := none } := by
    unfold am_process_alert
    rw [hM]
    simp only [if_neg h1, if_neg h2, if_neg h3, if_neg h4, if_neg h5]
    rw [hr]
    rfl
  refine ⟨_, hres, rfl, rfl, hr, ?_, ?_, ?_⟩
  · obtain ⟨u, hu, e1, e2, e3⟩ := am_db_update_alert_search m2 a.alertid ALERT_STATUS_FAILED 0
      "unsupported media type"
    refine ⟨u, ?_, e1, e2, e3⟩
    show zbx_hashset_search _ m3.alertupdates a.alertid = some u
    rw [am_remove_alert_updates hr]
    exact hu
  · exact (am_remove_alert_alerters hr).1
  · obtain ⟨-, hmt, -, -⟩ := am_remove_alert_effect hw3 hr hM3
    rcases hmt with ⟨e1, e2⟩ | ⟨M', e1, e2, -⟩
    · exact Or.inl ⟨e1, e2⟩
    · refine Or.inr ⟨M', e1, ?_⟩
      rw [e2]

/-- Witness of C22: the only alert belongs to a media type of the type 7; the dispatch of it
fails with the buffered update (1, FAILED, 0, "unsupported media type"), the alerter holds no
alert and the media type is gone. -/
theorem C22_unsupported_mediatype_witness :
    (∃ res, am_process_alert sample_env
        ((am_pop_alert { am_main_state 1 unsupported_events with free_alerters := [] }).getD
          (none, am_init 0)).2 0 (sample_alert 1 1 7 10) = some res ∧
      res.ret = FAIL ∧ res.sent = none) ∧
    ((am_process_alert sample_env
        ((am_pop_alert { am_main_state 1 unsupported_events with free_alerters := [] }).getD
          (none, am_init 0)).2 0 (sample_alert 1 1 7 10)).map fun res =>
      res.manager.alertupdates.map fun u => (u.alertid, u.status, u.retries, u.error)) =
      some [(1, ALERT_STATUS_FAILED, 0, "unsupported media type")] ∧
    ((am_process_alert sample_env
        ((am_pop_alert { am_main_state 1 unsupported_events with free_alerters := [] }).getD
          (none, am_init 0)).2 0 (sample_alert 1 1 7 10)).map fun res =>
      (res.manager.alerters.map fun x => x.alert.isSome, res.manager.mediatypes.length)) =
      some ([false], 0) :=
  ⟨Exists.imp (fun _ h => ⟨h.1, h.2.1, h.2.2.1⟩)
      (C22_unsupported_mediatype 1 unsupported_events (am_main_state 1 unsupported_events)
        sample_env 0 [] (sample_alert 1 1 7 10) _
        ((am_get_mediatype
          ((am_pop_alert { am_main_state 1 unsupported_events with free_alerters := [] }).getD
            (none, am_init 0)).2 1).getD (mediatype_local 1))
        (by decide) (by decide) (by decide) (by decide) (by decide) (by decide) (by decide)
        (by decide)),
    by decide, by decide⟩

theorem am_get_alertpool_idem (m : zbx_am_t) (mid pid : Nat) :
    am_get_alertpool (am_get_alertpool m mid pid).2 mid pid = am_get_alertpool m mid pid := by
  rw [am_get_alertpool_some (am_get_alertpool_deref m mid pid).1]

/-- Two alerts with the identifiers of one pool that are queued one after the other are
elements of the alert queue of that pool. -/
theorem am_db_queue_alert_twice {m : zbx_am_t} (a1 a2 : zbx_am_alert_t) (hw : am_wf m)
    (ho : am_ord m) (hm : a1.mediatypeid = a2.mediatypeid)
    (hp : a1.alertpoolid = a2.alertpoolid) (hex : am_get_mediatype m a1.mediatypeid ≠ none) :
    ∃ m1 m2 P, am_db_queue_alert m a1 = some m1 ∧ am_db_queue_alert m1 a2 = some m2 ∧
      alertpool_deref m2 a1.mediatypeid a1.alertpoolid = some P ∧ a1 ∈ P.queue ∧
      a2 ∈ P.queue := by
  obtain ⟨m1, h1, ho1⟩ := am_db_queue_alert_ord a1 hw ho
  have hw1 := am_wf_db_queue_alert hw h1
  obtain ⟨m2, h2, -⟩ := am_db_queue_alert_ord a2 hw1 ho1
  obtain ⟨hf1, -, -, P0, q, -, hq, hP1⟩ := am_db_queue_alert_effect hw h1 hex
  have hex1 : am_get_mediatype m1 a2.mediatypeid ≠ none := by
    rw [← hm]
    cases hG : am_get_mediatype m a1.mediatypeid with
    | none => exact absurd hG hex
    | some M =>
      obtain ⟨M', hM', -⟩ := (hf1 a1.mediatypeid).2 M hG
      rw [hM']
      exact Option.some_ne_none _
  obtain ⟨-, -, -, P1, q1, hP1', hq1, hP2⟩ := am_db_queue_alert_effect hw1 h2 hex1
  rw [← hm, ← hp] at hP1' hP2
  rcases hP1' with e | ⟨e, -⟩
  · rw [hP1] at e
    cases e
    refine ⟨m1, m2, _, h1, h2, hP2, ?_, ?_⟩
    · exact hq1.mem_iff.2 (List.mem_cons_of_mem _ (hq.mem_iff.2 (List.mem_cons_self _ _)))
    · exact hq1.mem_iff.2 (List.mem_cons_self _ _)
  · rw [hP1] at e
    cases e

/-- C23: the alert pool id is the hash of the object id, mixed with the source and then with
the object, so it depends on (source, object, objectid) only; two alerts created by
am_create_alert from the same (source, object, objectid) have the same alertpoolid; a second
am_get_alertpool with the same identifiers returns the pool of the first and creates nothing;
and when two such alerts of one existing media type are queued in a state reached from the
empty manager, both are elements of the alert queue of the one pool with these
identifiers. -/
theorem C23_alertpoolid_deterministic (h : zbx_hash_env) :
    (∀ (source object : Int) (objectid : Nat),
      am_calc_alertpoolid h source object objectid =
        zbx_hash_t (h.ZBX_DEFAULT_UINT64_HASH_ALGO object 4
          (zbx_hash_t (h.ZBX_DEFAULT_UINT64_HASH_ALGO source 4
            (zbx_hash_t (h.ZBX_DEFAULT_UINT64_HASH_FUNC objectid)))))) ∧
    (∀ (source object : Int) (objectid alertid1 alertid2 mediatypeid1 mediatypeid2 : Nat)
        (sendto1 subject1 message1 sendto2 subject2 message2 : String)
        (status1 retries1 nextsend1 status2 retries2 nextsend2 : Int),
      (am_create_alert h alertid1 mediatypeid1 source object objectid sendto1 subject1 message1
          status1 retries1 nextsend1).alertpoolid =
        (am_create_alert h alertid2 mediatypeid2 source object objectid sendto2 subject2
          message2 status2 retries2 nextsend2).alertpoolid) ∧
    (∀ (m : zbx_am_t) (mediatypeid alertpoolid : Nat),
      am_get_alertpool (am_get_alertpool m mediatypeid alertpoolid).2 mediatypeid alertpoolid =
        am_get_alertpool m mediatypeid alertpoolid) ∧
    (∀ (n : Nat) (ops : List am_op) (s : am_sched) (r1 r2 : am_db_alert_row) (now1 now2 : Int)
        (a1 a2 : zbx_am_alert_t),
      am_run guard_any (am_sched_init n) ops = some s →
      r1.source = r2.source → r1.object = r2.object → r1.objectid = r2.objectid →
      r1.mediatypeid = r2.mediatypeid →
      am_get_mediatype s.manager r1.mediatypeid ≠ none →
      a1 ∈ am_db_get_alerts h [r1] now1 → a2 ∈ am_db_get_alerts h [r2] now2 →
      a1.alertpoolid = a2.alertpoolid ∧
      ∃ m1 m2 P, am_db_queue_alert s.manager a1 = some m1 ∧
        am_db_queue_alert m1 a2 = some m2 ∧
        alertpool_deref m2 r1.mediatypeid a1.alertpoolid = some P ∧
        a1 ∈ P.queue ∧ a2 ∈ P.queue) := by
  refine ⟨fun _ _ _ => rfl, ?_, am_get_alertpool_idem, ?_⟩
  · intros
    rfl
  · intro n ops s r1 r2 now1 now2 a1 a2 hrun e1 e2 e3 e4 hex h1 h2
    obtain ⟨hw, ho⟩ := am_ord_reachable hrun
    simp only [am_db_get_alerts, List.map_cons, List.map_nil, List.mem_singleton] at h1 h2
    have hp : a1.alertpoolid = a2.alertpoolid := by
      rw [h1, h2]
      show am_calc_alertpoolid h r1.source r1.object r1.objectid =
        am_calc_alertpoolid h r2.source r2.object r2.objectid
      rw [e1, e2, e3]
    have hm1 : a1.mediatypeid = r1.mediatypeid := by rw [h1]; rfl
    have hm2 : a2.mediatypeid = r2.mediatypeid := by rw [h2]; rfl
    refine ⟨hp, ?_⟩
    rw [← hm1] at hex ⊢
    exact am_db_queue_alert_twice a1 a2 hw ho (by rw [hm1, hm2, e4]) hp hex

/-- Witness of C23: two rows of the alert select for the object 5 under the media type 1, read
at different times, give alerts with one alertpoolid, and both alerts end up in one pool. -/
theorem C23_alertpoolid_deterministic_witness :
    (am_db_get_alerts sample_hash [sample_alert_row 1 1 5] 10).map
        (fun a => a.alertpoolid) =
      (am_db_get_alerts sample_hash [sample_alert_row 2 1 5] 20).map
        (fun a => a.alertpoolid) ∧
    ∀ a1 a2, a1 ∈ am_db_get_alerts sample_hash [sample_alert_row 1 1 5] 10 →
      a2 ∈ am_db_get_alerts sample_hash [sample_alert_row 2 1 5] 20 →
      a1.alertpoolid = a2.alertpoolid ∧
      ∃ m1 m2 P,
        am_db_queue_alert
          (am_run_state guard_any [.update_mediatype 1 (sample_args 0 3 60)]).manager a1 =
          some m1 ∧
        am_db_queue_alert m1 a2 = some m2 ∧
        alertpool_deref m2 (sample_alert_row 1 1 5).mediatypeid a1.alertpoolid = some P ∧
        a1 ∈ P.queue ∧ a2 ∈ P.queue :=
  ⟨rfl, fun a1 a2 =>
    (C23_alertpoolid_deterministic sample_hash).2.2.2 0
      [.update_mediatype 1 (sample_args 0 3 60)] _ (sample_alert_row 1 1 5)
      (sample_alert_row 2 1 5) 10 20 a1 a2 (by decide) (by decide) (by decide) (by decide)
      (by decide) (by decide)⟩

/-- Whether two object ids of one source and object have different alert pool ids is decided by
the hash functions: with the object id as its own hash and a mixing that keeps the seed all
64-bit object ids have different alert pool ids, with a constant hash all have the same. -/
theorem am_calc_alertpoolid_by_hash :
    (∃ h : zbx_hash_env, ∀ (source object : Int) (o1 o2 : Nat), o1 < 2 ^ 64 → o2 < 2 ^ 64 →
      o1 ≠ o2 → am_calc_alertpoolid h source object o1 ≠ am_calc_alertpoolid h source object o2) ∧
    (∃ h : zbx_hash_env, ∀ (source object : Int) (o1 o2 : Nat),
      am_calc_alertpoolid h source object o1 = am_calc_alertpoolid h source object o2) := by
  constructor
  · refine ⟨⟨fun value => value, fun _ _ seed => seed⟩, ?_⟩
    intro source object o1 o2 h1 h2 hne
    simp only [am_calc_alertpoolid, zbx_hash_t, Nat.mod_mod]
    rw [Nat.mod_eq_of_lt h1, Nat.mod_eq_of_lt h2]
    exact hne
  · exact ⟨⟨fun _ => 0, fun _ _ _ => 0⟩, fun _ _ _ _ => rfl⟩

/-! ## Updating an element of an ordered heap moves nothing -/

theorem binary_heap_bubble_down_stay {α : Type} (cmp : α → α → Option Int) (kt : α → Int)
    (fuel : Nat) (h : List α) (i : Nat) (ho : heap_ordered kt h) (hc : heap_cmp_by cmp kt h) :
    binary_heap_bubble_down cmp fuel h i = some (h, i) := by
  cases fuel with
  | zero => rfl
  | succ fuel =>
    unfold binary_heap_bubble_down
    by_cases h1 : h.length ≤ 2 * i + 1
    · rw [if_pos h1]
    · rw [if_neg h1]
      have hil : i < h.length := by omega
      have hll : 2 * i + 1 < h.length := by omega
      have hx := List.getElem?_eq_getElem hil
      have hl := List.getElem?_eq_getElem hll
      have hxl : kt h[i] ≤ kt h[2 * i + 1] :=
        ho (2 * i + 1) _ _ (by omega) (by rw [show (2 * i + 1 - 1) / 2 = i by omega]; exact hx) hl
      have cxl := hc _ (List.getElem_mem hil) _ (List.getElem_mem hll)
      have nxl : ¬ 0 < zbx_return_if_not_equal (kt h[i]) (kt h[2 * i + 1]) := by
        rw [zbx_return_if_not_equal_pos]
        omega
      by_cases h2 : h.length ≤ 2 * i + 2
      · rw [if_pos h2, hx, hl]
        simp only []
        rw [cxl]
        simp only []
        rw [if_neg nxl]
      · rw [if_neg h2]
        have hrl : 2 * i + 2 < h.length := by omega
        have hr := List.getElem?_eq_getElem hrl
        have hxr : kt h[i] ≤ kt h[2 * i + 2] :=
          ho (2 * i + 2) _ _ (by omega)
            (by rw [show (2 * i + 2 - 1) / 2 = i by omega]; exact hx) hr
        have cxr := hc _ (List.getElem_mem hil) _ (List.getElem_mem hrl)
        have clr := hc _ (List.getElem_mem hll) _ (List.getElem_mem hrl)
        have nxr : ¬ 0 < zbx_return_if_not_equal (kt h[i]) (kt h[2 * i + 2]) := by
          rw [zbx_return_if_not_equal_pos]
          omega
        rw [hx, hl, hr]
        simp only []
        rw [clr]
        simp only []
        by_cases h3 : zbx_return_if_not_equal (kt h[2 * i + 1]) (kt h[2 * i + 2]) ≤ 0
        · rw [if_pos h3, cxl]
          simp only []
          rw [if_neg nxl]
        · rw [if_neg h3, cxr]
          simp only []
          rw [if_neg nxr]

theorem zbx_binary_heap_update_direct_id {α : Type} [DecidableEq α]
    (cmp : α → α → Option Int) (kt : α → Int) (h : List α) (elem : α) (hm : elem ∈ h)
    (ho : heap_ordered kt h) (hc : heap_cmp_by cmp kt h) :
    zbx_binary_heap_update_direct cmp h elem = some h := by
  have hil : h.indexOf elem < h.length := List.indexOf_lt_length.2 hm
  generalize hie : h.indexOf elem = i at hil
  have key : binary_heap_bubble_up cmp i h i = some (h, i) := by
    have hci := List.getElem?_eq_getElem hil
    by_cases hi : i = 0
    · subst hi
      exact binary_heap_bubble_up_root cmp 0 h
    · have hpl : (i - 1) / 2 < h.length := by omega
      have hp := List.getElem?_eq_getElem hpl
      have hcmp := hc _ (List.getElem_mem hpl) _ (List.getElem_mem hil)
      exact binary_heap_bubble_up_stay cmp i h i _ _ _ hp hci hcmp
        ((zbx_return_if_not_equal_le _ _).2 (ho i _ _ (by omega) hp hci))
  unfold zbx_binary_heap_update_direct
  rw [if_pos hm, hie, key]
  simp only []
  rw [if_pos True.intro, binary_heap_bubble_down_stay cmp kt h.length h i ho hc]
  rfl

theorem mediatype_store_self {m : zbx_am_t} {id : Nat} {M : zbx_am_mediatype_t}
    (hk : (m.mediatypes.map mediatype_key).Nodup) (hM : am_get_mediatype m id = some M) :
    mediatype_store m M = m := by
  have hmem := am_get_mediatype_mem hM
  have hl : hashset_store mediatype_key m.mediatypes M = m.mediatypes := by
    unfold hashset_store
    conv_rhs => rw [← List.map_id m.mediatypes]
    apply List.map_congr_left
    intro x hx
    by_cases e : mediatype_key x = mediatype_key M
    · rw [if_pos e]
      exact (List.inj_on_of_nodup_map hk hx hmem e).symm
    · rw [if_neg e]
      rfl
  unfold mediatype_store
  rw [hl]

/-- In a well-formed manager whose queues are heaps up to the position of the pool, a second
am_push_alertpool changes nothing. -/
theorem am_push_alertpool_idem {m : zbx_am_t} {mid pid : Nat} {M : zbx_am_mediatype_t}
    {P : zbx_am_alertpool_t} (hw : am_wf m) (ho : am_ord_at m mid pid)
    (hM : am_get_mediatype m mid = some M) (hP : alertpool_deref m mid pid = some P)
    (hne : P.queue ≠ []) :
    ∃ m1, am_push_alertpool m mid pid = some m1 ∧ am_push_alertpool m1 mid pid = some m1 ∧
      ∃ M1 P1, am_get_mediatype m1 mid = some M1 ∧ alertpool_deref m1 mid pid = some P1 ∧
        M1.queue.count pid = 1 ∧ P1.location = ZBX_AM_LOCATION_QUEUE ∧ P1.queue = P.queue := by
  obtain ⟨m1, h1, ho1⟩ := am_push_alertpool_ord hw ho hM hP hne
  obtain ⟨hw1, -⟩ := am_wf_push_alertpool hw h1
    (fun P' hP' => by rw [hP] at hP'; cases hP'; exact hne)
  obtain ⟨-, -, P0, hP0, hP1⟩ := am_push_alertpool_frame hw h1
  rw [hP] at hP0
  cases hP0
  obtain ⟨M1, hM1, hpid⟩ := hw1.pool_mtq mid pid _ hP1 rfl
  have hnd := hw1.mtq_nodup mid M1 hM1
  have hcmp : heap_cmp_by (am_alertpool_queue_compare m1 mid) (am_pool_key m1 mid) M1.queue :=
    am_pool_cmp_by (am_wf_pool_heads hw1 hM1)
  have hid := zbx_binary_heap_update_direct_id (am_alertpool_queue_compare m1 mid)
    (am_pool_key m1 mid) M1.queue pid hpid (ho1.pools mid M1 hM1) hcmp
  have h2 : am_push_alertpool m1 mid pid = some m1 := by
    unfold am_push_alertpool
    rw [hM1]
    simp only [Option.some_bind]
    rw [hP1]
    simp only [Option.some_bind]
    rw [if_neg (by decide), (alertpool_deref_key hP).1, hid]
    simp only [Option.some_bind]
    exact congrArg some (mediatype_store_self hw1.mt_keys hM1)
  exact ⟨m1, h1, h2, M1, _, hM1, hP1, List.count_eq_one_of_mem hnd hpid, rfl, rfl⟩

/-- C25: in every state reached from the empty manager, (1) for every media type and every
alert pool of it with a non-empty alert queue, am_push_alertpool succeeds and a second
am_push_alertpool returns the very same state, in which the pool is an element of the pool
queue of the media type exactly once and has the location QUEUE; (2) the same holds in the
state right after am_push_alert added an alert to the pool (the state in which
am_db_queue_alerts and am_retry_alert call am_push_alertpool, the key of the pool having
changed). -/
theorem C25_push_alertpool_idempotent (n : Nat) (ops : List am_op) (s : am_sched)
    (h : am_run guard_any (am_sched_init n) ops = some s) (mid pid : Nat)
    (M : zbx_am_mediatype_t) (hM : am_get_mediatype s.manager mid = some M) :
    (∀ P, alertpool_deref s.manager mid pid = some P → P.queue ≠ [] →
      ∃ m1, am_push_alertpool s.manager mid pid = some m1 ∧
        am_push_alertpool m1 mid pid = some m1 ∧
        ∃ M1 P1, am_get_mediatype m1 mid = some M1 ∧ alertpool_deref m1 mid pid = some P1 ∧
          M1.queue.count pid = 1 ∧ P1.location = ZBX_AM_LOCATION_QUEUE ∧
          P1.queue = P.queue) ∧
    (∀ a : zbx_am_alert_t,
      ∃ m0 m1, am_push_alert (am_get_alertpool s.manager mid pid).2 mid pid a = some m0 ∧
        am_push_alertpool m0 mid pid = some m1 ∧ am_push_alertpool m1 mid pid = some m1 ∧
        ∃ M1 P1, am_get_mediatype m1 mid = some M1 ∧ alertpool_deref m1 mid pid = some P1 ∧
          M1.queue.count pid = 1 ∧ P1.location = ZBX_AM_LOCATION_QUEUE ∧ a ∈ P1.queue) := by
  obtain ⟨hw, ho⟩ := am_ord_reachable h
  constructor
  · intro P hP hne
    exact am_push_alertpool_idem hw (am_ord_mt_to_at (am_ord_to_mt ho mid) pid) hM hP hne
  · intro a
    have hwg := am_wf_get_alertpool hw mid pid
    have hog := am_ord_get_alertpool ho mid pid
    obtain ⟨hPg, -, hGg, -, -⟩ := am_get_alertpool_deref s.manager mid pid
    obtain ⟨m0, h0, ho0⟩ := am_push_alert_ord a hwg hog hPg
    obtain ⟨hw0, hne0⟩ := am_wf_push_alert hwg h0
    obtain ⟨P, q, hP, hq, hm0⟩ := am_push_alert_inv h0
    have hM0 : am_get_mediatype m0 mid = some M := by
      rw [hm0]
      have : am_get_mediatype (am_get_alertpool s.manager mid pid).2 mid = some M := by
        rw [hGg]; exact hM
      exact this
    have hP0 : alertpool_deref m0 mid pid = some { P with queue := q } := by
      rw [hm0, am_store_pool_queue_deref hP q mid pid, if_pos ⟨rfl, rfl⟩]
    obtain ⟨m1, h1, h2, M1, P1, e1, e2, e3, e4, e5⟩ :=
      am_push_alertpool_idem hw0 ho0 hM0 hP0 (hne0 _ hP0)
    refine ⟨m0, m1, h0, h1, h2, M1, P1, e1, e2, e3, e4, ?_⟩
    rw [e5]
    exact (zbx_binary_heap_insert_perm _ _ _ _ _ hq).1.mem_iff.2 (List.mem_cons_self _ _)

/-- Witness of C25: in the state with pools 7 and 8 queued under the media type 1 the pool 7
is pushed twice with one result, also after an alert that becomes the earliest one of the pool
was added to it. -/
theorem C25_push_alertpool_idempotent_witness :
    (∃ m1, am_push_alertpool (am_run_state guard_any ordering_ops).manager 1 7 = some m1 ∧
      am_push_alertpool m1 1 7 = some m1) ∧
    (∃ m0 m1,
      am_push_alert (am_get_alertpool (am_run_state guard_any ordering_ops).manager 1 7).2 1 7
        (sample_alert 9 1 7 1) = some m0 ∧
      am_push_alertpool m0 1 7 = some m1 ∧ am_push_alertpool m1 1 7 = some m1) :=
  ⟨Exists.imp (fun _ h => ⟨h.1, h.2.1⟩)
      ((C25_push_alertpool_idempotent 0 ordering_ops _ (by decide) 1 7
        ((am_get_mediatype (am_run_state guard_any ordering_ops).manager 1).getD
          (mediatype_local 1)) (by decide)).1
        ((alertpool_deref (am_run_state guard_any ordering_ops).manager 1 7).getD
          { id := 7, mediatypeid := 1, queue := [], location := 0 })
        (by decide) (by decide)),
    Exists.imp (fun _ => Exists.imp fun _ h => ⟨h.1, h.2.1, h.2.2.1⟩)
      ((C25_push_alertpool_idempotent 0 ordering_ops _ (by decide) 1 7
        ((am_get_mediatype (am_run_state guard_any ordering_ops).manager 1).getD
          (mediatype_local 1)) (by decide)).2 (sample_alert 9 1 7 1))⟩

/-! ## The alerts queued by am_db_queue_alerts -/

theorem am_db_queue_alert_stored {m m' : zbx_am_t} {b : zbx_am_alert_t} (hw : am_wf m)
    (h : am_db_queue_alert m b = some m') :
    (∀ a : zbx_am_alert_t,
      (∃ P, alertpool_deref m a.mediatypeid a.alertpoolid = some P ∧ a ∈ P.queue ∧
        P.location = ZBX_AM_LOCATION_QUEUE) →
      ∃ P, alertpool_deref m' a.mediatypeid a.alertpoolid = some P ∧ a ∈ P.queue ∧
        P.location = ZBX_AM_LOCATION_QUEUE) ∧
    (am_get_mediatype m b.mediatypeid ≠ none →
      ∃ P, alertpool_deref m' b.mediatypeid b.alertpoolid = some P ∧ b ∈ P.queue ∧
        P.location = ZBX_AM_LOCATION_QUEUE) ∧
    (∀ id, am_get_mediatype m' id = none ↔ am_get_mediatype m id = none) := by
  by_cases hex : am_get_mediatype m b.mediatypeid = none
  · rcases am_db_queue_alert_inv h with ⟨-, rfl⟩ | ⟨M, m2, m3, hM, -⟩
    · exact ⟨fun a ha => ha, fun hne => absurd hex hne, fun id => Iff.rfl⟩
    · rw [hex] at hM
      cases hM
  · obtain ⟨hf, -, hpf, P0, q, hP0, hq, hP'⟩ := am_db_queue_alert_effect hw h hex
    refine ⟨?_, fun _ => ⟨_, hP', hq.mem_iff.2 (List.mem_cons_self _ _), rfl⟩, ?_⟩
    · rintro a ⟨P, hP, ha, hl⟩
      by_cases e : a.mediatypeid = b.mediatypeid ∧ a.alertpoolid = b.alertpoolid
      · rw [e.1, e.2] at hP ⊢
        rcases hP0 with e0 | ⟨e0, -⟩
        · rw [hP] at e0
          cases e0
          exact ⟨_, hP', hq.mem_iff.2 (List.mem_cons_of_mem _ ha), rfl⟩
        · rw [hP] at e0
          cases e0
      · rw [hpf _ _ e]
        exact ⟨P, hP, ha, hl⟩
    · intro id
      constructor
      · intro hn
        cases hG : am_get_mediatype m id with
        | none => rfl
        | some M =>
          obtain ⟨M', hM', -⟩ := (hf id).2 M hG
          rw [hM'] at hn
          cases hn
      · exact (hf id).1

theorem am_db_queue_alerts_loop_stored (alerts : List zbx_am_alert_t) :
    ∀ m, am_wf m → am_ord m →
      ∃ m', am_db_queue_alerts_loop m alerts = some m' ∧
        (∀ a : zbx_am_alert_t,
          (∃ P, alertpool_deref m a.mediatypeid a.alertpoolid = some P ∧ a ∈ P.queue ∧
            P.location = ZBX_AM_LOCATION_QUEUE) →
          ∃ P, alertpool_deref m' a.mediatypeid a.alertpoolid = some P ∧ a ∈ P.queue ∧
            P.location = ZBX_AM_LOCATION_QUEUE) ∧
        (∀ a ∈ alerts, am_get_mediatype m a.mediatypeid ≠ none →
          ∃ P, alertpool_deref m' a.mediatypeid a.alertpoolid = some P ∧ a ∈ P.queue ∧
            P.location = ZBX_AM_LOCATION_QUEUE) ∧
        (∀ id, am_get_mediatype m' id = none ↔ am_get_mediatype m id = none) := by
  induction alerts with
  | nil =>
    intro m _ _
    exact ⟨m, rfl, fun a ha => ha, fun a ha => absurd ha (List.not_mem_nil a),
      fun id => Iff.rfl⟩
  | cons b rest ih =>
    intro m hw ho
    obtain ⟨m1, h1, ho1⟩ := am_db_queue_alert_ord b hw ho
    have hw1 := am_wf_db_queue_alert hw h1
    obtain ⟨s1, s2, s3⟩ := am_db_queue_alert_stored hw h1
    obtain ⟨m', h', t1, t2, t3⟩ := ih m1 hw1 ho1
    refine ⟨m', ?_, fun a ha => t1 a (s1 a ha), ?_, fun id => (t3 id).trans (s3 id)⟩
    · show (am_db_queue_alert m b).bind (fun m1 => am_db_queue_alerts_loop m1 rest) = some m'
      rw [h1]
      exact h'
    · intro a ha hex
      rcases List.mem_cons.1 ha with rfl | hr
      · exact t1 a (s2 hex)
      · exact t2 a hr (fun e => hex ((s3 _).1 e))

/-- C28: in every state the main loop reaches, for the alerts am_db_get_alerts creates from the
rows of the select at the time `now`: every alert has nextsend = now; am_db_queue_alerts
returns, and in its state every alert whose media type exists after am_db_update_mediatypes is
an element of the alert queue of the pool (mediatypeid, alertpoolid), and that pool is an
element of the pool queue of the media type; an alert whose media type does not exist then is
an element of no alert queue, its media type still does not exist, and its loop step
(am_db_queue_alert) returns the manager unchanged. -/
theorem C28_db_queue_alerts (h : zbx_hash_env) (n : Nat) (es : List am_event) (m : zbx_am_t)
    (rows : List am_db_alert_row) (media_type : List DB_MEDIATYPE) (now : Int)
    (hrun : am_main_run (am_init n) es = some m) :
    (∀ a ∈ am_db_get_alerts h rows now, a.nextsend = now) ∧
    (∀ (m0 : zbx_am_t) (a : zbx_am_alert_t), am_get_mediatype m0 a.mediatypeid = none →
      am_db_queue_alert m0 a = some m0) ∧
    ∃ m', am_db_queue_alerts m (am_db_get_alerts h rows now) media_type = some m' ∧
      (∀ a ∈ am_db_get_alerts h rows now,
        am_get_mediatype (am_db_update_mediatypes m (am_db_get_alerts h rows now) media_type)
          a.mediatypeid ≠ none →
        ∃ M P, am_get_mediatype m' a.mediatypeid = some M ∧ a.alertpoolid ∈ M.queue ∧
          alertpool_deref m' a.mediatypeid a.alertpoolid = some P ∧ a ∈ P.queue) ∧
      (∀ a ∈ am_db_get_alerts h rows now,
        am_get_mediatype (am_db_update_mediatypes m (am_db_get_alerts h rows now) media_type)
          a.mediatypeid = none →
        am_get_mediatype m' a.mediatypeid = none ∧ ∀ P ∈ m'.alertpools, a ∉ P.queue) := by
  obtain ⟨hi, ho⟩ := am_main_reachable hrun
  refine ⟨?_, ?_, ?_⟩
  · intro a ha
    simp only [am_db_get_alerts, List.mem_map] at ha
    obtain ⟨row, -, rfl⟩ := ha
    rfl
  · intro m0 a hn
    unfold am_db_queue_alert
    rw [hn]
  · by_cases hlen : 0 < (am_db_get_alerts h rows now).length
    · obtain ⟨hw0, ho0⟩ := am_ord_db_update_mediatypes
        (media_type.filter fun row =>
          decide (row.mediatypeid ∈ (am_db_get_alerts h rows now).map fun a => a.mediatypeid))
        m hi.inv.wf ho
      obtain ⟨m', h', -, t2, t3⟩ := am_db_queue_alerts_loop_stored
        (am_db_get_alerts h rows now) _ hw0 ho0
      have hq : am_db_queue_alerts m (am_db_get_alerts h rows now) media_type = some m' := by
        unfold am_db_queue_alerts
        rw [if_pos hlen]
        exact h'
      have hi' := am_main_inv_db_queue_alerts hi hq
      refine ⟨m', hq, ?_, ?_⟩
      · intro a ha hex
        obtain ⟨P, hP, haP, hl⟩ := t2 a ha hex
        obtain ⟨M, hM, hpid⟩ := hi'.inv.wf.pool_mtq _ _ P hP hl
        exact ⟨M, P, hM, hpid, hP, haP⟩
      · intro a ha hn
        have hn' : am_get_mediatype m' a.mediatypeid = none := (t3 _).2 hn
        refine ⟨hn', ?_⟩
        intro P hP haP
        exact am_inv_queued_alert_mediatype hi'.inv hP haP hn'
    · have hnil : am_db_get_alerts h rows now = [] := by
        cases hl : am_db_get_alerts h rows now with
        | nil => rfl
        | cons a l => rw [hl] at hlen; simp at hlen
      refine ⟨m, ?_, ?_, ?_⟩
      · unfold am_db_queue_alerts
        rw [if_neg hlen]
      · intro a ha
        rw [hnil] at ha
        exact absurd ha (List.not_mem_nil a)
      · intro a ha
        rw [hnil] at ha
        exact absurd ha (List.not_mem_nil a)

/-- Witness of C28: of two alerts read at the time 10 the media type table has a row for the
media type 1 only; the alert 1 is queued with nextsend 10 in the one pool of the media type 1,
the alert 2 is dropped. -/
theorem C28_db_queue_alerts_witness :
    (∃ m', am_db_queue_alerts (am_main_state 1 register_events)
        (am_db_get_alerts sample_hash sample_alert_rows 10) [sample_row 1 0] = some m') ∧
    ((am_db_queue_alerts (am_main_state 1 register_events)
        (am_db_get_alerts sample_hash sample_alert_rows 10) [sample_row 1 0]).map fun m' =>
      m'.mediatypes.map fun M => (M.mediatypeid, M.queue.length)) = some [(1, 1)] ∧
    ((am_db_queue_alerts (am_main_state 1 register_events)
        (am_db_get_alerts sample_hash sample_alert_rows 10) [sample_row 1 0]).map fun m' =>
      m'.alertpools.map fun P => (P.mediatypeid, P.queue.map fun a => (a.alertid, a.nextsend)))
      = some [(1, [(1, 10)])] :=
  ⟨Exists.imp (fun _ h => h.1)
      (C28_db_queue_alerts sample_hash 1 register_events _ sample_alert_rows
        [sample_row 1 0] 10 (by decide)).2.2,
    by decide, by decide⟩

/-! ## The update buffer -/

theorem am_db_update_alert_keys (m : zbx_am_t) (alertid : Nat) (status retries : Int)
    (error : String) (hn : (m.alertupdates.map fun u => u.alertid).Nodup) :
    ((am_db_update_alert m alertid status retries error).alertupdates.map
      fun u => u.alertid).Nodup := by
  have hmap : ∀ l : List zbx_am_alertstatus_t,
      (l.map fun u => if u.alertid = alertid then
          ({ u with retries := retries, status := status, error := error } :
            zbx_am_alertstatus_t) else u).map (fun u => u.alertid) =
        l.map fun u => u.alertid := by
    intro l
    rw [List.map_map]
    apply List.map_congr_left
    intro u _
    simp only [Function.comp]
    split <;> rfl
  unfold am_db_update_alert
  simp only
  rw [hmap]
  cases hs : zbx_hashset_search (fun u : zbx_am_alertstatus_t => u.alertid) m.alertupdates
      alertid with
  | some u => exact hn
  | none =>
    simp only
    have hnot : alertid ∉ m.alertupdates.map fun u => u.alertid := by
      intro hmem
      obtain ⟨u, hu, e⟩ := List.mem_map.1 hmem
      have := hashset_mem_search (fun u : zbx_am_alertstatus_t => u.alertid) m.alertupdates u
        hn hu
      simp only at this e
      rw [e, hs] at this
      cases this
    unfold zbx_hashset_insert
    simp only
    rw [hs]
    simp only [List.map_cons]
    exact List.nodup_cons.2 ⟨hnot, hn⟩

/-- C29: (1) on an empty update buffer am_db_flush_alert_updates begins no transaction and
returns the manager unchanged; (2) on a non-empty buffer that holds every alertid once (it is
a hash set keyed by alertid) the statements of the transaction are, up to their order, the
buffered entries with their status, retries and escaped error, one statement per entry, the
alertids of the statements are strictly ascending, and the buffer is empty afterwards;
(3) am_db_update_alert keeps every alertid once in the buffer. -/
theorem C29_flush_alert_updates (db : am_db_env) (m : zbx_am_t) :
    (m.alertupdates = [] → am_db_flush_alert_updates db m = (none, m)) ∧
    (m.alertupdates ≠ [] → (m.alertupdates.map fun u => u.alertid).Nodup →
      ∃ stmts, am_db_flush_alert_updates db m = (some stmts, { m with alertupdates := [] }) ∧
        stmts.Perm (m.alertupdates.map fun u =>
          ({ status := u.status, retries := u.retries,
             error_esc := db.DBdyn_escape_string_len u.error db.ALERT_ERROR_LEN,
             alertid := u.alertid } : am_db_alert_update)) ∧
        stmts.length = m.alertupdates.length ∧
        (stmts.map fun st => st.alertid).Sorted (fun x y => x < y)) ∧
    (∀ (alertid : Nat) (status retries : Int) (error : String),
      (m.alertupdates.map fun u => u.alertid).Nodup →
      ((am_db_update_alert m alertid status retries error).alertupdates.map
        fun u => u.alertid).Nodup) := by
  refine ⟨?_, ?_, fun alertid status retries error hn =>
    am_db_update_alert_keys m alertid status retries error hn⟩
  · intro he
    unfold am_db_flush_alert_updates
    rw [he]
    rfl
  · intro hne hn
    have hlen : ¬ m.alertupdates.length = 0 := fun e => hne (List.length_eq_zero.1 e)
    have hperm := List.perm_insertionSort
      (fun u v : zbx_am_alertstatus_t => u.alertid ≤ v.alertid) m.alertupdates
    haveI : IsTotal zbx_am_alertstatus_t (fun u v => u.alertid ≤ v.alertid) :=
      ⟨fun a b => Nat.le_total _ _⟩
    haveI : IsTrans zbx_am_alertstatus_t (fun u v => u.alertid ≤ v.alertid) :=
      ⟨fun a b c h1 h2 => Nat.le_trans h1 h2⟩
    have hsorted := List.sorted_insertionSort
      (fun u v : zbx_am_alertstatus_t => u.alertid ≤ v.alertid) m.alertupdates
    refine ⟨(m.alertupdates.insertionSort fun u v => u.alertid ≤ v.alertid).map fun u =>
        ({ status := u.status, retries := u.retries,
           error_esc := db.DBdyn_escape_string_len u.error db.ALERT_ERROR_LEN,
           alertid := u.alertid } : am_db_alert_update), ?_, ?_, ?_, ?_⟩
    · unfold am_db_flush_alert_updates
      rw [if_neg hlen]
    · exact hperm.map _
    · rw [List.length_map]
      exact hperm.length_eq
    · rw [List.map_map]
      have hle : ((m.alertupdates.insertionSort fun u v => u.alertid ≤ v.alertid).map
          fun u => u.alertid).Sorted (fun x y => x ≤ y) := by
        unfold List.Sorted
        rw [List.pairwise_map]
        exact hsorted
      have hnd : ((m.alertupdates.insertionSort fun u v => u.alertid ≤ v.alertid).map
          fun u => u.alertid).Nodup := (hperm.map _).nodup_iff.2 hn
      exact hle.lt_of_le hnd

/-- Witness of C29: the empty buffer of the initial manager is flushed without a transaction;
the buffer that holds the update of the alert 5 before that of the alert 3 is flushed as the
statements for the alert 3 and then the alert 5. -/
theorem C29_flush_alert_updates_witness :
    am_db_flush_alert_updates sample_db (am_init 0) = (none, am_init 0) ∧
    (∃ stmts, am_db_flush_alert_updates sample_db sample_updates =
        (some stmts, { sample_updates with alertupdates := [] }) ∧
      stmts.length = sample_updates.alertupdates.length ∧
      (stmts.map fun st => st.alertid).Sorted (fun x y => x < y)) ∧
    sample_updates.alertupdates.map (fun u => u.alertid) = [5, 3] ∧
    (am_db_flush_alert_updates sample_db sample_updates).1 =
      some [{ status := ALERT_STATUS_FAILED, retries := 2, error_esc := "failed", alertid := 3 },
        { status := ALERT_STATUS_SENT, retries := 0, error_esc := "", alertid := 5 }] :=
  ⟨(C29_flush_alert_updates sample_db (am_init 0)).1 rfl,
    Exists.imp (fun _ h => ⟨h.1, h.2.2.1, h.2.2.2⟩)
      ((C29_flush_alert_updates sample_db sample_updates).2.1 (by decide) (by decide)),
    by decide, by decide⟩

/-! ## The parameters of a script -/

theorem am_exec_params_loop_spec (cs : List Char) :
    ∀ acc : List Char, Char.ofNat 10 ∉ acc →
      ∃ rest, Char.ofNat 10 ∉ rest ∧
        acc.reverse ++ cs =
          ((am_exec_params_loop cs acc).flatMap fun p => p.data ++ [Char.ofNat 10]) ++ rest ∧
        (∀ p ∈ am_exec_params_loop cs acc, Char.ofNat 10 ∉ p.data) ∧
        (am_exec_params_loop cs acc).length = cs.count (Char.ofNat 10) := by
  induction cs with
  | nil =>
    intro acc hacc
    refine ⟨acc.reverse, fun h => hacc (List.mem_reverse.1 h), ?_, ?_, rfl⟩
    · simp [am_exec_params_loop]
    · intro p hp
      simp [am_exec_params_loop] at hp
  | cons c cs ih =>
    intro acc hacc
    by_cases hc : c = Char.ofNat 10
    · obtain ⟨rest, h1, h2, h3, h4⟩ := ih [] (List.not_mem_nil _)
      have hl : am_exec_params_loop (c :: cs) acc =
          String.mk acc.reverse :: am_exec_params_loop cs [] := by
        rw [am_exec_params_loop, if_pos hc]
      refine ⟨rest, h1, ?_, ?_, ?_⟩
      · rw [hl, List.flatMap_cons, List.append_assoc, ← h2, hc]
        simp
      · intro p hp
        rw [hl] at hp
        rcases List.mem_cons.1 hp with rfl | hp
        · exact fun h => hacc (List.mem_reverse.1 h)
        · exact h3 p hp
      · rw [hl, List.length_cons, h4, hc, List.count_cons_self]
    · obtain ⟨rest, h1, h2, h3, h4⟩ := ih (c :: acc) (by
        intro h
        rcases List.mem_cons.1 h with e | e
        · exact hc e.symm
        · exact hacc e)
      have hl : am_exec_params_loop (c :: cs) acc = am_exec_params_loop cs (c :: acc) := by
        rw [am_exec_params_loop, if_neg hc]
      refine ⟨rest, h1, ?_, ?_, ?_⟩
      · rw [hl, ← h2]
        simp
      · rw [hl]
        exact h3
      · rw [hl, h4, List.count_cons_of_ne (fun e => hc e.symm)]

theorem string_join_foldl (l : List String) :
    ∀ init : String, l.foldl (fun r s => r ++ s) init = init ++ String.join l := by
  induction l with
  | nil =>
    intro init
    simp [String.join]
  | cons a l ih =>
    intro init
    have e : String.join (a :: l) = l.foldl (fun r s => r ++ s) ("" ++ a) := rfl
    rw [List.foldl_cons, ih, e, ih, String.empty_append, String.append_assoc]

theorem string_join_cons (a : String) (l : List String) :
    String.join (a :: l) = a ++ String.join l := by
  have e : String.join (a :: l) = l.foldl (fun r s => r ++ s) ("" ++ a) := rfl
  rw [e, string_join_foldl, String.empty_append]

theorem exec_command_foldl (f : String → String) (params : List String) :
    ∀ cmd : String,
      params.foldl (fun c param => c ++ " " ++ String.mk [Char.ofNat 39] ++ f param
          ++ String.mk [Char.ofNat 39]) cmd =
        cmd ++ String.join (params.map fun param =>
          " " ++ String.mk [Char.ofNat 39] ++ f param ++ String.mk [Char.ofNat 39]) := by
  induction params with
  | nil =>
    intro cmd
    simp [String.join]
  | cons p ps ih =>
    intro cmd
    rw [List.foldl_cons, ih, List.map_cons, string_join_cons]
    simp only [String.append_assoc]

/-- C30 as it holds: when the script is executable, the parameters of exec_params are the runs
of characters each of which is terminated by a newline, in their order (the text after the
last newline is no parameter), so their number is the number of newlines of exec_params; the
command is "<scripts_dir>/<exec_path>" followed, for each parameter in order, by a space and
the parameter after macro substitution, shell-escaped and wrapped in single quotes. -/
theorem C30_exec_command (env : am_env) (mediatype : zbx_am_mediatype_t)
    (alert : zbx_am_alert_t)
    (hx : env.access_X_OK (env.CONFIG_ALERT_SCRIPTS_PATH ++ "/" ++ mediatype.exec_path) = true) :
    ∃ (params : List String) (rest : List Char),
      mediatype.exec_params.data =
        (params.flatMap fun p => p.data ++ [Char.ofNat 10]) ++ rest ∧
      (∀ p ∈ params, Char.ofNat 10 ∉ p.data) ∧ Char.ofNat 10 ∉ rest ∧
      params.length = mediatype.exec_params.data.count (Char.ofNat 10) ∧
      am_prepare_mediatype_exec_command env mediatype alert =
        Except.ok (env.CONFIG_ALERT_SCRIPTS_PATH ++ "/" ++ mediatype.exec_path ++
          String.join (params.map fun param =>
            " " ++ String.mk [Char.ofNat 39] ++
              zbx_dyn_escape_shell_single_quote (env.substitute_simple_macros alert param) ++
              String.mk [Char.ofNat 39])) := by
  obtain ⟨rest, h1, h2, h3, h4⟩ :=
    am_exec_params_loop_spec mediatype.exec_params.data [] (List.not_mem_nil _)
  refine ⟨am_exec_params_loop mediatype.exec_params.data [], rest, ?_, h3, h1, h4, ?_⟩
  · rw [← h2]
    rfl
  · unfold am_prepare_mediatype_exec_command
    simp only
    rw [if_pos hx, exec_command_foldl]

/-- Witness of C30: the parameters "a" and "b c", each terminated by a newline, give two
quoted arguments. -/
theorem C30_exec_command_witness :
    (∃ (params : List String) (rest : List Char),
      (sample_script "a\nb c\n").exec_params.data =
        (params.flatMap fun p => p.data ++ [Char.ofNat 10]) ++ rest ∧
      params.length = (sample_script "a\nb c\n").exec_params.data.count (Char.ofNat 10)) ∧
    am_exec_params_loop (String.data "a\nb c\n") [] = ["a", "b c"] ∧
    (am_prepare_mediatype_exec_command sample_env (sample_script "a\nb c\n")
        (sample_alert 1 1 7 10)).toOption =
      some ("/usr/lib/zabbix/alertscripts/script.sh " ++
        String.mk [Char.ofNat 39, Char.ofNat 97, Char.ofNat 39, Char.ofNat 32, Char.ofNat 39,
          Char.ofNat 98, Char.ofNat 32, Char.ofNat 99, Char.ofNat 39]) :=
  ⟨Exists.imp (fun _ => Exists.imp fun _ h => ⟨h.1, h.2.2.2.1⟩)
      (C30_exec_command sample_env (sample_script "a\nb c\n") (sample_alert 1 1 7 10) rfl),
    by decide, by decide⟩

/-- C30, the claim fails: the parameters "a\nb" (two parameters separated by a newline) give
one quoted argument, the text after the last newline is dropped. -/
theorem C30_exec_params_counterexample :
    am_exec_params_loop (String.data "a\nb") [] = ["a"] ∧
    (am_prepare_mediatype_exec_command sample_env (sample_script "a\nb")
        (sample_alert 1 1 7 10)).toOption =
      some ("/usr/lib/zabbix/alertscripts/script.sh " ++
        String.mk [Char.ofNat 39, Char.ofNat 97, Char.ofNat 39]) :=
  ⟨by decide, by decide⟩

/-! ## Popping the pools of one media type in a row -/

theorem am_serial_pop {s : am_sched} {m' : zbx_am_t} {a : zbx_am_alert_t} (hi : am_inv s)
    (hs : am_serial s) (hp : am_pop_alert s.manager = some (some a, m')) :
    am_serial { manager := m', in_flight := a :: s.in_flight } := by
  obtain ⟨id, t, M, pid, tp, P, rest, q, M', hq, hM, hMq, hP, hPq, -, hPl, -, -, -, -, -, -, -,
    hpf, hP'⟩ := am_pop_alert_effect hi.wf hp
  obtain ⟨e1, e2⟩ := hi.pool_ids id pid P hP a (by rw [hPq]; exact List.mem_cons_self _ _)
  have hne : ∀ c ∈ s.in_flight, ¬ (c.mediatypeid = id ∧ c.alertpoolid = pid) := by
    rintro c hc ⟨h1, h2⟩
    have := hs.idle c hc P (by rw [h1, h2]; exact hP)
    rw [hPl] at this
    exact absurd this (by decide)
  constructor
  · intro c hc P0 hP0
    rcases List.mem_cons.1 hc with rfl | hc
    · rw [e1, e2] at hP0
      have e : alertpool_deref m' id pid = some P0 := hP0
      rw [hP'] at e
      cases e
      rfl
    · have e : alertpool_deref m' c.mediatypeid c.alertpoolid = some P0 := hP0
      rw [hpf _ _ (hne c hc)] at e
      exact hs.idle c hc P0 e
  · show ((a :: s.in_flight).map fun c => (c.mediatypeid, c.alertpoolid)).Nodup
    rw [List.map_cons, List.nodup_cons]
    refine ⟨?_, hs.distinct⟩
    intro hmem
    obtain ⟨c, hc, e⟩ := List.mem_map.1 hmem
    simp only [Prod.mk.injEq] at e
    exact hne c hc ⟨e.1.trans e1, e.2.trans e2⟩

/-- One am_pop_alert in the scenario of a single media type. -/
theorem am_capped_pop {M0 : zbx_am_mediatype_t} {L j : Nat} {s : am_sched}
    (hc : am_capped M0 L j s) (hcap : M0.maxsessions = 0 ∨ (j : Int) < M0.maxsessions)
    (hj : j < L) :
    ∃ a m' M tp P rest, am_pop_alert s.manager = some (some a, m') ∧
      am_capped M0 L (j + 1) { manager := m', in_flight := a :: s.in_flight } ∧
      a.mediatypeid = M0.mediatypeid ∧
      am_get_mediatype s.manager M0.mediatypeid = some M ∧ M.queue = a.alertpoolid :: tp ∧
      (∀ M', am_get_mediatype m' M0.mediatypeid = some M' → M'.queue.Perm tp) ∧
      alertpool_deref s.manager M0.mediatypeid a.alertpoolid = some P ∧ P.queue = a :: rest ∧
      (∀ pid, pid ≠ a.alertpoolid →
        alertpool_deref m' M0.mediatypeid pid = alertpool_deref s.manager M0.mediatypeid pid) := by
  have hq := hc.queued hcap hj
  obtain ⟨a, m', hp, ho'⟩ := am_pop_alert_ord hc.inv.wf hc.ord hq
  obtain ⟨id, t, M, pid, tp, P, rest, q, M', hq', hM, hMq, hP, hPq, -, hPl, -, hoth, hM', hMe,
    hperm, hloc, hmq, hpf, hP'⟩ := am_pop_alert_effect hc.inv.wf hp
  rw [hq] at hq'
  cases hq'
  obtain ⟨e1, e2⟩ := hc.inv.pool_ids _ pid P hP a (by rw [hPq]; exact List.mem_cons_self _ _)
  obtain ⟨Mj, hMj, hMje, hlen⟩ := hc.mt
  rw [hM] at hMj
  cases hMj
  have hi' := am_inv_pop_alert hc.inv hp
  have hs' := am_serial_pop hc.inv hc.serial hp
  have hlen' : M'.queue.length + (j + 1) = L := by
    rw [hperm.length_eq]
    rw [hMq] at hlen
    simp only [List.length_cons] at hlen
    omega
  have hcap' : mt_cap M' ↔ (M0.maxsessions = 0 ∨ ((j + 1 : Nat) : Int) < M0.maxsessions) := by
    unfold mt_cap
    rw [hMe]
    simp only
    rw [hMje]
    simp only
    push_cast
    exact Iff.rfl
  have hne' : M'.queue ≠ [] ↔ j + 1 < L := by
    constructor
    · intro h
      have : 0 < M'.queue.length := List.length_pos.2 h
      omega
    · intro h e
      rw [e] at hlen'
      simp at hlen'
      omega
  refine ⟨a, m', M, tp, P, rest, hp, ?_, e1, hM, by rw [hMq, e2], ?_, by rw [e2]; exact hP, hPq,
    ?_⟩
  · constructor
    · exact hi'
    · exact ho'
    · exact hs'
    · intro id M1 hM1
      by_cases e : id = M0.mediatypeid
      · exact e
      · have : am_get_mediatype m' id = some M1 := hM1
        rw [hoth id e] at this
        exact hc.single id M1 this
    · refine ⟨M', hM', ?_, hlen'⟩
      rw [hMe, hMje]
      simp only
      push_cast
      rfl
    · show (a :: s.in_flight).length = j + 1
      rw [List.length_cons, hc.flight]
    · intro hcp hjl
      have hl : M'.location = ZBX_AM_LOCATION_QUEUE := hloc.2 ⟨hne'.2 hjl, hcap'.2 hcp⟩
      have : m'.queue.Perm [M0.mediatypeid] := by
        have h := hmq
        rw [if_pos hl] at h
        exact h
      exact List.perm_singleton.1 this
    · intro hb
      have hl : ¬ M'.location = ZBX_AM_LOCATION_QUEUE := by
        intro hl
        obtain ⟨h1, h2⟩ := hloc.1 hl
        rcases hb with hb | hb
        · exact hb (hcap'.1 h2)
        · have := hne'.1 h1
          omega
      have : m'.queue.Perm [] := by
        have h := hmq
        rw [if_neg hl] at h
        exact h
      exact List.perm_nil.1 this
  · intro M1 hM1
    rw [hM'] at hM1
    cases hM1
    exact hperm
  · intro pid' hne
    exact hpf _ _ (fun e => hne (e.2.trans e2.symm))

theorem am_pop_alerts_succ (i : Nat) :
    ∀ (m : zbx_am_t) (rs : List (Option zbx_am_alert_t)) (m1 : zbx_am_t)
      (r : Option zbx_am_alert_t) (m2 : zbx_am_t),
      am_pop_alerts i m = some (rs, m1) → am_pop_alert m1 = some (r, m2) →
      am_pop_alerts (i + 1) m = some (rs ++ [r], m2) := by
  induction i with
  | zero =>
    intro m rs m1 r m2 h1 h2
    simp only [am_pop_alerts, Option.some.injEq, Prod.mk.injEq] at h1
    obtain ⟨rfl, rfl⟩ := h1
    simp [am_pop_alerts, h2]
  | succ i ih =>
    intro m rs m1 r m2 h1 h2
    rw [am_pop_alerts] at h1
    cases hp : am_pop_alert m with
    | none => rw [hp] at h1; cases h1
    | some x =>
      rw [hp] at h1
      simp only [Option.some_bind] at h1
      cases hq : am_pop_alerts i x.2 with
      | none => rw [hq] at h1; cases h1
      | some c =>
        rw [hq] at h1
        simp only [Option.map_some', Option.some.injEq, Prod.mk.injEq] at h1
        obtain ⟨rfl, rfl⟩ := h1
        have := ih x.2 c.1 c.2 r m2 hq h2
        rw [am_pop_alerts, hp]
        simp only [Option.some_bind]
        rw [this]
        rfl

/-- A row of am_pop_alert calls in the scenario of a single media type, as long as pools are
left and the capacity test passes: every call returns an alert, the first alert of a pool of
the media type, no two of one pool. -/
theorem am_capped_pops {M0 : zbx_am_mediatype_t} {L : Nat} (i : Nat) :
    ∀ (j : Nat) (s : am_sched), am_capped M0 L j s →
      (M0.maxsessions = 0 ∨ ((j + i : Nat) : Int) ≤ M0.maxsessions) → j + i ≤ L →
      ∃ (alerts : List zbx_am_alert_t) (m' : zbx_am_t),
        am_pop_alerts i s.manager = some (alerts.map some, m') ∧
        alerts.length = i ∧
        am_capped M0 L (j + i) { manager := m', in_flight := alerts.reverse ++ s.in_flight } ∧
        (∀ a ∈ alerts, a.mediatypeid = M0.mediatypeid ∧
          ∃ P rest, alertpool_deref s.manager M0.mediatypeid a.alertpoolid = some P ∧
            P.queue = a :: rest) ∧
        (∀ M M', am_get_mediatype s.manager M0.mediatypeid = some M →
          am_get_mediatype m' M0.mediatypeid = some M' →
          M.queue.Perm (alerts.map (fun a => a.alertpoolid) ++ M'.queue)) := by
  induction i with
  | zero =>
    intro j s hc _ _
    refine ⟨[], s.manager, rfl, rfl, hc, fun a ha => absurd ha (List.not_mem_nil a), ?_⟩
    intro M M' h1 h2
    rw [h1] at h2
    cases h2
    exact List.Perm.refl _
  | succ i ih =>
    intro j s hc hcap hjl
    have hcap0 : M0.maxsessions = 0 ∨ (j : Int) < M0.maxsessions := by
      rcases hcap with h | h
      · exact Or.inl h
      · refine Or.inr ?_
        push_cast at h
        omega
    obtain ⟨a, m1, M, tp, P, rest, hp, hc1, ha, hM, hMq, hM1q, hP, hPq, hfr⟩ :=
      am_capped_pop hc hcap0 (by omega)
    obtain ⟨alerts, m', hps, hlen, hc', hal, hperm⟩ := ih (j + 1)
      { manager := m1, in_flight := a :: s.in_flight } hc1
      (by
        rcases hcap with h | h
        · exact Or.inl h
        · refine Or.inr ?_
          push_cast at h ⊢
          omega)
      (by omega)
    obtain ⟨M1, hM1, -, -⟩ := hc1.mt
    obtain ⟨M', hM', -, -⟩ := hc'.mt
    have hp1 := hperm M1 M' hM1 hM'
    have hnd : (a.alertpoolid :: tp).Nodup := by
      rw [← hMq]
      exact hc.inv.wf.mtq_nodup _ M hM
    have hnot : ∀ a' ∈ alerts, a'.alertpoolid ≠ a.alertpoolid := by
      intro a' ha' e
      have h1 : a'.alertpoolid ∈ M1.queue :=
        hp1.mem_iff.2 (List.mem_append_left _ (List.mem_map.2 ⟨a', ha', rfl⟩))
      have h2 : a'.alertpoolid ∈ tp := (hM1q M1 hM1).mem_iff.1 h1
      rw [e] at h2
      exact (List.nodup_cons.1 hnd).1 h2
    refine ⟨a :: alerts, m', ?_, by rw [List.length_cons, hlen], ?_, ?_, ?_⟩
    · rw [am_pop_alerts, hp]
      simp only [Option.some_bind]
      have : am_pop_alerts i m1 = some (alerts.map some, m') := hps
      rw [this]
      rfl
    · have e1 : (a :: alerts).reverse ++ s.in_flight = alerts.reverse ++ (a :: s.in_flight) := by
        simp
      have e2 : j + (i + 1) = j + 1 + i := by omega
      rw [e1, e2]
      exact hc'
    · intro a' ha'
      rcases List.mem_cons.1 ha' with rfl | ha'
      · exact ⟨ha, P, rest, hP, hPq⟩
      · obtain ⟨hm, P', rest', hP', hPq'⟩ := hal a' ha'
        refine ⟨hm, P', rest', ?_, hPq'⟩
        rw [← hfr _ (hnot a' ha')]
        exact hP'
    · intro Ma Mb h1 h2
      rw [hM] at h1
      cases h1
      have h2' : am_get_mediatype m' M0.mediatypeid = some Mb := h2
      rw [hM'] at h2'
      cases h2'
      rw [hMq, List.map_cons, List.cons_append]
      exact List.Perm.cons _ (((hM1q M1 hM1).symm).trans hp1)

/-- A state reached from the empty manager with nothing in flight and a single media type that
is queued when it has pools is a state of the scenario. -/
theorem am_capped_init {n : Nat} {ops : List am_op} {s : am_sched} {M : zbx_am_mediatype_t}
    (h : am_run guard_in_flight (am_sched_init n) ops = some s) (hf : s.in_flight = [])
    (hm : s.manager.mediatypes = [M]) (hcap : M.maxsessions = 0 ∨ 0 < M.maxsessions)
    (hq : M.queue ≠ [] → s.manager.queue = [M.mediatypeid]) :
    am_capped M M.queue.length 0 s := by
  have hi : am_inv s := am_inv_run (fun _ _ hg => hg) (am_inv_init n) h
  obtain ⟨hw, ho⟩ := am_ord_reachable h
  have hG : am_get_mediatype s.manager M.mediatypeid = some M :=
    am_get_mediatype_of_mem hw (by rw [hm]; exact List.mem_singleton_self _)
  have hsingle : ∀ id M', am_get_mediatype s.manager id = some M' → id = M.mediatypeid := by
    intro id M' hM'
    have hmem := am_get_mediatype_mem hM'
    rw [hm, List.mem_singleton] at hmem
    rw [← am_get_mediatype_key hM', hmem]
  have hnum : M.alerts_num = 0 := by
    have := hi.num _ M hG
    rw [hf] at this
    simpa [am_in_flight_num] using this
  constructor
  · exact hi
  · exact ho
  · constructor
    · intro c hc
      rw [hf] at hc
      exact absurd hc (List.not_mem_nil c)
    · rw [hf]
      exact List.nodup_nil
  · exact hsingle
  · refine ⟨M, hG, ?_, rfl⟩
    cases M
    simp only at hnum
    subst hnum
    rfl
  · rw [hf]
    rfl
  · intro _ hl
    exact hq (List.length_pos.1 hl)
  · intro hb
    rcases hb with hb | hb
    · exfalso
      apply hb
      rcases hcap with h0 | h0
      · exact Or.inl h0
      · exact Or.inr (by simpa using h0)
    · cases hqm : s.manager.queue with
      | nil => rfl
      | cons id t =>
        exfalso
        obtain ⟨M1, hM1, -, hne⟩ := hw.queue_mt id (by rw [hqm]; exact List.mem_cons_self _ _)
        have := hsingle id M1 hM1
        subst this
        rw [hG] at hM1
        cases hM1
        exact hne (List.length_eq_zero.1 hb.symm)

/-- C26: in a state reached from the empty manager (am_remove_alert and am_retry_alert applied
to alerts in flight only) with nothing in flight, whose only media type `M` has maxsessions 0
and is the element of the manager queue when it has pools, and in which every pool of the pool
queue of `M` holds exactly one alert: with N the number of these pools, N + 1 calls of
am_pop_alert return N alerts and then NULL; the alerts are distinct, their pools are exactly
the pools of the pool queue (each alert is the one alert of its pool), and alerts_num is N
afterwards. -/
theorem C26_unlimited_sessions (n : Nat) (ops : List am_op) (s : am_sched)
    (M : zbx_am_mediatype_t)
    (h : am_run guard_in_flight (am_sched_init n) ops = some s) (hf : s.in_flight = [])
    (hm : s.manager.mediatypes = [M]) (h0 : M.maxsessions = 0)
    (hq : M.queue ≠ [] → s.manager.queue = [M.mediatypeid])
    (hone : ∀ pid ∈ M.queue,
      ((alertpool_deref s.manager M.mediatypeid pid).map fun P => P.queue.length) = some 1) :
    ∃ (alerts : List zbx_am_alert_t) (m' : zbx_am_t),
      am_pop_alerts (M.queue.length + 1) s.manager = some (alerts.map some ++ [none], m') ∧
      alerts.length = M.queue.length ∧ alerts.Nodup ∧
      (alerts.map fun a => a.alertpoolid).Perm M.queue ∧
      (∀ a ∈ alerts, a.mediatypeid = M.mediatypeid ∧
        ∃ P, alertpool_deref s.manager M.mediatypeid a.alertpoolid = some P ∧ P.queue = [a]) ∧
      ∃ M', am_get_mediatype m' M.mediatypeid = some M' ∧
        M'.alerts_num = (M.queue.length : Int) := by
  have hc := am_capped_init h hf hm (Or.inl h0) hq
  obtain ⟨alerts, m', hps, hlen, hc', hal, hperm⟩ :=
    am_capped_pops M.queue.length 0 s hc (Or.inl h0) (by omega)
  obtain ⟨M0, hM0, -, -⟩ := hc.mt
  obtain ⟨M', hM', hMe, hMl⟩ := hc'.mt
  have hG : am_get_mediatype s.manager M.mediatypeid = some M := by
    obtain ⟨hw, -⟩ := am_ord_reachable h
    exact am_get_mediatype_of_mem hw (by rw [hm]; exact List.mem_singleton_self _)
  have hM'q : M'.queue = [] := by
    apply List.length_eq_zero.1
    omega
  have hp := hperm M M' hG hM'
  rw [hM'q, List.append_nil] at hp
  have hqe : m'.queue = [] := hc'.blocked (Or.inr (by omega))
  refine ⟨alerts, m', ?_, hlen, ?_, hp.symm, ?_, M', hM', ?_⟩
  · exact am_pop_alerts_succ _ _ _ _ _ _ hps (am_pop_alert_nil hqe)
  · have hnd : (alerts.map fun a => a.alertpoolid).Nodup :=
      hp.nodup_iff.1 ((am_ord_reachable h).1.mtq_nodup _ M hG)
    exact List.Nodup.of_map _ hnd
  · intro a ha
    obtain ⟨e, P, rest, hP, hPq⟩ := hal a ha
    refine ⟨e, P, hP, ?_⟩
    have h1 := hone a.alertpoolid (hp.mem_iff.2 (List.mem_map.2 ⟨a, ha, rfl⟩))
    rw [hP, Option.map_some', Option.some.injEq, hPq, List.length_cons] at h1
    have hr : rest = [] := List.length_eq_zero.1 (by omega)
    rw [hPq, hr]
  · rw [hMe]
    simp

/-- Witness of C26: three alerts of three pools under a media type with maxsessions 0; four
calls of am_pop_alert return the three alerts and then NULL, and alerts_num is 3. -/
theorem C26_unlimited_sessions_witness :
    (∃ (alerts : List zbx_am_alert_t) (m' : zbx_am_t),
      am_pop_alerts 4 (am_run_state guard_in_flight unlimited_ops).manager =
        some (alerts.map some ++ [none], m') ∧ alerts.length = 3 ∧ alerts.Nodup) ∧
    ((am_pop_alerts 4 (am_run_state guard_in_flight unlimited_ops).manager).map fun r =>
      r.1.map fun o => o.map fun a => a.alertid) = some [some 1, some 2, some 3, none] ∧
    ((am_pop_alerts 4 (am_run_state guard_in_flight unlimited_ops).manager).map fun r =>
      r.2.mediatypes.map fun M => M.alerts_num) = some [3] :=
  ⟨Exists.imp (fun _ => Exists.imp fun _ h => ⟨h.1, h.2.1, h.2.2.1⟩)
      (C26_unlimited_sessions 0 unlimited_ops _
        ((am_get_mediatype (am_run_state guard_in_flight unlimited_ops).manager 1).getD
          (mediatype_local 1))
        (by decide) (by decide) (by decide) (by decide) (by decide) (by decide)),
    by decide, by decide⟩

/-! ## The release of a blocked media type -/

theorem am_remove_alert_queued {m m' : zbx_am_t} {a : zbx_am_alert_t}
    {M : zbx_am_mediatype_t} (h : am_remove_alert m a = some m')
    (hM : am_get_mediatype m a.mediatypeid = some M) (hne : M.queue ≠ [])
    (hc : M.maxsessions = 0 ∨ M.alerts_num - 1 < M.maxsessions) : a.mediatypeid ∈ m'.queue := by
  rcases am_remove_alert_inv h with ⟨h0, -⟩ | ⟨M0, m3, M3, hM0, h3, hM3, h4⟩
  · rw [hM] at h0
    cases h0
  · rw [hM] at hM0
    cases hM0
    have hkey := am_get_mediatype_key hM
    have hG0 : am_get_mediatype (mediatype_store m { M with alerts_num := M.alerts_num - 1 })
        a.mediatypeid = some { M with alerts_num := M.alerts_num - 1 } := by
      rw [am_get_mediatype_store (M := { M with alerts_num := M.alerts_num - 1 })
        (by show am_get_mediatype m M.mediatypeid = some M; rw [hkey]; exact hM)]
      rw [if_pos hkey.symm]
    have hG1 : am_get_mediatype
        (am_get_alertpool (mediatype_store m { M with alerts_num := M.alerts_num - 1 })
          a.mediatypeid a.alertpoolid).2 a.mediatypeid =
        some { M with alerts_num := M.alerts_num - 1 } := by
      rw [(am_get_alertpool_deref _ _ _).2.2.1]
      exact hG0
    have hM3e : M3.queue ≠ [] ∧ M3.alerts_num = M.alerts_num - 1 ∧
        M3.maxsessions = M.maxsessions := by
      rcases h3 with ⟨-, rfl⟩ | ⟨-, hp⟩
      · have : am_get_mediatype
            (am_get_alertpool (mediatype_store m { M with alerts_num := M.alerts_num - 1 })
              a.mediatypeid a.alertpoolid).2 a.mediatypeid = some M3 := hM3
        rw [hG1] at this
        cases this
        exact ⟨hne, rfl, rfl⟩
      · obtain ⟨Mg, Pg, q, hMg, -, hMq, hcase⟩ := am_push_alertpool_get hp
        rw [hG1] at hMg
        cases hMg
        rw [hM3] at hMq
        cases hMq
        refine ⟨?_, rfl, rfl⟩
        simp only
        rcases hcase with ⟨-, hq⟩ | ⟨-, hq⟩
        · intro e
          rw [e] at hq
          exact absurd hq.symm.eq_nil (List.cons_ne_nil _ _)
        · intro e
          rw [e] at hq
          exact hne hq.symm.eq_nil
    rcases h4 with ⟨e, -, -⟩ | ⟨-, hp⟩
    · exact absurd e hM3e.1
    · apply (am_push_meditype_mem hM3 hp a.mediatypeid).2
      refine Or.inr ⟨rfl, hM3e.1, ?_⟩
      unfold mt_cap
      rw [hM3e.2.1, hM3e.2.2]
      exact hc

/-- After an alert in flight completed, the alert popped next belongs to a pool that has no
alert in flight. -/
theorem am_release_pop {s : am_sched} {a b : zbx_am_alert_t} {m1 m2 : zbx_am_t}
    (hs : am_serial s) (ha : a ∈ s.in_flight)
    (hi1 : am_inv { manager := m1, in_flight := s.in_flight.erase a })
    (hpf : am_pool_frame s.manager m1 a.mediatypeid a.alertpoolid)
    (hp : am_pop_alert m1 = some (some b, m2)) :
    ∀ c ∈ s.in_flight, c ≠ a →
      ¬ (c.mediatypeid = b.mediatypeid ∧ c.alertpoolid = b.alertpoolid) := by
  obtain ⟨id, t, M, pid, tp, P, rest, q, M', -, -, -, hP, hPq, -, hPl, -⟩ :=
    am_pop_alert_effect hi1.wf hp
  obtain ⟨e1, e2⟩ := hi1.pool_ids id pid P hP b (by rw [hPq]; exact List.mem_cons_self _ _)
  rintro c hc hca ⟨h1, h2⟩
  have hkey : ¬ (c.mediatypeid = a.mediatypeid ∧ c.alertpoolid = a.alertpoolid) := by
    rintro ⟨k1, k2⟩
    apply hca
    exact List.inj_on_of_nodup_map hs.distinct hc ha (by simp only [k1, k2])
  have hd := hpf _ _ hkey
  rw [h1, h2, e1, e2] at hd
  have hP' : alertpool_deref m1 id pid = some P := hP
  rw [hd] at hP'
  have := hs.idle c hc P (by rw [h1, h2, e1, e2]; exact hP')
  rw [hPl] at this
  exact absurd this (by decide)

theorem am_check_queue_nil {m : zbx_am_t} (h : m.queue = []) (now : Int) :
    am_check_queue m now = some false := by
  unfold am_check_queue
  rw [h]
  rfl

/-- C27: in a state reached from the empty manager (am_remove_alert and am_retry_alert applied
to alerts in flight only) with nothing in flight, whose only media type `M` has
maxsessions = k >= 1, more than k pools in its pool queue and is the element of the manager
queue: k calls of am_pop_alert return k alerts; afterwards the media type is not in the manager
queue, am_check_queue returns FAIL at every time and am_pop_alert returns NULL; and for each of
the k alerts `a`, after am_remove_alert of `a`, and likewise after an am_retry_alert of `a`
that has attempts left (it returns SUCCEED), the media type is an element of the manager queue
and am_pop_alert returns an alert whose pool is the pool of none of the other k - 1 alerts in
flight. -/
theorem C27_cap_backpressure (n : Nat) (ops : List am_op) (s : am_sched)
    (M : zbx_am_mediatype_t) (k : Nat)
    (h : am_run guard_in_flight (am_sched_init n) ops = some s) (hf : s.in_flight = [])
    (hm : s.manager.mediatypes = [M]) (hk : M.maxsessions = (k : Int)) (h1 : 1 ≤ k)
    (hn : k < M.queue.length) (hq : s.manager.queue = [M.mediatypeid]) :
    ∃ (alerts : List zbx_am_alert_t) (mk : zbx_am_t),
      am_pop_alerts k s.manager = some (alerts.map some, mk) ∧ alerts.length = k ∧
      M.mediatypeid ∉ mk.queue ∧ (∀ now, am_check_queue mk now = some false) ∧
      am_pop_alert mk = some (none, mk) ∧
      ∀ a ∈ alerts,
        (∃ m1 b m2, am_remove_alert mk a = some m1 ∧ M.mediatypeid ∈ m1.queue ∧
          am_pop_alert m1 = some (some b, m2) ∧
          ∀ c ∈ alerts, c ≠ a →
            ¬ (c.mediatypeid = b.mediatypeid ∧ c.alertpoolid = b.alertpoolid)) ∧
        (∀ now : Int, a.retries + 1 < M.maxattempts →
          ∃ m1 b m2, am_retry_alert mk a now = some (SUCCEED, m1) ∧
            M.mediatypeid ∈ m1.queue ∧ am_pop_alert m1 = some (some b, m2) ∧
            ∀ c ∈ alerts, c ≠ a →
              ¬ (c.mediatypeid = b.mediatypeid ∧ c.alertpoolid = b.alertpoolid)) := by
  have hkpos : (0 : Int) < M.maxsessions := by rw [hk]; exact_mod_cast h1
  have hc := am_capped_init h hf hm (Or.inr hkpos) (fun _ => hq)
  obtain ⟨alerts, mk, hps, hlen, hc', hal, -⟩ :=
    am_capped_pops k 0 s hc (Or.inr (by rw [hk]; simp)) (by omega)
  obtain ⟨Mk, hMk, hMke, hMkl⟩ := hc'.mt
  have hqe : mk.queue = [] := hc'.blocked (Or.inl (by
    rw [hk]
    intro hx
    rcases hx with hx | hx
    · have : (k : Int) = 0 := hx
      omega
    · simp at hx))
  have hMkne : Mk.queue ≠ [] := by
    intro e
    rw [e] at hMkl
    simp at hMkl
    omega
  have hMkn : Mk.alerts_num = (k : Int) := by
    rw [hMke]
    simp
  have hMks : Mk.maxsessions = (k : Int) := by
    rw [hMke]
    exact hk
  have hMka : Mk.maxattempts = M.maxattempts := by
    rw [hMke]
  have hcap : Mk.maxsessions = 0 ∨ Mk.alerts_num - 1 < Mk.maxsessions := by
    rw [hMkn, hMks]
    exact Or.inr (by omega)
  have hin : ∀ c ∈ alerts, c ∈ alerts.reverse ++ s.in_flight := fun c hc0 =>
    List.mem_append_left _ (List.mem_reverse.2 hc0)
  refine ⟨alerts, mk, hps, hlen, by rw [hqe]; exact List.not_mem_nil _,
    fun now => am_check_queue_nil hqe now, am_pop_alert_nil hqe, ?_⟩
  intro a ha
  have hamid : a.mediatypeid = M.mediatypeid := (hal a ha).1
  have hMk' : am_get_mediatype mk a.mediatypeid = some Mk := by rw [hamid]; exact hMk
  constructor
  · obtain ⟨m1, hr, ho1⟩ := am_remove_alert_ord a hc'.inv.wf hc'.ord
    have hqd := am_remove_alert_queued hr hMk' hMkne hcap
    have hi1 := am_inv_remove_alert hc'.inv (hin a ha) rfl rfl hr
    obtain ⟨-, -, hpf, -⟩ := am_remove_alert_effect hc'.inv.wf hr hMk'
    cases hq1 : m1.queue with
    | nil => rw [hq1] at hqd; exact absurd hqd (List.not_mem_nil _)
    | cons id t =>
      obtain ⟨b, m2, hp, -⟩ := am_pop_alert_ord hi1.wf ho1 hq1
      refine ⟨m1, b, m2, hr, by rw [← hamid]; exact hqd, hp, ?_⟩
      intro c hc0 hne
      exact am_release_pop hc'.serial (hin a ha) hi1 hpf hp c (hin c hc0) hne
  · intro now hlt
    obtain ⟨⟨ret, m1⟩, hr, ho1⟩ := am_retry_alert_ord a now hc'.inv.wf hc'.ord
    have hret : ret = SUCCEED := by
      rcases am_retry_alert_inv hr with ⟨h0, -⟩ | ⟨M0, hM0, hle, -⟩ | ⟨M0, m3, m4, -, -, e, -⟩
      · rw [hMk'] at h0
        cases h0
      · rw [hMk'] at hM0
        cases hM0
        rw [hMka] at hle
        omega
      · exact e
    subst hret
    have hqd := am_retry_alert_queued hc'.inv.wf hr hMk' hcap
    have hi1 := am_inv_retry_alert hc'.inv (hin a ha) hr
    obtain ⟨-, -, -, hpf, -⟩ := am_retry_alert_effect hc'.inv.wf hr hMk'
    cases hq1 : m1.queue with
    | nil => rw [hq1] at hqd; exact absurd hqd (List.not_mem_nil _)
    | cons id t =>
      obtain ⟨b, m2, hp, -⟩ := am_pop_alert_ord hi1.wf ho1 hq1
      refine ⟨m1, b, m2, hr, by rw [← hamid]; exact hqd, hp, ?_⟩
      intro c hc0 hne
      exact am_release_pop hc'.serial (hin a ha) hi1 hpf hp c (hin c hc0) hne

/-- Witness of C27: ten alerts over five pools under a media type with maxsessions 2: two
calls of am_pop_alert return the alerts 1 and 2 and the third returns NULL; after
am_remove_alert of the alert 1 the media type is queued again and the alert 3 of the pool 3 is
popped. -/
theorem C27_cap_backpressure_witness :
    (∃ (alerts : List zbx_am_alert_t) (mk : zbx_am_t),
      am_pop_alerts 2 (am_run_state guard_in_flight backpressure_ops).manager =
        some (alerts.map some, mk) ∧ alerts.length = 2 ∧
      (1 : Nat) ∉ mk.queue ∧ (∀ now, am_check_queue mk now = some false) ∧
      am_pop_alert mk = some (none, mk)) ∧
    ((am_pop_alerts 3 (am_run_state guard_in_flight backpressure_ops).manager).map fun r =>
      r.1.map fun o => o.map fun a => a.alertid) = some [some 1, some 2, none] ∧
    ((am_pop_alerts 2 (am_run_state guard_in_flight backpressure_ops).manager).bind fun r =>
      (am_remove_alert r.2 (sample_alert 1 1 1 10)).bind fun m1 =>
        (am_pop_alert m1).map fun r2 =>
          (m1.queue, r2.1.map fun b => (b.alertid, b.alertpoolid))) = some ([1], some (3, 3)) :=
  ⟨Exists.imp (fun _ => Exists.imp fun _ h => ⟨h.1, h.2.1, h.2.2.1, h.2.2.2.1, h.2.2.2.2.1⟩)
      (C27_cap_backpressure 0 backpressure_ops _
        ((am_get_mediatype (am_run_state guard_in_flight backpressure_ops).manager 1).getD
          (mediatype_local 1)) 2
        (by decide) (by decide) (by decide) (by decide) (by decide) (by decide) (by decide)),
    by decide, by decide⟩

/-! ## The parameters of a script, continued -/

theorem am_exec_params_loop_acc (cs : List Char) (hcs : Char.ofNat 10 ∉ cs) :
    ∀ acc : List Char, am_exec_params_loop cs acc = [] := by
  induction cs with
  | nil => intro acc; rfl
  | cons c cs ih =>
    intro acc
    have hc : c ≠ Char.ofNat 10 := fun e => hcs (by rw [e]; exact List.mem_cons_self _ _)
    rw [am_exec_params_loop, if_neg hc]
    exact ih (fun h => hcs (List.mem_cons_of_mem _ h)) _

theorem am_exec_params_loop_param (p : List Char) (hp : Char.ofNat 10 ∉ p) (cs : List Char) :
    ∀ acc : List Char,
      am_exec_params_loop (p ++ Char.ofNat 10 :: cs) acc =
        String.mk (acc.reverse ++ p) :: am_exec_params_loop cs [] := by
  induction p with
  | nil =>
    intro acc
    rw [List.nil_append, am_exec_params_loop, if_pos rfl, List.append_nil]
  | cons c p ih =>
    intro acc
    have hc : c ≠ Char.ofNat 10 := fun e => hp (by rw [e]; exact List.mem_cons_self _ _)
    rw [List.cons_append, am_exec_params_loop, if_neg hc,
      ih (fun h => hp (List.mem_cons_of_mem _ h))]
    simp

theorem am_exec_params_loop_params (params : List String)
    (hp : ∀ p ∈ params, Char.ofNat 10 ∉ p.data) (rest : List Char)
    (hr : Char.ofNat 10 ∉ rest) :
    am_exec_params_loop ((params.flatMap fun p => p.data ++ [Char.ofNat 10]) ++ rest) [] =
      params := by
  induction params with
  | nil =>
    simp only [List.flatMap_nil, List.nil_append]
    exact am_exec_params_loop_acc rest hr []
  | cons p ps ih =>
    rw [List.flatMap_cons, List.append_assoc, List.append_assoc, List.singleton_append,
      am_exec_params_loop_param p.data (hp p (List.mem_cons_self _ _)),
      ih (fun q hq => hp q (List.mem_cons_of_mem _ hq))]
    rfl

/-- C38: for every exec_params, the strchr loop of am_prepare_mediatype_exec_command finds as
many parameters as exec_params has newline characters; for every list of parameters without
newlines and every text `rest` without a newline, the parameters found in the concatenation of
the parameters, each followed by a newline, and `rest` are exactly these parameters, so `rest`
(the text after the last newline, the whole string when there is no newline) is not passed;
when the script is executable the command is the script path followed by one quoted argument
per parameter, whatever `rest` is, and the bare path when exec_params has no newline. -/
theorem C38_exec_params_terminated (env : am_env) (mediatype : zbx_am_mediatype_t)
    (alert : zbx_am_alert_t) :
    (am_exec_params_loop mediatype.exec_params.data []).length =
      mediatype.exec_params.data.count (Char.ofNat 10) ∧
    (∀ (params : List String) (rest : List Char),
      (∀ p ∈ params, Char.ofNat 10 ∉ p.data) → Char.ofNat 10 ∉ rest →
      am_exec_params_loop ((params.flatMap fun p => p.data ++ [Char.ofNat 10]) ++ rest) [] =
        params ∧
      (env.access_X_OK (env.CONFIG_ALERT_SCRIPTS_PATH ++ "/" ++ mediatype.exec_path) = true →
        am_prepare_mediatype_exec_command env
            { mediatype with
              exec_params :=
                String.mk ((params.flatMap fun p => p.data ++ [Char.ofNat 10]) ++ rest) }
            alert =
          Except.ok (env.CONFIG_ALERT_SCRIPTS_PATH ++ "/" ++ mediatype.exec_path ++
            String.join (params.map fun param =>
              " " ++ String.mk [Char.ofNat 39] ++
                zbx_dyn_escape_shell_single_quote (env.substitute_simple_macros alert param) ++
                String.mk [Char.ofNat 39])))) ∧
    (env.access_X_OK (env.CONFIG_ALERT_SCRIPTS_PATH ++ "/" ++ mediatype.exec_path) = true →
      Char.ofNat 10 ∉ mediatype.exec_params.data →
      am_prepare_mediatype_exec_command env mediatype alert =
        Except.ok (env.CONFIG_ALERT_SCRIPTS_PATH ++ "/" ++ mediatype.exec_path)) := by
  refine ⟨?_, ?_, ?_⟩
  · obtain ⟨rest, -, -, -, h4⟩ :=
      am_exec_params_loop_spec mediatype.exec_params.data [] (List.not_mem_nil _)
    exact h4
  · intro params rest hp hr
    refine ⟨am_exec_params_loop_params params hp rest hr, ?_⟩
    intro hx
    unfold am_prepare_mediatype_exec_command
    simp only
    rw [if_pos hx, exec_command_foldl, am_exec_params_loop_params params hp rest hr]
  · intro hx hn
    unfold am_prepare_mediatype_exec_command
    simp only
    rw [if_pos hx, am_exec_params_loop_acc _ hn]
    rfl

/-- Witness of C38: the parameters "a" and "b" followed by the text "c" give the two
arguments a and b; a string without a newline gives the bare script path. -/
theorem C38_exec_params_terminated_witness :
    am_exec_params_loop
        (([("a" : String), "b"].flatMap fun p => p.data ++ [Char.ofNat 10]) ++ String.data "c")
        [] = ["a", "b"] ∧
    am_exec_params_loop (String.data "a\nb\nc") [] = ["a", "b"] ∧
    am_prepare_mediatype_exec_command sample_env (sample_script "abc") (sample_alert 1 1 7 10) =
      Except.ok (sample_env.CONFIG_ALERT_SCRIPTS_PATH ++ "/" ++ (sample_script "abc").exec_path) :=
  ⟨((C38_exec_params_terminated sample_env (sample_script "") (sample_alert 1 1 7 10)).2.1
      ["a", "b"] (String.data "c") (by decide) (by decide)).1,
    by decide,
    (C38_exec_params_terminated sample_env (sample_script "abc") (sample_alert 1 1 7 10)).2.2
      rfl (by decide)⟩

theorem am_update_mediatype_updates (m : zbx_am_t) (id : Nat) (a : am_mediatype_args) :
    (am_update_mediatype m id a).alertupdates = m.alertupdates := by
  unfold am_update_mediatype
  cases am_get_mediatype m id <;> rfl

/-- C34: am_update_mediatype of a media type that is in the table replaces its configuration
fields (type, the strings, the smtp fields, maxsessions, maxattempts, attempt_interval) by the
arguments and keeps its id, location, alerts_num and pool queue; for an id that is not in the
table the media type is created with the location NOWHERE, alerts_num 0, an empty pool queue
and the configuration of the arguments; in both cases the manager queue, the alert pools, the
other media types, the update buffer and the alerters are unchanged. -/
theorem C34_update_mediatype_frame (m : zbx_am_t) (id : Nat) (a : am_mediatype_args) :
    (∀ M, am_get_mediatype m id = some M →
      am_get_mediatype (am_update_mediatype m id a) id =
        some { mediatypeid := M.mediatypeid, location := M.location,
               alerts_num := M.alerts_num, queue := M.queue,
               type := a.type, description := a.description, smtp_server := a.smtp_server,
               smtp_helo := a.smtp_helo, smtp_email := a.smtp_email,
               exec_path := a.exec_path, gsm_modem := a.gsm_modem, username := a.username,
               passwd := a.passwd, exec_params := a.exec_params, smtp_port := a.smtp_port,
               smtp_security := a.smtp_security, smtp_verify_peer := a.smtp_verify_peer,
               smtp_verify_host := a.smtp_verify_host,
               smtp_authentication := a.smtp_authentication, maxsessions := a.maxsessions,
               maxattempts := a.maxattempts, attempt_interval := a.attempt_interval }) ∧
    (am_get_mediatype m id = none →
      am_get_mediatype (am_update_mediatype m id a) id =
        some { mediatypeid := id, location := ZBX_AM_LOCATION_NOWHERE, alerts_num := 0,
               queue := [],
               type := a.type, description := a.description, smtp_server := a.smtp_server,
               smtp_helo := a.smtp_helo, smtp_email := a.smtp_email,
               exec_path := a.exec_path, gsm_modem := a.gsm_modem, username := a.username,
               passwd := a.passwd, exec_params := a.exec_params, smtp_port := a.smtp_port,
               smtp_security := a.smtp_security, smtp_verify_peer := a.smtp_verify_peer,
               smtp_verify_host := a.smtp_verify_host,
               smtp_authentication := a.smtp_authentication, maxsessions := a.maxsessions,
               maxattempts := a.maxattempts, attempt_interval := a.attempt_interval }) ∧
    (∀ id', id' ≠ id →
      am_get_mediatype (am_update_mediatype m id a) id' = am_get_mediatype m id') ∧
    (am_update_mediatype m id a).queue = m.queue ∧
    (am_update_mediatype m id a).alertpools = m.alertpools ∧
    (am_update_mediatype m id a).alertupdates = m.alertupdates ∧
    am_same_alerters m (am_update_mediatype m id a) := by
  refine ⟨?_, ?_, ?_, am_update_mediatype_queue m id a, am_update_mediatype_alertpools m id a,
    am_update_mediatype_updates m id a, am_update_mediatype_alerters m id a⟩
  · intro M hM
    rw [am_update_mediatype_get, if_pos rfl, hM]
    rfl
  · intro hM
    rw [am_update_mediatype_get, if_pos rfl, hM]
    rfl
  · intro id' hne
    rw [am_update_mediatype_get, if_neg hne]

/-- Witness of C34: the media type 1 is queued with one alert in flight and one pool left;
reconfiguring it keeps location QUEUE, alerts_num 1 and the pool queue, and sets the limits;
configuring the absent media type 2 creates it empty and not queued. -/
theorem C34_update_mediatype_frame_witness :
    ((am_get_mediatype
        (am_update_mediatype (am_run_state guard_any reconfigure_ops).manager 1
          (sample_args 5 7 30)) 1).map fun M =>
      (M.location, M.alerts_num, M.queue, M.maxsessions, M.maxattempts, M.attempt_interval)) =
      some (ZBX_AM_LOCATION_QUEUE, 1, [8], 5, 7, 30) ∧
    ((am_get_mediatype
        (am_update_mediatype (am_run_state guard_any reconfigure_ops).manager 2
          (sample_args 5 7 30)) 2).map fun M =>
      (M.location, M.alerts_num, M.queue, M.maxsessions, M.maxattempts, M.attempt_interval)) =
      some (ZBX_AM_LOCATION_NOWHERE, 0, [], 5, 7, 30) :=
  ⟨by
      rw [(C34_update_mediatype_frame (am_run_state guard_any reconfigure_ops).manager 1
        (sample_args 5 7 30)).1
        ((am_get_mediatype (am_run_state guard_any reconfigure_ops).manager 1).getD
          (mediatype_local 1)) (by decide)]
      decide,
    by
      rw [(C34_update_mediatype_frame (am_run_state guard_any reconfigure_ops).manager 2
        (sample_args 5 7 30)).2.1 (by decide)]
      decide⟩

/-! ## The update buffer as a map -/

theorem am_db_update_alert_other (m : zbx_am_t) (alertid : Nat) (status retries : Int)
    (error : String) (alertid1 : Nat) (hne : alertid1 ≠ alertid) :
    zbx_hashset_search (fun u : zbx_am_alertstatus_t => u.alertid)
        (am_db_update_alert m alertid status retries error).alertupdates alertid1 =
      zbx_hashset_search (fun u : zbx_am_alertstatus_t => u.alertid) m.alertupdates
        alertid1 := by
  have key : ∀ l : List zbx_am_alertstatus_t,
      zbx_hashset_search (fun u : zbx_am_alertstatus_t => u.alertid)
          (l.map fun u =>
            if u.alertid = alertid then
              { u with retries := retries, status := status, error := error }
            else u) alertid1 =
        zbx_hashset_search (fun u : zbx_am_alertstatus_t => u.alertid) l alertid1 := by
    intro l
    unfold zbx_hashset_search
    rw [find?_map_key (fun u : zbx_am_alertstatus_t => u.alertid) _ (by
      intro x
      split
      · rfl
      · rfl)]
    cases hv : l.find? (fun x => decide (x.alertid = alertid1)) with
    | none => rfl
    | some v =>
      have hva : v.alertid = alertid1 := by
        have := List.find?_some hv
        simpa using this
      have hvn : ¬ v.alertid = alertid := fun e => hne (hva.symm.trans e)
      simp only [Option.map_some', if_neg hvn]
  unfold am_db_update_alert
  simp only []
  rw [key]
  cases hs : zbx_hashset_search (fun u : zbx_am_alertstatus_t => u.alertid) m.alertupdates
      alertid with
  | some v => rfl
  | none =>
    simp only []
    rw [zbx_hashset_search_insert _ _ _ _ hs, if_neg hne]

theorem am_db_update_alert_calls_keys (calls : List am_db_update_alert_args) :
    ∀ m : zbx_am_t, (m.alertupdates.map fun u => u.alertid).Nodup →
      ((am_db_update_alert_calls m calls).alertupdates.map fun u => u.alertid).Nodup := by
  induction calls with
  | nil => intro m h; exact h
  | cons c cs ih =>
    intro m h
    exact ih _ (am_db_update_alert_keys m c.alertid c.status c.retries c.error h)

theorem am_db_update_alert_calls_search (calls : List am_db_update_alert_args)
    (alertid : Nat) :
    ∀ m : zbx_am_t,
      match calls.reverse.find? (fun c => decide (c.alertid = alertid)) with
      | some c =>
        ∃ u, zbx_hashset_search (fun u : zbx_am_alertstatus_t => u.alertid)
            (am_db_update_alert_calls m calls).alertupdates alertid = some u ∧
          u.status = c.status ∧ u.retries = c.retries ∧ u.error = c.error
      | none =>
        zbx_hashset_search (fun u : zbx_am_alertstatus_t => u.alertid)
            (am_db_update_alert_calls m calls).alertupdates alertid =
          zbx_hashset_search (fun u : zbx_am_alertstatus_t => u.alertid) m.alertupdates
            alertid := by
  induction calls with
  | nil => intro m; rfl
  | cons c cs ih =>
    intro m
    have h := ih (am_db_update_alert m c.alertid c.status c.retries c.error)
    rw [List.reverse_cons, List.find?_append]
    cases hf : cs.reverse.find? (fun c => decide (c.alertid = alertid)) with
    | some c1 =>
      rw [hf] at h
      exact h
    | none =>
      rw [hf] at h
      simp only [Option.none_or, List.find?_cons, List.find?_nil]
      by_cases hc : c.alertid = alertid
      · simp only [hc, decide_True]
        show ∃ u, _
        rw [am_db_update_alert_calls, h, ← hc]
        exact am_db_update_alert_search m c.alertid c.status c.retries c.error
      · simp only [hc, decide_False]
        show _ = _
        rw [am_db_update_alert_calls, h]
        exact am_db_update_alert_other m c.alertid c.status c.retries c.error alertid
          (fun e => hc e.symm)

/-- C36: starting from an update buffer that holds every alertid at most once (the empty
buffer of am_init, or any buffer built by am_db_update_alert), after any sequence of
am_db_update_alert calls the buffer holds every alertid at most once; for an alertid with a
call in the sequence the entry found for it carries the status, retries and error of the last
such call; for an alertid without a call the entry found is the one of the initial buffer; and
a single call changes the entry of no other alertid. -/
theorem C36_update_alert_upsert (m : zbx_am_t) (calls : List am_db_update_alert_args)
    (hn : (m.alertupdates.map fun u => u.alertid).Nodup) :
    ((am_db_update_alert_calls m calls).alertupdates.map fun u => u.alertid).Nodup ∧
    (∀ alertid c, calls.reverse.find? (fun c => decide (c.alertid = alertid)) = some c →
      ∃ u, zbx_hashset_search (fun u : zbx_am_alertstatus_t => u.alertid)
          (am_db_update_alert_calls m calls).alertupdates alertid = some u ∧
        u.status = c.status ∧ u.retries = c.retries ∧ u.error = c.error) ∧
    (∀ alertid, (∀ c ∈ calls, c.alertid ≠ alertid) →
      zbx_hashset_search (fun u : zbx_am_alertstatus_t => u.alertid)
          (am_db_update_alert_calls m calls).alertupdates alertid =
        zbx_hashset_search (fun u : zbx_am_alertstatus_t => u.alertid) m.alertupdates
          alertid) ∧
    (∀ (alertid : Nat) (status retries : Int) (error : String) (alertid1 : Nat),
      alertid1 ≠ alertid →
      zbx_hashset_search (fun u : zbx_am_alertstatus_t => u.alertid)
          (am_db_update_alert m alertid status retries error).alertupdates alertid1 =
        zbx_hashset_search (fun u : zbx_am_alertstatus_t => u.alertid) m.alertupdates
          alertid1) := by
  refine ⟨am_db_update_alert_calls_keys calls m hn, ?_, ?_, ?_⟩
  · intro alertid c hc
    have h := am_db_update_alert_calls_search calls alertid m
    rw [hc] at h
    exact h
  · intro alertid hno
    have h := am_db_update_alert_calls_search calls alertid m
    have hf : calls.reverse.find? (fun c => decide (c.alertid = alertid)) = none := by
      rw [List.find?_eq_none]
      intro c hc
      simpa using hno c (List.mem_reverse.1 hc)
    rw [hf] at h
    exact h
  · intro alertid status retries error alertid1 hne
    exact am_db_update_alert_other m alertid status retries error alertid1 hne

/-- Witness of C36: after the updates (1, NOT_SENT, 0), (2, SENT, 0) and (1, FAILED, 1) the
buffer holds one entry for the alert 1, with the values of the last call, and one for the
alert 2. -/
theorem C36_update_alert_upsert_witness :
    ((am_db_update_alert_calls (am_init 0) sample_calls).alertupdates.map
      fun u => u.alertid).Nodup ∧
    (am_db_update_alert_calls (am_init 0) sample_calls).alertupdates.map
        (fun u => (u.alertid, u.status, u.retries, u.error)) =
      [(2, ALERT_STATUS_SENT, 0, ""), (1, ALERT_STATUS_FAILED, 1, "second")] :=
  ⟨(C36_update_alert_upsert (am_init 0) sample_calls (by decide)).1, by decide⟩

/-- When am_retry_alert requeues an alert whose pool is not in the hash set, the pool is
created empty and holds just the retried alert afterwards. -/
theorem am_retry_alert_recreate {m : zbx_am_t} {a : zbx_am_alert_t} {M : zbx_am_mediatype_t}
    (now : Int) (hw : am_wf m) (ho : am_ord m)
    (hM : am_get_mediatype m a.mediatypeid = some M) (hlt : ¬ M.maxattempts ≤ a.retries + 1)
    (hP : alertpool_deref m a.mediatypeid a.alertpoolid = none) :
    (am_get_alertpool (mediatype_store m { M with alerts_num := M.alerts_num - 1 })
        a.mediatypeid a.alertpoolid).1 =
      { id := a.alertpoolid, mediatypeid := a.mediatypeid, queue := [],
        location := ZBX_AM_LOCATION_NOWHERE } ∧
    ∃ m', am_retry_alert m a now = some (SUCCEED, m') ∧
      alertpool_deref m' a.mediatypeid a.alertpoolid =
        some { id := a.alertpoolid, mediatypeid := a.mediatypeid,
               queue := [{ a with retries := a.retries + 1,
                                  nextsend := int_wrap (now + M.attempt_interval) }],
               location := ZBX_AM_LOCATION_QUEUE } := by
  constructor
  · have h0 : alertpool_deref (mediatype_store m { M with alerts_num := M.alerts_num - 1 })
        a.mediatypeid a.alertpoolid = none := hP
    rw [am_get_alertpool_none h0]
  · obtain ⟨⟨ret, m1⟩, hr, -⟩ := am_retry_alert_ord a now hw ho
    have hret : ret = SUCCEED := by
      rcases am_retry_alert_inv hr with ⟨h0, -⟩ | ⟨M0, hM0, hle, -⟩ | ⟨M0, m3, m4, -, -, e, -⟩
      · rw [hM] at h0
        cases h0
      · rw [hM] at hM0
        cases hM0
        exact absurd hle hlt
      · exact e
    subst hret
    obtain ⟨-, -, -, -, P0, q, hP0, hq, hP'⟩ := am_retry_alert_effect hw hr hM
    rcases hP0 with e | ⟨-, e⟩
    · rw [hP] at e
      cases e
    · subst e
      simp only at hq hP'
      rw [List.perm_singleton.1 hq] at hP'
      exact ⟨m1, hr, hP'⟩

/-- C33: (1) there is a run of am_update_mediatype, enqueue, am_pop_alert and am_remove_alert
operations from the empty manager (am_remove_alert applied to alerts in flight only), after
which an alert is in flight, its media type exists and its pool is not in the alert pool hash
set, and am_retry_alert of that alert returns SUCCEED and leaves the pool in the hash set with
just the retried alert in its queue; (2) in every state reached from the empty manager,
am_retry_alert of an alert that has attempts left and whose pool is not in the hash set
creates the pool with an empty alert queue and the location NOWHERE and returns SUCCEED with
the pool holding just the retried alert. -/
theorem C33_pool_recreation_reachable :
    (∃ (ops : List am_op) (s : am_sched) (a : zbx_am_alert_t),
      (ops.all fun op => match op with
        | .retry_alert _ _ => false
        | _ => true) = true ∧
      am_run guard_in_flight (am_sched_init 0) ops = some s ∧ a ∈ s.in_flight ∧
      am_get_mediatype s.manager a.mediatypeid ≠ none ∧
      alertpool_deref s.manager a.mediatypeid a.alertpoolid = none ∧
      ∃ m', am_retry_alert s.manager a 100 = some (SUCCEED, m') ∧
        (alertpool_deref m' a.mediatypeid a.alertpoolid).map
            (fun P => (P.location, P.queue.map fun x => (x.alertid, x.retries, x.nextsend))) =
          some (ZBX_AM_LOCATION_QUEUE, [(a.alertid, a.retries + 1, 160)])) ∧
    (∀ (n : Nat) (ops : List am_op) (s : am_sched) (a : zbx_am_alert_t) (now : Int)
        (M : zbx_am_mediatype_t),
      am_run guard_any (am_sched_init n) ops = some s →
      am_get_mediatype s.manager a.mediatypeid = some M → ¬ M.maxattempts ≤ a.retries + 1 →
      alertpool_deref s.manager a.mediatypeid a.alertpoolid = none →
      (am_get_alertpool (mediatype_store s.manager { M with alerts_num := M.alerts_num - 1 })
          a.mediatypeid a.alertpoolid).1 =
        { id := a.alertpoolid, mediatypeid := a.mediatypeid, queue := [],
          location := ZBX_AM_LOCATION_NOWHERE } ∧
      ∃ m', am_retry_alert s.manager a now = some (SUCCEED, m') ∧
        alertpool_deref m' a.mediatypeid a.alertpoolid =
          some { id := a.alertpoolid, mediatypeid := a.mediatypeid,
                 queue := [{ a with retries := a.retries + 1,
                                    nextsend := int_wrap (now + M.attempt_interval) }],
                 location := ZBX_AM_LOCATION_QUEUE }) := by
  constructor
  · refine ⟨recreate_ops, am_run_state guard_in_flight recreate_ops, sample_alert 1 1 7 10,
      by decide, by decide, by decide, by decide, by decide,
      ((am_retry_alert (am_run_state guard_in_flight recreate_ops).manager
        (sample_alert 1 1 7 10) 100).getD (FAIL, am_init 0)).2, by decide, by decide⟩
  · intro n ops s a now M h hM hlt hP
    obtain ⟨hw, ho⟩ := am_ord_reachable h
    exact am_retry_alert_recreate now hw ho hM hlt hP

/-- Witness of C33: in the state after the alerts 1 and 2 of the pool 7 were popped and the
alert 2 completed, the pool 7 is gone while the alert 1 is in flight, and am_retry_alert of
the alert 1 creates it again. -/
theorem C33_pool_recreation_reachable_witness :
    (sample_alert 1 1 7 10) ∈ (am_run_state guard_in_flight recreate_ops).in_flight ∧
    alertpool_deref (am_run_state guard_in_flight recreate_ops).manager 1 7 = none ∧
    ∃ m', am_retry_alert (am_run_state guard_in_flight recreate_ops).manager
        (sample_alert 1 1 7 10) 100 = some (SUCCEED, m') ∧
      alertpool_deref m' (sample_alert 1 1 7 10).mediatypeid
          (sample_alert 1 1 7 10).alertpoolid =
        some { id := (sample_alert 1 1 7 10).alertpoolid,
               mediatypeid := (sample_alert 1 1 7 10).mediatypeid,
               queue := [{ sample_alert 1 1 7 10 with
                 retries := (sample_alert 1 1 7 10).retries + 1,
                 nextsend := 100 +
                   ((am_get_mediatype (am_run_state guard_in_flight recreate_ops).manager
                     1).getD (mediatype_local 1)).attempt_interval }],
               location := ZBX_AM_LOCATION_QUEUE } :=
  ⟨by decide, by decide,
    (C33_pool_recreation_reachable.2 0 recreate_ops _ (sample_alert 1 1 7 10) 100
      ((am_get_mediatype (am_run_state guard_in_flight recreate_ops).manager 1).getD
        (mediatype_local 1)) (by decide) (by decide) (by decide) (by decide)).2⟩

/-! ## The dispatch loop -/

/-- After a successful am_check_queue, am_pop_alert returns the alert am_check_queue looked
at. -/
theorem am_check_queue_pop {m : zbx_am_t} {now : Int} (hw : am_wf m) (ho : am_ord m)
    (hc : am_check_queue m now = some true) :
    ∃ id t M pid tp P a rest m', m.queue = id :: t ∧ am_get_mediatype m id = some M ∧
      M.queue = pid :: tp ∧ alertpool_deref m id pid = some P ∧ P.queue = a :: rest ∧
      a.nextsend ≤ now ∧ am_pop_alert m = some (some a, m') := by
  obtain ⟨id, t, M, pid, tp, P, a, rest, hq, hM, hMq, hP, hPq, hle⟩ := am_check_queue_true hc
  obtain ⟨a1, m', hp, -⟩ := am_pop_alert_ord hw ho hq
  obtain ⟨id1, t1, M1, pid1, tp1, P1, rest1, q1, M1', hq1, hM1, hMq1, hP1, hPq1, -⟩ :=
    am_pop_alert_effect hw hp
  rw [hq] at hq1
  injection hq1 with e1 e2
  subst e1
  rw [hM] at hM1
  cases hM1
  rw [hMq] at hMq1
  injection hMq1 with e3 e4
  subst e3
  rw [hP] at hP1
  cases hP1
  rw [hPq] at hPq1
  injection hPq1 with e5 e6
  subst e5
  exact ⟨id, t, M, pid, tp, P, a, rest, m', hq, hM, hMq, hP, hPq, hle, hp⟩

theorem am_process_alert_total (env : am_env) {m : zbx_am_t} (i : Nat) (a : zbx_am_alert_t)
    (hw : am_wf m) (ho : am_ord m) : ∃ res, am_process_alert env m i a = some res := by
  have hrem : ∀ err : String, ∃ m1,
      am_remove_alert (am_db_update_alert m a.alertid ALERT_STATUS_FAILED 0 err) a =
        some m1 := by
    intro err
    have hw3 : am_wf (am_db_update_alert m a.alertid ALERT_STATUS_FAILED 0 err) :=
      @am_wf_congr m _ rfl rfl rfl hw
    have ho3 : am_ord (am_db_update_alert m a.alertid ALERT_STATUS_FAILED 0 err) :=
      @am_ord_congr m _ rfl rfl rfl ho
    obtain ⟨m3, hr, -⟩ := am_remove_alert_ord a hw3 ho3
    exact ⟨m3, hr⟩
  unfold am_process_alert
  cases hM : am_get_mediatype m a.mediatypeid with
  | none => exact ⟨_, rfl⟩
  | some M =>
    simp only
    split
    · exact ⟨_, rfl⟩
    · split
      · exact ⟨_, rfl⟩
      · split
        · exact ⟨_, rfl⟩
        · split
          · exact ⟨_, rfl⟩
          · split
            · split
              · rename_i err _
                obtain ⟨m1, h1⟩ := hrem err
                rw [h1]
                exact ⟨_, rfl⟩
              · exact ⟨_, rfl⟩
            · obtain ⟨m1, h1⟩ := hrem "unsupported media type"
              rw [h1]
              exact ⟨_, rfl⟩

theorem am_dispatch_iteration_total (env : am_env) {m : zbx_am_t} (now : Int) (hw : am_wf m)
    (ho : am_ord m) : ∃ r, am_dispatch_iteration env m now = some r := by
  obtain ⟨b, hb⟩ := am_check_queue_total hw now
  unfold am_dispatch_iteration
  rw [hb]
  simp only [Option.some_bind]
  cases b with
  | false => exact ⟨_, rfl⟩
  | true =>
    simp only [Bool.true_eq_false, if_false]
    cases hf : m.free_alerters with
    | nil => exact ⟨_, rfl⟩
    | cons i rest =>
      simp only
      have hw0 : am_wf { m with free_alerters := rest } := @am_wf_congr m _ rfl rfl rfl hw
      have ho0 : am_ord { m with free_alerters := rest } := @am_ord_congr m _ rfl rfl rfl ho
      have hc0 : am_check_queue { m with free_alerters := rest } now = some true := hb
      obtain ⟨id, t, M, pid, tp, P, a, rest1, m', -, -, -, -, -, -, hp⟩ :=
        am_check_queue_pop hw0 ho0 hc0
      rw [hp]
      simp only [Option.some_bind]
      obtain ⟨res, hres⟩ := am_process_alert_total env i a (am_wf_pop_alert hw0 hp)
        (am_ord_of_pop hw0 ho0 hp)
      rw [hres]
      simp only [Option.some_bind]
      split
      · exact ⟨_, rfl⟩
      · exact ⟨_, rfl⟩

/-- C32: in every state the main loop reaches, when am_check_queue returns SUCCEED for `now`,
the manager queue has a root media type, its pool queue a root pool and the alert queue of
that pool a root alert `a` with nextsend <= now (the alert am_check_queue looked at);
am_pop_alert, called after any alerter was taken from the free queue, returns this alert `a`
and not NULL; and the iteration of the dispatch loop returns. -/
theorem C32_dispatch_safety (n : Nat) (es : List am_event) (m : zbx_am_t) (now : Int)
    (h : am_main_run (am_init n) es = some m) (hc : am_check_queue m now = some true) :
    ∃ id t M pid tp P a rest, m.queue = id :: t ∧ am_get_mediatype m id = some M ∧
      M.queue = pid :: tp ∧ alertpool_deref m id pid = some P ∧ P.queue = a :: rest ∧
      a.nextsend ≤ now ∧
      (∀ free : List Nat, ∃ m', am_pop_alert { m with free_alerters := free } =
        some (some a, m')) ∧
      ∀ env : am_env, ∃ r, am_dispatch_iteration env m now = some r := by
  obtain ⟨hi, ho⟩ := am_main_reachable h
  obtain ⟨id, t, M, pid, tp, P, a, rest, m', hq, hM, hMq, hP, hPq, hle, hp⟩ :=
    am_check_queue_pop hi.inv.wf ho hc
  refine ⟨id, t, M, pid, tp, P, a, rest, hq, hM, hMq, hP, hPq, hle, ?_,
    fun env => am_dispatch_iteration_total env now hi.inv.wf ho⟩
  intro free
  have hw0 : am_wf { m with free_alerters := free } := @am_wf_congr m _ rfl rfl rfl hi.inv.wf
  have ho0 : am_ord { m with free_alerters := free } := @am_ord_congr m _ rfl rfl rfl ho
  have hc0 : am_check_queue { m with free_alerters := free } now = some true := hc
  obtain ⟨id1, t1, M1, pid1, tp1, P1, a1, rest1, m1, hq1, hM1, hMq1, hP1, hPq1, -, hp1⟩ :=
    am_check_queue_pop hw0 ho0 hc0
  have e1 : id1 = id := by
    have : m.queue = id1 :: t1 := hq1
    rw [hq] at this
    injection this with e _
    exact e.symm
  subst e1
  have hM1' : am_get_mediatype m id1 = some M1 := hM1
  rw [hM] at hM1'
  cases hM1'
  rw [hMq] at hMq1
  injection hMq1 with e3 _
  subst e3
  have hP1' : alertpool_deref m id1 pid = some P1 := hP1
  rw [hP] at hP1'
  cases hP1'
  rw [hPq] at hPq1
  injection hPq1 with e5 _
  subst e5
  exact ⟨m1, hp1⟩

/-- Witness of C32: after one of two due alerts was dispatched, am_check_queue succeeds at the
time 10 and am_pop_alert returns the other alert. -/
theorem C32_dispatch_safety_witness :
    am_check_queue (am_main_state 2 sample_events) 10 = some true ∧
    (∃ a, a.nextsend ≤ 10 ∧
      ∀ free : List Nat, ∃ m', am_pop_alert
        { am_main_state 2 sample_events with free_alerters := free } = some (some a, m')) ∧
    ((am_pop_alert (am_main_state 2 sample_events)).map fun r =>
      r.1.map fun a => (a.alertid, a.nextsend)) = some (some (2, 10)) :=
  ⟨by decide,
    (C32_dispatch_safety 2 sample_events _ 10 (by decide) (by decide)).elim
      fun _ h1 => h1.elim fun _ h2 => h2.elim fun _ h3 => h3.elim fun _ h4 =>
        h4.elim fun _ h5 => h5.elim fun _ h6 => h6.elim fun a h7 => h7.elim fun _ h8 =>
          ⟨a, h8.2.2.2.2.2.1, h8.2.2.2.2.2.2.1⟩,
    by decide⟩

/-! ## The number of queued alerts -/

theorem queued_sum_store (l : List zbx_am_alertpool_t) (P P' : zbx_am_alertpool_t)
    (hn : (l.map alertpool_key).Nodup)
    (hs : zbx_hashset_search alertpool_key l (alertpool_key P') = some P) :
    ((hashset_store alertpool_key l P').map fun x => x.queue.length).sum + P.queue.length =
      (l.map fun x => x.queue.length).sum + P'.queue.length := by
  induction l with
  | nil => cases hs
  | cons x t ih =>
    rw [List.map_cons, List.nodup_cons] at hn
    unfold zbx_hashset_search at hs ih
    unfold hashset_store at ih ⊢
    rw [List.find?_cons] at hs
    by_cases e : alertpool_key x = alertpool_key P'
    · simp only [e, decide_True] at hs
      cases hs
      have ht : (t.map fun y => if alertpool_key y = alertpool_key P' then P' else y) = t := by
        conv_rhs => rw [← List.map_id t]
        apply List.map_congr_left
        intro y hy
        have hne : ¬ alertpool_key y = alertpool_key P' := by
          intro e2
          apply hn.1
          rw [e, ← e2]
          exact List.mem_map.2 ⟨y, hy, rfl⟩
        rw [if_neg hne]
        rfl
      simp only [List.map_cons, if_pos e, List.sum_cons, ht]
      omega
    · simp only [e, decide_False] at hs
      have := ih hn.2 hs
      simp only [List.map_cons, if_neg e, List.sum_cons]
      omega

theorem queued_sum_remove (l : List zbx_am_alertpool_t) (k : Nat × Nat)
    (hn : (l.map alertpool_key).Nodup)
    (he : ∀ P, zbx_hashset_search alertpool_key l k = some P → P.queue = []) :
    ((zbx_hashset_remove_direct alertpool_key l k).map fun x => x.queue.length).sum =
      (l.map fun x => x.queue.length).sum := by
  induction l with
  | nil => rfl
  | cons x t ih =>
    rw [List.map_cons, List.nodup_cons] at hn
    unfold zbx_hashset_search at he ih
    unfold zbx_hashset_remove_direct at ih ⊢
    by_cases e : alertpool_key x = k
    · have hx : x.queue = [] := he x (by rw [List.find?_cons]; simp [e])
      have ht : t.filter (fun y => !decide (alertpool_key y = k)) = t := by
        apply List.filter_eq_self.2
        intro y hy
        have hne : ¬ alertpool_key y = k := by
          intro e2
          apply hn.1
          rw [e, ← e2]
          exact List.mem_map.2 ⟨y, hy, rfl⟩
        simp [hne]
      rw [List.filter_cons]
      simp only [e, decide_True, Bool.not_true, Bool.false_eq_true, if_false, ht, List.map_cons,
        List.sum_cons, hx, List.length_nil, Nat.zero_add]
    · have := ih hn.2 (fun P hP => he P (by
        rw [List.find?_cons]
        simp only [e, decide_False]
        exact hP))
      rw [List.filter_cons]
      simp only [e, decide_False, Bool.not_false, if_true, List.map_cons, List.sum_cons, this]

theorem am_queued_num_store {m : zbx_am_t} {P P' : zbx_am_alertpool_t}
    (hn : (m.alertpools.map alertpool_key).Nodup)
    (hP : alertpool_deref m P'.mediatypeid P'.id = some P) :
    ((alertpool_store m P').alertpools.map alertpool_key).Nodup ∧
    am_queued_num (alertpool_store m P') + P.queue.length =
      am_queued_num m + P'.queue.length := by
  constructor
  · show ((hashset_store alertpool_key m.alertpools P').map alertpool_key).Nodup
    rw [hashset_store_keys]
    exact hn
  · exact queued_sum_store m.alertpools P P' hn hP

theorem am_queued_num_get_alertpool (m : zbx_am_t) (mid pid : Nat)
    (hn : (m.alertpools.map alertpool_key).Nodup) :
    ((am_get_alertpool m mid pid).2.alertpools.map alertpool_key).Nodup ∧
    am_queued_num (am_get_alertpool m mid pid).2 = am_queued_num m := by
  cases hs : alertpool_deref m mid pid with
  | some P =>
    rw [am_get_alertpool_some hs]
    exact ⟨hn, rfl⟩
  | none =>
    rw [am_get_alertpool_none hs]
    constructor
    · exact hashset_cons_keys_nodup alertpool_key _ _ hn hs
    · unfold am_queued_num
      simp

theorem am_queued_num_push_alertpool {m m' : zbx_am_t} {mid pid : Nat}
    (hn : (m.alertpools.map alertpool_key).Nodup)
    (h : am_push_alertpool m mid pid = some m') :
    (m'.alertpools.map alertpool_key).Nodup ∧ am_queued_num m' = am_queued_num m := by
  obtain ⟨M, P, -, hP, hc⟩ := am_push_alertpool_inv h
  rcases hc with ⟨-, q, -, rfl⟩ | ⟨-, q, -, rfl⟩
  · have hk := alertpool_deref_key hP
    have hP2 : alertpool_deref (mediatype_store m { M with queue := q })
        ({ P with location := ZBX_AM_LOCATION_QUEUE } : zbx_am_alertpool_t).mediatypeid
        ({ P with location := ZBX_AM_LOCATION_QUEUE } : zbx_am_alertpool_t).id = some P := by
      show alertpool_deref m P.mediatypeid P.id = some P
      rw [hk.1, hk.2]
      exact hP
    obtain ⟨h1, h2⟩ := am_queued_num_store (m := mediatype_store m { M with queue := q }) hn hP2
    refine ⟨h1, ?_⟩
    have h3 : am_queued_num (mediatype_store m { M with queue := q }) = am_queued_num m := rfl
    simp only at h2
    omega
  · exact ⟨hn, rfl⟩

theorem am_queued_num_push_meditype {m m' : zbx_am_t} {id : Nat}
    (h : am_push_meditype m id = some m') : m'.alertpools = m.alertpools := by
  obtain ⟨M, hM, -⟩ := am_push_meditype_inv h
  exact (am_push_meditype_fields hM h).2.2

theorem am_queued_num_congr {m m' : zbx_am_t} (h : m'.alertpools = m.alertpools) :
    am_queued_num m' = am_queued_num m := by
  unfold am_queued_num
  rw [h]

/-- The function am_remove_alert leaves the number of queued alerts unchanged. -/
theorem am_queued_num_remove_alert {m m' : zbx_am_t} {a : zbx_am_alert_t}
    (hn : (m.alertpools.map alertpool_key).Nodup) (h : am_remove_alert m a = some m') :
    am_queued_num m' = am_queued_num m := by
  rcases am_remove_alert_inv h with ⟨-, rfl⟩ | ⟨M, m3, M3, -, h3, -, h4⟩
  · rfl
  · have hn0 : ((mediatype_store m { M with alerts_num := M.alerts_num - 1 }).alertpools.map
        alertpool_key).Nodup := hn
    obtain ⟨hng, hg⟩ := am_queued_num_get_alertpool
      (mediatype_store m { M with alerts_num := M.alerts_num - 1 }) a.mediatypeid a.alertpoolid
      hn0
    have hg' : am_queued_num (am_get_alertpool
        (mediatype_store m { M with alerts_num := M.alerts_num - 1 }) a.mediatypeid
        a.alertpoolid).2 = am_queued_num m := hg
    have h3' : am_queued_num m3 = am_queued_num m := by
      rcases h3 with ⟨he, rfl⟩ | ⟨-, hp⟩
      · rw [← hg']
        unfold am_queued_num am_remove_alertpool
        simp only
        apply queued_sum_remove _ _ hng
        intro P hP
        have hd := (am_get_alertpool_deref
          (mediatype_store m { M with alerts_num := M.alerts_num - 1 }) a.mediatypeid
          a.alertpoolid).1
        unfold alertpool_deref at hd
        rw [hd] at hP
        cases hP
        exact he
      · rw [(am_queued_num_push_alertpool hng hp).2]
        exact hg'
    rcases h4 with ⟨-, -, rfl⟩ | ⟨-, hp⟩
    · exact h3'
    · rw [am_queued_num_congr (am_queued_num_push_meditype hp)]
      exact h3'

/-- The function am_pop_alert that returns an alert removes one alert from the queues. -/
theorem am_queued_num_pop_alert {m m' : zbx_am_t} {a : zbx_am_alert_t}
    (hn : (m.alertpools.map alertpool_key).Nodup)
    (h : am_pop_alert m = some (some a, m')) :
    (m'.alertpools.map alertpool_key).Nodup ∧ am_queued_num m' + 1 = am_queued_num m := by
  obtain ⟨id, m1, pid, m2, P, q, M, h1, h2, hP, hhead, hq, hM, hc⟩ := am_pop_alert_inv h
  have e1 : m1.alertpools = m.alertpools := by
    rcases am_pop_mediatype_inv h1 with ⟨-, e⟩ | ⟨id1, t, M1, q1, -, -, -, e⟩
    · cases e
    · cases e
      rfl
  have hn1 : (m1.alertpools.map alertpool_key).Nodup := by rw [e1]; exact hn
  have e2 : (m2.alertpools.map alertpool_key).Nodup ∧ am_queued_num m2 = am_queued_num m1 := by
    obtain ⟨M2, -, hc2⟩ := am_pop_alertpool_inv h2
    rcases hc2 with ⟨-, e⟩ | ⟨pid1, t, P1, q1, -, hP1, -, e⟩
    · cases e
    · cases e
      have hk := alertpool_deref_key hP1
      have hP2 : alertpool_deref m1
          ({ P1 with location := ZBX_AM_LOCATION_NOWHERE } : zbx_am_alertpool_t).mediatypeid
          ({ P1 with location := ZBX_AM_LOCATION_NOWHERE } : zbx_am_alertpool_t).id =
          some P1 := by
        show alertpool_deref m1 P1.mediatypeid P1.id = some P1
        rw [hk.1, hk.2]
        exact hP1
      obtain ⟨k1, k2⟩ := am_queued_num_store hn1 hP2
      refine ⟨k1, ?_⟩
      simp only at k2
      have : am_queued_num (mediatype_store
          (alertpool_store m1 { P1 with location := ZBX_AM_LOCATION_NOWHERE })
          { M2 with queue := q1 }) =
          am_queued_num (alertpool_store m1 { P1 with location := ZBX_AM_LOCATION_NOWHERE }) :=
        rfl
      omega
  have hk := alertpool_deref_key hP
  have hP3 : alertpool_deref m2 ({ P with queue := q } : zbx_am_alertpool_t).mediatypeid
      ({ P with queue := q } : zbx_am_alertpool_t).id = some P := by
    show alertpool_deref m2 P.mediatypeid P.id = some P
    rw [hk.1, hk.2]
    exact hP
  obtain ⟨k1, k2⟩ := am_queued_num_store e2.1 hP3
  simp only at k2
  have hlen : q.length + 1 = P.queue.length := by
    cases hPq : P.queue with
    | nil => rw [hPq] at hhead; cases hhead
    | cons x t =>
      rw [hPq] at hq
      rw [(zbx_binary_heap_remove_min_perm _ x t q hq).length_eq, List.length_cons]
  have e3 : am_queued_num (alertpool_store m2 { P with queue := q }) + 1 = am_queued_num m := by
    have := am_queued_num_congr e1
    omega
  rcases hc with ⟨-, hp⟩ | ⟨-, rfl⟩
  · have ea := am_queued_num_push_meditype hp
    refine ⟨by rw [ea]; exact k1, ?_⟩
    rw [am_queued_num_congr ea]
    exact e3
  · exact ⟨k1, e3⟩

/-! ## Termination of the dispatch loop -/

theorem am_process_alert_queued {env : am_env} {m : zbx_am_t} {i : Nat} {a : zbx_am_alert_t}
    {res : am_process_alert_result} (hn : (m.alertpools.map alertpool_key).Nodup)
    (h : am_process_alert env m i a = some res) :
    am_queued_num res.manager = am_queued_num m := by
  cases hM : am_get_mediatype m a.mediatypeid with
  | none =>
    unfold am_process_alert at h
    rw [hM] at h
    simp only [Option.some.injEq] at h
    rw [← h]
  | some M =>
    rcases am_process_alert_inv h (by rw [hM]; exact Option.some_ne_none _) with
      ⟨-, e, -⟩ | ⟨-, -, err, hr⟩
    · rw [e]
      rfl
    · have hn1 : ((am_db_update_alert m a.alertid ALERT_STATUS_FAILED 0 err).alertpools.map
          alertpool_key).Nodup := hn
      rw [am_queued_num_remove_alert hn1 hr]
      rfl

theorem am_dispatch_iteration_inv {env : am_env} {m : zbx_am_t} {now : Int}
    {r : Bool × zbx_am_t} (h : am_dispatch_iteration env m now = some r) :
    r = (false, m) ∨
    ∃ i rest a m2 res, am_check_queue m now = some true ∧ m.free_alerters = i :: rest ∧
      am_pop_alert { m with free_alerters := rest } = some (some a, m2) ∧
      am_process_alert env m2 i a = some res ∧ r.1 = true ∧
      r.2.alertpools = res.manager.alertpools := by
  unfold am_dispatch_iteration at h
  cases hb : am_check_queue m now with
  | none => rw [hb] at h; cases h
  | some b =>
    rw [hb] at h
    simp only [Option.some_bind] at h
    cases b with
    | false =>
      simp only [if_true, Option.some.injEq] at h
      exact Or.inl h.symm
    | true =>
      simp only [Bool.true_eq_false, if_false] at h
      cases hf : m.free_alerters with
      | nil =>
        rw [hf] at h
        simp only [Option.some.injEq] at h
        exact Or.inl h.symm
      | cons i rest =>
        rw [hf] at h
        simp only at h
        cases hp : am_pop_alert { m with free_alerters := rest } with
        | none => rw [hp] at h; cases h
        | some x =>
          rw [hp] at h
          simp only [Option.some_bind] at h
          obtain ⟨o, m2⟩ := x
          cases o with
          | none => cases h
          | some a =>
            simp only [Option.some_bind] at h
            cases hr : am_process_alert env m2 i a with
            | none => rw [hr] at h; cases h
            | some res =>
              rw [hr] at h
              simp only [Option.some_bind] at h
              refine Or.inr ⟨i, rest, a, m2, res, rfl, rfl, hp, hr, ?_⟩
              split at h
              · simp only [Option.some.injEq] at h
                rw [← h]
                exact ⟨rfl, rfl⟩
              · simp only [Option.some.injEq] at h
                rw [← h]
                exact ⟨rfl, rfl⟩

/-- An iteration of the dispatch loop that goes on removed one alert from the queues. -/
theorem am_dispatch_iteration_queued {env : am_env} {m : zbx_am_t} {now : Int}
    {r : Bool × zbx_am_t} (hn : (m.alertpools.map alertpool_key).Nodup)
    (h : am_dispatch_iteration env m now = some r) :
    (r.1 = false → r.2 = m) ∧ (r.1 = true → am_queued_num r.2 + 1 = am_queued_num m) := by
  rcases am_dispatch_iteration_inv h with rfl | ⟨i, rest, a, m2, res, -, -, hp, hr, h1, h2⟩
  · exact ⟨fun _ => rfl, fun e => absurd e Bool.false_ne_true⟩
  · refine ⟨fun e => absurd (h1.symm.trans e) (by decide), fun _ => ?_⟩
    have hn0 : (({ m with free_alerters := rest } : zbx_am_t).alertpools.map
        alertpool_key).Nodup := hn
    obtain ⟨hn2, e2⟩ := am_queued_num_pop_alert hn0 hp
    rw [am_queued_num_congr h2, am_process_alert_queued hn2 hr]
    exact e2

theorem am_dispatch_loop_terminates (env : am_env) (now : Int) (k : Nat) :
    ∀ m : zbx_am_t, am_main_inv m → am_ord m → am_queued_num m ≤ k →
      ∃ c m', am_dispatch_loop env now (k + 1) m = some (c, m') ∧
        am_queued_num m' + c = am_queued_num m := by
  induction k with
  | zero =>
    intro m hi ho hk
    have hkeys : (m.alertpools.map alertpool_key).Nodup := hi.inv.wf.pool_keys
    obtain ⟨r, hr⟩ := am_dispatch_iteration_total env now hi.inv.wf ho
    obtain ⟨h1, h2⟩ := am_dispatch_iteration_queued hkeys hr
    cases hb : r.1 with
    | false =>
      refine ⟨0, r.2, ?_, by rw [h1 hb]; rfl⟩
      rw [am_dispatch_loop, hr]
      simp only [Option.some_bind, hb, if_true]
    | true =>
      have := h2 hb
      omega
  | succ k ih =>
    intro m hi ho hk
    have hkeys : (m.alertpools.map alertpool_key).Nodup := hi.inv.wf.pool_keys
    obtain ⟨r, hr⟩ := am_dispatch_iteration_total env now hi.inv.wf ho
    obtain ⟨h1, h2⟩ := am_dispatch_iteration_queued hkeys hr
    cases hb : r.1 with
    | false =>
      refine ⟨0, r.2, ?_, by rw [h1 hb]; rfl⟩
      rw [am_dispatch_loop, hr]
      simp only [Option.some_bind, hb, if_true]
    | true =>
      have hdec := h2 hb
      have hstep : am_event_step m (.dispatch env now) = some r.2 := by
        show (am_dispatch_iteration env m now).map (fun r => r.2) = some r.2
        rw [hr]
        rfl
      have hi' := am_main_inv_step hi hstep
      have ho' := am_ord_event_step hi ho hstep
      obtain ⟨c, m', hl, hs⟩ := ih r.2 hi' ho' (by omega)
      refine ⟨c + 1, m', ?_, by omega⟩
      rw [am_dispatch_loop, hr]
      simp only [Option.some_bind, hb, Bool.true_eq_false, if_false]
      rw [hl]
      rfl

/-- C37: in every state the main loop reaches, for every fixed `now`, the dispatch loop ends
within N + 1 iterations, N being the number of alerts stored in the alert queues of the pools:
it returns, the number c of iterations that handed an alert to am_process_alert is at most N,
and N - c alerts are stored afterwards; every am_pop_alert of an iteration that returns an
alert makes the number of stored alerts one smaller, and the following am_process_alert does
not change it. -/
theorem C37_dispatch_loop_terminates (n : Nat) (es : List am_event) (m : zbx_am_t)
    (env : am_env) (now : Int) (h : am_main_run (am_init n) es = some m) :
    (∃ c m', am_dispatch_loop env now (am_queued_num m + 1) m = some (c, m') ∧
      c ≤ am_queued_num m ∧ am_queued_num m' + c = am_queued_num m) ∧
    (∀ (free : List Nat) (i : Nat) (a : zbx_am_alert_t) (m2 : zbx_am_t)
        (res : am_process_alert_result),
      am_pop_alert { m with free_alerters := free } = some (some a, m2) →
      am_process_alert env m2 i a = some res →
      am_queued_num m2 + 1 = am_queued_num m ∧ am_queued_num res.manager = am_queued_num m2) ∧
    (∀ r, am_dispatch_iteration env m now = some r →
      (r.1 = false → r.2 = m) ∧ (r.1 = true → am_queued_num r.2 + 1 = am_queued_num m)) := by
  obtain ⟨hi, ho⟩ := am_main_reachable h
  refine ⟨?_, ?_, ?_⟩
  · obtain ⟨c, m', hl, hs⟩ :=
      am_dispatch_loop_terminates env now (am_queued_num m) m hi ho (le_refl _)
    exact ⟨c, m', hl, by omega, hs⟩
  · intro free i a m2 res hp hr
    have hn0 : (({ m with free_alerters := free } : zbx_am_t).alertpools.map
        alertpool_key).Nodup := hi.inv.wf.pool_keys
    obtain ⟨hn2, e2⟩ := am_queued_num_pop_alert hn0 hp
    exact ⟨e2, am_process_alert_queued hn2 hr⟩
  · intro r hr
    have hkeys : (m.alertpools.map alertpool_key).Nodup := hi.inv.wf.pool_keys
    exact am_dispatch_iteration_queued hkeys hr

/-- Witness of C37: two alerts are stored and one alerter is free; the dispatch loop at the
time 10 hands out one alert and ends (no alerter is free), one alert is stored afterwards. -/
theorem C37_dispatch_loop_terminates_witness :
    am_queued_num (am_main_state 2 queued_events) = 2 ∧
    (∃ c m', am_dispatch_loop sample_env 10 (am_queued_num (am_main_state 2 queued_events) + 1)
        (am_main_state 2 queued_events) = some (c, m') ∧
      c ≤ am_queued_num (am_main_state 2 queued_events) ∧
      am_queued_num m' + c = am_queued_num (am_main_state 2 queued_events)) ∧
    ((am_dispatch_loop sample_env 10 3 (am_main_state 2 queued_events)).map fun r =>
      (r.1, am_queued_num r.2)) = some (1, 1) :=
  ⟨by decide,
    (C37_dispatch_loop_terminates 2 queued_events _ sample_env 10 (by decide)).1,
    by decide⟩

/-! ## One pool processed alert by alert -/

/-- The function am_remove_alert queues the media type again when the pool of the alert still
holds alerts and the capacity test passes. -/
theorem am_remove_alert_requeued {m m' : zbx_am_t} {a : zbx_am_alert_t}
    {M : zbx_am_mediatype_t} {P : zbx_am_alertpool_t} (hw : am_wf m)
    (h : am_remove_alert m a = some m') (hM : am_get_mediatype m a.mediatypeid = some M)
    (hP : alertpool_deref m a.mediatypeid a.alertpoolid = some P) (hne : P.queue ≠ [])
    (hc : M.maxsessions = 0 ∨ M.alerts_num - 1 < M.maxsessions) : a.mediatypeid ∈ m'.queue := by
  rcases am_remove_alert_inv h with ⟨h0, -⟩ | ⟨M0, m3, M3, hM0, h3, hM3, h4⟩
  · rw [hM] at h0
    cases h0
  · rw [hM] at hM0
    cases hM0
    have hkey := am_get_mediatype_key hM
    have hG0 : am_get_mediatype (mediatype_store m { M with alerts_num := M.alerts_num - 1 })
        a.mediatypeid = some { M with alerts_num := M.alerts_num - 1 } := by
      rw [am_get_mediatype_store (M := { M with alerts_num := M.alerts_num - 1 })
        (by show am_get_mediatype m M.mediatypeid = some M; rw [hkey]; exact hM)]
      rw [if_pos hkey.symm]
    have hD0 : alertpool_deref (mediatype_store m { M with alerts_num := M.alerts_num - 1 })
        a.mediatypeid a.alertpoolid = some P := hP
    rw [am_get_alertpool_some hD0] at h3
    simp only at h3
    have hM3e : M3.queue ≠ [] ∧ M3.alerts_num = M.alerts_num - 1 ∧
        M3.maxsessions = M.maxsessions := by
      rcases h3 with ⟨e, -⟩ | ⟨-, hp⟩
      · exact absurd e hne
      · obtain ⟨Mg, Pg, q, hMg, hPg, hMq, hcase⟩ := am_push_alertpool_get hp
        rw [hG0] at hMg
        cases hMg
        rw [hD0] at hPg
        cases hPg
        rw [hM3] at hMq
        cases hMq
        refine ⟨?_, rfl, rfl⟩
        simp only
        rcases hcase with ⟨-, hq⟩ | ⟨hl, hq⟩
        · intro e
          rw [e] at hq
          exact absurd hq.symm.eq_nil (List.cons_ne_nil _ _)
        · intro e
          rw [e] at hq
          have hMq0 : M.queue = [] := hq.symm.eq_nil
          rcases hw.pool_loc _ _ P hP with h1 | h1
          · exact hl h1
          · obtain ⟨M1, hM1, hin⟩ := hw.pool_mtq _ _ P hP h1
            rw [hM] at hM1
            cases hM1
            rw [hMq0] at hin
            exact absurd hin (List.not_mem_nil _)
    rcases h4 with ⟨e, -, -⟩ | ⟨-, hp⟩
    · exact absurd e hM3e.1
    · apply (am_push_meditype_mem hM3 hp a.mediatypeid).2
      refine Or.inr ⟨rfl, hM3e.1, ?_⟩
      unfold mt_cap
      rw [hM3e.2.1, hM3e.2.2]
      exact hc

/-- One round on a manager with one pool: am_pop_alert returns the root of the pool, an alert of
least nextsend, am_remove_alert completes it, and the pool holds the other alerts or the manager
queue is empty. -/
theorem am_one_pool_step {mid pid : Nat} {l : List zbx_am_alert_t} {s : am_sched}
    (h : am_one_pool mid pid l s) :
    ∃ a rest m1 m2 q, l = a :: rest ∧ am_pop_alert s.manager = some (some a, m1) ∧
      am_remove_alert m1 a = some m2 ∧ q.Perm rest ∧
      (∀ x ∈ l, a.nextsend ≤ x.nextsend) ∧
      ((q = [] ∧ m2.queue = []) ∨ am_one_pool mid pid q { manager := m2, in_flight := [] }) := by
  obtain ⟨a, m1, hpop, ho1⟩ := am_pop_alert_ord h.inv.wf h.ord h.queued
  obtain ⟨id, t, M, pid0, tp, P0, rest, q, M', hq, hM, hMq, hP0, hP0q, hMl, hP0l, hqr, hoth, hM',
    hM'e, hM'q, hM'l, hq', hfr, hP1⟩ := am_pop_alert_effect h.inv.wf hpop
  rw [h.queued] at hq
  cases hq
  obtain ⟨-, hpid⟩ := h.single_pool _ _ _ hP0
  subst hpid
  obtain ⟨P, hP, hPl⟩ := h.pool
  rw [hP0] at hP
  cases hP
  have hal : l = a :: rest := by rw [← hPl, hP0q]
  obtain ⟨hamid, hapid⟩ := h.inv.pool_ids _ _ _ hP0 a (by rw [hP0q]; exact List.mem_cons_self _ _)
  have hi1 : am_inv { manager := m1, in_flight := [a] } := by
    have := am_inv_pop_alert h.inv hpop
    rw [h.idle] at this
    exact this
  obtain ⟨m2, hrem, ho2⟩ := am_remove_alert_ord a hi1.wf ho1
  have hi2 : am_inv { manager := m2, in_flight := [] } := by
    have := @am_inv_remove_alert _ m2 a a hi1 (List.mem_singleton.2 rfl) rfl rfl hrem
    simpa using this
  have hmin : ∀ x ∈ l, a.nextsend ≤ x.nextsend := by
    have ho := h.ord.alerts _ _ _ hP0
    rw [hP0q] at ho
    rw [hal]
    exact heap_root_min_mem ho
  have hM1 : am_get_mediatype m1 a.mediatypeid = some M' := by rw [hamid]; exact hM'
  have hP1a : alertpool_deref m1 a.mediatypeid a.alertpoolid =
      some { P0 with queue := q, location := ZBX_AM_LOCATION_NOWHERE } := by
    rw [hamid, hapid]; exact hP1
  obtain ⟨hoth2, hmt2, hfr2, hpool2⟩ := am_remove_alert_effect hi1.wf hrem hM1
  have hsp2 : ∀ mid' pid' P, alertpool_deref m2 mid' pid' = some P →
      mid' = mid ∧ pid' = pid0 := by
    intro mid' pid' P hd
    by_contra hne
    have h1 := hfr2 mid' pid' (by rw [hamid, hapid]; exact hne)
    have h2 := hfr mid' pid' hne
    rw [h1, h2] at hd
    exact hne (h.single_pool _ _ _ hd)
  have hsm2 : ∀ id' M2, am_get_mediatype m2 id' = some M2 → id' = mid := by
    intro id' M2 hg
    by_contra hne
    have h1 := hoth2 id' (by rw [hamid]; exact hne)
    have h2 := hoth id' hne
    rw [h1, h2] at hg
    exact hne (h.single_mt _ _ hg)
  have hnum : M'.alerts_num = 1 := by
    have := hi1.num _ _ hM'
    rw [this]
    simp [am_in_flight_num, hamid]
  have hmax : M'.maxsessions = M.maxsessions := by rw [hM'e]
  obtain ⟨M0, hM0, hcap⟩ := h.mt
  rw [hM] at hM0
  cases hM0
  refine ⟨a, rest, m1, m2, q, hal, hpop, hrem, hqr, hmin, ?_⟩
  rcases hpool2 with ⟨hall, hnone⟩ | ⟨P1, hP1e, hP1q, hP2⟩
  · left
    have hqe : q = [] := hall _ hP1a
    refine ⟨hqe, ?_⟩
    apply List.eq_nil_iff_forall_not_mem.2
    intro x hx
    obtain ⟨Mx, hMx, -, hMxq⟩ := hi2.wf.queue_mt x hx
    obtain ⟨p, hp⟩ := List.exists_mem_of_ne_nil _ hMxq
    obtain ⟨Px, hPx, -, -⟩ := hi2.wf.mtq_pool _ _ hMx p hp
    obtain ⟨e1, e2⟩ := hsp2 _ _ _ hPx
    subst e1 e2
    rw [hamid, hapid] at hnone
    rw [hnone] at hPx
    cases hPx
  · right
    rw [hP1a] at hP1e
    cases hP1e
    have hin : a.mediatypeid ∈ m2.queue := by
      apply am_remove_alert_requeued hi1.wf hrem hM1 hP1a hP1q
      rw [hmax, hnum]
      rcases hcap with hc | hc
      · exact Or.inl hc
      · right
        omega
    rw [hamid] at hin
    have hq2 : m2.queue = [mid] := by
      apply list_eq_singleton hi2.wf.queue_nodup _ hin
      intro x hx
      obtain ⟨Mx, hMx, -, -⟩ := hi2.wf.queue_mt x hx
      exact hsm2 _ _ hMx
    obtain ⟨M2, hM2, -, -⟩ := hi2.wf.queue_mt mid hin
    have hM2max : M2.maxsessions = M.maxsessions := by
      rcases hmt2 with ⟨hn, -⟩ | ⟨M2', hM2', hM2e, -, -⟩
      · rw [hamid, hM2] at hn
        cases hn
      · rw [hamid, hM2] at hM2'
        cases hM2'
        rw [hM2e]
        exact hmax
    exact
      { inv := hi2
        ord := ho2
        idle := rfl
        single_mt := hsm2
        single_pool := hsp2
        mt := ⟨M2, hM2, by rw [hM2max]; exact hcap⟩
        pool := ⟨_, by rw [hamid, hapid] at hP2; exact hP2, rfl⟩
        queued := hq2
        ne := hP1q }

/-- Processing a manager with one pool alert by alert returns all its alerts in nondecreasing
nextsend order and leaves the manager queue empty. -/
theorem am_drain_one_pool {mid pid : Nat} (n : Nat) :
    ∀ (l : List zbx_am_alert_t) (s : am_sched), l.length = n → am_one_pool mid pid l s →
      ∃ (alerts : List zbx_am_alert_t) (m' : zbx_am_t),
        am_drain_pool (n + 1) s.manager = some (alerts, m') ∧ alerts.Perm l ∧
        (alerts.map fun a => a.nextsend).Sorted (· ≤ ·) ∧ m'.queue = [] := by
  induction n with
  | zero =>
    intro l s hl h
    exact absurd (List.length_eq_zero.1 hl) h.ne
  | succ k ih =>
    intro l s hl h
    obtain ⟨a, rest, m1, m2, q, hal, hpop, hrem, hqr, hmin, hcase⟩ := am_one_pool_step h
    subst hal
    have hrl : rest.length = k := by simpa using hl
    have hd : am_drain_pool (k + 1 + 1) s.manager =
        (am_drain_pool (k + 1) m2).map fun c => (a :: c.1, c.2) := by
      rw [am_drain_pool, hpop]
      simp only [Option.some_bind, hrem]
    rcases hcase with ⟨hqe, hq2⟩ | hone
    · subst hqe
      have hre : rest = [] := hqr.symm.eq_nil
      subst hre
      refine ⟨[a], m2, ?_, List.Perm.refl _, by simp, hq2⟩
      rw [hd, am_drain_pool, am_pop_alert_nil hq2]
      rfl
    · cases k with
      | zero =>
        have hre : rest = [] := List.length_eq_zero.1 hrl
        subst hre
        exact absurd hqr.eq_nil hone.ne
      | succ j =>
        obtain ⟨alerts, m', hdr, hperm, hsort, hq'⟩ :=
          ih q { manager := m2, in_flight := [] } (by rw [hqr.length_eq, hrl]) hone
        refine ⟨a :: alerts, m', ?_, (hperm.trans hqr).cons a, ?_, hq'⟩
        · rw [hd]
          simp only at hdr
          rw [hdr]
          rfl
        · rw [List.map_cons, List.sorted_cons]
          refine ⟨?_, hsort⟩
          intro b hb
          obtain ⟨x, hx, rfl⟩ := List.mem_map.1 hb
          exact hmin x (List.mem_cons_of_mem _ ((hperm.trans hqr).subset hx))

/-- A reachable idle manager that holds one media type and one pool, with the media type
queued, is a manager with one pool. -/
theorem am_one_pool_init {ops : List am_op} {n : Nat} {s : am_sched} {M : zbx_am_mediatype_t}
    {P : zbx_am_alertpool_t} (hrun : am_run guard_in_flight (am_sched_init n) ops = some s)
    (hidle : s.in_flight = []) (hmt : s.manager.mediatypes = [M])
    (hpool : s.manager.alertpools = [P]) (hq : s.manager.queue = [M.mediatypeid])
    (hcap : M.maxsessions = 0 ∨ 1 ≤ M.maxsessions) :
    am_one_pool M.mediatypeid P.id P.queue s := by
  have hi : am_inv s := am_inv_run (fun _ _ h => h) (am_inv_init n) hrun
  have ho := (am_ord_reachable hrun).2
  have hM : am_get_mediatype s.manager M.mediatypeid = some M :=
    am_get_mediatype_of_mem hi.wf (by rw [hmt]; exact List.mem_singleton.2 rfl)
  have hP : alertpool_deref s.manager P.mediatypeid P.id = some P :=
    alertpool_deref_of_mem hi.wf (by rw [hpool]; exact List.mem_singleton.2 rfl)
  have hsm : ∀ id M1, am_get_mediatype s.manager id = some M1 → id = M.mediatypeid := by
    intro id M1 hg
    have hin := am_get_mediatype_mem hg
    rw [hmt] at hin
    rw [← am_get_mediatype_key hg, List.mem_singleton.1 hin]
  have hsp : ∀ mid pid P1, alertpool_deref s.manager mid pid = some P1 →
      mid = P.mediatypeid ∧ pid = P.id := by
    intro mid pid P1 hd
    have hin := alertpool_deref_mem hd
    rw [hpool] at hin
    obtain ⟨e1, e2⟩ := alertpool_deref_key hd
    rw [List.mem_singleton.1 hin] at e1 e2
    exact ⟨e2.symm, e1.symm⟩
  obtain ⟨M1, hM1, -, hM1q⟩ := hi.wf.queue_mt M.mediatypeid (by rw [hq]; exact List.mem_singleton.2 rfl)
  rw [hM] at hM1
  cases hM1
  obtain ⟨p, hp⟩ := List.exists_mem_of_ne_nil _ hM1q
  obtain ⟨Px, hPx, -, hPxq⟩ := hi.wf.mtq_pool _ _ hM p hp
  obtain ⟨e1, e2⟩ := hsp _ _ _ hPx
  subst e2
  rw [e1] at hPx
  rw [hP] at hPx
  cases hPx
  exact
    { inv := hi
      ord := ho
      idle := hidle
      single_mt := hsm
      single_pool := fun mid pid P1 hd => by
        obtain ⟨a, b⟩ := hsp mid pid P1 hd
        exact ⟨a.trans e1.symm, b⟩
      mt := ⟨M, hM, hcap⟩
      pool := ⟨P, by rw [e1]; exact hP, rfl⟩
      queued := hq
      ne := hPxq }

/-- C31 (amended), within-pool delivery order: in a reachable state am_pop_alert returns an alert
of least nextsend of its pool and leaves the other alerts of the pool queued; and a reachable
idle manager that holds one media type and one pool, processed with each popped alert completed
by am_remove_alert before the next pop, returns all the alerts of the pool in nondecreasing
nextsend order and ends with an empty manager queue. -/
theorem C31_pool_delivery_order (n : Nat) (ops : List am_op) (s : am_sched)
    (M : zbx_am_mediatype_t) (P : zbx_am_alertpool_t)
    (hrun : am_run guard_in_flight (am_sched_init n) ops = some s)
    (hidle : s.in_flight = []) (hmt : s.manager.mediatypes = [M])
    (hpool : s.manager.alertpools = [P]) (hq : s.manager.queue = [M.mediatypeid])
    (hcap : M.maxsessions = 0 ∨ 1 ≤ M.maxsessions) :
    (∃ (alerts : List zbx_am_alert_t) (m' : zbx_am_t),
      am_drain_pool (P.queue.length + 1) s.manager = some (alerts, m') ∧
      alerts.Perm P.queue ∧ (alerts.map fun a => a.nextsend).Sorted (· ≤ ·) ∧
      m'.queue = []) ∧
    (∀ (ops0 : List am_op) (s0 : am_sched) (a : zbx_am_alert_t) (m1 : zbx_am_t),
      am_run guard_in_flight (am_sched_init n) ops0 = some s0 →
      am_pop_alert s0.manager = some (some a, m1) →
      ∃ P0 rest q, alertpool_deref s0.manager a.mediatypeid a.alertpoolid = some P0 ∧
        P0.queue = a :: rest ∧ (∀ x ∈ P0.queue, a.nextsend ≤ x.nextsend) ∧ q.Perm rest ∧
        alertpool_deref m1 a.mediatypeid a.alertpoolid =
          some { P0 with queue := q, location := ZBX_AM_LOCATION_NOWHERE } ∧
        am_pool_frame s0.manager m1 a.mediatypeid a.alertpoolid) := by
  refine ⟨am_drain_one_pool _ _ _ rfl (am_one_pool_init hrun hidle hmt hpool hq hcap), ?_⟩
  intro ops0 s0 a m1 hrun0 hpop
  have hi : am_inv s0 := am_inv_run (fun _ _ h => h) (am_inv_init n) hrun0
  have ho := (am_ord_reachable hrun0).2
  obtain ⟨id, t, M0, pid0, tp, P0, rest, q, M', -, -, -, hP0, hP0q, -, -, hqr, -, -,
    -, -, -, -, hfr, hP1⟩ := am_pop_alert_effect hi.wf hpop
  obtain ⟨hamid, hapid⟩ := hi.pool_ids _ _ _ hP0 a (by rw [hP0q]; exact List.mem_cons_self _ _)
  subst hamid hapid
  refine ⟨P0, rest, q, hP0, hP0q, ?_, hqr, hP1, hfr⟩
  have hh := ho.alerts _ _ _ hP0
  rw [hP0q] at hh ⊢
  exact heap_root_min_mem hh

/-- C31 witness: the run one_pool_ops queues the alerts 1 to 4 with nextsend 30, 10, 40 and 20
into one pool; the pool is returned as 2, 4, 1, 3. -/
theorem C31_pool_delivery_order_witness :
    am_run guard_in_flight (am_sched_init 0) one_pool_ops =
        some (am_run_state guard_in_flight one_pool_ops) ∧
      (∃ (alerts : List zbx_am_alert_t) (m' : zbx_am_t),
        am_drain_pool (4 + 1) (am_run_state guard_in_flight one_pool_ops).manager =
          some (alerts, m') ∧
        (alerts.map fun a => a.nextsend).Sorted (· ≤ ·) ∧ m'.queue = []) ∧
      (am_drain_pool 5 (am_run_state guard_in_flight one_pool_ops).manager).map
          (fun r => r.1.map fun a => (a.alertid, a.nextsend)) =
        some [(2, 10), (4, 20), (1, 30), (3, 40)] :=
  ⟨by decide,
    (C31_pool_delivery_order 0 one_pool_ops (am_run_state guard_in_flight one_pool_ops)
      ((am_get_mediatype (am_run_state guard_in_flight one_pool_ops).manager 1).getD
        (mediatype_local 1))
      ((alertpool_deref (am_run_state guard_in_flight one_pool_ops).manager 1 7).getD
        ⟨7, 1, [], ZBX_AM_LOCATION_NOWHERE⟩)
      (by decide) (by decide) (by decide) (by decide) (by decide) (by decide)).1.imp
      fun _ h => h.imp fun _ h => ⟨h.1, h.2.2⟩,
    by decide⟩

/-- C31 counterexample: three alerts with one nextsend, pushed as 1, 2, 3 into one pool, are
returned as 1, 3, 2: removing the root moves the last element of the heap to the root. -/
theorem C31_ties_counterexample :
    am_run guard_in_flight (am_sched_init 0) ties_ops =
        some (am_run_state guard_in_flight ties_ops) ∧
      (alertpool_deref (am_run_state guard_in_flight ties_ops).manager 1 7).map
          (fun P => P.queue.map fun a => (a.alertid, a.nextsend)) =
        some [(1, 10), (2, 10), (3, 10)] ∧
      (am_drain_pool 4 (am_run_state guard_in_flight ties_ops).manager).map
          (fun r => r.1.map fun a => (a.alertid, a.nextsend)) =
        some [(1, 10), (3, 10), (2, 10)] :=
  ⟨by decide, by decide, by decide⟩

/-! ## The retries of the alerts of a media type with a fixed maxattempts -/

theorem am_attempts_congr {id : Nat} {n : Int} {m m' : zbx_am_t} {fl : List zbx_am_alert_t}
    (h1 : m'.mediatypes = m.mediatypes) (h2 : m'.alertpools = m.alertpools)
    (h : am_attempts id n { manager := m, in_flight := fl }) :
    am_attempts id n { manager := m', in_flight := fl } := by
  have hg : ∀ i, am_get_mediatype m' i = am_get_mediatype m i := by
    intro i; unfold am_get_mediatype; rw [h1]
  have hd : ∀ i p, alertpool_deref m' i p = alertpool_deref m i p := by
    intro i p; unfold alertpool_deref; rw [h2]
  constructor
  · intro M hM
    exact h.mt M (by rw [← hg]; exact hM)
  · intro pid P hP
    exact h.pools pid P (by rw [← hd]; exact hP)
  · exact h.flight

theorem am_attempts_sub {id : Nat} {n : Int} {m : zbx_am_t} {fl fl' : List zbx_am_alert_t}
    (hs : ∀ a ∈ fl', a ∈ fl) (h : am_attempts id n { manager := m, in_flight := fl }) :
    am_attempts id n { manager := m, in_flight := fl' } :=
  ⟨h.mt, h.pools, fun a ha => h.flight a (hs a ha)⟩

theorem am_attempts_update_mediatype {id : Nat} {n : Int} {m : zbx_am_t}
    {fl : List zbx_am_alert_t} (h : am_attempts id n { manager := m, in_flight := fl })
    (id' : Nat) (a : am_mediatype_args) (ha : id' = id → a.maxattempts = n) :
    am_attempts id n { manager := am_update_mediatype m id' a, in_flight := fl } := by
  constructor
  · intro M hM
    simp only at hM
    rw [am_update_mediatype_get] at hM
    split at hM
    · rename_i e
      cases hM
      exact ha e.symm
    · exact h.mt M hM
  · intro pid P hP
    simp only [am_update_mediatype_deref] at hP
    exact h.pools pid P hP
  · exact h.flight

theorem am_attempts_queue_alert {id : Nat} {n : Int} {m m' : zbx_am_t}
    {fl : List zbx_am_alert_t} {a : zbx_am_alert_t} (hw : am_wf m)
    (h : am_attempts id n { manager := m, in_flight := fl })
    (hq : am_db_queue_alert m a = some m') (ha : a.mediatypeid = id → a.retries < n) :
    am_attempts id n { manager := m', in_flight := fl } := by
  rcases am_db_queue_alert_inv hq with ⟨-, e⟩ | ⟨M0, -, -, hM0, -, -, -⟩
  · subst e; exact h
  · obtain ⟨hmf, -, hpf, P0, q, hP0, hqp, hP'⟩ :=
      am_db_queue_alert_effect hw hq (by rw [hM0]; exact Option.some_ne_none _)
    constructor
    · intro M hM
      simp only at hM
      cases hg : am_get_mediatype m id with
      | none =>
        rw [(hmf id).1 hg] at hM
        cases hM
      | some M1 =>
        obtain ⟨M', hM', hMe, -⟩ := (hmf id).2 M1 hg
        rw [hM'] at hM
        cases hM
        rw [hMe]
        exact h.mt M1 hg
    · intro pid P hP x hx
      simp only at hP
      by_cases hk : id = a.mediatypeid ∧ pid = a.alertpoolid
      · obtain ⟨e1, e2⟩ := hk
        subst e1 e2
        rw [hP'] at hP
        cases hP
        simp only at hx
        rcases List.mem_cons.1 (hqp.subset hx) with e | hin
        · subst e; exact ha rfl
        · rcases hP0 with hP0 | ⟨-, hP0⟩
          · exact h.pools _ _ hP0 x hin
          · subst hP0
            cases hin
      · rw [hpf id pid hk] at hP
        exact h.pools pid P hP x hx
    · exact h.flight

theorem am_attempts_pop_alert {id : Nat} {n : Int} {m m' : zbx_am_t}
    {fl : List zbx_am_alert_t} {a : zbx_am_alert_t}
    (hi : am_inv { manager := m, in_flight := fl })
    (h : am_attempts id n { manager := m, in_flight := fl })
    (hp : am_pop_alert m = some (some a, m')) :
    am_attempts id n { manager := m', in_flight := a :: fl } := by
  obtain ⟨mid, t, M, pid0, tp, P0, rest, q, M', -, hM, -, hP0, hP0q, -, -, hqr, hoth, hM',
    hM'e, -, -, -, hfr, hP1⟩ := am_pop_alert_effect hi.wf hp
  obtain ⟨hamid, hapid⟩ := hi.pool_ids _ _ _ hP0 a (by rw [hP0q]; exact List.mem_cons_self _ _)
  constructor
  · intro M1 hM1
    simp only at hM1
    by_cases e : id = mid
    · subst e
      rw [hM'] at hM1
      cases hM1
      rw [hM'e]
      exact h.mt M hM
    · rw [hoth id e] at hM1
      exact h.mt M1 hM1
  · intro pid P hP x hx
    simp only at hP
    by_cases hk : id = mid ∧ pid = pid0
    · obtain ⟨e1, e2⟩ := hk
      subst e1 e2
      rw [hP1] at hP
      cases hP
      simp only at hx
      exact h.pools _ _ hP0 x (by rw [hP0q]; exact List.mem_cons_of_mem _ (hqr.subset hx))
    · rw [hfr id pid hk] at hP
      exact h.pools pid P hP x hx
  · intro x hx hxid
    rcases List.mem_cons.1 hx with e | hin
    · subst e
      rw [hamid] at hxid
      subst hxid
      exact h.pools _ _ hP0 x (by rw [hP0q]; exact List.mem_cons_self _ _)
    · exact h.flight x hin hxid

theorem am_attempts_remove_alert {id : Nat} {n : Int} {m m' : zbx_am_t}
    {fl : List zbx_am_alert_t} {a : zbx_am_alert_t} (hw : am_wf m)
    (h : am_attempts id n { manager := m, in_flight := fl })
    (hr : am_remove_alert m a = some m') :
    am_attempts id n { manager := m', in_flight := fl } := by
  rcases am_remove_alert_inv hr with ⟨-, e⟩ | ⟨M0, -, -, hM0, -⟩
  · subst e; exact h
  · obtain ⟨hoth, hmt, hfr, hpool⟩ := am_remove_alert_effect hw hr hM0
    constructor
    · intro M hM
      simp only at hM
      by_cases e : id = a.mediatypeid
      · subst e
        rcases hmt with ⟨hn, -⟩ | ⟨M', hM', hMe, -, -⟩
        · rw [hn] at hM
          cases hM
        · rw [hM'] at hM
          cases hM
          rw [hMe]
          exact h.mt M0 hM0
      · rw [hoth id e] at hM
        exact h.mt M hM
    · intro pid P hP x hx
      simp only at hP
      by_cases hk : id = a.mediatypeid ∧ pid = a.alertpoolid
      · obtain ⟨e1, e2⟩ := hk
        subst e1 e2
        rcases hpool with ⟨-, hn⟩ | ⟨P1, hP1, -, hP2⟩
        · rw [hn] at hP
          cases hP
        · rw [hP2] at hP
          cases hP
          exact h.pools _ _ hP1 x hx
      · rw [hfr id pid hk] at hP
        exact h.pools pid P hP x hx
    · exact h.flight

theorem am_attempts_retry_alert {id : Nat} {n : Int} {m : zbx_am_t}
    {fl : List zbx_am_alert_t} {a : zbx_am_alert_t} {now : Int} {r : Int × zbx_am_t}
    (hw : am_wf m) (h : am_attempts id n { manager := m, in_flight := fl })
    (hr : am_retry_alert m a now = some r) :
    am_attempts id n { manager := r.2, in_flight := fl } := by
  rcases am_retry_alert_inv hr with ⟨-, e⟩ | ⟨M, -, -, -, hrem⟩ | ⟨M, -, -, hM, hlt, hs, -⟩
  · subst e; exact h
  · exact am_attempts_remove_alert hw h hrem
  · obtain ⟨ret, m'⟩ := r
    simp only at hs
    subst hs
    obtain ⟨-, hoth, ⟨M', hM', hMe, -, -⟩, hfr, P0, q, hP0, hqp, hP'⟩ :=
      am_retry_alert_effect hw hr hM
    constructor
    · intro M1 hM1
      simp only at hM1
      by_cases e : id = a.mediatypeid
      · subst e
        rw [hM'] at hM1
        cases hM1
        rw [hMe]
        exact h.mt M hM
      · rw [hoth id e] at hM1
        exact h.mt M1 hM1
    · intro pid P hP x hx
      simp only at hP
      by_cases hk : id = a.mediatypeid ∧ pid = a.alertpoolid
      · obtain ⟨e1, e2⟩ := hk
        subst e1 e2
        rw [hP'] at hP
        cases hP
        simp only at hx
        rcases List.mem_cons.1 (hqp.subset hx) with e | hin
        · subst e
          simp only
          have := h.mt M hM
          omega
        · rcases hP0 with hP0 | ⟨-, hP0⟩
          · exact h.pools _ _ hP0 x hin
          · subst hP0
            cases hin
      · rw [hfr id pid hk] at hP
        exact h.pools pid P hP x hx
    · exact h.flight

/-! ## The retries invariant along the events of the main loop -/

theorem am_attempts_init (id : Nat) (n : Int) (k : Nat) :
    am_attempts id n { manager := am_init k, in_flight := am_held_alerts (am_init k) } := by
  constructor
  · intro M hM
    cases hM
  · intro pid P hP
    cases hP
  · intro a ha
    rw [am_held_alerts_init] at ha
    cases ha

theorem am_attempts_register {id : Nat} {n : Int} {m m' : zbx_am_t} {client : Nat}
    {ppid_ok : Bool}
    (ha : am_attempts id n { manager := m, in_flight := am_held_alerts m })
    (hs : am_register_alerter m client ppid_ok = some m') :
    am_attempts id n { manager := m', in_flight := am_held_alerts m' } := by
  unfold am_register_alerter at hs
  split at hs
  · cases hs; exact ha
  · split at hs
    · cases hs
    · rw [Option.bind_eq_some] at hs
      obtain ⟨x, hx, hs⟩ := hs
      cases hs
      have hh : am_held_alerts
          { m with
            alerters := m.alerters.set m.next_alerter_index { x with client := some client },
            next_alerter_index := m.next_alerter_index + 1,
            alerters_client :=
              if (m.alerters_client.find? fun i =>
                  decide ((m.alerters[i]?).bind (fun x => x.client) = some client)).isSome
              then m.alerters_client
              else m.next_alerter_index :: m.alerters_client,
            free_alerters := m.free_alerters ++ [m.next_alerter_index] }
          = am_held_alerts m := by
        unfold am_held_alerts
        exact held_set_client m.alerters _ x (some client) hx
      rw [hh]
      exact @am_attempts_congr id n m _ _ rfl rfl ha

theorem am_attempts_db_update_mediatypes {id : Nat} {n : Int} {fl : List zbx_am_alert_t}
    (rows : List DB_MEDIATYPE)
    (hrows : ∀ row ∈ rows, row.mediatypeid = id → row.args.maxattempts = n) :
    ∀ m, am_attempts id n { manager := m, in_flight := fl } →
      am_attempts id n (am_sched.mk (rows.foldl (fun m row =>
          if row.smtp_port < 65536 then
            am_update_mediatype m row.mediatypeid { row.args with smtp_port := row.smtp_port }
          else m) m) fl) := by
  induction rows with
  | nil => intro m h; exact h
  | cons row rows ih =>
    intro m h
    simp only [List.foldl_cons]
    have hr : ∀ r ∈ rows, r.mediatypeid = id → r.args.maxattempts = n :=
      fun r hr => hrows r (List.mem_cons_of_mem _ hr)
    split
    · exact ih hr _ (am_attempts_update_mediatype h row.mediatypeid
        { row.args with smtp_port := row.smtp_port } (hrows row (List.mem_cons_self _ _)))
    · exact ih hr m h

theorem am_attempts_db_queue_alerts_loop {id : Nat} {n : Int} {fl : List zbx_am_alert_t}
    (alerts : List zbx_am_alert_t)
    (halerts : ∀ a ∈ alerts, a.mediatypeid = id → a.retries < n) :
    ∀ m m', am_inv { manager := m, in_flight := fl } →
      am_attempts id n { manager := m, in_flight := fl } →
      am_db_queue_alerts_loop m alerts = some m' →
      am_attempts id n { manager := m', in_flight := fl } := by
  induction alerts with
  | nil =>
    intro m m' _ h hl
    simp only [am_db_queue_alerts_loop, Option.some.injEq] at hl
    subst hl
    exact h
  | cons a alerts ih =>
    intro m m' hi h hl
    simp only [am_db_queue_alerts_loop, Option.bind_eq_some] at hl
    obtain ⟨m1, h1, h2⟩ := hl
    have hi1 : am_inv { manager := m1, in_flight := fl } :=
      am_inv_queue_alert (s := { manager := m, in_flight := fl }) hi h1
    exact ih (fun x hx => halerts x (List.mem_cons_of_mem _ hx)) m1 m' hi1
      (am_attempts_queue_alert hi.wf h h1 (halerts a (List.mem_cons_self _ _))) h2

theorem am_attempts_db_queue_alerts {id : Nat} {n : Int} {m m' : zbx_am_t}
    {alerts : List zbx_am_alert_t} {media_type : List DB_MEDIATYPE} (h : am_main_inv m)
    (ha : am_attempts id n { manager := m, in_flight := am_held_alerts m }) (hn : 0 < n)
    (hg : am_event_attempts id n (.db_queue_alerts alerts media_type) = true)
    (hs : am_db_queue_alerts m alerts media_type = some m') :
    am_attempts id n { manager := m', in_flight := am_held_alerts m' } := by
  simp only [am_event_attempts, Bool.and_eq_true, List.all_eq_true, decide_eq_true_eq] at hg
  obtain ⟨hga, hgr⟩ := hg
  unfold am_db_queue_alerts at hs
  split at hs
  · unfold am_db_update_mediatypes at hs
    have hrows : ∀ row ∈ media_type.filter (fun row =>
        decide (row.mediatypeid ∈ alerts.map fun a => a.mediatypeid)),
        row.mediatypeid = id → row.args.maxattempts = n :=
      fun row hr => hgr row (List.mem_filter.1 hr).1
    obtain ⟨h1, h2⟩ := am_db_update_mediatypes_inv
      (media_type.filter fun row =>
        decide (row.mediatypeid ∈ alerts.map fun a => a.mediatypeid)) m h.inv
    have a1 := am_attempts_db_update_mediatypes _ hrows m ha
    obtain ⟨-, h4⟩ := am_db_queue_alerts_loop_inv alerts _ m' h1 hs
    have a2 := am_attempts_db_queue_alerts_loop alerts
      (fun a hin e => by rw [hga a hin e]; exact hn) _ m' h1 a1 hs
    obtain ⟨e1, -, -, -⟩ := am_same_alerters_trans h2 h4
    have hh : am_held_alerts m' = am_held_alerts m := by unfold am_held_alerts; rw [e1]
    rw [hh]
    exact a2
  · cases hs; exact ha

theorem am_attempts_dispatch {id : Nat} {n : Int} {env : am_env} {m : zbx_am_t} {now : Int}
    {r : Bool × zbx_am_t} (h : am_main_inv m)
    (ha : am_attempts id n { manager := m, in_flight := am_held_alerts m })
    (hs : am_dispatch_iteration env m now = some r) :
    am_attempts id n { manager := r.2, in_flight := am_held_alerts r.2 } := by
  unfold am_dispatch_iteration at hs
  rw [Option.bind_eq_some] at hs
  obtain ⟨ready, -, hs⟩ := hs
  split at hs
  · cases hs; exact ha
  · split at hs
    · cases hs; exact ha
    · rename_i i rest hfree
      simp only [Option.bind_eq_some] at hs
      obtain ⟨rp, hpop, a, hao, res, hres, hs⟩ := hs
      obtain ⟨o, m2⟩ := rp
      simp only at hao hres
      subst hao
      have hi_mem : i ∈ m.free_alerters := by rw [hfree]; exact List.mem_cons_self _ _
      obtain ⟨x, hx, hxa⟩ := h.free_idle i hi_mem
      have hinv1 : am_inv (am_sched.mk { m with free_alerters := rest } (am_held_alerts m)) :=
        @am_inv_congr m _ _ rfl rfl rfl h.inv
      have ha1 : am_attempts id n
          (am_sched.mk { m with free_alerters := rest } (am_held_alerts m)) :=
        @am_attempts_congr id n m _ _ rfl rfl ha
      have hinv2 := am_inv_pop_alert hinv1 hpop
      have ha2 := am_attempts_pop_alert hinv1 ha1 hpop
      simp only at hinv2
      obtain ⟨e1, e2, e3, e4⟩ := am_pop_alert_alerters hpop
      simp only at e1 e2 e3 e4
      have hMex : am_get_mediatype m2 a.mediatypeid ≠ none :=
        hinv2.flight_mt a (List.mem_cons_self _ _)
      rcases am_process_alert_inv hres hMex with ⟨hret, hman, -⟩ | ⟨hret, -, err, hrem⟩
      · rw [hret] at hs
        simp only [SUCCEED, FAIL] at hs
        rw [if_neg (by decide)] at hs
        cases hs
        simp only
        rw [hman]
        have hx2 : m2.alerters[i]? = some x := by rw [e1]; exact hx
        have hperm := held_modify_some m2.alerters i x a hx2 hxa
        have hheld : (am_held_alerts (alerter_set_alert m2 i (some a))).Perm
            (a :: am_held_alerts m) := by
          unfold am_held_alerts alerter_set_alert
          simp only
          rw [← e1]
          exact hperm
        exact am_attempts_sub (fun y hy => hheld.subset hy)
          (@am_attempts_congr id n m2 _ _ rfl rfl ha2)
      · rw [hret] at hs
        rw [if_pos rfl] at hs
        cases hs
        simp only
        have ha3 : am_attempts id n (am_sched.mk
            (am_db_update_alert m2 a.alertid ALERT_STATUS_FAILED 0 err)
            (a :: am_held_alerts m)) := @am_attempts_congr id n m2 _ _ rfl rfl ha2
        have hw3 : am_wf (am_db_update_alert m2 a.alertid ALERT_STATUS_FAILED 0 err) :=
          @am_wf_congr m2 _ rfl rfl rfl hinv2.wf
        have ha4 := am_attempts_remove_alert hw3 ha3 hrem
        obtain ⟨f1, f2, f3, f4⟩ := am_remove_alert_alerters hrem
        have g1 : res.manager.alerters = m.alerters := by rw [f1]; exact e1
        have hh : am_held_alerts
            { res.manager with free_alerters := res.manager.free_alerters ++ [i] } =
              am_held_alerts m := by
          unfold am_held_alerts; simp only; rw [g1]
        rw [hh]
        exact am_attempts_sub (fun y hy => List.mem_cons_of_mem _ hy)
          (@am_attempts_congr id n res.manager _ _ rfl rfl ha4)

theorem am_attempts_finish {id : Nat} {n : Int} {m m1 : zbx_am_t} {i : Nat}
    {x : zbx_am_alerter_t} {a : zbx_am_alert_t} (hx : m.alerters[i]? = some x)
    (hxa : x.alert = some a) (hs : am_same_alerters m m1)
    (ha : am_attempts id n { manager := m1, in_flight := am_held_alerts m })
    (alertid : Nat) (status retries : Int) (error : String) :
    am_attempts id n
      { manager :=
          { alerter_set_alert (am_db_update_alert m1 alertid status retries error) i none with
            free_alerters :=
              (alerter_set_alert (am_db_update_alert m1 alertid status retries error) i
                none).free_alerters ++ [i] },
        in_flight := am_held_alerts
          { alerter_set_alert (am_db_update_alert m1 alertid status retries error) i none with
            free_alerters :=
              (alerter_set_alert (am_db_update_alert m1 alertid status retries error) i
                none).free_alerters ++ [i] } } := by
  obtain ⟨e1, e2, e3, e4⟩ := hs
  have hx1 : m1.alerters[i]? = some x := by rw [e1]; exact hx
  have hperm := held_modify_none m1.alerters i x a hx1 hxa
  have hheld : (am_held_alerts
      { alerter_set_alert (am_db_update_alert m1 alertid status retries error) i none with
        free_alerters :=
          (alerter_set_alert (am_db_update_alert m1 alertid status retries error) i
            none).free_alerters ++ [i] }).Perm ((am_held_alerts m).erase a) := by
    unfold am_held_alerts
    rw [← e1]
    exact hperm
  exact am_attempts_sub (fun y hy => List.mem_of_mem_erase (hheld.subset hy))
    (@am_attempts_congr id n m1 _ _ rfl rfl ha)

theorem am_attempts_result {id : Nat} {n : Int} {m : zbx_am_t} {client : Nat}
    {errcode : Int} {errmsg : String} {now : Int} {r : Int × zbx_am_t} (h : am_main_inv m)
    (ha : am_attempts id n { manager := m, in_flight := am_held_alerts m })
    (hs : am_process_result m client errcode errmsg now = some r) :
    am_attempts id n { manager := r.2, in_flight := am_held_alerts r.2 } := by
  unfold am_process_result at hs
  simp only [Option.bind_eq_some] at hs
  obtain ⟨i, -, x, hx, a, hxa, hs⟩ := hs
  split at hs
  · rw [Option.map_eq_some'] at hs
    obtain ⟨m1, h1, h2⟩ := hs
    subst h2
    exact am_attempts_finish hx hxa (am_remove_alert_alerters h1)
      (am_attempts_remove_alert h.inv.wf ha h1) _ _ _ _
  · rw [Option.map_eq_some'] at hs
    obtain ⟨r1, h1, h2⟩ := hs
    subst h2
    exact am_attempts_finish hx hxa (am_retry_alert_alerters h1)
      (am_attempts_retry_alert h.inv.wf ha h1) _ _ _ _

theorem am_attempts_event_step {id : Nat} {n : Int} {m m' : zbx_am_t} {e : am_event}
    (h : am_main_inv m)
    (ha : am_attempts id n { manager := m, in_flight := am_held_alerts m }) (hn : 0 < n)
    (hg : am_event_attempts id n e = true) (hs : am_event_step m e = some m') :
    am_attempts id n { manager := m', in_flight := am_held_alerts m' } := by
  cases e with
  | register client ppid_ok => exact am_attempts_register ha hs
  | db_queue_alerts alerts media_type => exact am_attempts_db_queue_alerts h ha hn hg hs
  | dispatch env now =>
    simp only [am_event_step, Option.map_eq_some'] at hs
    obtain ⟨r, h1, rfl⟩ := hs
    exact am_attempts_dispatch h ha h1
  | result client errcode errmsg now =>
    simp only [am_event_step, Option.map_eq_some'] at hs
    obtain ⟨r, h1, rfl⟩ := hs
    exact am_attempts_result h ha h1

theorem am_attempts_run {id : Nat} {n : Int} (hn : 0 < n) (es : List am_event) :
    ∀ m m', am_main_inv m →
      am_attempts id n { manager := m, in_flight := am_held_alerts m } →
      (∀ e ∈ es, am_event_attempts id n e = true) → am_main_run m es = some m' →
      am_attempts id n { manager := m', in_flight := am_held_alerts m' } := by
  induction es with
  | nil =>
    intro m m' _ ha _ hr
    simp only [am_main_run, Option.some.injEq] at hr
    exact hr ▸ ha
  | cons e es ih =>
    intro m m' h ha hg hr
    simp only [am_main_run, Option.bind_eq_some] at hr
    obtain ⟨m1, h1, h2⟩ := hr
    exact ih m1 m' (am_main_inv_step h h1)
      (am_attempts_event_step h ha hn (hg e (List.mem_cons_self _ _)) h1)
      (fun x hx => hg x (List.mem_cons_of_mem _ hx)) h2

/-- C35, the buffered retries are the snapshot taken before the result is applied: in every
state the main loop reaches, am_process_result for an alerter holding the alert `a` buffers
the retries of `a`; when the status NOT_SENT is buffered the alert queued again in its pool has
the buffered retries plus one; when the status FAILED is buffered the media type has at most
the buffered retries plus one attempts; and in a run in which the alerts of the media type are
read with retries 0 and the media type is always configured with maxattempts k + 1, the
buffered retries of the terminal failure are k. -/
theorem C35_buffered_retries (n : Nat) (es : List am_event) (m : zbx_am_t) (client i : Nat)
    (x : zbx_am_alerter_t) (a : zbx_am_alert_t) (errcode : Int) (errmsg : String) (now : Int)
    (h : am_main_run (am_init n) es = some m)
    (hc : am_get_alerter_by_client m client = some i) (hx : m.alerters[i]? = some x)
    (ha : x.alert = some a) :
    ∃ r u M, am_process_result m client errcode errmsg now = some r ∧
      am_get_mediatype m a.mediatypeid = some M ∧
      zbx_hashset_search (fun u : zbx_am_alertstatus_t => u.alertid) r.2.alertupdates
        a.alertid = some u ∧
      u.retries = a.retries ∧
      (u.status = ALERT_STATUS_NOT_SENT →
        ∃ P', alertpool_deref r.2 a.mediatypeid a.alertpoolid = some P' ∧
          ({ a with retries := u.retries + 1, nextsend := int_wrap (now + M.attempt_interval) } :
            zbx_am_alert_t) ∈ P'.queue) ∧
      (u.status = ALERT_STATUS_FAILED → M.maxattempts ≤ u.retries + 1) ∧
      (∀ k : Nat, (∀ e ∈ es, am_event_attempts a.mediatypeid ((k : Int) + 1) e = true) →
        M.maxattempts = (k : Int) + 1 ∧
        (u.status = ALERT_STATUS_FAILED → u.retries = (k : Int))) := by
  obtain ⟨hi, ho⟩ := am_main_reachable h
  have hmem : a ∈ am_held_alerts m := held_mem m.alerters i x a hx ha
  have hMex := hi.inv.flight_mt a hmem
  obtain ⟨M, hM⟩ := Option.ne_none_iff_exists'.1 hMex
  have hatt : ∀ k : Nat, (∀ e ∈ es, am_event_attempts a.mediatypeid ((k : Int) + 1) e = true) →
      M.maxattempts = (k : Int) + 1 ∧ a.retries < (k : Int) + 1 := by
    intro k hg
    have hat := @am_attempts_run a.mediatypeid ((k : Int) + 1) (by omega) es
      (am_init n) m (am_main_inv_init n) (am_attempts_init _ _ n) hg h
    exact ⟨hat.mt M hM, hat.flight a hmem rfl⟩
  by_cases he : errcode = SUCCEED
  · obtain ⟨r, u, hr, hu, hur, hsent, -⟩ :=
      am_process_result_outcome errcode errmsg now hi.inv.wf ho hc hx ha
    have hs : u.status = ALERT_STATUS_SENT := hsent.2 he
    refine ⟨r, u, M, hr, hM, hu, hur, ?_, ?_, ?_⟩
    · intro e
      rw [hs] at e
      exact absurd e (by decide)
    · intro e
      rw [hs] at e
      exact absurd e (by decide)
    · intro k hg
      refine ⟨(hatt k hg).1, ?_⟩
      intro e
      rw [hs] at e
      exact absurd e (by decide)
  · obtain ⟨m', hr, ⟨u, hu, hus, hur, -⟩, hre, -⟩ :=
      am_process_result_failure errmsg now hi.inv.wf ho hc hx ha hM he
    refine ⟨(FAIL, m'), u, M, hr, hM, hu, hur, ?_, ?_, ?_⟩
    · intro e
      rw [hur]
      apply hre
      by_contra hlt
      rw [if_neg hlt] at hus
      rw [hus] at e
      exact absurd e (by decide)
    · intro e
      rw [hur]
      by_contra hlt
      rw [if_pos (by omega)] at hus
      rw [hus] at e
      exact absurd e (by decide)
    · intro k hg
      obtain ⟨h1, h2⟩ := hatt k hg
      refine ⟨h1, ?_⟩
      intro e
      rw [hur]
      have hle : M.maxattempts ≤ a.retries + 1 := by
        by_contra hlt
        rw [if_pos (by omega)] at hus
        rw [hus] at e
        exact absurd e (by decide)
      omega

/-- C35 witness: the alert of the run last_attempt_events has failed twice under maxattempts 3
and is held by the alerter with retries 2; the third failure buffers (FAILED, 2). -/
theorem C35_buffered_retries_witness :
    am_main_run (am_init 2) last_attempt_events = some (am_main_state 2 last_attempt_events) ∧
      (∀ e ∈ last_attempt_events, am_event_attempts 1 3 e = true) ∧
      (∃ r u, am_process_result (am_main_state 2 last_attempt_events) 100 FAIL "failed" 300 =
          some r ∧
        zbx_hashset_search (fun u : zbx_am_alertstatus_t => u.alertid) r.2.alertupdates 1 =
          some u ∧
        u.retries = 2 ∧ (u.status = ALERT_STATUS_FAILED → u.retries = 2)) ∧
      (am_process_result (am_main_state 2 last_attempt_events) 100 FAIL "failed" 300).map
          (fun r => r.2.alertupdates.map fun u => (u.alertid, u.status, u.retries)) =
        some [(1, ALERT_STATUS_FAILED, 2)] :=
  ⟨by decide, by decide,
    (C35_buffered_retries 2 last_attempt_events (am_main_state 2 last_attempt_events) 100 0
      (((am_main_state 2 last_attempt_events).alerters[0]?).getD
        { client := none, alert := none })
      { sample_alert 1 1 7 260 with retries := 2 } FAIL "failed" 300
      (by decide) (by decide) (by decide) (by decide)).imp
      fun _ h => h.imp fun _ h => h.elim fun _ h =>
        ⟨h.1, h.2.2.1, h.2.2.2.1, (h.2.2.2.2.2.2 2 (by decide)).2⟩,
    by decide⟩

end AlertManager
